import Mathlib

/-!
# Ananas kernel: scheduler, thread sleep and time

A shallow embedding of `kernel/kern/scheduler.cpp`, of the sleeping and
creation paths of `kernel/kern/thread.cpp` and of the tick source of
`kernel/kern/time.cpp`, followed by the properties proved about them.

Thread objects are identified by their address (a natural number); the two
scheduler queues are lists of such addresses, head first.  A failed `KASSERT`
(a kernel panic) is the `Except.error` outcome of an operation.
-/

namespace Ananas

/-! ## Data model -/

/-- Flag bit of `kernel/thread.h`: thread is scheduled somewhere. -/
def THREAD_FLAG_ACTIVE : Nat := 0x0001
/-- Flag bit of `kernel/thread.h`: thread is currently suspended. -/
def THREAD_FLAG_SUSPENDED : Nat := 0x0002
/-- Flag bit of `kernel/thread.h`: thread has no more resources. -/
def THREAD_FLAG_ZOMBIE : Nat := 0x0004
/-- Flag bit of `kernel/thread.h`: thread desires a reschedule. -/
def THREAD_FLAG_RESCHEDULE : Nat := 0x0008
/-- Flag bit of `kernel/thread.h`: thread is kmalloc()ed; `thread_alloc` of
`thread.cpp` calls it `THREAD_FLAG_ALLOC`. -/
def THREAD_FLAG_MALLOC : Nat := 0x0020
/-- Flag bit of `kernel/thread.h`: timeout field is valid. -/
def THREAD_FLAG_TIMEOUT : Nat := 0x0040
/-- Flag bit of `kernel/thread.h`: kernel thread. -/
def THREAD_FLAG_KTHREAD : Nat := 0x8000

/-- Default priority of `kernel/thread.h`. -/
def THREAD_PRIORITY_DEFAULT : Int := 200
/-- Idle priority of `kernel/thread.h`. -/
def THREAD_PRIORITY_IDLE : Int := 255
/-- Affinity value of `kernel/thread.h` meaning "any CPU". -/
def THREAD_AFFINITY_ANY : Int := -1

/-- Modelled from the spec: the type `tick_t` of `ananas/types.h`, which is not
among the sources.  The spec's tick counter is monotonic and deadlines are tick
counts, so a tick count is a natural number, without wrap-around. -/
abbrev tick_t : Type := Nat

/-- The scheduler-relevant fields of `struct Thread`. -/
structure Thread where
  /-- The `unsigned int t_flags` bit field. -/
  t_flags : Nat
  /-- The `int t_priority`, 0 highest. -/
  t_priority : Int
  /-- The `int t_affinity`, a CPU id or `THREAD_AFFINITY_ANY`. -/
  t_affinity : Int
  /-- The `tick_t t_timeout` wake deadline. -/
  t_timeout : tick_t

/-- The C expression `~m` on a 32-bit `unsigned int`. -/
def not32 (m : Nat) : Nat := (2 ^ 32 - 1) ^^^ m

/-- Truth value of the C expression `flags & mask`. -/
def flag_set (flags mask : Nat) : Bool := (flags &&& mask) != 0

/-- The macro `THREAD_IS_ACTIVE`. -/
def THREAD_IS_ACTIVE (t : Thread) : Bool := flag_set t.t_flags THREAD_FLAG_ACTIVE
/-- The macro `THREAD_IS_SUSPENDED`. -/
def THREAD_IS_SUSPENDED (t : Thread) : Bool := flag_set t.t_flags THREAD_FLAG_SUSPENDED
/-- The macro `THREAD_IS_ZOMBIE`. -/
def THREAD_IS_ZOMBIE (t : Thread) : Bool := flag_set t.t_flags THREAD_FLAG_ZOMBIE
/-- The test `t_flags & THREAD_FLAG_TIMEOUT` used by the scheduler. -/
def THREAD_HAS_TIMEOUT (t : Thread) : Bool := flag_set t.t_flags THREAD_FLAG_TIMEOUT

/-- The assertions of the scheduler and of `Thread::Suspend`, one per `KASSERT`. -/
inductive Panic where
  | new_thread_already_on_runq
  | new_thread_already_on_sleepq
  | adding_thread_on_runq
  | adding_thread_on_sleepq
  | thread_already_in_runqueue
  | adding_non_suspended_thread
  | adding_thread_already_on_runqueue
  | adding_thread_not_on_sleepqueue
  | removing_suspended_thread
  | removing_thread_already_on_sleepqueue
  | removing_thread_not_on_runqueue
  | exiting_thread_not_on_runqueue
  | exiting_thread_on_sleepqueue
  | no_current_thread_active
  | runqueue_cannot_be_empty
  | nothing_on_the_runqueue
  | activating_suspended_thread
  | activating_active_thread
  | scheduling_thread_not_on_runqueue
  | scheduling_thread_on_sleepqueue
  | suspending_suspended_thread
  | suspending_idle_thread
  deriving DecidableEq, Repr

/-- The state the scheduler works on: thread memory, the two queues
(`sched_runqueue`, `sched_sleepqueue`), the tick counter of `time.cpp` and the
per-CPU `curthread` and `idlethread` pointers (`none` is `NULL`). -/
structure Sched where
  /-- Thread objects by address. -/
  thread : Nat → Thread
  /-- The run queue, head first. -/
  sched_runqueue : List Nat
  /-- The sleep queue, head first. -/
  sched_sleepqueue : List Nat
  /-- The tick counter `ticks` of `time.cpp`. -/
  ticks : tick_t
  /-- Per-CPU `curthread`, by CPU id. -/
  curthread : Int → Option Nat
  /-- Per-CPU `idlethread`, by CPU id. -/
  idlethread : Int → Option Nat

/-- Assignment `t.t_flags = f (t.t_flags)` on the thread at address `t`. -/
def Sched.update_flags (s : Sched) (t : Nat) (f : Nat → Nat) : Sched :=
  { s with thread :=
      Function.update s.thread t ({ s.thread t with t_flags := f (s.thread t).t_flags }) }

/-! ## time.cpp -/

/-- The function `time::GetPeriodicyInHz`. -/
def GetPeriodicyInHz : Nat := 100

/-- The function `time::GetTicks`. -/
def GetTicks (s : Sched) : tick_t := s.ticks

/-- Modelled from the spec: `IsTickBefore` of `kernel/time.h`, which is not among
the sources.  The sleep queue is kept "sorted by ascending wake deadline" and
the caller skips the threads that "wake up earlier than we do": `a` is before
`b` when it is the smaller tick count, compared without wrap-around. -/
def IsTickBefore (a b : tick_t) : Bool := decide (a < b)

/-- Modelled from the spec: `IsTickAfter` of `kernel/time.h`, which is not among
the sources.  The only caller asks `IsTickAfter(GetTicks(), t_timeout)` and the
spec reads it as "its deadline ≤ now": `a` is after `b` when `b ≤ a`. -/
def IsTickAfter (a b : tick_t) : Bool := decide (b ≤ a)

/-! ## scheduler.cpp -/

/-! The queues are intrusive lists of the `t_sched_priv` nodes of the threads.
`LIST_APPEND` adds at the tail, `LIST_INSERT_BEFORE` before a given entry, and
`LIST_REMOVE` unlinks the node of a thread: `List.erase`, which removes the first
occurrence, the only one in a queue that holds no thread twice. -/

/-- The function `scheduler_is_on_queue`: how often `t` is linked in `q`. -/
def scheduler_is_on_queue (q : List Nat) (t : Nat) : Nat := q.count t

/-- The function `scheduler_init_thread`. -/
def scheduler_init_thread (s : Sched) (t : Nat) : Except Panic Sched :=
  let s1 := s.update_flags t (fun f => f ||| THREAD_FLAG_SUSPENDED)
  if scheduler_is_on_queue s1.sched_runqueue t != 0 then
    .error .new_thread_already_on_runq
  else if scheduler_is_on_queue s1.sched_sleepqueue t != 0 then
    .error .new_thread_already_on_sleepq
  else
    .ok { s1 with sched_sleepqueue := s1.sched_sleepqueue ++ [t] }

/-- The insertion loop of `scheduler_add_thread_locked`: walk the run queue,
pass every entry whose priority value is `<=` that of `t`, insert `t` before the
first other entry, append when there is none. -/
def runqueue_insert (thread : Nat → Thread) (t : Nat) : List Nat → Except Panic (List Nat)
  | [] => .ok [t]
  | sp :: rest =>
    if sp = t then .error .thread_already_in_runqueue
    else if (thread sp).t_priority ≤ (thread t).t_priority then
      match runqueue_insert thread t rest with
      | .ok q => .ok (sp :: q)
      | .error e => .error e
    else .ok (t :: sp :: rest)

/-- The function `scheduler_add_thread_locked`. -/
def scheduler_add_thread_locked (s : Sched) (t : Nat) : Except Panic Sched :=
  if scheduler_is_on_queue s.sched_runqueue t != 0 then
    .error .adding_thread_on_runq
  else if scheduler_is_on_queue s.sched_sleepqueue t != 0 then
    .error .adding_thread_on_sleepq
  else
    match runqueue_insert s.thread t s.sched_runqueue with
    | .ok q => .ok { s with sched_runqueue := q }
    | .error e => .error e

/-- The function `scheduler_add_thread` (resume). -/
def scheduler_add_thread (s : Sched) (t : Nat) : Except Panic Sched :=
  if !THREAD_IS_SUSPENDED (s.thread t) then
    .error .adding_non_suspended_thread
  else if scheduler_is_on_queue s.sched_runqueue t != 0 then
    .error .adding_thread_already_on_runqueue
  else if scheduler_is_on_queue s.sched_sleepqueue t != 1 then
    .error .adding_thread_not_on_sleepqueue
  else
    match scheduler_add_thread_locked
        { s with sched_sleepqueue := s.sched_sleepqueue.erase t } t with
    | .ok s2 =>
      .ok (s2.update_flags t
        (fun f => f &&& not32 (THREAD_FLAG_SUSPENDED ||| THREAD_FLAG_TIMEOUT)))
    | .error e => .error e

/-- The insertion loop of `scheduler_remove_thread` for a timeout-armed thread:
pass every armed entry that wakes up earlier than `t`, insert `t` before the
first other entry, append when there is none. -/
def sleepqueue_insert (thread : Nat → Thread) (t : Nat) : List Nat → List Nat
  | [] => [t]
  | st :: rest =>
    if THREAD_HAS_TIMEOUT (thread st) &&
        IsTickBefore (thread st).t_timeout (thread t).t_timeout then
      st :: sleepqueue_insert thread t rest
    else t :: st :: rest

/-- The function `scheduler_remove_thread` (suspend). -/
def scheduler_remove_thread (s : Sched) (t : Nat) : Except Panic Sched :=
  if THREAD_IS_SUSPENDED (s.thread t) then
    .error .removing_suspended_thread
  else if scheduler_is_on_queue s.sched_sleepqueue t != 0 then
    .error .removing_thread_already_on_sleepqueue
  else if scheduler_is_on_queue s.sched_runqueue t != 1 then
    .error .removing_thread_not_on_runqueue
  else
    let s1 : Sched := { s with sched_runqueue := s.sched_runqueue.erase t }
    let s2 : Sched :=
      if THREAD_HAS_TIMEOUT (s1.thread t) then
        { s1 with sched_sleepqueue := sleepqueue_insert s1.thread t s1.sched_sleepqueue }
      else
        { s1 with sched_sleepqueue := s1.sched_sleepqueue ++ [t] }
    .ok (s2.update_flags t (fun f => f ||| THREAD_FLAG_SUSPENDED))

/-- The function `scheduler_release`. -/
def scheduler_release (s : Sched) (old : Nat) : Sched :=
  s.update_flags old (fun f => f &&& not32 THREAD_FLAG_ACTIVE)

/-- The timeout wake-up of `schedule`: only the head of the sleep queue is
looked at. -/
def schedule_wakeup (s : Sched) : Except Panic Sched :=
  match s.sched_sleepqueue with
  | [] => .ok s
  | t :: _ =>
    if THREAD_HAS_TIMEOUT (s.thread t) &&
        IsTickAfter (GetTicks s) (s.thread t).t_timeout then
      match scheduler_add_thread_locked
          { s with sched_sleepqueue := s.sched_sleepqueue.erase t } t with
      | .ok s2 =>
        .ok (s2.update_flags t
          (fun f => f &&& not32 (THREAD_FLAG_TIMEOUT ||| THREAD_FLAG_SUSPENDED)))
      | .error e => .error e
    else .ok s

/-- The selection loop of `schedule`: the first run-queue entry that may run on
`cpuid` and is not active elsewhere. -/
def schedule_pick (thread : Nat → Thread) (cpuid : Int) (curthread : Nat) :
    List Nat → Option Nat
  | [] => none
  | sp :: rest =>
    if (thread sp).t_affinity ≠ THREAD_AFFINITY_ANY ∧ (thread sp).t_affinity ≠ cpuid then
      schedule_pick thread cpuid curthread rest
    else if THREAD_IS_ACTIVE (thread sp) = true ∧ sp ≠ curthread then
      schedule_pick thread cpuid curthread rest
    else some sp

/-- The re-queue step of `schedule`: a current thread that is neither suspended
nor zombie is taken off the run queue and added again. -/
def schedule_requeue (s : Sched) (curthread : Nat) : Except Panic Sched :=
  if !THREAD_IS_SUSPENDED (s.thread curthread) && !THREAD_IS_ZOMBIE (s.thread curthread) then
    scheduler_add_thread_locked
      { s with sched_runqueue := s.sched_runqueue.erase curthread } curthread
  else .ok s

/-- The function `schedule` on CPU `cpuid`, up to the release of the scheduler
lock (`spinlock_unlock`). -/
def schedule_locked (s : Sched) (cpuid : Int) : Except Panic Sched :=
  match s.curthread cpuid with
  | none => .error .no_current_thread_active
  | some cur =>
    match schedule_wakeup (s.update_flags cur (fun f => f &&& not32 THREAD_FLAG_RESCHEDULE)) with
    | .error e => .error e
    | .ok s1 =>
      if s1.sched_runqueue.isEmpty then .error .runqueue_cannot_be_empty
      else
        match schedule_pick s1.thread cpuid cur s1.sched_runqueue with
        | none => .error .nothing_on_the_runqueue
        | some new =>
          if THREAD_IS_SUSPENDED (s1.thread new) then .error .activating_suspended_thread
          else if new ≠ cur ∧ THREAD_IS_ACTIVE (s1.thread new) = true then
            .error .activating_active_thread
          else if scheduler_is_on_queue s1.sched_runqueue new != 1 then
            .error .scheduling_thread_not_on_runqueue
          else if scheduler_is_on_queue s1.sched_sleepqueue new != 0 then
            .error .scheduling_thread_on_sleepqueue
          else
            match schedule_requeue s1 cur with
            | .error e => .error e
            | .ok s2 =>
              .ok { (s2.update_flags new (fun f => f ||| THREAD_FLAG_ACTIVE)) with
                    curthread := Function.update s2.curthread cpuid (some new) }

/-- The function `schedule` on CPU `cpuid`, whole: after the lock is released
and the CPU has switched to another thread, that thread runs
`scheduler_release` on the thread switched out. -/
def schedule (s : Sched) (cpuid : Int) : Except Panic Sched :=
  match s.curthread cpuid with
  | none => .error .no_current_thread_active
  | some cur =>
    match schedule_locked s cpuid with
    | .error e => .error e
    | .ok s3 =>
      if s3.curthread cpuid ≠ some cur then .ok (scheduler_release s3 cur) else .ok s3

/-- The function `scheduler_exit_thread` up to the release of the scheduler
lock. -/
def scheduler_exit_thread_locked (s : Sched) (t : Nat) : Except Panic Sched :=
  if scheduler_is_on_queue s.sched_runqueue t != 1 then
    .error .exiting_thread_not_on_runqueue
  else if scheduler_is_on_queue s.sched_sleepqueue t != 0 then
    .error .exiting_thread_on_sleepqueue
  else
    .ok (({ s with sched_runqueue := s.sched_runqueue.erase t } : Sched).update_flags t
      (fun f => f ||| THREAD_FLAG_ZOMBIE))

/-- The function `scheduler_exit_thread` called on CPU `cpuid`: the locked part
followed by the forced `schedule()`. -/
def scheduler_exit_thread (s : Sched) (cpuid : Int) (t : Nat) : Except Panic Sched :=
  match scheduler_exit_thread_locked s t with
  | .error e => .error e
  | .ok s1 => schedule s1 cpuid

/-! ## thread.cpp -/

/-- The scheduler-visible part of `kthread_init`: the thread object is zeroed,
gets `THREAD_FLAG_KTHREAD`, the default priority and any-CPU affinity, and is
handed to the scheduler. -/
def kthread_init (s : Sched) (t : Nat) : Except Panic Sched :=
  scheduler_init_thread
    { s with
      thread := Function.update s.thread t
        (Thread.mk THREAD_FLAG_KTHREAD THREAD_PRIORITY_DEFAULT THREAD_AFFINITY_ANY 0) } t

/-- The scheduler-visible part of `thread_alloc`: as `kthread_init`, with the
allocation flag instead of the kernel-thread flag.  The source writes
`THREAD_FLAG_ALLOC`, which the headers among the sources do not define; the
allocation flag they define, `THREAD_FLAG_MALLOC`, stands for it. -/
def thread_alloc (s : Sched) (t : Nat) : Except Panic Sched :=
  scheduler_init_thread
    { s with
      thread := Function.update s.thread t
        (Thread.mk THREAD_FLAG_MALLOC THREAD_PRIORITY_DEFAULT THREAD_AFFINITY_ANY 0) } t

/-- The method `Thread::Suspend` called on CPU `cpuid` for the thread `t`; its
`scheduler::SuspendThread` is `scheduler_remove_thread`. -/
def Thread_Suspend (s : Sched) (cpuid : Int) (t : Nat) : Except Panic Sched :=
  if THREAD_IS_SUSPENDED (s.thread t) then .error .suspending_suspended_thread
  else if s.idlethread cpuid = some t then .error .suspending_idle_thread
  else scheduler_remove_thread s t

/-- The number of ticks `thread_sleep_ms` sleeps for `ms` milliseconds. -/
def sleep_num_ticks (ms : Nat) : tick_t :=
  let msPerTick := 1000 / GetPeriodicyInHz
  let num_ticks := ms / msPerTick
  if num_ticks = 0 then 1 else num_ticks

/-- The two assignments `t->t_timeout = deadline; t->t_flags |= THREAD_FLAG_TIMEOUT`
of `thread_sleep_ms`. -/
def arm_timeout (s : Sched) (t : Nat) (deadline : tick_t) : Sched :=
  Sched.update_flags
    { s with
      thread := Function.update s.thread t ({ s.thread t with t_timeout := deadline }) }
    t (fun f => f ||| THREAD_FLAG_TIMEOUT)

/-- The function `thread_sleep_ms` on CPU `cpuid` up to, and without, its final
call of the scheduler. -/
def thread_sleep_ms_suspend (s : Sched) (cpuid : Int) (ms : Nat) : Except Panic Sched :=
  match s.curthread cpuid with
  | none => .error .no_current_thread_active
  | some t => Thread_Suspend (arm_timeout s t (GetTicks s + sleep_num_ticks ms)) cpuid t

/-- The function `thread_sleep_ms` on CPU `cpuid`. -/
def thread_sleep_ms (s : Sched) (cpuid : Int) (ms : Nat) : Except Panic Sched :=
  match thread_sleep_ms_suspend s cpuid ms with
  | .error e => .error e
  | .ok s1 => schedule s1 cpuid

/-! ## Properties of scheduler states -/

/-- The run queue is sorted by non-decreasing `t_priority` value (0 = highest
priority first). -/
def RunqSorted (s : Sched) : Prop :=
  s.sched_runqueue.Pairwise
    (fun a b => (s.thread a).t_priority ≤ (s.thread b).t_priority)

/-- Consistency of the two queues with the thread flags: no thread is linked
twice (each thread has a single `t_sched_priv` node), a thread on the run queue
is neither suspended nor zombie, a thread on the sleep queue is suspended and
not zombie. -/
def QueuesOK (s : Sched) : Prop :=
  (s.sched_runqueue ++ s.sched_sleepqueue).Nodup ∧
  (∀ t ∈ s.sched_runqueue,
    THREAD_IS_SUSPENDED (s.thread t) = false ∧ THREAD_IS_ZOMBIE (s.thread t) = false) ∧
  (∀ t ∈ s.sched_sleepqueue,
    THREAD_IS_SUSPENDED (s.thread t) = true ∧ THREAD_IS_ZOMBIE (s.thread t) = false)

/-- A thread the selection loop of `schedule` on CPU `cpuid` does not skip: its
affinity is any CPU or this CPU, and it is not active unless it is this CPU's
current thread `cur`. -/
def Eligible (th : Nat → Thread) (cpuid : Int) (cur : Nat) (x : Nat) : Prop :=
  ((th x).t_affinity = THREAD_AFFINITY_ANY ∨ (th x).t_affinity = cpuid) ∧
  (THREAD_IS_ACTIVE (th x) = false ∨ x = cur)

/-- Whether an operation returned, rather than hit an assertion. -/
def succeeds (r : Except Panic Sched) : Bool :=
  match r with
  | .ok _ => true
  | .error _ => false

/-! ## Example states -/

/-- An example on CPU 0: thread 1 (priority 200) is running, thread 2 (priority
100) and the idle thread 9 (priority 255) are runnable, thread 3 (priority 50)
sleeps with a deadline of tick 5, which is the current tick. -/
def demo : Sched where
  thread := fun n =>
    if n = 1 then Thread.mk 0x0001 200 (-1) 0
    else if n = 2 then Thread.mk 0 100 (-1) 0
    else if n = 3 then Thread.mk 0x0042 50 (-1) 5
    else Thread.mk 0 255 (-1) 0
  sched_runqueue := [2, 1, 9]
  sched_sleepqueue := [3]
  ticks := 5
  curthread := fun _ => some 1
  idlethread := fun _ => some 9

/-- The part of `QueuesOK` that concerns one thread `x`, with queue membership
counted as `scheduler_is_on_queue` does. -/
def ThreadOK (s : Sched) (x : Nat) : Prop :=
  s.sched_runqueue.count x + s.sched_sleepqueue.count x ≤ 1 ∧
  (0 < s.sched_runqueue.count x →
    THREAD_IS_SUSPENDED (s.thread x) = false ∧ THREAD_IS_ZOMBIE (s.thread x) = false) ∧
  (0 < s.sched_sleepqueue.count x →
    THREAD_IS_SUSPENDED (s.thread x) = true ∧ THREAD_IS_ZOMBIE (s.thread x) = false)

/-- A thread that is on neither queue is a zombie. -/
def ZombieIfOff (s : Sched) (x : Nat) : Prop :=
  s.sched_runqueue.count x = 0 → s.sched_sleepqueue.count x = 0 →
    THREAD_IS_ZOMBIE (s.thread x) = true

/-- First situation of C2: once on the run queue, not on the sleep queue, neither
suspended nor zombie. -/
def OnRunQueueOnly (s : Sched) (x : Nat) : Prop :=
  scheduler_is_on_queue s.sched_runqueue x = 1 ∧ scheduler_is_on_queue s.sched_sleepqueue x = 0 ∧
  THREAD_IS_SUSPENDED (s.thread x) = false ∧ THREAD_IS_ZOMBIE (s.thread x) = false

/-- Second situation of C2: once on the sleep queue, not on the run queue,
suspended. -/
def OnSleepQueueOnly (s : Sched) (x : Nat) : Prop :=
  scheduler_is_on_queue s.sched_sleepqueue x = 1 ∧ scheduler_is_on_queue s.sched_runqueue x = 0 ∧
  THREAD_IS_SUSPENDED (s.thread x) = true

/-- Third situation of C2: on neither queue, zombie. -/
def OffQueuesZombie (s : Sched) (x : Nat) : Prop :=
  scheduler_is_on_queue s.sched_runqueue x = 0 ∧ scheduler_is_on_queue s.sched_sleepqueue x = 0 ∧
  THREAD_IS_ZOMBIE (s.thread x) = true

/-- The thread `x` is in exactly one of the three situations. -/
def ExactlyOneSituation (s : Sched) (x : Nat) : Prop :=
  (OnRunQueueOnly s x ∨ OnSleepQueueOnly s x ∨ OffQueuesZombie s x) ∧
  ¬ (OnRunQueueOnly s x ∧ OnSleepQueueOnly s x) ∧
  ¬ (OnRunQueueOnly s x ∧ OffQueuesZombie s x) ∧
  ¬ (OnSleepQueueOnly s x ∧ OffQueuesZombie s x)

/-- The inductive form of the membership invariant for the threads `K` known to
the scheduler: the queues are consistent and a known thread that is on neither
queue is a zombie. -/
def SchedInv (K : List Nat) (s : Sched) : Prop :=
  QueuesOK s ∧ ∀ t ∈ K, ZombieIfOff s t

/-- The calls that change the scheduler state.  `scheduler_init_thread` is
reached through its two callers, `kthread_init` and `thread_alloc`.  The last
four are the parts of `scheduler_exit_thread`, `schedule` and `thread_sleep_ms`
between two releases of the scheduler lock. -/
inductive SchedCall where
  | kthread_init (t : Nat)
  | thread_alloc (t : Nat)
  | add_thread (t : Nat)
  | remove_thread (t : Nat)
  | exit_thread (cpuid : Int) (t : Nat)
  | schedule (cpuid : Int)
  | sleep_ms (cpuid : Int) (ms : Nat)
  | tick
  | exit_thread_locked (t : Nat)
  | schedule_locked (cpuid : Int)
  | release (old : Nat)
  | sleep_ms_suspend (cpuid : Int) (ms : Nat)

/-- The effect of one call; `tick` is the increment of the tick counter by
`time::OnTick`. -/
def SchedCall.run : SchedCall → Sched → Except Panic Sched
  | .kthread_init t, s => Ananas.kthread_init s t
  | .thread_alloc t, s => Ananas.thread_alloc s t
  | .add_thread t, s => scheduler_add_thread s t
  | .remove_thread t, s => scheduler_remove_thread s t
  | .exit_thread cpuid t, s => scheduler_exit_thread s cpuid t
  | .schedule cpuid, s => Ananas.schedule s cpuid
  | .sleep_ms cpuid ms, s => thread_sleep_ms s cpuid ms
  | .tick, s => .ok { s with ticks := s.ticks + 1 }
  | .exit_thread_locked t, s => scheduler_exit_thread_locked s t
  | .schedule_locked cpuid, s => Ananas.schedule_locked s cpuid
  | .release old, s => .ok (scheduler_release s old)
  | .sleep_ms_suspend cpuid ms, s => thread_sleep_ms_suspend s cpuid ms

/-- The threads a call hands to `scheduler_init_thread`. -/
def SchedCall.new_threads : SchedCall → List Nat
  | .kthread_init t => [t]
  | .thread_alloc t => [t]
  | _ => []

/-- A sequence of calls, stopping at the first failed assertion. -/
def run_calls : Sched → List SchedCall → Except Panic Sched
  | s, [] => .ok s
  | s, c :: cs =>
    match c.run s with
    | .ok s1 => run_calls s1 cs
    | .error e => .error e

/-- The threads made known to the scheduler by a sequence of calls. -/
def known_threads : List SchedCall → List Nat
  | [] => []
  | c :: cs => c.new_threads ++ known_threads cs

/-- The scheduler before any thread is created: both queues are empty; CPU 0
runs on the boot stack (thread object 9). -/
def boot : Sched where
  thread := fun _ => Thread.mk 0 THREAD_PRIORITY_DEFAULT THREAD_AFFINITY_ANY 0
  sched_runqueue := []
  sched_sleepqueue := []
  ticks := 0
  curthread := fun _ => some 9
  idlethread := fun _ => some 8

/-- An example run: the threads 9, 1 and 2 are created and resumed, thread 1 gets
the CPU and sleeps 50 ms, five ticks pass, thread 1 is woken, then thread 9
exits. -/
def demo_calls : List SchedCall :=
  [.kthread_init 9, .add_thread 9, .kthread_init 1, .add_thread 1, .thread_alloc 2,
   .add_thread 2, .schedule 0, .schedule 0, .sleep_ms 0 50, .tick, .tick, .tick, .tick,
   .tick, .schedule 0, .remove_thread 2, .exit_thread 0 9]

/-- An example run from boot: the threads 9 and 3 are created and resumed, thread
3 gets CPU 0 and calls `thread_sleep_ms(10)`, which arms a deadline of tick 1 and
suspends it; the call of the scheduler has not happened yet. -/
def sleep_calls : List SchedCall :=
  [.kthread_init 9, .add_thread 9, .kthread_init 3, .add_thread 3, .schedule 0,
   .schedule 0, .sleep_ms_suspend 0 10]

/-- The run `sleep_calls` followed by two timer ticks: the deadline of the
suspended current thread 3 has passed before it calls the scheduler. -/
def sleep_tick_calls : List SchedCall := sleep_calls ++ [.tick, .tick]

/-- The shape of the sleep queue: the timeout-armed threads in non-decreasing
`t_timeout` order, followed by the threads without `THREAD_FLAG_TIMEOUT`. -/
def SleepqShape (s : Sched) : Prop :=
  ∃ armed unarmed, s.sched_sleepqueue = armed ++ unarmed ∧
    (∀ x ∈ armed, THREAD_HAS_TIMEOUT (s.thread x) = true) ∧
    armed.Pairwise (fun a b => (s.thread a).t_timeout ≤ (s.thread b).t_timeout) ∧
    (∀ x ∈ unarmed, THREAD_HAS_TIMEOUT (s.thread x) = false)

/-- The same shape, entry against later entry: whoever stands before an armed
thread is armed too and does not wake later. -/
def SleepqOrdered (th : Nat → Thread) (q : List Nat) : Prop :=
  q.Pairwise (fun a b => THREAD_HAS_TIMEOUT (th b) = true →
    THREAD_HAS_TIMEOUT (th a) = true ∧ (th a).t_timeout ≤ (th b).t_timeout)

/-- An example with sleepers: thread 3 sleeps until tick 5, thread 4 until tick 9
and thread 5 without a timeout; the running thread 1 has armed a deadline of
tick 7 and is about to be suspended. -/
def demo_sleepers : Sched where
  thread := fun n =>
    if n = 1 then Thread.mk 0x0041 200 (-1) 7
    else if n = 2 then Thread.mk 0 100 (-1) 0
    else if n = 3 then Thread.mk 0x0042 50 (-1) 5
    else if n = 4 then Thread.mk 0x0042 200 (-1) 9
    else if n = 5 then Thread.mk 0x0002 200 (-1) 0
    else Thread.mk 0 255 (-1) 0
  sched_runqueue := [2, 1, 9]
  sched_sleepqueue := [3, 4, 5]
  ticks := 2
  curthread := fun _ => some 1
  idlethread := fun _ => some 9

/-- The example state `demo` at tick 1000. -/
def demo_tick1000 : Sched := { demo with ticks := 1000 }

/-- Only a current thread is active: every thread with `THREAD_FLAG_ACTIVE` set
is the `curthread` of some CPU. -/
def ActiveOnlyCurrent (s : Sched) : Prop :=
  ∀ t, THREAD_IS_ACTIVE (s.thread t) = true → ∃ cpu, s.curthread cpu = some t

/-- The calls that are taken whole; `schedule_locked` stops at the lock release
of `schedule()`, before `scheduler_release`. -/
def SchedCall.whole : SchedCall → Bool
  | .schedule_locked _ => false
  | _ => true

/-! ## An exited thread -/

/-- The thread `t` has exited: it is a zombie and is linked on neither queue. -/
def Exited (s : Sched) (t : Nat) : Prop :=
  THREAD_IS_ZOMBIE (s.thread t) = true ∧
  scheduler_is_on_queue s.sched_runqueue t = 0 ∧
  scheduler_is_on_queue s.sched_sleepqueue t = 0

/-! ## kernel/thread.h: exit codes -/

/-- The 32-bit two's complement pattern of a C `int`. -/
def to_u32 (x : Int) : Nat := (x % 2 ^ 32).toNat

/-- The macro `THREAD_MAKE_EXITCODE(a, b)`, `(((a) << 24) | ((b) & 0x00ffffff))`,
taken as a 32-bit value. -/
def THREAD_MAKE_EXITCODE (a b : Int) : Nat :=
  ((to_u32 a <<< 24) % 2 ^ 32) ||| (to_u32 b &&& 0x00ffffff)

/-! ## time.cpp: the tick -/

/-- The fields of `struct timespec`. -/
structure timespec where
  /-- Seconds. -/
  tv_sec : Int
  /-- Nanoseconds. -/
  tv_nsec : Int

/-- The loop `while (tv_nsec >= 1000000000) { tv_sec++; tv_nsec -= 1000000000; }`
of `time::OnTick`, run for at most `fuel` rounds. -/
def carry_nsec : Nat → timespec → timespec
  | 0, ts => ts
  | fuel + 1, ts =>
    if ts.tv_nsec ≥ 1000000000 then
      carry_nsec fuel { tv_sec := ts.tv_sec + 1, tv_nsec := ts.tv_nsec - 1000000000 }
    else ts

/-- The function `time::OnTick` on the tick counter, kept in the scheduler
state, and on `time_current`.  The loop gets as many rounds as there are whole
seconds in `tv_nsec`, which is as many as it can make. -/
def OnTick (s : Sched) (time_current : timespec) : Sched × timespec :=
  let ts : timespec :=
    { time_current with
      tv_nsec := time_current.tv_nsec + ((1000000000 / GetPeriodicyInHz : Nat) : Int) }
  ({ s with ticks := s.ticks + 1 }, carry_nsec (ts.tv_nsec / 1000000000).toNat ts)

/-- The wall clock in nanoseconds. -/
def timespec.total_ns (ts : timespec) : Int := ts.tv_sec * 1000000000 + ts.tv_nsec

/-- The invariant `0 <= tv_nsec < 1000000000` of a `timespec`. -/
def timespec.normal (ts : timespec) : Prop := 0 ≤ ts.tv_nsec ∧ ts.tv_nsec < 1000000000

/-- A number of consecutive calls of `time::OnTick`. -/
def OnTicks : Nat → Sched × timespec → Sched × timespec
  | 0, st => st
  | n + 1, st => OnTicks n (OnTick st.1 st.2)

/-! ## process.cpp: exit and wait -/

/-- Modelled from the spec: the values `PROCESS_STATE_ACTIVE` and
`PROCESS_STATE_ZOMBIE` of `kernel/process.h`, which is not among the sources;
the spec gives a process the state `active` or `zombie`. -/
inductive ProcessState where
  | active
  | zombie
  deriving DecidableEq, Repr

/-- The error codes the functions modelled here return through `ANANAS_ERROR`. -/
inductive errorcode where
  | BAD_FLAG
  | BAD_LENGTH
  deriving DecidableEq, Repr

/-- The fields of `struct Process` used by exit and wait. -/
structure Process where
  /-- The field `p_state`. -/
  p_state : ProcessState
  /-- The field `p_exit_status`. -/
  p_exit_status : Int
  /-- The list `p_children`, front first, by address. -/
  p_children : List Nat
  /-- The field `p_mainthread`, `none` for `NULL`. -/
  p_mainthread : Option Nat

/-- The processes, by address, and the semaphore `process_sleep_sem`.
Modelled from the spec: `Semaphore::Signal` and `Semaphore::Wait` are only
declared in `kernel/lock.h`; a semaphore is an integer count, `signal`
increments it and `wait` decrements it if positive, else suspends the caller. -/
structure Procs where
  /-- Process objects by address. -/
  process : Nat → Process
  /-- The units of `process_sleep_sem`. -/
  process_sleep_sem : Nat

/-- The function `process_exit`.  The process lock is taken and released around
the two assignments; mutual exclusion is not part of this model. -/
def process_exit (ps : Procs) (p : Nat) (status : Int) : Procs :=
  { process := Function.update ps.process p
      ({ ps.process p with p_state := .zombie, p_exit_status := status })
    process_sleep_sem := ps.process_sleep_sem + 1 }

/-- The scan `for (auto& child : parent.p_children)` of `process_wait_and_lock`:
the first child whose state is zombie. -/
def first_zombie (process : Nat → Process) : List Nat → Option Nat
  | [] => none
  | child :: rest =>
    if (process child).p_state = .zombie then some child
    else first_zombie process rest

/-- What `process_wait_and_lock` comes to: success with the harvested child,
failure with an error code, or the caller asleep on `process_sleep_sem` with
nothing to wake it in the state at hand. -/
inductive WaitResult where
  | success (ps : Procs) (p_out : Nat)
  | failure (e : errorcode)
  | asleep (ps : Procs)

/-- The loop `for (;;)` of `process_wait_and_lock`, by the units left in
`process_sleep_sem`: scan the children; on a zombie take it off the list and
return it; else wait on the semaphore, which returns once per unit and then
leaves the caller asleep. -/
def wait_loop (ps : Procs) (parent : Nat) : Nat → WaitResult
  | 0 =>
    match first_zombie ps.process (ps.process parent).p_children with
    | some child =>
      .success
        { process := Function.update ps.process parent
            ({ ps.process parent with
               p_children := (ps.process parent).p_children.erase child })
          process_sleep_sem := 0 } child
    | none => .asleep { ps with process_sleep_sem := 0 }
  | sem + 1 =>
    match first_zombie ps.process (ps.process parent).p_children with
    | some child =>
      .success
        { process := Function.update ps.process parent
            ({ ps.process parent with
               p_children := (ps.process parent).p_children.erase child })
          process_sleep_sem := sem + 1 } child
    | none => wait_loop ps parent sem

/-- The function `process_wait_and_lock`. -/
def process_wait_and_lock (ps : Procs) (parent : Nat) (flags : Int) : WaitResult :=
  if flags ≠ 0 then .failure .BAD_FLAG
  else wait_loop ps parent ps.process_sleep_sem

/-- An example: process 1 has the children 2, 3 and 4, none of them a zombie. -/
def demo_procs : Procs where
  process := fun n =>
    if n = 1 then Process.mk .active 0 [2, 3, 4] (some 10)
    else Process.mk .active 0 [] none
  process_sleep_sem := 0

/-! ## thread.cpp: termination -/

/-- The kernel state `Thread::Terminate` works on: the scheduler, the
processes, and for every thread object its process, reference count and wait
queue.  A `ThreadWaiter` is identified by its address; `tw_sem` gives the units
of its semaphore and `signalled` records, oldest first, the waiters whose
semaphore has been signalled. -/
structure Kernel where
  /-- The scheduler state. -/
  sched : Sched
  /-- The processes and `process_sleep_sem`. -/
  procs : Procs
  /-- The field `t_process` of each thread, `none` for `nullptr`. -/
  t_process : Nat → Option Nat
  /-- The field `t_refcount` of each thread. -/
  t_refcount : Nat → Int
  /-- The list `t_waitqueue` of each thread, front first. -/
  t_waitqueue : Nat → List Nat
  /-- The units of the semaphore `tw_sem` of each `ThreadWaiter`. -/
  tw_sem : Nat → Nat
  /-- The waiters signalled so far, oldest first. -/
  signalled : List Nat

/-- The assertions of `Thread::Terminate` and `thread_cleanup`, and those of the
scheduler. -/
inductive TerminatePanic where
  | terminate_not_on_current_thread
  | exiting_zombie_thread
  | cleaning_up_zombie_thread
  | thread_without_process
  | scheduler (p : Panic)
  deriving DecidableEq, Repr

/-- The predicate `Thread::IsKernel`, the test `THREAD_IS_KTHREAD` of the header. -/
def THREAD_IS_KTHREAD (t : Thread) : Bool := flag_set t.t_flags THREAD_FLAG_KTHREAD

/-- Modelled from the spec: `Semaphore::Signal` on the semaphore of the waiter
`w`, declared in `kernel/lock.h` without a body; the count goes up by one. -/
def tw_sem_Signal (k : Kernel) (w : Nat) : Kernel :=
  { k with
    tw_sem := Function.update k.tw_sem w (k.tw_sem w + 1)
    signalled := k.signalled ++ [w] }

/-- The loop of `Thread::SignalWaiters` over the wait queue `q` of thread `t`:
take the front waiter off the queue, signal its semaphore, go on with the rest. -/
def SignalWaiters_loop (t : Nat) : List Nat → Kernel → Kernel
  | [], k => k
  | tw :: rest, k =>
    SignalWaiters_loop t rest
      (tw_sem_Signal { k with t_waitqueue := Function.update k.t_waitqueue t rest } tw)

/-- The method `Thread::SignalWaiters`. -/
def SignalWaiters (k : Kernel) (t : Nat) : Kernel :=
  SignalWaiters_loop t (k.t_waitqueue t) k

/-- The function `thread_cleanup`. -/
def thread_cleanup (k : Kernel) (t : Nat) : Except TerminatePanic Kernel :=
  if THREAD_IS_ZOMBIE (k.sched.thread t) then .error .cleaning_up_zombie_thread
  else if !(THREAD_IS_KTHREAD (k.sched.thread t) || (k.t_process t).isSome) then
    .error .thread_without_process
  else .ok (SignalWaiters k t)

/-- Modelled from the spec: the method `Process::Exit`, which is not among the
sources; the spec has it mark the process zombie with the exit code, which is
what `process_exit` of `process.cpp` does. -/
def Process_Exit (k : Kernel) (p : Nat) (exitcode : Int) : Kernel :=
  { k with procs := process_exit k.procs p exitcode }

/-- The method `Thread::Terminate` on the thread `t`, called on CPU `cpuid`, up
to the point where it calls `scheduler::ExitThread`: the two assertions, the
exit of the process if `t` is its main thread, `thread_cleanup`, and the
decrement of `t_refcount`.  The process lock is not part of this model. -/
def Thread_Terminate_until_exit (k : Kernel) (cpuid : Int) (t : Nat) (exitcode : Int) :
    Except TerminatePanic Kernel :=
  if k.sched.curthread cpuid ≠ some t then .error .terminate_not_on_current_thread
  else if THREAD_IS_ZOMBIE (k.sched.thread t) then .error .exiting_zombie_thread
  else
    let k1 : Kernel :=
      match k.t_process t with
      | some p =>
        if (k.procs.process p).p_mainthread = some t then Process_Exit k p exitcode else k
      | none => k
    match thread_cleanup k1 t with
    | .error e => .error e
    | .ok k2 =>
      .ok { k2 with t_refcount := Function.update k2.t_refcount t (k2.t_refcount t - 1) }

/-- The method `Thread::Terminate` through its call of `scheduler::ExitThread`,
which marks the thread zombie and reschedules; the statements after that call
are not modelled. -/
def Thread_Terminate (k : Kernel) (cpuid : Int) (t : Nat) (exitcode : Int) :
    Except TerminatePanic Kernel :=
  match Thread_Terminate_until_exit k cpuid t exitcode with
  | .error e => .error e
  | .ok k3 =>
    match scheduler_exit_thread k3.sched cpuid t with
    | .error e => .error (.scheduler e)
    | .ok s => .ok { k3 with sched := s }

/-- An example: the scheduler state `demo`, where thread 1 is current on CPU 0
and is the main thread of process 10, a child of process 11; the waiters 20 and
21 are queued on thread 1, in that order. -/
def demo_kernel : Kernel where
  sched := demo
  procs :=
    { process := fun n =>
        if n = 10 then Process.mk .active 0 [] (some 1)
        else if n = 11 then Process.mk .active 0 [10] (some 2)
        else Process.mk .active 0 [] none
      process_sleep_sem := 0 }
  t_process := fun n => if n = 1 then some 10 else if n = 2 then some 11 else none
  t_refcount := fun _ => 1
  t_waitqueue := fun n => if n = 1 then [20, 21] else []
  tw_sem := fun _ => 0
  signalled := []

/-! ## vmfault.cpp: the data of the fault handler -/

/-- Modelled from the spec: the constant `PAGE_SIZE` of the machine-dependent
headers, which are not among the sources; a page is 4 KiB. -/
def PAGE_SIZE : Nat := 4096

/-- Modelled from the spec: the types `addr_t`, `size_t` and `off_t` of
`ananas/types.h`, which is not among the sources, are taken as 64-bit words;
a sum is reduced modulo `2 ^ 64`. -/
def wrap64 (x : Nat) : Nat := x % 2 ^ 64

/-- The unsigned 64-bit difference `a - b`. -/
def sub64 (a b : Nat) : Nat := (a + (2 ^ 64 - b % 2 ^ 64)) % 2 ^ 64

/-- The unsigned 64-bit complement `~m`. -/
def not64 (m : Nat) : Nat := (2 ^ 64 - 1) ^^^ m

/-- Modelled from the spec: the area permission `R` of `kernel/vm.h`, which is
not among the sources; the flag constants modelled here are distinct bits. -/
def VM_FLAG_READ : Nat := 0x0001
/-- Modelled from the spec: the area permission `W`. -/
def VM_FLAG_WRITE : Nat := 0x0002
/-- Modelled from the spec: the area permission `X`. -/
def VM_FLAG_EXECUTE : Nat := 0x0004
/-- Modelled from the spec: the area flag `user`. -/
def VM_FLAG_USER : Nat := 0x0010
/-- Modelled from the spec: the area flag `no_clone`. -/
def VM_FLAG_NO_CLONE : Nat := 0x0080

/-- Modelled from the spec: the area flag `cow`, the constant
`vmarea::flag::COW` of `kernel/vmarea.h`, which is not among the sources. -/
def vmarea.flag.COW : Nat := 0x1000

/-- Modelled from the spec: the page flag `read_only` of `kernel/vmpage.h`,
which is not among the sources. -/
def vmpage.flag.ReadOnly : Nat := 0x0001
/-- Modelled from the spec: the page flag `private`. -/
def vmpage.flag.Private : Nat := 0x0002
/-- Modelled from the spec: the page flag `pending`. -/
def vmpage.flag.Pending : Nat := 0x0004
/-- Modelled from the spec: the page flag `promoted`. -/
def vmpage.flag.Promoted : Nat := 0x0008

/-- The fields of `VMPage` the fault handler touches.  The frame `vp_page` is
given by its bytes, by offset in the page. -/
structure VMPage where
  /-- The field `vp_flags`. -/
  vp_flags : Nat
  /-- The reference count. -/
  vp_refcount : Int
  /-- The bytes of the frame `vp_page`. -/
  vp_page : Nat → Nat
  /-- The virtual address the page was last mapped at. -/
  vp_vaddr : Nat

/-- A file body: the size `i_sb.st_size` and the bytes by file offset. -/
structure INode where
  /-- The size of the file. -/
  st_size : Nat
  /-- The bytes of the file. -/
  i_data : Nat → Nat

/-- What the spaces share: the VM pages by address, the next address the page
allocator hands out, the inodes, the inode page cache keyed by inode and
offset, and the bytes found in memory that was not written yet. -/
structure VMState where
  /-- VM page objects by address. -/
  page : Nat → VMPage
  /-- The address of the next page object. -/
  next_page : Nat
  /-- Inodes by address. -/
  inode : Nat → INode
  /-- The inode page cache. -/
  inode_page : Nat → Nat → Option Nat
  /-- The bytes of a frame that was just allocated. -/
  fresh : Nat → Nat

/-- The key `VAInterval` of the area map. -/
structure VAInterval where
  /-- The first address. -/
  begin : Nat
  /-- The field `end`, the address after the last one. -/
  end_ : Nat

/-- The fields of `VMArea` the fault handler touches.  A dentry is identified
with its inode `d_inode`; the slot array `va_pages` is given by index, `none`
for an empty slot. -/
structure VMArea where
  /-- The base address. -/
  va_virt : Nat
  /-- The length in bytes. -/
  va_len : Nat
  /-- The flags. -/
  va_flags : Nat
  /-- The backing dentry, `none` for `nullptr`. -/
  va_dentry : Option Nat
  /-- The offset of the file window. -/
  va_doffset : Nat
  /-- The length of the file window. -/
  va_dlength : Nat
  /-- The page slots. -/
  va_pages : Nat → Option Nat

/-- The map `vs_areamap` of a `VMSpace`, in iteration order. -/
structure VMSpace where
  /-- The areas with their intervals. -/
  vs_areamap : List (VAInterval × VMArea)

/-- The error numbers the fault handler returns. -/
inductive Errno where
  | EFAULT
  | EIO
  deriving DecidableEq, Repr

/-- The type `Result` of the fault handler. -/
inductive Result where
  | Success
  | Failure (e : Errno)
  deriving DecidableEq, Repr

/-- The ways the fault handler stops without returning: its assertions, a null
dentry dereferenced, and a `memset` that leaves the page. -/
inductive VMPanic where
  | cowing_ro_page
  | doffset_not_page_aligned
  | cannot_deal_with_error (e : Errno)
  | null_dentry
  | memset_outside_page
  deriving DecidableEq, Repr

/-! ## vmfault.cpp: the helpers of `kernel/vmpage.h`, modelled -/

/-- Modelled from the spec: the method `VMPage::Deref`, which is not among the
sources; the reference count of the page goes down by one. -/
def VMPage_Deref (vm : VMState) (vp : Nat) : VMState :=
  { vm with
    page := Function.update vm.page vp
      ({ vm.page vp with vp_refcount := (vm.page vp).vp_refcount - 1 }) }

/-- Modelled from the spec: the method `VMPage::Map`, which is not among the
sources; the page is mapped at `virt` and remembers that address. -/
def VMPage_Map (vm : VMState) (vp virt : Nat) : VMState :=
  { vm with page := Function.update vm.page vp ({ vm.page vp with vp_vaddr := virt }) }

/-- Modelled from the spec: the function `vmpage::AllocatePrivatePage`, which is
not among the sources; a new page object with the given flags, one reference
and a frame that was not written yet. -/
def vmpage.AllocatePrivatePage (vm : VMState) (flags : Nat) : VMState × Nat :=
  ({ vm with
     page := Function.update vm.page vm.next_page (VMPage.mk flags 1 vm.fresh 0)
     next_page := vm.next_page + 1 }, vm.next_page)

/-- Modelled from the spec: the method `VMPage::Zero`, which is not among the
sources; the frame is filled with zeroes. -/
def VMPage_Zero (vm : VMState) (vp : Nat) : VMState :=
  { vm with page := Function.update vm.page vp ({ vm.page vp with vp_page := fun _ => 0 }) }

/-- Modelled from the spec: the method `VMPage::CopyExtended`, which is not
among the sources; the first `len` bytes of the frame of `vp` are copied to the
frame of `dst` and the rest of that frame is zeroed. -/
def VMPage_CopyExtended (vm : VMState) (vp dst len : Nat) : VMState :=
  { vm with
    page := Function.update vm.page dst
      ({ vm.page dst with
         vp_page := fun i => if i < len then (vm.page vp).vp_page i else 0 }) }

/-- Modelled from the spec: the method `VMPage::Duplicate`, which is not among
the sources; the frame is shared, the same page object is handed out with one
more reference. -/
def VMPage_Duplicate (vm : VMState) (vp : Nat) : VMState × Nat :=
  ({ vm with
     page := Function.update vm.page vp
       ({ vm.page vp with vp_refcount := (vm.page vp).vp_refcount + 1 }) }, vp)

/-- Modelled from the spec: the method `VMPage::Promote`, which is not among the
sources; a new private page is allocated and the contents are copied to it. -/
def VMPage_Promote (vm : VMState) (vp : Nat) : VMState × Nat :=
  ({ vm with
     page := Function.update vm.page vm.next_page
       (VMPage.mk (vmpage.flag.Private ||| vmpage.flag.Promoted) 1 (vm.page vp).vp_page 0)
     next_page := vm.next_page + 1 }, vm.next_page)

/-- Modelled from the spec: the function `vmpage::LookupOrCreateINodePage`,
which is not among the sources; the page cached for the inode and offset gets
one more reference and is returned, or a new page with the given flags and one
reference is entered in the cache. -/
def vmpage.LookupOrCreateINodePage (vm : VMState) (inode off flags : Nat) : VMState × Nat :=
  match vm.inode_page inode off with
  | some vp =>
    ({ vm with
       page := Function.update vm.page vp
         ({ vm.page vp with vp_refcount := (vm.page vp).vp_refcount + 1 }) }, vp)
  | none =>
    ({ vm with
       page := Function.update vm.page vm.next_page (VMPage.mk flags 1 vm.fresh 0)
       next_page := vm.next_page + 1
       inode_page := Function.update vm.inode_page inode
         (Function.update (vm.inode_page inode) off (some vm.next_page)) }, vm.next_page)

/-- Modelled from the spec: the method `VMArea::LookupVAddrAndLock`, which is
not among the sources; the page in the slot of the page-aligned address, the
slot being `(aligned - base) / PAGE`. -/
def VMArea_LookupVAddrAndLock (va : VMArea) (alignedVirt : Nat) : Option Nat :=
  va.va_pages (sub64 alignedVirt va.va_virt / PAGE_SIZE)

/-- Modelled from the spec: the functions `vfs_seek` and `vfs_read`, which are
not among the sources, on a file positioned at `offset`: the number of bytes
read is `len` or what is left of the file. -/
def vfs_read_count (i : INode) (offset len : Nat) : Nat :=
  min len (i.st_size - offset)

/-! ## vmfault.cpp -/

/-- The function `read_data`, as the bytes it puts at the start of the buffer;
it fails with `EIO` when fewer than `len` bytes are read. -/
def read_data (i : INode) (buf : Nat → Nat) (offset len : Nat) : Except Errno (Nat → Nat) :=
  if vfs_read_count i offset len ≠ len then Except.error Errno.EIO
  else .ok (fun j => if j < len then i.i_data (offset + j) else buf j)

/-- The function `DeterminePageFlagsFromVMArea`. -/
def DeterminePageFlagsFromVMArea (va : VMArea) : Nat :=
  if (va.va_flags &&& (VM_FLAG_READ ||| VM_FLAG_WRITE)) = VM_FLAG_READ then
    0 ||| vmpage.flag.ReadOnly
  else 0

/-- The function `AssignPageToVirtualAddress`. -/
def AssignPageToVirtualAddress (vm : VMState) (va : VMArea) (interval : VAInterval)
    (virt vmpage : Nat) : VMState × VMArea :=
  let page_index := sub64 virt interval.begin / PAGE_SIZE
  let vm1 :=
    match va.va_pages page_index with
    | some vp => if vp ≠ vmpage then VMPage_Deref vm vp else vm
    | none => vm
  (VMPage_Map vm1 vmpage virt,
   { va with va_pages := Function.update va.va_pages page_index (some vmpage) })

/-- The length `read_length` that `GetDEntryBackedPage` computes for a file of
size `st_size` read at `read_off`, in `size_t` arithmetic. -/
def GetDEntryBackedPage_read_length (st_size read_off : Nat) : Nat :=
  if wrap64 (read_off + PAGE_SIZE) > st_size then sub64 st_size read_off else PAGE_SIZE

/-- The buffer `page` of `GetDEntryBackedPage` before `read_data`: a frame not
written yet, of which the bytes from `read_length` on are zeroed when the file
is too short; `none` when that `memset` leaves the page. -/
def GetDEntryBackedPage_buffer (vm : VMState) (st_size read_off : Nat) : Option (Nat → Nat) :=
  if wrap64 (read_off + PAGE_SIZE) > st_size then
    let read_length := sub64 st_size read_off
    if read_length + sub64 PAGE_SIZE read_length ≤ PAGE_SIZE then
      some (fun j => if read_length ≤ j then 0 else vm.fresh j)
    else none
  else some vm.fresh

/-- The function `GetDEntryBackedPage`: the cached page of the inode at
`read_off`, read from the file first if it is still pending. -/
def GetDEntryBackedPage (vm : VMState) (va : VMArea) (read_off : Nat) :
    Except VMPanic (VMState × Nat) :=
  match va.va_dentry with
  | none => .error .null_dentry
  | some inode =>
    let r := vmpage.LookupOrCreateINodePage vm inode read_off
      (vmpage.flag.Pending ||| DeterminePageFlagsFromVMArea va)
    let vm1 := r.1
    let vmp := r.2
    if ((vm1.page vmp).vp_flags &&& vmpage.flag.Pending) = 0 then .ok (vm1, vmp)
    else
      let st_size := (vm1.inode inode).st_size
      match GetDEntryBackedPage_buffer vm1 st_size read_off with
      | none => .error .memset_outside_page
      | some page =>
        match read_data (vm1.inode inode) page read_off
            (GetDEntryBackedPage_read_length st_size read_off) with
        | .error e => .error (.cannot_deal_with_error e)
        | .ok p =>
          .ok ({ vm1 with
                 page := Function.update vm1.page vmp
                   ({ vm1.page vmp with
                      vp_page := p
                      vp_flags :=
                        (vm1.page vmp).vp_flags &&& not64 vmpage.flag.Pending }) }, vmp)

/-- The function `PromotePage`. -/
def PromotePage (vm : VMState) (vp : Nat) : VMState × Nat :=
  let r := VMPage_Promote vm vp
  if r.2 ≠ vp then (VMPage_Deref r.1 vp, r.2) else r

/-- The function `HandleDEntryBackedFault`; `none` stands for `false`, the
fault lying outside the file window. -/
def HandleDEntryBackedFault (vm : VMState) (va : VMArea) (interval : VAInterval)
    (alignedVirt : Nat) : Except VMPanic (Option (VMState × VMArea)) :=
  let read_off := sub64 alignedVirt va.va_virt
  if read_off ≥ va.va_dlength then .ok none
  else
    match GetDEntryBackedPage vm va (wrap64 (read_off + va.va_doffset)) with
    | .error e => .error e
    | .ok (vm1, vmp) =>
      let can_reuse_page_as_is : Bool :=
        decide (wrap64 (read_off + PAGE_SIZE) ≤ va.va_dlength) &&
        decide ((va.va_doffset &&& (PAGE_SIZE - 1)) = 0)
      let r : VMState × Nat :=
        if can_reuse_page_as_is then VMPage_Duplicate vm1 vmp
        else
          let a := vmpage.AllocatePrivatePage vm1
            (vmpage.flag.Private ||| DeterminePageFlagsFromVMArea va)
          let copy_len := sub64 va.va_dlength read_off
          let copy_len := if copy_len > PAGE_SIZE then PAGE_SIZE else copy_len
          (VMPage_CopyExtended a.1 vmp a.2 copy_len, a.2)
      .ok (some (AssignPageToVirtualAddress r.1 va interval alignedVirt r.2))

/-- The body of the loop of `VMSpace::HandleFault` for an area that contains the
fault address. -/
def HandleFault_area (vm : VMState) (va : VMArea) (interval : VAInterval)
    (virt fault_flags : Nat) : Except VMPanic (VMState × VMArea × Result) :=
  let alignedVirt := virt &&& not64 (PAGE_SIZE - 1)
  match VMArea_LookupVAddrAndLock va alignedVirt with
  | some vp =>
    if (fault_flags &&& VM_FLAG_WRITE) ≠ 0 ∧ (va.va_flags &&& vmarea.flag.COW) ≠ 0 then
      if ((vm.page vp).vp_flags &&& vmpage.flag.ReadOnly) ≠ 0 then .error .cowing_ro_page
      else
        let r := PromotePage vm vp
        let a := AssignPageToVirtualAddress r.1 va interval alignedVirt r.2
        .ok (a.1, a.2, .Success)
    else .ok (vm, va, .Failure .EFAULT)
  | none =>
    if (va.va_doffset &&& (PAGE_SIZE - 1)) ≠ 0 then .error .doffset_not_page_aligned
    else
      let anonymous : Except VMPanic (VMState × VMArea × Result) :=
        let r := vmpage.AllocatePrivatePage vm vmpage.flag.Private
        let vm1 := VMPage_Zero r.1 r.2
        let a := AssignPageToVirtualAddress vm1 va interval alignedVirt r.2
        .ok (a.1, a.2, .Success)
      if va.va_dentry.isSome then
        match HandleDEntryBackedFault vm va interval alignedVirt with
        | .error e => .error e
        | .ok (some a) => .ok (a.1, a.2, .Success)
        | .ok none => anonymous
      else anonymous

/-- The loop of `VMSpace::HandleFault` over the areas of the map: the first area
that contains the fault address decides; without one the result is `EFAULT`. -/
def HandleFault_loop (vm : VMState) (virt fault_flags : Nat) :
    List (VAInterval × VMArea) → Except VMPanic (VMState × List (VAInterval × VMArea) × Result)
  | [] => .ok (vm, [], .Failure .EFAULT)
  | (interval, va) :: rest =>
    if ¬ (virt ≥ va.va_virt ∧ virt < wrap64 (va.va_virt + va.va_len)) then
      match HandleFault_loop vm virt fault_flags rest with
      | .error e => .error e
      | .ok (vm1, rest1, r) => .ok (vm1, (interval, va) :: rest1, r)
    else
      match HandleFault_area vm va interval virt fault_flags with
      | .error e => .error e
      | .ok (vm1, va1, r) => .ok (vm1, (interval, va1) :: rest, r)

/-- The method `VMSpace::HandleFault`. -/
def VMSpace.HandleFault (vm : VMState) (vs : VMSpace) (virt fault_flags : Nat) :
    Except VMPanic (VMState × VMSpace × Result) :=
  match HandleFault_loop vm virt fault_flags vs.vs_areamap with
  | .error e => .error e
  | .ok (vm1, areas, r) => .ok (vm1, VMSpace.mk areas, r)

/-- An example: no page allocated yet, the allocator at address 100, unwritten
memory reading `0xCC`, and the inode 7, a file of 6000 bytes without a zero
byte. -/
def demo_vm : VMState where
  page := fun _ => VMPage.mk 0 0 (fun _ => 0) 0
  next_page := 100
  inode := fun _ => INode.mk 6000 (fun i => i % 251 + 1)
  inode_page := fun _ _ => none
  fresh := fun _ => 0xCC

/-- An example: an anonymous read-write area of three pages at `0x10000`. -/
def demo_anon_area : VMArea :=
  VMArea.mk 0x10000 0x3000 (VM_FLAG_READ ||| VM_FLAG_WRITE ||| VM_FLAG_USER) none 0 0
    (fun _ => none)

/-- An example: a read-only area of three pages at `0x20000` backed by the first
6000 bytes of the inode 7. -/
def demo_file_area : VMArea :=
  VMArea.mk 0x20000 0x3000 (VM_FLAG_READ ||| VM_FLAG_USER) (some 7) 0 6000 (fun _ => none)

/-- An example: the space of the areas `demo_anon_area` and `demo_file_area`. -/
def demo_space : VMSpace where
  vs_areamap :=
    [(VAInterval.mk 0x10000 0x13000, demo_anon_area),
     (VAInterval.mk 0x20000 0x23000, demo_file_area)]

/-- The test of the loop of `VMSpace::HandleFault`: the fault address lies in the
area. -/
def InArea (va : VMArea) (virt : Nat) : Prop :=
  virt ≥ va.va_virt ∧ virt < wrap64 (va.va_virt + va.va_len)

instance (va : VMArea) (virt : Nat) : Decidable (InArea va virt) := by
  unfold InArea
  exact inferInstance

/-- The index of the page slot of a page-aligned address in an area. -/
def slot_index (va : VMArea) (alignedVirt : Nat) : Nat :=
  sub64 alignedVirt va.va_virt / PAGE_SIZE

/-- An example: the page 50 with the given flags, two references and the byte
`0xAA` at offset 0; the allocator is at address 100. -/
def cow_vm (flags : Nat) : VMState where
  page := fun n =>
    if n = 50 then VMPage.mk flags 2 (fun i => if i = 0 then 0xAA else 0) 0x10000
    else VMPage.mk 0 0 (fun _ => 0) 0
  next_page := 100
  inode := fun _ => INode.mk 0 (fun _ => 0)
  inode_page := fun _ _ => none
  fresh := fun _ => 0xCC

/-- An example: a read-write area of three pages at `0x10000` marked COW, with
the page 50 in its first slot. -/
def cow_area : VMArea :=
  VMArea.mk 0x10000 0x3000
    (VM_FLAG_READ ||| VM_FLAG_WRITE ||| VM_FLAG_USER ||| vmarea.flag.COW) none 0 0
    (fun i => if i = 0 then some 50 else none)

/-- An example: the space of the area `cow_area`. -/
def cow_space : VMSpace where
  vs_areamap := [(VAInterval.mk 0x10000 0x13000, cow_area)]

/-- The byte of a file at a position, zero after the end of the file. -/
def file_byte (i : INode) (pos : Nat) : Nat :=
  if pos < i.st_size then i.i_data pos else 0

/-! ## process.cpp: `process_clone` and the clone of a VM space -/

/-- The number of page slots of an area, `ceil(len / PAGE_SIZE)`. -/
def num_slots (va : VMArea) : Nat := (va.va_len + PAGE_SIZE - 1) / PAGE_SIZE

/-- One more reference on the page of each filled slot among the given slots. -/
def share_pages (va : VMArea) : List Nat → VMState → VMState
  | [], vm => vm
  | i :: rest, vm =>
    share_pages va rest
      (match va.va_pages i with
       | some vp => (VMPage_Duplicate vm vp).1
       | none => vm)

/-- The flags of an area after a clone: an area that is writable and has a
mapped page is marked COW. -/
def clone_flags (va : VMArea) : Nat :=
  if (va.va_flags &&& VM_FLAG_WRITE) ≠ 0 ∧
      (List.range (num_slots va)).any (fun i => (va.va_pages i).isSome) = true then
    va.va_flags ||| vmarea.flag.COW
  else va.va_flags

/-- The areas of a space that a clone mirrors: those not marked `no_clone`. -/
def cloned_areas (vs : VMSpace) : List (VAInterval × VMArea) :=
  vs.vs_areamap.filter (fun e => (e.2.va_flags &&& VM_FLAG_NO_CLONE) = 0)

/-- Modelled from the spec: the function `vmspace_clone`, which is not among the
sources.  For each area of the source that is not marked `no_clone` a mirror
area with the same base, length, flags and pages is added to the destination;
each mapped page is shared with one more reference; a writable area with a
mapped page is marked COW in both spaces (the areas of the spec carry no flag
for shared mappings, a writable area is taken as private).  The result is the
page state, the source space and the destination space. -/
def vmspace_clone (vm : VMState) (vs_source vs_dest : VMSpace) :
    VMState × VMSpace × VMSpace :=
  ((cloned_areas vs_source).foldl
      (fun s e => share_pages e.2 (List.range (num_slots e.2)) s) vm,
   VMSpace.mk (vs_source.vs_areamap.map (fun e =>
     if (e.2.va_flags &&& VM_FLAG_NO_CLONE) = 0 then
       (e.1, { e.2 with va_flags := clone_flags e.2 })
     else e)),
   VMSpace.mk (vs_dest.vs_areamap ++ (cloned_areas vs_source).map (fun e =>
     (e.1, { e.2 with va_flags := clone_flags e.2 }))))

/-- The part of `process_clone` that concerns memory: the new process gets the
clone of the VM space of `p`, made by `vmspace_clone` into the space `newp`
that `process_alloc_ex` created. -/
def process_clone (vm : VMState) (p_vmspace newp_vmspace : VMSpace) :
    VMState × VMSpace × VMSpace :=
  vmspace_clone vm p_vmspace newp_vmspace

/-- The page mapped at an address of a space: the slot of its page in the first
area that contains it. -/
def lookup_page (vs : VMSpace) (virt : Nat) : Option Nat :=
  match vs.vs_areamap.find? (fun e => decide (InArea e.2 virt)) with
  | some e => e.2.va_pages (slot_index e.2 (virt &&& not64 (PAGE_SIZE - 1)))
  | none => none

/-- Whether a store to an address goes through without a fault: its page is
mapped and the first area that contains it is writable and not COW. -/
def write_mapped (vs : VMSpace) (virt : Nat) : Bool :=
  match vs.vs_areamap.find? (fun e => decide (InArea e.2 virt)) with
  | some e =>
    (e.2.va_pages (slot_index e.2 (virt &&& not64 (PAGE_SIZE - 1)))).isSome &&
    decide ((e.2.va_flags &&& VM_FLAG_WRITE) ≠ 0) &&
    decide ((e.2.va_flags &&& vmarea.flag.COW) = 0)
  | none => false

/-- The byte at an address is put in the frame of the page mapped there. -/
def store_byte (vm : VMState) (vs : VMSpace) (virt b : Nat) : VMState :=
  match lookup_page vs virt with
  | some vp =>
    { vm with
      page := Function.update vm.page vp
        ({ vm.page vp with
           vp_page := Function.update (vm.page vp).vp_page (virt &&& (PAGE_SIZE - 1)) b }) }
  | none => vm

/-- Modelled from the spec: a store of a byte by a program, which is the
hardware and the trap handler, not among the sources.  A store to a page that
is mapped writable goes through; any other store faults, `HandleFault` runs
with the write flag, and on success the store is restarted and goes through. -/
def user_write (vm : VMState) (vs : VMSpace) (virt b : Nat) :
    Except VMPanic (VMState × VMSpace × Result) :=
  if write_mapped vs virt then .ok (store_byte vm vs virt b, vs, .Success)
  else
    match VMSpace.HandleFault vm vs virt VM_FLAG_WRITE with
    | .error e => .error e
    | .ok (vm1, vs1, .Success) => .ok (store_byte vm1 vs1 virt b, vs1, .Success)
    | .ok (vm1, vs1, .Failure e) => .ok (vm1, vs1, .Failure e)

/-- Modelled from the spec: a load of a byte by a program.  A load from a mapped
page reads the frame; any other load faults, `HandleFault` runs with the read
flag, and on success the load is restarted. -/
def user_read (vm : VMState) (vs : VMSpace) (virt : Nat) :
    Except VMPanic (VMState × VMSpace × Option Nat) :=
  match lookup_page vs virt with
  | some vp => .ok (vm, vs, some ((vm.page vp).vp_page (virt &&& (PAGE_SIZE - 1))))
  | none =>
    match VMSpace.HandleFault vm vs virt VM_FLAG_READ with
    | .error e => .error e
    | .ok (vm1, vs1, .Success) =>
      .ok (vm1, vs1,
        (lookup_page vs1 virt).map (fun vp => (vm1.page vp).vp_page (virt &&& (PAGE_SIZE - 1))))
    | .ok (vm1, vs1, .Failure _) => .ok (vm1, vs1, none)

/-- An example: the space of the one area `demo_anon_area`. -/
def anon_space : VMSpace where
  vs_areamap := [(VAInterval.mk 0x10000 0x13000, demo_anon_area)]

/-- An example: the pages after a program wrote `0xAA` at `0x10000` in
`anon_space`: the private page 100 holds that byte at offset 0. -/
def written_vm : VMState where
  page := fun n =>
    if n = 100 then
      VMPage.mk vmpage.flag.Private 1 (fun i => if i = 0 then 0xAA else 0) 0x10000
    else VMPage.mk 0 0 (fun _ => 0) 0
  next_page := 101
  inode := fun _ => INode.mk 0 (fun _ => 0)
  inode_page := fun _ _ => none
  fresh := fun _ => 0xCC

/-- An example: the area `demo_anon_area` with the page 100 in its first slot. -/
def written_area : VMArea :=
  { demo_anon_area with va_pages := fun i => if i = 0 then some 100 else none }


/-! ## process.cpp: arguments and environment -/

/-- The two buffers of `struct PROCINFO` that `process_set_args` and
`process_set_environment` fill, as bytes by index. -/
structure PROCINFO where
  /-- The buffer `pi_args`. -/
  pi_args : Nat → Nat
  /-- The buffer `pi_env`. -/
  pi_env : Nat → Nat

/-- The loop `for (i = 0; i < args_len; i++)` of `process_set_args` from index
`i` on, with `left = args_len - i` rounds to go: the first index at which the
byte and its successor are both zero. -/
def find_double_nul (args : Nat → Nat) : Nat → Nat → Option Nat
  | 0, _ => none
  | left + 1, i =>
    if args i = 0 ∧ args (i + 1) = 0 then some i
    else find_double_nul args left (i + 1)

/-- The call `memcpy(dst, src, n)`. -/
def memcpy (dst src : Nat → Nat) (n : Nat) : Nat → Nat :=
  fun j => if j < n then src j else dst j

/-- The function `process_set_args`; the constant `PROCINFO_ARGS_LENGTH`, whose
header is not among the sources, is a parameter. -/
def process_set_args (PROCINFO_ARGS_LENGTH : Nat) (p_info : PROCINFO) (args : Nat → Nat)
    (args_len : Nat) : Except errorcode PROCINFO :=
  let args_len :=
    if args_len ≥ PROCINFO_ARGS_LENGTH - 1 then PROCINFO_ARGS_LENGTH - 1 else args_len
  match find_double_nul args args_len 0 with
  | some i => .ok { p_info with pi_args := memcpy p_info.pi_args args (i + 2) }
  | none => .error .BAD_LENGTH

/-- The function `process_set_environment`; the constant `PROCINFO_ENV_LENGTH`,
whose header is not among the sources, is a parameter. -/
def process_set_environment (PROCINFO_ENV_LENGTH : Nat) (p_info : PROCINFO) (env : Nat → Nat)
    (env_len : Nat) : Except errorcode PROCINFO :=
  let env_len :=
    if env_len ≥ PROCINFO_ENV_LENGTH - 1 then PROCINFO_ENV_LENGTH - 1 else env_len
  match find_double_nul env env_len 0 with
  | some i => .ok { p_info with pi_env := memcpy p_info.pi_env env (i + 2) }
  | none => .error .BAD_LENGTH

/-! ## mm.cpp -/

/-- The assertion of `kmem_chunk_reserve`. -/
inductive MMPanic where
  | missing_case
  deriving DecidableEq, Repr

/-- The function `kmem_chunk_reserve`; the arrays `out_start` and `out_end` are
given by index and returned with their elements 0 and 1 written. -/
def kmem_chunk_reserve (chunk_start chunk_end reserved_start reserved_end : Nat)
    (out_start out_end : Nat → Nat) : Except MMPanic ((Nat → Nat) × (Nat → Nat)) :=
  let out_start := Function.update (Function.update out_start 0 chunk_start) 1 0
  let out_end := Function.update (Function.update out_end 0 chunk_end) 1 0
  if chunk_start ≥ reserved_end ∨ chunk_end ≤ reserved_start then .ok (out_start, out_end)
  else if chunk_start ≥ reserved_start ∧ chunk_end ≤ reserved_end then
    .ok (Function.update out_start 0 0, Function.update out_end 0 0)
  else if chunk_start < reserved_start ∧ chunk_end ≤ reserved_end then
    .ok (out_start, Function.update out_end 0 reserved_start)
  else if chunk_start ≥ reserved_start ∧ chunk_end > reserved_end then
    .ok (Function.update out_start 0 reserved_end, out_end)
  else if ¬ (chunk_start ≤ reserved_start ∧ chunk_end ≥ reserved_end) then
    .error .missing_case
  else
    .ok (Function.update out_start 1 reserved_end,
         Function.update (Function.update out_end 0 reserved_start) 1 chunk_end)

/-- An example: the state `demo_vm` with the inode 7 cut to 100 bytes, shorter
than the window of 6000 bytes that `demo_file_area` maps. -/
def short_file_vm : VMState :=
  { demo_vm with inode := fun _ => INode.mk 100 (fun i => i % 251 + 1) }

/-! ## A sleeper with a deadline -/

/-- The thread `t` sleeps with the deadline `d`: it is on the sleep queue and not
on the run queue, `THREAD_FLAG_SUSPENDED` and `THREAD_FLAG_TIMEOUT` are set and
`t_timeout` is `d`. -/
def SleepsUntil (s : Sched) (t : Nat) (d : tick_t) : Prop :=
  t ∈ s.sched_sleepqueue ∧ t ∉ s.sched_runqueue ∧
  THREAD_IS_SUSPENDED (s.thread t) = true ∧ THREAD_HAS_TIMEOUT (s.thread t) = true ∧
  (s.thread t).t_timeout = d

/-- An example on CPU 0 at tick 1004: thread 1 went to sleep for 50 ms at tick
1000 and has the deadline 1005; thread 2 is running, the idle thread 9 is
runnable. -/
def demo_asleep : Sched where
  thread := fun n =>
    if n = 1 then Thread.mk 0x0042 200 (-1) 1005
    else if n = 2 then Thread.mk 0x0001 100 (-1) 0
    else Thread.mk 0 255 (-1) 0
  sched_runqueue := [2, 9]
  sched_sleepqueue := [1]
  ticks := 1004
  curthread := fun _ => some 2
  idlethread := fun _ => some 9

/-- An example on CPU 0: the running thread 1 and the thread 2 have the same
priority 200, thread 1 comes first on the run queue; the idle thread 9 is
runnable and nothing sleeps. -/
def demo_peers : Sched where
  thread := fun n =>
    if n = 1 then Thread.mk 0x0001 200 (-1) 0
    else if n = 2 then Thread.mk 0 200 (-1) 0
    else Thread.mk 0 255 (-1) 0
  sched_runqueue := [1, 2, 9]
  sched_sleepqueue := []
  ticks := 5
  curthread := fun _ => some 1
  idlethread := fun _ => some 9

/-! ## time.cpp: dates -/

/-- The value of a C `int32_t` expression: the result is brought back into
`-2^31 .. 2^31 - 1` by two's complement wrap-around. -/
def to_i32 (x : Int) : Int := (x + 2 ^ 31) % 2 ^ 32 - 2 ^ 31

/-- The value of an expression of type `time_t`.  The type is declared in
`ananas/types.h`, which is not among the sources; it is taken as a signed
64-bit integer. -/
def to_time_t (x : Int) : Int := (x + 2 ^ 63) % 2 ^ 64 - 2 ^ 63

/-- The division of C on signed integers, which truncates towards zero. -/
def c_div (a b : Int) : Int := Int.tdiv a b

/-- The fields of the C `struct tm` that `time.cpp` reads, each a C `int`. -/
structure tm where
  /-- Seconds. -/
  tm_sec : Int
  /-- Minutes. -/
  tm_min : Int
  /-- Hours. -/
  tm_hour : Int
  /-- Day of the month. -/
  tm_mday : Int
  /-- Month. -/
  tm_mon : Int
  /-- Year. -/
  tm_year : Int
deriving DecidableEq, Repr

/-- The function `DateToSerialDayNumber` of `time.cpp`.  The `int32_t`
operations wrap at 32 bits, the `uint32_t` operations are taken modulo
`2^32`, and the result is converted to `time_t`. -/
def DateToSerialDayNumber (t : tm) : Int :=
  let d : Int := to_i32 t.tm_mday
  let m : Int := to_i32 t.tm_mon
  let y : Int := to_i32 t.tm_year
  let y : Int := if m ≤ 2 then to_i32 (y - 1) else y
  let era : Int := c_div (if y ≥ 0 then y else to_i32 (y - 399)) 400
  let yearOfEra : Nat := to_u32 (to_i32 (y - to_i32 (era * 400)))
  let dayOfYear : Nat :=
    to_u32 (to_i32 (to_i32 (c_div (to_i32 (to_i32 (153 * to_i32 (m + (if m > 2 then -3 else 9))) + 2)) 5
      + d) - 1))
  let dayOfEra : Nat :=
    (((yearOfEra * 365) % 2 ^ 32 + yearOfEra / 4 + (2 ^ 32 - yearOfEra / 100)) % 2 ^ 32
      + dayOfYear) % 2 ^ 32
  to_time_t (to_i32 (to_i32 (to_i32 (era * 146097) + to_i32 (dayOfEra : Int)) - 719468))

/-- The function `TMtoTS` of `time.cpp`: the products with the `int` fields
of `tm` are `int` products, the sums are sums of `time_t`. -/
def TMtoTS (t : tm) : timespec :=
  let tv_sec : Int := to_time_t (DateToSerialDayNumber t * (24 * 60 * 60))
  let tv_sec : Int := to_time_t (tv_sec + to_i32 (to_i32 t.tm_hour * (60 * 60)))
  let tv_sec : Int := to_time_t (tv_sec + to_i32 (to_i32 t.tm_min * 60))
  let tv_sec : Int := to_time_t (tv_sec + to_i32 t.tm_sec)
  { tv_sec := tv_sec, tv_nsec := 0 }

/-- The leap years of the proleptic Gregorian calendar: the years divisible
by 4, without those divisible by 100 that are not divisible by 400. -/
def is_leap_year (y : Int) : Bool :=
  decide ((y % 4 = 0 ∧ y % 100 ≠ 0) ∨ y % 400 = 0)

/-- The number of days of month `m` (1 to 12) of year `y` in the proleptic
Gregorian calendar. -/
def days_in_month (y m : Int) : Int :=
  if m = 2 then (if is_leap_year y then 29 else 28)
  else if m = 4 ∨ m = 6 ∨ m = 9 ∨ m = 11 then 30
  else 31

/-- A valid date of the proleptic Gregorian calendar: `tm_year` is the full
year, `tm_mon` is 1 to 12, `tm_mday` is a day of that month. -/
def valid_date (t : tm) : Prop :=
  1 ≤ t.tm_mon ∧ t.tm_mon ≤ 12 ∧ 1 ≤ t.tm_mday ∧ t.tm_mday ≤ days_in_month t.tm_year t.tm_mon

instance (t : tm) : Decidable (valid_date t) := by
  unfold valid_date; exact inferInstance

/-- The calendar day that follows a date. -/
def next_day (t : tm) : tm :=
  if t.tm_mday < days_in_month t.tm_year t.tm_mon then { t with tm_mday := t.tm_mday + 1 }
  else if t.tm_mon < 12 then { t with tm_mon := t.tm_mon + 1, tm_mday := 1 }
  else { t with tm_year := t.tm_year + 1, tm_mon := 1, tm_mday := 1 }

/-- The date 1970-01-01, at midnight. -/
def epoch_date : tm :=
  { tm_sec := 0, tm_min := 0, tm_hour := 0, tm_mday := 1, tm_mon := 1, tm_year := 1970 }

/-- The value of `DateToSerialDayNumber` without the machine arithmetic: the
formula over the integers, with the division that rounds down. -/
def serial_formula (y m d : Int) : Int :=
  let y1 : Int := if m ≤ 2 then y - 1 else y
  let era : Int := y1 / 400
  let yoe : Int := y1 - era * 400
  let doy : Int := (153 * (m + (if m > 2 then -3 else 9)) + 2) / 5 + d - 1
  era * 146097 + (yoe * 365 + yoe / 4 - yoe / 100 + doy) - 719468

/-! ## _PDCLIB_utf8.c: the UTF-8 codec -/

/-- The two fields of `mbstate_t` that the codec uses: `_StUC[0]`, the
conversion state, and `_St32[1]`, the character accumulated so far.  The type
is declared in a header that is not among the sources. -/
structure mbstate where
  /-- The macro `state`, `p_s->_StUC[0]`, an `unsigned char`. -/
  state : Nat
  /-- The macro `accum`, `p_s->_St32[1]`, a 32-bit value. -/
  accum : Nat
deriving DecidableEq, Repr

/-- The function `utf8_mbsinit`: the state is initial when `_StUC[0]` is 0. -/
def utf8_mbsinit (p_s : mbstate) : Bool := decide (p_s.state = 0)

/-- The decoder states. -/
def DecStart : Nat := 0
/-- Second byte of a two-byte sequence. -/
def Dec2B2 : Nat := 1
/-- Second byte of a three-byte sequence. -/
def Dec3B2 : Nat := 2
/-- Third byte of a three-byte sequence. -/
def Dec3B3 : Nat := 3
/-- Second byte of a four-byte sequence. -/
def Dec4B2 : Nat := 4
/-- Third byte of a four-byte sequence. -/
def Dec4B3 : Nat := 5
/-- Fourth byte of a four-byte sequence. -/
def Dec4B4 : Nat := 6

/-- The encoder states. -/
def EncStart : Nat := 0
/-- One continuation byte remains. -/
def Enc1R : Nat := 1
/-- Two continuation bytes remain. -/
def Enc2R : Nat := 2
/-- Three continuation bytes remain. -/
def Enc3R : Nat := 3

/-- What a conversion call leaves behind: its return value, and the values of
`*p_outbuf` (what was written, in order; `none` for a null output buffer),
`*p_outsz`, `*p_inbuf` with `*p_insz` (the input not yet consumed) and
`*p_s`. -/
structure Conversion where
  /-- The value returned. -/
  result : Bool
  /-- The elements written, when there is an output buffer. -/
  outbuf : Option (List Nat)
  /-- The output space left. -/
  outsz : Nat
  /-- The input left. -/
  inbuf : List Nat
  /-- The conversion state. -/
  s : mbstate
deriving DecidableEq, Repr

/-- The store `if(*p_outbuf) (*((*p_outbuf)++)) = c`. -/
def put (outbuf : Option (List Nat)) (c : Nat) : Option (List Nat) :=
  outbuf.map (fun l => l ++ [c])

/-- The macro `CHECK_CONTINUATION`, as the test it makes: `(c & 0xC0) != 0x80`
leaves the function with `false`. -/
def is_continuation (c : Nat) : Bool := decide (c &&& 0xC0 = 0x80)

/-- The function `utf8toc32`.  The input is the list of the `*p_insz` bytes at
`*p_inbuf`, each read as `unsigned char`; every round of the loop returns or
consumes one byte.  The `default` case of the switch is the failed assertion
"Invalid state", for which the function gives `none`. -/
def utf8toc32 (outbuf : Option (List Nat)) (outsz : Nat) (inbuf : List Nat) (p_s : mbstate) :
    Option Conversion :=
  match inbuf with
  | [] => some ⟨true, outbuf, outsz, [], p_s⟩
  | b :: rest =>
    if outsz = 0 then some ⟨true, outbuf, outsz, b :: rest, p_s⟩
    else
      let c : Nat := b % 256
      if p_s.state = DecStart then
        if c ≤ 0x7F then
          utf8toc32 (put outbuf c) (outsz - 1) rest { p_s with state := DecStart }
        else if c ≤ 0xDF then
          utf8toc32 outbuf outsz rest { state := Dec2B2, accum := ((c &&& 0x1F) <<< 6) % 2 ^ 32 }
        else if c ≤ 0xEF then
          utf8toc32 outbuf outsz rest { state := Dec3B2, accum := ((c &&& 0x0F) <<< 12) % 2 ^ 32 }
        else if c ≤ 0xF4 then
          utf8toc32 outbuf outsz rest { state := Dec4B2, accum := ((c &&& 0x07) <<< 18) % 2 ^ 32 }
        else some ⟨false, outbuf, outsz, b :: rest, p_s⟩
      else if p_s.state = Dec2B2 then
        if ¬ is_continuation c then some ⟨false, outbuf, outsz, b :: rest, p_s⟩
        else
          let c32 : Nat := p_s.accum ||| (c &&& 0x3F)
          if c32 ≤ 0x7F then some ⟨false, outbuf, outsz, b :: rest, p_s⟩
          else utf8toc32 (put outbuf c32) (outsz - 1) rest { p_s with state := DecStart }
      else if p_s.state = Dec3B2 then
        if ¬ is_continuation c then some ⟨false, outbuf, outsz, b :: rest, p_s⟩
        else
          utf8toc32 outbuf outsz rest
            { state := Dec3B3, accum := (p_s.accum ||| ((c &&& 0x3F) <<< 6)) % 2 ^ 32 }
      else if p_s.state = Dec3B3 then
        if ¬ is_continuation c then some ⟨false, outbuf, outsz, b :: rest, p_s⟩
        else
          let c32 : Nat := p_s.accum ||| (c &&& 0x3F)
          if c32 ≤ 0x07FF then some ⟨false, outbuf, outsz, b :: rest, p_s⟩
          else if c32 ≥ 0xD800 ∧ c32 ≤ 0xDFFF then some ⟨false, outbuf, outsz, b :: rest, p_s⟩
          else utf8toc32 (put outbuf c32) (outsz - 1) rest { p_s with state := DecStart }
      else if p_s.state = Dec4B2 then
        if ¬ is_continuation c then some ⟨false, outbuf, outsz, b :: rest, p_s⟩
        else
          utf8toc32 outbuf outsz rest
            { state := Dec4B3, accum := (p_s.accum ||| ((c &&& 0x3F) <<< 12)) % 2 ^ 32 }
      else if p_s.state = Dec4B3 then
        if ¬ is_continuation c then some ⟨false, outbuf, outsz, b :: rest, p_s⟩
        else
          utf8toc32 outbuf outsz rest
            { state := Dec4B4, accum := (p_s.accum ||| ((c &&& 0x3F) <<< 6)) % 2 ^ 32 }
      else if p_s.state = Dec4B4 then
        if ¬ is_continuation c then some ⟨false, outbuf, outsz, b :: rest, p_s⟩
        else
          let c32 : Nat := p_s.accum ||| (c &&& 0x3F)
          if c32 ≤ 0xFFFF then some ⟨false, outbuf, outsz, b :: rest, p_s⟩
          else if c32 > 0x10FFFF then some ⟨false, outbuf, outsz, b :: rest, p_s⟩
          else utf8toc32 (put outbuf c32) (outsz - 1) rest { p_s with state := DecStart }
      else none

/-- The function `c32toutf8`.  The loop runs while `*p_outsz` is not 0 and
every round returns or writes one byte, so the recursion is on `*p_outsz`.
The input is the list of the `*p_insz` values at `*p_inbuf`, each a 32-bit
`char32_t`; `outc` is an `unsigned char`.  The switch has no `default` case: in
any other state the round writes the initial `outc = 0`. -/
def c32toutf8 (outbuf : Option (List Nat)) (outsz : Nat) (inbuf : List Nat) (p_s : mbstate) :
    Conversion :=
  match outsz with
  | 0 => ⟨true, outbuf, 0, inbuf, p_s⟩
  | n + 1 =>
    if p_s.state = Enc3R then
      c32toutf8 (put outbuf ((0x80 ||| ((p_s.accum >>> 12) &&& 0x3F)) % 256)) n inbuf
        { p_s with state := Enc2R }
    else if p_s.state = Enc2R then
      c32toutf8 (put outbuf ((0x80 ||| ((p_s.accum >>> 6) &&& 0x3F)) % 256)) n inbuf
        { p_s with state := Enc1R }
    else if p_s.state = Enc1R then
      c32toutf8 (put outbuf ((0x80 ||| (p_s.accum &&& 0x3F)) % 256)) n inbuf
        { p_s with state := EncStart }
    else if p_s.state = EncStart then
      match inbuf with
      | [] => ⟨true, outbuf, n + 1, [], p_s⟩
      | a :: rest =>
        let accum : Nat := a % 2 ^ 32
        if accum ≤ 0x7F then
          c32toutf8 (put outbuf (accum % 256)) n rest { state := EncStart, accum := accum }
        else if accum ≤ 0x7FF then
          c32toutf8 (put outbuf ((0xC0 ||| (accum >>> 6)) % 256)) n rest
            { state := Enc1R, accum := accum }
        else if accum ≤ 0xFFFF then
          c32toutf8 (put outbuf ((0xE0 ||| (accum >>> 12)) % 256)) n rest
            { state := Enc2R, accum := accum }
        else if accum ≤ 0x10FFFF then
          c32toutf8 (put outbuf ((0xF0 ||| (accum >>> 18)) % 256)) n rest
            { state := Enc3R, accum := accum }
        else ⟨false, outbuf, n + 1, rest, { p_s with accum := accum }⟩
    else c32toutf8 (put outbuf 0) n inbuf p_s

/-- The initial conversion state, `_StUC[0] = 0`. -/
def mbstate_initial : mbstate := { state := 0, accum := 0 }

/-- The number of bytes of the UTF-8 form of a code point: 1, 2, 3 or 4 for
values up to 0x7F, 0x7FF, 0xFFFF and above. -/
def utf8_length (c : Nat) : Nat :=
  if c ≤ 0x7F then 1 else if c ≤ 0x7FF then 2 else if c ≤ 0xFFFF then 3 else 4

/-- The bytes that `c32toutf8` writes for the single code point `c`, from the
initial state into a buffer of four bytes. -/
def utf8_bytes (c : Nat) : List Nat :=
  ((c32toutf8 (some []) 4 [c] mbstate_initial).outbuf).getD []

/-- A Unicode scalar value: at most 0x10FFFF and not a surrogate. -/
def is_scalar (c : Nat) : Prop := c ≤ 0x10FFFF ∧ ¬ (0xD800 ≤ c ∧ c ≤ 0xDFFF)

instance (c : Nat) : Decidable (is_scalar c) := by
  unfold is_scalar; exact inferInstance

/-- The UTF-8 form of a code point, in arithmetic: the lead byte carries the
length and the top bits, every further byte is `0x80` plus six bits. -/
def utf8_form (c : Nat) : List Nat :=
  if c ≤ 0x7F then [c]
  else if c ≤ 0x7FF then [0xC0 + c / 64, 0x80 + c % 64]
  else if c ≤ 0xFFFF then [0xE0 + c / 4096, 0x80 + c / 64 % 64, 0x80 + c % 64]
  else [0xF0 + c / 262144, 0x80 + c / 4096 % 64, 0x80 + c / 64 % 64, 0x80 + c % 64]

/-- A well-formed UTF-8 string: the UTF-8 forms of a sequence of Unicode scalar
values, one after the other. -/
def utf8_well_formed (bytes : List Nat) : Prop :=
  ∃ cps : List Nat, (∀ c ∈ cps, is_scalar c) ∧ bytes = (cps.map utf8_form).flatten

/-- The bytes with which a well-formed UTF-8 string can start. -/
def utf8_well_formed_start (bytes : List Nat) : Prop :=
  ∃ rest : List Nat, utf8_well_formed (bytes ++ rest)

/-! ## Thread flags as bits -/

theorem flag_set_two_pow (f k : Nat) : flag_set f (2 ^ k) = f.testBit k := by
  have h : f &&& 2 ^ k = if f.testBit k then 2 ^ k else 0 := by
    apply Nat.eq_of_testBit_eq
    intro i
    by_cases hb : f.testBit k = true
    · simp only [hb, if_true, Nat.testBit_and, Nat.testBit_two_pow]
      by_cases hk : k = i
      · subst hk; simp [hb]
      · simp [hk]
    · simp only [hb, Nat.testBit_and, Nat.testBit_two_pow]
      by_cases hk : k = i
      · subst hk; simp [hb]
      · simp [hk]
  unfold flag_set
  rw [h]
  by_cases hb : f.testBit k = true
  · simp [hb]
  · simp [hb]

theorem is_active_eq (t : Thread) : THREAD_IS_ACTIVE t = t.t_flags.testBit 0 :=
  flag_set_two_pow t.t_flags 0
theorem is_suspended_eq (t : Thread) : THREAD_IS_SUSPENDED t = t.t_flags.testBit 1 :=
  flag_set_two_pow t.t_flags 1
theorem is_zombie_eq (t : Thread) : THREAD_IS_ZOMBIE t = t.t_flags.testBit 2 :=
  flag_set_two_pow t.t_flags 2
theorem has_timeout_eq (t : Thread) : THREAD_HAS_TIMEOUT t = t.t_flags.testBit 6 :=
  flag_set_two_pow t.t_flags 6

theorem testBit_or_two_pow (f k i : Nat) :
    (f ||| 2 ^ k).testBit i = (f.testBit i || decide (k = i)) := by
  rw [Nat.testBit_or, Nat.testBit_two_pow]

theorem testBit_and_not32 (f m i : Nat) :
    (f &&& not32 m).testBit i = (f.testBit i && (decide (i < 32) != m.testBit i)) := by
  unfold not32
  rw [Nat.testBit_and, Nat.testBit_xor, Nat.testBit_two_pow_sub_one]

theorem testBit_set_active (f i : Nat) :
    (f ||| THREAD_FLAG_ACTIVE).testBit i = (f.testBit i || decide (0 = i)) :=
  testBit_or_two_pow f 0 i
theorem testBit_set_suspended (f i : Nat) :
    (f ||| THREAD_FLAG_SUSPENDED).testBit i = (f.testBit i || decide (1 = i)) :=
  testBit_or_two_pow f 1 i
theorem testBit_set_zombie (f i : Nat) :
    (f ||| THREAD_FLAG_ZOMBIE).testBit i = (f.testBit i || decide (2 = i)) :=
  testBit_or_two_pow f 2 i
theorem testBit_set_timeout (f i : Nat) :
    (f ||| THREAD_FLAG_TIMEOUT).testBit i = (f.testBit i || decide (6 = i)) :=
  testBit_or_two_pow f 6 i

theorem testBit_clear_active (f i : Nat) :
    (f &&& not32 THREAD_FLAG_ACTIVE).testBit i
      = (f.testBit i && decide (i < 32) && !decide (0 = i)) := by
  rw [testBit_and_not32]
  show (_ && (_ != (2 ^ 0).testBit i)) = _
  rw [Nat.testBit_two_pow]
  by_cases h1 : i < 32 <;> by_cases h2 : 0 = i <;>
    first | (exfalso; omega) | simp [h1, h2]

theorem testBit_clear_reschedule (f i : Nat) :
    (f &&& not32 THREAD_FLAG_RESCHEDULE).testBit i
      = (f.testBit i && decide (i < 32) && !decide (3 = i)) := by
  rw [testBit_and_not32]
  show (_ && (_ != (2 ^ 3).testBit i)) = _
  rw [Nat.testBit_two_pow]
  by_cases h1 : i < 32 <;> by_cases h2 : 3 = i <;>
    first | (exfalso; omega) | simp [h1, h2]

theorem testBit_clear_suspended_timeout (f i : Nat) :
    (f &&& not32 (THREAD_FLAG_SUSPENDED ||| THREAD_FLAG_TIMEOUT)).testBit i
      = (f.testBit i && decide (i < 32) && !decide (1 = i) && !decide (6 = i)) := by
  rw [testBit_and_not32]
  show (_ && (_ != (2 ^ 1 ||| 2 ^ 6).testBit i)) = _
  rw [Nat.testBit_or, Nat.testBit_two_pow, Nat.testBit_two_pow]
  by_cases h1 : i < 32 <;> by_cases h2 : 1 = i <;> by_cases h3 : 6 = i <;>
    first | (exfalso; omega) | simp [h1, h2, h3]

theorem testBit_clear_timeout_suspended (f i : Nat) :
    (f &&& not32 (THREAD_FLAG_TIMEOUT ||| THREAD_FLAG_SUSPENDED)).testBit i
      = (f.testBit i && decide (i < 32) && !decide (1 = i) && !decide (6 = i)) :=
  testBit_clear_suspended_timeout f i

/-! ## The insertion loops -/

theorem runqueue_insert_split (th : Nat → Thread) (t : Nat) (q : List Nat) (hq : t ∉ q) :
    ∃ pre post, q = pre ++ post ∧ runqueue_insert th t q = .ok (pre ++ t :: post) ∧
      (∀ x ∈ pre, (th x).t_priority ≤ (th t).t_priority) ∧
      (∀ y, post.head? = some y → (th t).t_priority < (th y).t_priority) := by
  induction q with
  | nil => exact ⟨[], [], rfl, rfl, by simp, by simp⟩
  | cons sp rest ih =>
    have hne : sp ≠ t := fun h => hq (by simp [h])
    have hrest : t ∉ rest := fun h => hq (by simp [h])
    by_cases hp : (th sp).t_priority ≤ (th t).t_priority
    · obtain ⟨pre, post, h1, h2, h3, h4⟩ := ih hrest
      refine ⟨sp :: pre, post, by simp [h1], ?_, ?_, h4⟩
      · simp [runqueue_insert, hne, hp, h2]
      · intro x hx
        rcases List.mem_cons.1 hx with rfl | hx
        · exact hp
        · exact h3 x hx
    · refine ⟨[], sp :: rest, rfl, ?_, by simp, ?_⟩
      · simp [runqueue_insert, hne, hp]
      · intro y hy
        simp at hy
        subst hy
        omega

theorem head_lt_all (p : Nat → Int) (v : Int) (post : List Nat)
    (hs : post.Pairwise (fun a b => p a ≤ p b))
    (hh : ∀ y, post.head? = some y → v < p y) : ∀ y ∈ post, v < p y := by
  cases post with
  | nil => simp
  | cons a rest =>
    intro y hy
    have ha : v < p a := hh a rfl
    rcases List.mem_cons.1 hy with rfl | hy
    · exact ha
    · have := (List.pairwise_cons.1 hs).1 y hy
      omega

theorem pairwise_insert_mid (p : Nat → Int) (t : Nat) (pre post : List Nat)
    (hs : (pre ++ post).Pairwise (fun a b => p a ≤ p b))
    (h1 : ∀ x ∈ pre, p x ≤ p t) (h2 : ∀ y ∈ post, p t ≤ p y) :
    (pre ++ t :: post).Pairwise (fun a b => p a ≤ p b) := by
  rw [List.pairwise_append] at hs ⊢
  refine ⟨hs.1, List.pairwise_cons.2 ⟨h2, hs.2.1⟩, ?_⟩
  intro a ha b hb
  rcases List.mem_cons.1 hb with rfl | hb
  · exact h1 a ha
  · exact hs.2.2 a ha b hb

theorem sleepqueue_insert_split (th : Nat → Thread) (t : Nat) (q : List Nat) :
    ∃ pre post, q = pre ++ post ∧ sleepqueue_insert th t q = pre ++ t :: post ∧
      (∀ x ∈ pre, THREAD_HAS_TIMEOUT (th x) = true ∧ (th x).t_timeout < (th t).t_timeout) ∧
      (∀ y, post.head? = some y →
        ¬ (THREAD_HAS_TIMEOUT (th y) = true ∧ (th y).t_timeout < (th t).t_timeout)) := by
  induction q with
  | nil => exact ⟨[], [], rfl, rfl, by simp, by simp⟩
  | cons st rest ih =>
    by_cases hp : THREAD_HAS_TIMEOUT (th st) = true ∧ (th st).t_timeout < (th t).t_timeout
    · obtain ⟨pre, post, h1, h2, h3, h4⟩ := ih
      refine ⟨st :: pre, post, by simp [h1], ?_, ?_, h4⟩
      · simp [sleepqueue_insert, IsTickBefore, hp.1, hp.2, h2]
      · intro x hx
        rcases List.mem_cons.1 hx with rfl | hx
        · exact hp
        · exact h3 x hx
    · refine ⟨[], st :: rest, rfl, ?_, by simp, ?_⟩
      · have : (THREAD_HAS_TIMEOUT (th st) &&
            IsTickBefore (th st).t_timeout (th t).t_timeout) = false := by
          simp only [IsTickBefore, Bool.and_eq_false_iff, decide_eq_false_iff_not]
          by_cases h1 : THREAD_HAS_TIMEOUT (th st) = true
          · right; exact fun h2 => hp ⟨h1, h2⟩
          · left; simpa using h1
        simp [sleepqueue_insert, this]
      · intro y hy
        simp at hy
        subst hy
        exact hp

/-! ## Elementary facts about the operations -/

@[simp] theorem update_flags_runqueue (s : Sched) (t : Nat) (f : Nat → Nat) :
    (s.update_flags t f).sched_runqueue = s.sched_runqueue := rfl
@[simp] theorem update_flags_sleepqueue (s : Sched) (t : Nat) (f : Nat → Nat) :
    (s.update_flags t f).sched_sleepqueue = s.sched_sleepqueue := rfl
@[simp] theorem update_flags_ticks (s : Sched) (t : Nat) (f : Nat → Nat) :
    (s.update_flags t f).ticks = s.ticks := rfl
@[simp] theorem update_flags_curthread (s : Sched) (t : Nat) (f : Nat → Nat) :
    (s.update_flags t f).curthread = s.curthread := rfl
@[simp] theorem update_flags_idlethread (s : Sched) (t : Nat) (f : Nat → Nat) :
    (s.update_flags t f).idlethread = s.idlethread := rfl

@[simp] theorem update_flags_priority (s : Sched) (t : Nat) (f : Nat → Nat) (x : Nat) :
    ((s.update_flags t f).thread x).t_priority = (s.thread x).t_priority := by
  by_cases h : x = t
  · subst h; simp [Sched.update_flags]
  · simp [Sched.update_flags, Function.update_noteq h]

@[simp] theorem update_flags_affinity (s : Sched) (t : Nat) (f : Nat → Nat) (x : Nat) :
    ((s.update_flags t f).thread x).t_affinity = (s.thread x).t_affinity := by
  by_cases h : x = t
  · subst h; simp [Sched.update_flags]
  · simp [Sched.update_flags, Function.update_noteq h]

@[simp] theorem update_flags_timeout (s : Sched) (t : Nat) (f : Nat → Nat) (x : Nat) :
    ((s.update_flags t f).thread x).t_timeout = (s.thread x).t_timeout := by
  by_cases h : x = t
  · subst h; simp [Sched.update_flags]
  · simp [Sched.update_flags, Function.update_noteq h]

theorem update_flags_flags (s : Sched) (t : Nat) (f : Nat → Nat) (x : Nat) :
    ((s.update_flags t f).thread x).t_flags
      = if x = t then f (s.thread t).t_flags else (s.thread x).t_flags := by
  by_cases h : x = t
  · subst h; simp [Sched.update_flags]
  · simp [Sched.update_flags, Function.update_noteq h, h]

@[simp] theorem update_flags_flags_self (s : Sched) (t : Nat) (f : Nat → Nat) :
    ((s.update_flags t f).thread t).t_flags = f (s.thread t).t_flags := by
  simp [update_flags_flags]

theorem update_flags_flags_other (s : Sched) (t : Nat) (f : Nat → Nat) (x : Nat) (h : x ≠ t) :
    (s.update_flags t f).thread x = s.thread x := by
  simp [Sched.update_flags, Function.update_noteq h]

theorem count_ne_zero_iff (q : List Nat) (t : Nat) :
    (scheduler_is_on_queue q t != 0) = true ↔ t ∈ q := by
  unfold scheduler_is_on_queue
  rw [bne_iff_ne, Ne, List.count_eq_zero, not_not]

/-- What a successful `scheduler_add_thread_locked` did. -/
theorem add_thread_locked_ok (s s' : Sched) (t : Nat)
    (h : scheduler_add_thread_locked s t = .ok s') :
    t ∉ s.sched_runqueue ∧ t ∉ s.sched_sleepqueue ∧
    ∃ pre post, s.sched_runqueue = pre ++ post ∧
      s' = { s with sched_runqueue := pre ++ t :: post } ∧
      (∀ x ∈ pre, (s.thread x).t_priority ≤ (s.thread t).t_priority) ∧
      (∀ y, post.head? = some y → (s.thread t).t_priority < (s.thread y).t_priority) := by
  unfold scheduler_add_thread_locked at h
  by_cases h1 : t ∈ s.sched_runqueue
  · rw [if_pos ((count_ne_zero_iff _ _).2 h1)] at h; cases h
  · rw [if_neg (fun hh => h1 ((count_ne_zero_iff _ _).1 hh))] at h
    by_cases h2 : t ∈ s.sched_sleepqueue
    · rw [if_pos ((count_ne_zero_iff _ _).2 h2)] at h; cases h
    · rw [if_neg (fun hh => h2 ((count_ne_zero_iff _ _).1 hh))] at h
      obtain ⟨pre, post, e1, e2, e3, e4⟩ := runqueue_insert_split s.thread t _ h1
      rw [e2] at h
      simp only [Except.ok.injEq] at h
      exact ⟨h1, h2, pre, post, e1, h.symm, e3, e4⟩

/-- The function `scheduler_add_thread_locked` succeeds on a thread that is on
neither queue. -/
theorem add_thread_locked_succeeds (s : Sched) (t : Nat)
    (h1 : t ∉ s.sched_runqueue) (h2 : t ∉ s.sched_sleepqueue) :
    ∃ s', scheduler_add_thread_locked s t = .ok s' := by
  unfold scheduler_add_thread_locked
  rw [if_neg (fun hh => h1 ((count_ne_zero_iff _ _).1 hh)),
    if_neg (fun hh => h2 ((count_ne_zero_iff _ _).1 hh))]
  obtain ⟨pre, post, _, e2, _, _⟩ := runqueue_insert_split s.thread t _ h1
  rw [e2]
  exact ⟨_, rfl⟩

/-- What a successful `scheduler_add_thread` did. -/
theorem add_thread_ok (s s' : Sched) (t : Nat) (h : scheduler_add_thread s t = .ok s') :
    THREAD_IS_SUSPENDED (s.thread t) = true ∧ s.sched_runqueue.count t = 0 ∧
    s.sched_sleepqueue.count t = 1 ∧
    ∃ pre post, s.sched_runqueue = pre ++ post ∧
      s' = ({ s with sched_sleepqueue := s.sched_sleepqueue.erase t,
                     sched_runqueue := pre ++ t :: post } : Sched).update_flags t
              (fun f => f &&& not32 (THREAD_FLAG_SUSPENDED ||| THREAD_FLAG_TIMEOUT)) ∧
      (∀ x ∈ pre, (s.thread x).t_priority ≤ (s.thread t).t_priority) ∧
      (∀ y, post.head? = some y → (s.thread t).t_priority < (s.thread y).t_priority) := by
  unfold scheduler_add_thread at h
  split at h
  · cases h
  rename_i c1
  split at h
  · cases h
  rename_i c2
  split at h
  · cases h
  rename_i c3
  split at h
  · rename_i s2 hs2
    obtain ⟨_, _, pre, post, e1, e2, e3, e4⟩ := add_thread_locked_ok _ _ _ hs2
    simp only [Except.ok.injEq] at h
    refine ⟨by simpa using c1, by simpa [scheduler_is_on_queue] using c2,
      by simpa [scheduler_is_on_queue] using c3, pre, post, e1, ?_, e3, e4⟩
    rw [← h, e2]
  · cases h

/-- What a successful `scheduler_remove_thread` did. -/
theorem remove_thread_ok (s s' : Sched) (t : Nat) (h : scheduler_remove_thread s t = .ok s') :
    THREAD_IS_SUSPENDED (s.thread t) = false ∧ s.sched_sleepqueue.count t = 0 ∧
    s.sched_runqueue.count t = 1 ∧
    s' = ({ s with sched_runqueue := s.sched_runqueue.erase t,
                   sched_sleepqueue :=
                     if THREAD_HAS_TIMEOUT (s.thread t) then
                       sleepqueue_insert s.thread t s.sched_sleepqueue
                     else s.sched_sleepqueue ++ [t] } : Sched).update_flags t
            (fun f => f ||| THREAD_FLAG_SUSPENDED) := by
  unfold scheduler_remove_thread at h
  split at h
  · cases h
  rename_i c1
  split at h
  · cases h
  rename_i c2
  split at h
  · cases h
  rename_i c3
  simp only [Except.ok.injEq] at h
  refine ⟨by simpa using c1, by simpa [scheduler_is_on_queue] using c2,
    by simpa [scheduler_is_on_queue] using c3, ?_⟩
  rw [← h]
  by_cases ht : THREAD_HAS_TIMEOUT (s.thread t) = true <;> simp [ht]

/-- What a successful `scheduler_exit_thread_locked` did. -/
theorem exit_thread_locked_ok (s s' : Sched) (t : Nat)
    (h : scheduler_exit_thread_locked s t = .ok s') :
    s.sched_runqueue.count t = 1 ∧ s.sched_sleepqueue.count t = 0 ∧
    s' = ({ s with sched_runqueue := s.sched_runqueue.erase t } : Sched).update_flags t
            (fun f => f ||| THREAD_FLAG_ZOMBIE) := by
  unfold scheduler_exit_thread_locked at h
  split at h
  · cases h
  rename_i c1
  split at h
  · cases h
  rename_i c2
  simp only [Except.ok.injEq] at h
  exact ⟨by simpa [scheduler_is_on_queue] using c1,
    by simpa [scheduler_is_on_queue] using c2, h.symm⟩

/-- What a successful `scheduler_init_thread` did. -/
theorem init_thread_ok (s s' : Sched) (t : Nat) (h : scheduler_init_thread s t = .ok s') :
    t ∉ s.sched_runqueue ∧ t ∉ s.sched_sleepqueue ∧
    s' = ({ s with sched_sleepqueue := s.sched_sleepqueue ++ [t] } : Sched).update_flags t
            (fun f => f ||| THREAD_FLAG_SUSPENDED) := by
  unfold scheduler_init_thread at h
  simp only at h
  split at h
  · cases h
  rename_i c1
  split at h
  · cases h
  rename_i c2
  simp only [Except.ok.injEq] at h
  refine ⟨fun hh => c1 ((count_ne_zero_iff _ _).2 hh),
    fun hh => c2 ((count_ne_zero_iff _ _).2 hh), ?_⟩
  rw [← h]
  rfl

/-- What the timeout wake-up of `schedule` did when it succeeded: either nothing,
or the head of the sleep queue, armed and due, went to the run queue. -/
theorem schedule_wakeup_ok (s s' : Sched) (h : schedule_wakeup s = .ok s') :
    (s' = s ∧ ∀ t, s.sched_sleepqueue.head? = some t →
        ¬ (THREAD_HAS_TIMEOUT (s.thread t) = true ∧ (s.thread t).t_timeout ≤ s.ticks)) ∨
    (∃ t rest pre post, s.sched_sleepqueue = t :: rest ∧
      THREAD_HAS_TIMEOUT (s.thread t) = true ∧ (s.thread t).t_timeout ≤ s.ticks ∧
      t ∉ s.sched_runqueue ∧ t ∉ rest ∧ s.sched_runqueue = pre ++ post ∧
      s' = ({ s with sched_sleepqueue := rest,
                     sched_runqueue := pre ++ t :: post } : Sched).update_flags t
              (fun f => f &&& not32 (THREAD_FLAG_TIMEOUT ||| THREAD_FLAG_SUSPENDED)) ∧
      (∀ x ∈ pre, (s.thread x).t_priority ≤ (s.thread t).t_priority) ∧
      (∀ y, post.head? = some y → (s.thread t).t_priority < (s.thread y).t_priority)) := by
  unfold schedule_wakeup at h
  split at h
  · rename_i hq
    simp only [Except.ok.injEq] at h
    left
    exact ⟨h.symm, by simp [hq]⟩
  · rename_i t rest hq
    split at h
    · rename_i c
      simp only [Bool.and_eq_true, IsTickAfter, GetTicks, decide_eq_true_eq] at c
      split at h
      · rename_i s2 hs2
        obtain ⟨a1, a2, pre, post, e1, e2, e3, e4⟩ := add_thread_locked_ok _ _ _ hs2
        simp only [Except.ok.injEq] at h
        right
        simp only [hq, List.erase_cons_head] at a2 e2
        refine ⟨t, rest, pre, post, hq, c.1, c.2, a1, a2, e1, ?_, e3, e4⟩
        rw [← h, e2]
      · cases h
    · rename_i c
      simp only [Bool.and_eq_true, IsTickAfter, GetTicks, decide_eq_true_eq] at c
      simp only [Except.ok.injEq] at h
      left
      refine ⟨h.symm, ?_⟩
      intro t0 ht0
      simp [hq] at ht0
      subst ht0
      exact c

/-- The selection loop returns the first eligible entry of the run queue. -/
theorem schedule_pick_some (th : Nat → Thread) (cpuid : Int) (cur : Nat) (q : List Nat)
    (new : Nat) (h : schedule_pick th cpuid cur q = some new) :
    ∃ pre post, q = pre ++ new :: post ∧ (∀ x ∈ pre, ¬ Eligible th cpuid cur x) ∧
      Eligible th cpuid cur new := by
  induction q with
  | nil => simp [schedule_pick] at h
  | cons sp rest ih =>
    unfold schedule_pick at h
    split at h
    · rename_i c
      obtain ⟨pre, post, e1, e2, e3⟩ := ih h
      refine ⟨sp :: pre, post, by simp [e1], ?_, e3⟩
      intro x hx
      rcases List.mem_cons.1 hx with rfl | hx
      · intro he
        rcases he.1 with h1 | h1
        · exact c.1 h1
        · exact c.2 h1
      · exact e2 x hx
    · rename_i c
      split at h
      · rename_i c2
        obtain ⟨pre, post, e1, e2, e3⟩ := ih h
        refine ⟨sp :: pre, post, by simp [e1], ?_, e3⟩
        intro x hx
        rcases List.mem_cons.1 hx with rfl | hx
        · intro he
          rcases he.2 with h1 | h1
          · rw [c2.1] at h1; cases h1
          · exact c2.2 h1
        · exact e2 x hx
      · rename_i c2
        simp only [Option.some.injEq] at h
        subst h
        refine ⟨[], rest, rfl, by simp, ?_, ?_⟩
        · by_contra hn
          apply c
          constructor
          · intro h1; exact hn (Or.inl h1)
          · intro h1; exact hn (Or.inr h1)
        · by_contra hn
          apply c2
          constructor
          · by_contra h1
            exact hn (Or.inl (by simpa using h1))
          · intro h1; exact hn (Or.inr h1)

/-- The selection loop finds a thread whenever the run queue holds an eligible one. -/
theorem schedule_pick_exists (th : Nat → Thread) (cpuid : Int) (cur : Nat) (q : List Nat)
    (h : ∃ x ∈ q, Eligible th cpuid cur x) :
    ∃ new, schedule_pick th cpuid cur q = some new := by
  induction q with
  | nil => simp at h
  | cons sp rest ih =>
    unfold schedule_pick
    split
    · rename_i c
      obtain ⟨x, hx, he⟩ := h
      rcases List.mem_cons.1 hx with rfl | hx
      · exfalso
        rcases he.1 with h1 | h1
        · exact c.1 h1
        · exact c.2 h1
      · exact ih ⟨x, hx, he⟩
    · split
      · rename_i c2
        obtain ⟨x, hx, he⟩ := h
        rcases List.mem_cons.1 hx with rfl | hx
        · exfalso
          rcases he.2 with h1 | h1
          · rw [c2.1] at h1; cases h1
          · exact c2.2 h1
        · exact ih ⟨x, hx, he⟩
      · exact ⟨sp, rfl⟩

/-- What the re-queue step of `schedule` did when it succeeded. -/
theorem schedule_requeue_ok (s s' : Sched) (cur : Nat) (h : schedule_requeue s cur = .ok s') :
    (s' = s ∧ (THREAD_IS_SUSPENDED (s.thread cur) = true ∨
        THREAD_IS_ZOMBIE (s.thread cur) = true)) ∨
    (THREAD_IS_SUSPENDED (s.thread cur) = false ∧ THREAD_IS_ZOMBIE (s.thread cur) = false ∧
      cur ∉ s.sched_runqueue.erase cur ∧ cur ∉ s.sched_sleepqueue ∧
      ∃ pre post, s.sched_runqueue.erase cur = pre ++ post ∧
        s' = { s with sched_runqueue := pre ++ cur :: post } ∧
        (∀ x ∈ pre, (s.thread x).t_priority ≤ (s.thread cur).t_priority) ∧
        (∀ y, post.head? = some y → (s.thread cur).t_priority < (s.thread y).t_priority)) := by
  unfold schedule_requeue at h
  split at h
  · rename_i c
    simp only [Bool.and_eq_true, Bool.not_eq_true'] at c
    obtain ⟨a1, a2, pre, post, e1, e2, e3, e4⟩ := add_thread_locked_ok _ _ _ h
    right
    exact ⟨c.1, c.2, a1, a2, pre, post, e1, e2, e3, e4⟩
  · rename_i c
    simp only [Bool.and_eq_true, Bool.not_eq_true', not_and, Bool.not_eq_false] at c
    simp only [Except.ok.injEq] at h
    left
    refine ⟨h.symm, ?_⟩
    by_cases hs : THREAD_IS_SUSPENDED (s.thread cur) = true
    · exact Or.inl hs
    · exact Or.inr (c (by simpa using hs))

/-- What a successful `schedule` did up to the release of the scheduler lock. -/
theorem schedule_locked_ok (s s' : Sched) (cpuid : Int) (h : schedule_locked s cpuid = .ok s') :
    ∃ cur s1 new s2, s.curthread cpuid = some cur ∧
      schedule_wakeup (s.update_flags cur (fun f => f &&& not32 THREAD_FLAG_RESCHEDULE)) = .ok s1 ∧
      schedule_pick s1.thread cpuid cur s1.sched_runqueue = some new ∧
      THREAD_IS_SUSPENDED (s1.thread new) = false ∧
      (new = cur ∨ THREAD_IS_ACTIVE (s1.thread new) = false) ∧
      s1.sched_runqueue.count new = 1 ∧ s1.sched_sleepqueue.count new = 0 ∧
      schedule_requeue s1 cur = .ok s2 ∧
      s' = { (s2.update_flags new (fun f => f ||| THREAD_FLAG_ACTIVE)) with
              curthread := Function.update s2.curthread cpuid (some new) } := by
  unfold schedule_locked at h
  split at h
  · cases h
  rename_i cur hcur
  split at h
  · cases h
  rename_i s1 hs1
  split at h
  · cases h
  split at h
  · cases h
  rename_i new hnew
  split at h
  · cases h
  rename_i c1
  split at h
  · cases h
  rename_i c2
  split at h
  · cases h
  rename_i c3
  split at h
  · cases h
  rename_i c4
  split at h
  · cases h
  rename_i s2 hs2
  simp only [Except.ok.injEq] at h
  refine ⟨cur, s1, new, s2, hcur, hs1, hnew, by simpa using c1, ?_,
    by simpa [scheduler_is_on_queue] using c3, by simpa [scheduler_is_on_queue] using c4,
    hs2, h.symm⟩
  by_cases hn : new = cur
  · exact Or.inl hn
  · right
    by_contra ha
    exact c2 ⟨hn, by simpa using ha⟩

/-! ## C1: the run queue stays sorted -/

theorem pairwise_insert_split (p : Nat → Int) (t : Nat) (pre post : List Nat)
    (hs : (pre ++ post).Pairwise (fun a b => p a ≤ p b))
    (h3 : ∀ x ∈ pre, p x ≤ p t) (h4 : ∀ y, post.head? = some y → p t < p y) :
    (pre ++ t :: post).Pairwise (fun a b => p a ≤ p b) ∧ ∀ y ∈ post, p t < p y := by
  have h5 := head_lt_all p (p t) post (List.pairwise_append.1 hs).2.1 h4
  exact ⟨pairwise_insert_mid p t pre post hs h3 (fun y hy => le_of_lt (h5 y hy)), h5⟩

theorem RunqSorted_congr (s s' : Sched) (hq : s'.sched_runqueue = s.sched_runqueue)
    (hp : ∀ x, (s'.thread x).t_priority = (s.thread x).t_priority) (hs : RunqSorted s) :
    RunqSorted s' := by
  unfold RunqSorted at hs ⊢
  rw [hq]
  simpa [hp] using hs

theorem RunqSorted_update_flags (s : Sched) (t : Nat) (f : Nat → Nat) (hs : RunqSorted s) :
    RunqSorted (s.update_flags t f) :=
  RunqSorted_congr s _ rfl (fun x => update_flags_priority s t f x) hs

theorem erase_sorted (s : Sched) (t : Nat) (hs : RunqSorted s) :
    RunqSorted { s with sched_runqueue := s.sched_runqueue.erase t } := by
  unfold RunqSorted at hs ⊢
  exact hs.sublist (List.erase_sublist t s.sched_runqueue)

theorem add_thread_sorted (s s' : Sched) (t : Nat) (hs : RunqSorted s)
    (h : scheduler_add_thread s t = .ok s') : RunqSorted s' := by
  obtain ⟨_, _, _, pre, post, e1, e2, e3, e4⟩ := add_thread_ok s s' t h
  subst e2
  apply RunqSorted_update_flags
  unfold RunqSorted at hs ⊢
  rw [e1] at hs
  exact (pairwise_insert_split (fun x => (s.thread x).t_priority) t pre post hs e3 e4).1

theorem remove_thread_sorted (s s' : Sched) (t : Nat) (hs : RunqSorted s)
    (h : scheduler_remove_thread s t = .ok s') : RunqSorted s' := by
  obtain ⟨_, _, _, e⟩ := remove_thread_ok s s' t h
  subst e
  apply RunqSorted_update_flags
  exact RunqSorted_congr _ _ rfl (fun _ => rfl) (erase_sorted s t hs)

theorem exit_thread_locked_sorted (s s' : Sched) (t : Nat) (hs : RunqSorted s)
    (h : scheduler_exit_thread_locked s t = .ok s') : RunqSorted s' := by
  obtain ⟨_, _, e⟩ := exit_thread_locked_ok s s' t h
  subst e
  exact RunqSorted_update_flags _ _ _ (erase_sorted s t hs)

theorem schedule_wakeup_sorted (s s' : Sched) (hs : RunqSorted s)
    (h : schedule_wakeup s = .ok s') : RunqSorted s' := by
  rcases schedule_wakeup_ok s s' h with ⟨e, _⟩ | ⟨t, rest, pre, post, _, _, _, _, _, e1, e2, e3, e4⟩
  · rw [e]; exact hs
  · subst e2
    apply RunqSorted_update_flags
    unfold RunqSorted at hs ⊢
    rw [e1] at hs
    exact (pairwise_insert_split (fun x => (s.thread x).t_priority) t pre post hs e3 e4).1

theorem schedule_requeue_sorted (s s' : Sched) (cur : Nat) (hs : RunqSorted s)
    (h : schedule_requeue s cur = .ok s') : RunqSorted s' := by
  rcases schedule_requeue_ok s s' cur h with ⟨e, _⟩ | ⟨_, _, _, _, pre, post, e1, e2, e3, e4⟩
  · rw [e]; exact hs
  · subst e2
    have hs2 := erase_sorted s cur hs
    unfold RunqSorted at hs2 ⊢
    simp only at hs2 ⊢
    rw [e1] at hs2
    exact (pairwise_insert_split (fun x => (s.thread x).t_priority) cur pre post hs2 e3 e4).1

theorem schedule_locked_sorted (s s' : Sched) (cpuid : Int) (hs : RunqSorted s)
    (h : schedule_locked s cpuid = .ok s') : RunqSorted s' := by
  obtain ⟨cur, s1, new, s2, _, h1, _, _, _, _, _, h2, e⟩ := schedule_locked_ok s s' cpuid h
  subst e
  have a1 := schedule_wakeup_sorted _ _ (RunqSorted_update_flags s cur _ hs) h1
  have a2 := schedule_requeue_sorted _ _ cur a1 h2
  exact RunqSorted_congr (s2.update_flags new (fun f => f ||| THREAD_FLAG_ACTIVE)) _ rfl
    (fun _ => rfl) (RunqSorted_update_flags s2 new _ a2)

theorem schedule_sorted (s s' : Sched) (cpuid : Int) (hs : RunqSorted s)
    (h : schedule s cpuid = .ok s') : RunqSorted s' := by
  unfold schedule at h
  split at h
  · cases h
  split at h
  · cases h
  rename_i s3 hs3
  have a := schedule_locked_sorted s s3 cpuid hs hs3
  split at h
  · simp only [Except.ok.injEq] at h
    rw [← h]
    exact RunqSorted_update_flags _ _ _ a
  · simp only [Except.ok.injEq] at h
    rw [← h]
    exact a

/-- C1: run-queue order is an invariant of the scheduler.  From every state whose
run queue is sorted by non-decreasing `t_priority` value, each of
`scheduler_add_thread` (resume), `scheduler_remove_thread` (suspend),
`scheduler_exit_thread` and `schedule()`, the latter both at its lock release
and whole, and its timeout wake-up and its re-queue of the current thread taken
alone, leaves the run queue sorted by non-decreasing `t_priority` value. -/
theorem C1_runqueue_sorted_invariant (s : Sched) (hs : RunqSorted s) :
    (∀ t s', scheduler_add_thread s t = .ok s' → RunqSorted s') ∧
    (∀ t s', scheduler_remove_thread s t = .ok s' → RunqSorted s') ∧
    (∀ cpuid t s', scheduler_exit_thread s cpuid t = .ok s' → RunqSorted s') ∧
    (∀ cpuid s', schedule s cpuid = .ok s' → RunqSorted s') ∧
    (∀ cpuid s', schedule_locked s cpuid = .ok s' → RunqSorted s') ∧
    (∀ s', schedule_wakeup s = .ok s' → RunqSorted s') ∧
    (∀ cur s', schedule_requeue s cur = .ok s' → RunqSorted s') := by
  refine ⟨fun t s' h => add_thread_sorted s s' t hs h,
    fun t s' h => remove_thread_sorted s s' t hs h, ?_,
    fun cpuid s' h => schedule_sorted s s' cpuid hs h,
    fun cpuid s' h => schedule_locked_sorted s s' cpuid hs h,
    fun s' h => schedule_wakeup_sorted s s' hs h,
    fun cur s' h => schedule_requeue_sorted s s' cur hs h⟩
  intro cpuid t s' h
  unfold scheduler_exit_thread at h
  split at h
  · cases h
  rename_i s1 hs1
  exact schedule_sorted s1 s' cpuid (exit_thread_locked_sorted s s1 t hs hs1) h

/-- C1 at the example state: `schedule()` on CPU 0 wakes thread 3, re-queues the
running thread 1 and leaves the sorted queue 3, 2, 1, 9. -/
theorem C1_runqueue_sorted_invariant_witness :
    RunqSorted demo ∧
    ∃ s', schedule demo 0 = .ok s' ∧ s'.sched_runqueue = [3, 2, 1, 9] ∧ RunqSorted s' := by
  have hs : RunqSorted demo := by unfold RunqSorted; decide
  refine ⟨hs, ?_⟩
  have hok : succeeds (schedule demo 0) = true := by decide
  cases h : schedule demo 0 with
  | error e => rw [h] at hok; cases hok
  | ok s' =>
    refine ⟨s', rfl, ?_, (C1_runqueue_sorted_invariant demo hs).2.2.2.1 0 s' h⟩
    have hq : (match schedule demo 0 with
        | .ok x => decide (x.sched_runqueue = [3, 2, 1, 9]) | .error _ => false) = true := by
      decide
    rw [h] at hq
    simpa using hq

/-! ## Queue consistency is preserved -/

theorem QueuesOK_iff (s : Sched) : QueuesOK s ↔ ∀ x, ThreadOK s x := by
  unfold QueuesOK ThreadOK
  constructor
  · rintro ⟨h1, h2, h3⟩ x
    refine ⟨?_, fun h => h2 x (List.count_pos_iff.1 h), fun h => h3 x (List.count_pos_iff.1 h)⟩
    have := List.nodup_iff_count_le_one.1 h1 x
    simpa using this
  · intro h
    refine ⟨?_, fun t ht => (h t).2.1 (List.count_pos_iff.2 ht),
      fun t ht => (h t).2.2 (List.count_pos_iff.2 ht)⟩
    rw [List.nodup_iff_count_le_one]
    intro a
    simpa using (h a).1

theorem suspended_update_flags (s : Sched) (t : Nat) (f : Nat → Nat) (x : Nat) :
    THREAD_IS_SUSPENDED ((s.update_flags t f).thread x)
      = if x = t then (f (s.thread t).t_flags).testBit 1
        else THREAD_IS_SUSPENDED (s.thread x) := by
  rw [is_suspended_eq, update_flags_flags]
  split
  · rfl
  · rw [is_suspended_eq]

theorem zombie_update_flags (s : Sched) (t : Nat) (f : Nat → Nat) (x : Nat) :
    THREAD_IS_ZOMBIE ((s.update_flags t f).thread x)
      = if x = t then (f (s.thread t).t_flags).testBit 2
        else THREAD_IS_ZOMBIE (s.thread x) := by
  rw [is_zombie_eq, update_flags_flags]
  split
  · rfl
  · rw [is_zombie_eq]

theorem active_update_flags (s : Sched) (t : Nat) (f : Nat → Nat) (x : Nat) :
    THREAD_IS_ACTIVE ((s.update_flags t f).thread x)
      = if x = t then (f (s.thread t).t_flags).testBit 0
        else THREAD_IS_ACTIVE (s.thread x) := by
  rw [is_active_eq, update_flags_flags]
  split
  · rfl
  · rw [is_active_eq]

theorem timeout_update_flags (s : Sched) (t : Nat) (f : Nat → Nat) (x : Nat) :
    THREAD_HAS_TIMEOUT ((s.update_flags t f).thread x)
      = if x = t then (f (s.thread t).t_flags).testBit 6
        else THREAD_HAS_TIMEOUT (s.thread x) := by
  rw [has_timeout_eq, update_flags_flags]
  split
  · rfl
  · rw [has_timeout_eq]

theorem count_insert_mid (x t : Nat) (pre post : List Nat) :
    (pre ++ t :: post).count x = (pre ++ post).count x + if t = x then 1 else 0 := by
  simp only [List.count_append, List.count_cons, beq_iff_eq]
  omega

/-- Two states with the same queues and the same suspended and zombie flags are
consistent together. -/
theorem ThreadOK_congr (s s' : Sched) (x : Nat)
    (hr : s'.sched_runqueue = s.sched_runqueue) (hq : s'.sched_sleepqueue = s.sched_sleepqueue)
    (h1 : THREAD_IS_SUSPENDED (s'.thread x) = THREAD_IS_SUSPENDED (s.thread x))
    (h2 : THREAD_IS_ZOMBIE (s'.thread x) = THREAD_IS_ZOMBIE (s.thread x))
    (h : ThreadOK s x) : ThreadOK s' x := by
  unfold ThreadOK at h ⊢
  rw [hr, hq, h1, h2]
  exact h

theorem QueuesOK_congr (s s' : Sched)
    (hr : s'.sched_runqueue = s.sched_runqueue) (hq : s'.sched_sleepqueue = s.sched_sleepqueue)
    (h1 : ∀ x, THREAD_IS_SUSPENDED (s'.thread x) = THREAD_IS_SUSPENDED (s.thread x))
    (h2 : ∀ x, THREAD_IS_ZOMBIE (s'.thread x) = THREAD_IS_ZOMBIE (s.thread x))
    (h : QueuesOK s) : QueuesOK s' := by
  rw [QueuesOK_iff] at h ⊢
  exact fun x => ThreadOK_congr s s' x hr hq (h1 x) (h2 x) (h x)

theorem QueuesOK_clear_reschedule (s : Sched) (t : Nat) (h : QueuesOK s) :
    QueuesOK (s.update_flags t (fun f => f &&& not32 THREAD_FLAG_RESCHEDULE)) := by
  refine QueuesOK_congr s _ rfl rfl ?_ ?_ h
  · intro x
    rw [suspended_update_flags]
    split
    · rename_i hx; subst hx
      rw [testBit_clear_reschedule, is_suspended_eq]; simp
    · rfl
  · intro x
    rw [zombie_update_flags]
    split
    · rename_i hx; subst hx
      rw [testBit_clear_reschedule, is_zombie_eq]; simp
    · rfl

/-- Moving a consistent sleeper `t` to the run queue and clearing its suspended
and timeout flags keeps the queues consistent. -/
theorem QueuesOK_wake (s : Sched) (t : Nat) (pre post : List Nat) (h : QueuesOK s)
    (e1 : s.sched_runqueue = pre ++ post) (hs : 0 < s.sched_sleepqueue.count t) :
    QueuesOK (({ s with sched_sleepqueue := s.sched_sleepqueue.erase t,
                        sched_runqueue := pre ++ t :: post } : Sched).update_flags t
        (fun f => f &&& not32 (THREAD_FLAG_SUSPENDED ||| THREAD_FLAG_TIMEOUT))) := by
  rw [QueuesOK_iff] at h ⊢
  intro x
  have hx := h x
  unfold ThreadOK at hx ⊢
  simp only [update_flags_runqueue, update_flags_sleepqueue, suspended_update_flags,
    zombie_update_flags, count_insert_mid, ← e1, List.count_erase, beq_iff_eq,
    testBit_clear_suspended_timeout]
  by_cases hxt : x = t
  · subst hxt
    have hz := (hx.2.2 hs).2
    rw [is_zombie_eq] at hz
    simp only [if_true, hz]
    refine ⟨by omega, fun _ => by simp, fun h0 => by omega⟩
  · have hxt2 : ¬ t = x := fun e => hxt e.symm
    simp only [hxt, hxt2, if_false]
    simpa using hx

theorem ZombieIfOff_congr (s s' : Sched) (x : Nat)
    (hr : s'.sched_runqueue = s.sched_runqueue) (hq : s'.sched_sleepqueue = s.sched_sleepqueue)
    (h2 : THREAD_IS_ZOMBIE (s'.thread x) = THREAD_IS_ZOMBIE (s.thread x))
    (h : ZombieIfOff s x) : ZombieIfOff s' x := by
  unfold ZombieIfOff at h ⊢
  rw [hr, hq, h2]
  exact h

theorem ZombieIfOff_wake (s : Sched) (t x : Nat) (pre post : List Nat)
    (e1 : s.sched_runqueue = pre ++ post) (h : ZombieIfOff s x) :
    ZombieIfOff (({ s with sched_sleepqueue := s.sched_sleepqueue.erase t,
                           sched_runqueue := pre ++ t :: post } : Sched).update_flags t
        (fun f => f &&& not32 (THREAD_FLAG_SUSPENDED ||| THREAD_FLAG_TIMEOUT))) x := by
  unfold ZombieIfOff at h ⊢
  simp only [update_flags_runqueue, update_flags_sleepqueue, zombie_update_flags,
    count_insert_mid, ← e1, List.count_erase, beq_iff_eq]
  by_cases hxt : x = t
  · subst hxt
    simp
  · have hxt2 : ¬ t = x := fun e => hxt e.symm
    simp only [hxt, hxt2, if_false]
    simpa using h

theorem flags_or_comm :
    (THREAD_FLAG_TIMEOUT ||| THREAD_FLAG_SUSPENDED)
      = (THREAD_FLAG_SUSPENDED ||| THREAD_FLAG_TIMEOUT) := by decide

theorem count_sleepqueue_insert (th : Nat → Thread) (t x : Nat) (q : List Nat) :
    (sleepqueue_insert th t q).count x = q.count x + if t = x then 1 else 0 := by
  obtain ⟨pre, post, e1, e2, _, _⟩ := sleepqueue_insert_split th t q
  rw [e2, e1, count_insert_mid]

/-- The sleep queue after `scheduler_remove_thread` holds `t` once more. -/
theorem count_sleepqueue_after_remove (s : Sched) (t x : Nat) :
    (if THREAD_HAS_TIMEOUT (s.thread t) = true then
        sleepqueue_insert s.thread t s.sched_sleepqueue
      else s.sched_sleepqueue ++ [t]).count x
      = s.sched_sleepqueue.count x + if t = x then 1 else 0 := by
  split
  · exact count_sleepqueue_insert _ _ _ _
  · simp [List.count_append, List.count_cons]

theorem ThreadOK_suspend (s : Sched) (t x : Nat) (h : ThreadOK s x)
    (hr : s.sched_runqueue.count t = 1) :
    ThreadOK (Sched.update_flags
      { s with
        sched_runqueue := s.sched_runqueue.erase t
        sched_sleepqueue :=
          if THREAD_HAS_TIMEOUT (s.thread t) then
            sleepqueue_insert s.thread t s.sched_sleepqueue
          else s.sched_sleepqueue ++ [t] }
      t (fun f => f ||| THREAD_FLAG_SUSPENDED)) x := by
  unfold ThreadOK at h ⊢
  simp only [update_flags_runqueue, update_flags_sleepqueue, suspended_update_flags,
    zombie_update_flags, count_sleepqueue_after_remove, List.count_erase, beq_iff_eq,
    testBit_set_suspended]
  by_cases hxt : x = t
  · subst hxt
    have hz := (h.2.1 (by omega)).2
    rw [is_zombie_eq] at hz
    simp only [if_true, hz]
    refine ⟨by omega, fun h0 => by omega, fun _ => by simp⟩
  · have hxt2 : ¬ t = x := fun e => hxt e.symm
    simp only [hxt, hxt2, if_false]
    simpa using h

theorem ZombieIfOff_suspend (s : Sched) (t x : Nat) (h : ZombieIfOff s x) :
    ZombieIfOff (Sched.update_flags
      { s with
        sched_runqueue := s.sched_runqueue.erase t
        sched_sleepqueue :=
          if THREAD_HAS_TIMEOUT (s.thread t) then
            sleepqueue_insert s.thread t s.sched_sleepqueue
          else s.sched_sleepqueue ++ [t] }
      t (fun f => f ||| THREAD_FLAG_SUSPENDED)) x := by
  unfold ZombieIfOff at h ⊢
  simp only [update_flags_runqueue, update_flags_sleepqueue,
    zombie_update_flags, count_sleepqueue_after_remove, List.count_erase, beq_iff_eq]
  by_cases hxt : x = t
  · subst hxt
    simp
  · have hxt2 : ¬ t = x := fun e => hxt e.symm
    simp only [hxt, hxt2, if_false]
    simpa using h

theorem ThreadOK_exit (s : Sched) (t x : Nat) (h : ThreadOK s x)
    (hr : s.sched_runqueue.count t = 1) :
    ThreadOK (({ s with sched_runqueue := s.sched_runqueue.erase t } : Sched).update_flags t
            (fun f => f ||| THREAD_FLAG_ZOMBIE)) x := by
  unfold ThreadOK at h ⊢
  simp only [update_flags_runqueue, update_flags_sleepqueue, suspended_update_flags,
    zombie_update_flags, List.count_erase, beq_iff_eq]
  by_cases hxt : x = t
  · subst hxt
    simp only [if_true]
    refine ⟨by omega, fun h0 => by omega, fun h0 => by omega⟩
  · have hxt2 : ¬ t = x := fun e => hxt e.symm
    simp only [hxt, hxt2, if_false]
    simpa using h

theorem ZombieIfOff_exit (s : Sched) (t x : Nat) (h : ZombieIfOff s x ∨ x = t) :
    ZombieIfOff (({ s with sched_runqueue := s.sched_runqueue.erase t } : Sched).update_flags t
            (fun f => f ||| THREAD_FLAG_ZOMBIE)) x := by
  unfold ZombieIfOff at h ⊢
  simp only [update_flags_runqueue, update_flags_sleepqueue,
    zombie_update_flags, List.count_erase, beq_iff_eq]
  by_cases hxt : x = t
  · subst hxt
    simp only [if_true, testBit_set_zombie]
    simp
  · have hxt2 : ¬ t = x := fun e => hxt e.symm
    simp only [hxt, hxt2, if_false]
    rcases h with h | h
    · simpa using h
    · exact absurd h hxt

theorem ThreadOK_init (s : Sched) (t x : Nat) (h : ThreadOK s x)
    (hr : t ∉ s.sched_runqueue) (hq : t ∉ s.sched_sleepqueue)
    (hz : THREAD_IS_ZOMBIE (s.thread t) = false) :
    ThreadOK (({ s with sched_sleepqueue := s.sched_sleepqueue ++ [t] } : Sched).update_flags t
            (fun f => f ||| THREAD_FLAG_SUSPENDED)) x := by
  unfold ThreadOK at h ⊢
  simp only [update_flags_runqueue, update_flags_sleepqueue, suspended_update_flags,
    zombie_update_flags, List.count_append, List.count_cons, List.count_nil, beq_iff_eq,
    testBit_set_suspended]
  by_cases hxt : x = t
  · subst hxt
    rw [is_zombie_eq] at hz
    have c1 := List.count_eq_zero.2 hr
    have c2 := List.count_eq_zero.2 hq
    simp only [if_true, hz, c1, c2]
    simp
  · have hxt2 : ¬ t = x := fun e => hxt e.symm
    simp only [hxt, hxt2, if_false]
    simpa using h

theorem ZombieIfOff_init (s : Sched) (t x : Nat) (h : ZombieIfOff s x ∨ x = t) :
    ZombieIfOff (({ s with sched_sleepqueue := s.sched_sleepqueue ++ [t] } : Sched).update_flags t
            (fun f => f ||| THREAD_FLAG_SUSPENDED)) x := by
  unfold ZombieIfOff at h ⊢
  simp only [update_flags_runqueue, update_flags_sleepqueue,
    zombie_update_flags, List.count_append, List.count_cons, List.count_nil, beq_iff_eq]
  by_cases hxt : x = t
  · subst hxt
    simp
  · have hxt2 : ¬ t = x := fun e => hxt e.symm
    simp only [hxt, hxt2, if_false]
    rcases h with h | h
    · simpa using h
    · exact absurd h hxt

theorem ThreadOK_requeue (s : Sched) (cur x : Nat) (pre post : List Nat) (h : ThreadOK s x)
    (e1 : s.sched_runqueue.erase cur = pre ++ post)
    (h1 : cur ∉ s.sched_runqueue.erase cur) (h2 : cur ∉ s.sched_sleepqueue)
    (hs : THREAD_IS_SUSPENDED (s.thread cur) = false)
    (hz : THREAD_IS_ZOMBIE (s.thread cur) = false) :
    ThreadOK ({ s with sched_runqueue := pre ++ cur :: post } : Sched) x := by
  unfold ThreadOK at h ⊢
  simp only [count_insert_mid, ← e1, List.count_erase, beq_iff_eq]
  by_cases hxt : x = cur
  · subst hxt
    have c1 := List.count_eq_zero.2 h1
    have c2 := List.count_eq_zero.2 h2
    rw [List.count_erase_self] at c1
    simp only [if_true, c2, hs, hz]
    refine ⟨by omega, fun _ => by simp, fun h0 => by omega⟩
  · have hxt2 : ¬ cur = x := fun e => hxt e.symm
    simp only [hxt2, if_false]
    simpa using h

theorem ZombieIfOff_requeue (s : Sched) (cur x : Nat) (pre post : List Nat)
    (h : ZombieIfOff s x) (e1 : s.sched_runqueue.erase cur = pre ++ post) :
    ZombieIfOff ({ s with sched_runqueue := pre ++ cur :: post } : Sched) x := by
  unfold ZombieIfOff at h ⊢
  simp only [count_insert_mid, ← e1, List.count_erase, beq_iff_eq]
  by_cases hxt : x = cur
  · subst hxt
    simp
  · have hxt2 : ¬ cur = x := fun e => hxt e.symm
    simp only [hxt2, if_false]
    simpa using h

/-! ## C2: queue membership -/

theorem SchedInv_pointwise (K : List Nat) (s s' : Sched) (h : SchedInv K s)
    (h1 : ∀ x, ThreadOK s x → ThreadOK s' x)
    (h2 : ∀ x, ZombieIfOff s x → ZombieIfOff s' x) : SchedInv K s' := by
  refine ⟨(QueuesOK_iff s').2 (fun x => h1 x ((QueuesOK_iff s).1 h.1 x)), ?_⟩
  exact fun t ht => h2 t (h.2 t ht)

theorem SchedInv_flags (K : List Nat) (s s' : Sched)
    (hr : s'.sched_runqueue = s.sched_runqueue) (hq : s'.sched_sleepqueue = s.sched_sleepqueue)
    (h1 : ∀ x, THREAD_IS_SUSPENDED (s'.thread x) = THREAD_IS_SUSPENDED (s.thread x))
    (h2 : ∀ x, THREAD_IS_ZOMBIE (s'.thread x) = THREAD_IS_ZOMBIE (s.thread x))
    (h : SchedInv K s) : SchedInv K s' :=
  SchedInv_pointwise K s s' h
    (fun x hx => ThreadOK_congr s s' x hr hq (h1 x) (h2 x) hx)
    (fun x hx => ZombieIfOff_congr s s' x hr hq (h2 x) hx)

theorem SchedInv_update_flags (K : List Nat) (s : Sched) (t : Nat) (f : Nat → Nat)
    (hf1 : ∀ v : Nat, (f v).testBit 1 = v.testBit 1)
    (hf2 : ∀ v : Nat, (f v).testBit 2 = v.testBit 2)
    (h : SchedInv K s) : SchedInv K (s.update_flags t f) := by
  refine SchedInv_flags K s _ rfl rfl ?_ ?_ h
  · intro x
    rw [suspended_update_flags]
    split
    · rename_i hx; subst hx; rw [hf1, is_suspended_eq]
    · rfl
  · intro x
    rw [zombie_update_flags]
    split
    · rename_i hx; subst hx; rw [hf2, is_zombie_eq]
    · rfl

theorem add_thread_inv (K : List Nat) (s s' : Sched) (t : Nat) (h : SchedInv K s)
    (hr : scheduler_add_thread s t = .ok s') : SchedInv K s' := by
  obtain ⟨_, _, c1, pre, post, e1, e2, _, _⟩ := add_thread_ok s s' t hr
  subst e2
  exact ⟨QueuesOK_wake s t pre post h.1 e1 (by omega),
    fun x hx => ZombieIfOff_wake s t x pre post e1 (h.2 x hx)⟩

theorem remove_thread_inv (K : List Nat) (s s' : Sched) (t : Nat) (h : SchedInv K s)
    (hr : scheduler_remove_thread s t = .ok s') : SchedInv K s' := by
  obtain ⟨_, _, c1, e⟩ := remove_thread_ok s s' t hr
  subst e
  exact SchedInv_pointwise K s _ h (fun x hx => ThreadOK_suspend s t x hx c1)
    (fun x hx => ZombieIfOff_suspend s t x hx)

theorem exit_thread_locked_inv (K : List Nat) (s s' : Sched) (t : Nat) (h : SchedInv K s)
    (hr : scheduler_exit_thread_locked s t = .ok s') : SchedInv K s' := by
  obtain ⟨c1, _, e⟩ := exit_thread_locked_ok s s' t hr
  subst e
  exact SchedInv_pointwise K s _ h (fun x hx => ThreadOK_exit s t x hx c1)
    (fun x hx => ZombieIfOff_exit s t x (Or.inl hx))

theorem schedule_wakeup_inv (K : List Nat) (s s' : Sched) (h : SchedInv K s)
    (hr : schedule_wakeup s = .ok s') : SchedInv K s' := by
  rcases schedule_wakeup_ok s s' hr with ⟨e, _⟩ | ⟨t, rest, pre, post, hq, _, _, _, _, e1, e2, _, _⟩
  · rw [e]; exact h
  · have e3 : s' = Sched.update_flags
        { s with
          sched_sleepqueue := s.sched_sleepqueue.erase t
          sched_runqueue := pre ++ t :: post }
        t (fun f => f &&& not32 (THREAD_FLAG_SUSPENDED ||| THREAD_FLAG_TIMEOUT)) := by
      rw [e2, hq, List.erase_cons_head, flags_or_comm]
    rw [e3]
    exact ⟨QueuesOK_wake s t pre post h.1 e1 (by simp [hq]),
      fun x hx => ZombieIfOff_wake s t x pre post e1 (h.2 x hx)⟩

theorem schedule_requeue_inv (K : List Nat) (s s' : Sched) (cur : Nat) (h : SchedInv K s)
    (hr : schedule_requeue s cur = .ok s') : SchedInv K s' := by
  rcases schedule_requeue_ok s s' cur hr with ⟨e, _⟩ | ⟨hs, hz, a1, a2, pre, post, e1, e2, _, _⟩
  · rw [e]; exact h
  · subst e2
    exact SchedInv_pointwise K s _ h
      (fun x hx => ThreadOK_requeue s cur x pre post hx e1 a1 a2 hs hz)
      (fun x hx => ZombieIfOff_requeue s cur x pre post hx e1)

theorem schedule_locked_inv (K : List Nat) (s s' : Sched) (cpuid : Int) (h : SchedInv K s)
    (hr : schedule_locked s cpuid = .ok s') : SchedInv K s' := by
  obtain ⟨cur, s1, new, s2, _, h1, _, _, _, _, _, h2, e⟩ := schedule_locked_ok s s' cpuid hr
  subst e
  have a0 : SchedInv K (s.update_flags cur (fun f => f &&& not32 THREAD_FLAG_RESCHEDULE)) :=
    SchedInv_update_flags K s cur _ (fun v => by rw [testBit_clear_reschedule]; simp)
      (fun v => by rw [testBit_clear_reschedule]; simp) h
  have a1 := schedule_wakeup_inv K _ _ a0 h1
  have a2 := schedule_requeue_inv K _ _ cur a1 h2
  have a3 : SchedInv K (s2.update_flags new (fun f => f ||| THREAD_FLAG_ACTIVE)) :=
    SchedInv_update_flags K s2 new _ (fun v => by rw [testBit_set_active]; simp)
      (fun v => by rw [testBit_set_active]; simp) a2
  exact SchedInv_flags K (s2.update_flags new (fun f => f ||| THREAD_FLAG_ACTIVE)) _ rfl rfl
    (fun _ => rfl) (fun _ => rfl) a3

theorem schedule_inv (K : List Nat) (s s' : Sched) (cpuid : Int) (h : SchedInv K s)
    (hr : schedule s cpuid = .ok s') : SchedInv K s' := by
  unfold schedule at hr
  split at hr
  · cases hr
  split at hr
  · cases hr
  rename_i s3 hs3
  have a := schedule_locked_inv K s s3 cpuid h hs3
  split at hr
  · simp only [Except.ok.injEq] at hr
    rw [← hr]
    exact SchedInv_update_flags K s3 _ _ (fun v => by rw [testBit_clear_active]; simp)
      (fun v => by rw [testBit_clear_active]; simp) a
  · simp only [Except.ok.injEq] at hr
    rw [← hr]
    exact a

theorem exit_thread_inv (K : List Nat) (s s' : Sched) (cpuid : Int) (t : Nat)
    (h : SchedInv K s) (hr : scheduler_exit_thread s cpuid t = .ok s') : SchedInv K s' := by
  unfold scheduler_exit_thread at hr
  split at hr
  · cases hr
  rename_i s1 hs1
  exact schedule_inv K s1 s' cpuid (exit_thread_locked_inv K s s1 t h hs1) hr

/-- The function `scheduler_init_thread` makes `t` known and keeps the invariant
when the new thread does not carry the zombie flag. -/
theorem init_thread_pointwise (K : List Nat) (s s' : Sched) (t : Nat)
    (hq : ∀ x, ThreadOK s x) (hk : ∀ x ∈ K, x ≠ t → ZombieIfOff s x)
    (hz : THREAD_IS_ZOMBIE (s.thread t) = false)
    (hr : scheduler_init_thread s t = .ok s') : SchedInv (t :: K) s' := by
  obtain ⟨a1, a2, e⟩ := init_thread_ok s s' t hr
  subst e
  refine ⟨(QueuesOK_iff _).2 (fun x => ThreadOK_init s t x (hq x) a1 a2 hz), ?_⟩
  intro x hx
  by_cases hxt : x = t
  · exact ZombieIfOff_init s t x (Or.inr hxt)
  · rcases List.mem_cons.1 hx with rfl | hx
    · exact absurd rfl hxt
    · exact ZombieIfOff_init s t x (Or.inl (hk x hx hxt))

theorem init_thread_inv (K : List Nat) (s s' : Sched) (t : Nat) (h : SchedInv K s)
    (hz : THREAD_IS_ZOMBIE (s.thread t) = false)
    (hr : scheduler_init_thread s t = .ok s') : SchedInv (t :: K) s' :=
  init_thread_pointwise K s s' t ((QueuesOK_iff s).1 h.1) (fun x hx _ => h.2 x hx) hz hr

/-- Creating a thread: its memory is overwritten with fresh fields without the
zombie flag, then it is handed to `scheduler_init_thread`. -/
theorem fresh_init_inv (K : List Nat) (s s' : Sched) (t : Nat) (fresh : Thread)
    (hz : THREAD_IS_ZOMBIE fresh = false) (h : SchedInv K s)
    (hr : scheduler_init_thread { s with thread := Function.update s.thread t fresh } t
      = .ok s') : SchedInv (t :: K) s' := by
  obtain ⟨a1, a2, _⟩ := init_thread_ok _ s' t hr
  have c1 : s.sched_runqueue.count t = 0 := List.count_eq_zero.2 a1
  have c2 : s.sched_sleepqueue.count t = 0 := List.count_eq_zero.2 a2
  refine init_thread_pointwise K _ s' t ?_ ?_ (by simpa using hz) hr
  · intro x
    by_cases hxt : x = t
    · subst hxt
      unfold ThreadOK
      simp only [c1, c2]
      simp
    · exact ThreadOK_congr s _ x rfl rfl (by simp [Function.update_noteq hxt])
        (by simp [Function.update_noteq hxt]) ((QueuesOK_iff s).1 h.1 x)
  · intro x hx hxt
    exact ZombieIfOff_congr s _ x rfl rfl (by simp [Function.update_noteq hxt]) (h.2 x hx)

theorem kthread_init_inv (K : List Nat) (s s' : Sched) (t : Nat) (h : SchedInv K s)
    (hr : kthread_init s t = .ok s') : SchedInv (t :: K) s' :=
  fresh_init_inv K s s' t _ (by decide) h hr

theorem thread_alloc_inv (K : List Nat) (s s' : Sched) (t : Nat) (h : SchedInv K s)
    (hr : thread_alloc s t = .ok s') : SchedInv (t :: K) s' :=
  fresh_init_inv K s s' t _ (by decide) h hr

@[simp] theorem arm_timeout_runqueue (s : Sched) (t d : Nat) :
    (arm_timeout s t d).sched_runqueue = s.sched_runqueue := rfl
@[simp] theorem arm_timeout_sleepqueue (s : Sched) (t d : Nat) :
    (arm_timeout s t d).sched_sleepqueue = s.sched_sleepqueue := rfl
@[simp] theorem arm_timeout_ticks (s : Sched) (t d : Nat) :
    (arm_timeout s t d).ticks = s.ticks := rfl
@[simp] theorem arm_timeout_curthread (s : Sched) (t d : Nat) :
    (arm_timeout s t d).curthread = s.curthread := rfl
@[simp] theorem arm_timeout_idlethread (s : Sched) (t d : Nat) :
    (arm_timeout s t d).idlethread = s.idlethread := rfl

theorem arm_timeout_flags (s : Sched) (t d x : Nat) :
    ((arm_timeout s t d).thread x).t_flags
      = if x = t then (s.thread t).t_flags ||| THREAD_FLAG_TIMEOUT else (s.thread x).t_flags := by
  unfold arm_timeout
  rw [update_flags_flags]
  by_cases h : x = t
  · subst h; simp
  · simp [h, Function.update_noteq h]

@[simp] theorem arm_timeout_priority (s : Sched) (t d x : Nat) :
    ((arm_timeout s t d).thread x).t_priority = (s.thread x).t_priority := by
  unfold arm_timeout
  rw [update_flags_priority]
  by_cases h : x = t
  · subst h; simp
  · simp [Function.update_noteq h]

@[simp] theorem arm_timeout_affinity (s : Sched) (t d x : Nat) :
    ((arm_timeout s t d).thread x).t_affinity = (s.thread x).t_affinity := by
  unfold arm_timeout
  rw [update_flags_affinity]
  by_cases h : x = t
  · subst h; simp
  · simp [Function.update_noteq h]

theorem arm_timeout_timeout (s : Sched) (t d x : Nat) :
    ((arm_timeout s t d).thread x).t_timeout = if x = t then d else (s.thread x).t_timeout := by
  unfold arm_timeout
  rw [update_flags_timeout]
  by_cases h : x = t
  · subst h; simp
  · simp [h, Function.update_noteq h]

theorem arm_timeout_testBit (s : Sched) (t d x i : Nat) :
    ((arm_timeout s t d).thread x).t_flags.testBit i
      = ((s.thread x).t_flags.testBit i || (decide (x = t) && decide (6 = i))) := by
  rw [arm_timeout_flags]
  by_cases h : x = t
  · subst h; simp only [if_true, testBit_set_timeout]; simp
  · simp [h]

theorem arm_timeout_inv (K : List Nat) (s : Sched) (t d : Nat) (h : SchedInv K s) :
    SchedInv K (arm_timeout s t d) := by
  refine SchedInv_flags K s _ rfl rfl ?_ ?_ h
  · intro x; rw [is_suspended_eq, is_suspended_eq, arm_timeout_testBit]; simp
  · intro x; rw [is_zombie_eq, is_zombie_eq, arm_timeout_testBit]; simp

/-- What a successful `thread_sleep_ms` did before it called the scheduler. -/
theorem thread_sleep_ms_suspend_ok (s s' : Sched) (cpuid : Int) (ms : Nat)
    (h : thread_sleep_ms_suspend s cpuid ms = .ok s') :
    ∃ t, s.curthread cpuid = some t ∧ THREAD_IS_SUSPENDED (s.thread t) = false ∧
      s.idlethread cpuid ≠ some t ∧
      scheduler_remove_thread (arm_timeout s t (s.ticks + sleep_num_ticks ms)) t = .ok s' := by
  unfold thread_sleep_ms_suspend at h
  split at h
  · cases h
  rename_i t ht
  unfold Thread_Suspend at h
  split at h
  · cases h
  rename_i c1
  split at h
  · cases h
  rename_i c2
  refine ⟨t, ht, ?_, c2, h⟩
  rw [is_suspended_eq, arm_timeout_testBit] at c1
  rw [is_suspended_eq]
  simpa using c1

theorem thread_sleep_ms_inv (K : List Nat) (s s' : Sched) (cpuid : Int) (ms : Nat)
    (h : SchedInv K s) (hr : thread_sleep_ms s cpuid ms = .ok s') : SchedInv K s' := by
  unfold thread_sleep_ms at hr
  split at hr
  · cases hr
  rename_i s1 hs1
  obtain ⟨t, _, _, _, h2⟩ := thread_sleep_ms_suspend_ok s s1 cpuid ms hs1
  exact schedule_inv K s1 s' cpuid (remove_thread_inv K _ s1 t (arm_timeout_inv K s t _ h) h2) hr

/-- One call keeps the invariant and makes its new threads known. -/
theorem call_inv (K : List Nat) (s s' : Sched) (c : SchedCall) (h : SchedInv K s)
    (hr : c.run s = .ok s') : SchedInv (c.new_threads ++ K) s' := by
  cases c with
  | kthread_init t => exact kthread_init_inv K s s' t h hr
  | thread_alloc t => exact thread_alloc_inv K s s' t h hr
  | add_thread t => exact add_thread_inv K s s' t h hr
  | remove_thread t => exact remove_thread_inv K s s' t h hr
  | exit_thread cpuid t => exact exit_thread_inv K s s' cpuid t h hr
  | schedule cpuid => exact schedule_inv K s s' cpuid h hr
  | sleep_ms cpuid ms => exact thread_sleep_ms_inv K s s' cpuid ms h hr
  | tick =>
    simp only [SchedCall.run, Except.ok.injEq] at hr
    rw [← hr]
    exact SchedInv_flags K s _ rfl rfl (fun _ => rfl) (fun _ => rfl) h
  | exit_thread_locked t => exact exit_thread_locked_inv K s s' t h hr
  | schedule_locked cpuid => exact schedule_locked_inv K s s' cpuid h hr
  | release old =>
    simp only [SchedCall.run, Except.ok.injEq] at hr
    rw [← hr]
    exact SchedInv_update_flags K s old _ (fun v => by rw [testBit_clear_active]; simp)
      (fun v => by rw [testBit_clear_active]; simp) h
  | sleep_ms_suspend cpuid ms =>
    obtain ⟨t, _, _, _, h2⟩ := thread_sleep_ms_suspend_ok s s' cpuid ms hr
    exact remove_thread_inv K _ s' t (arm_timeout_inv K s t _ h) h2

theorem SchedInv_perm (K K2 : List Nat) (s : Sched) (hk : ∀ x, x ∈ K2 → x ∈ K)
    (h : SchedInv K s) : SchedInv K2 s :=
  ⟨h.1, fun t ht => h.2 t (hk t ht)⟩

/-- A sequence of calls keeps the invariant. -/
theorem run_calls_inv (calls : List SchedCall) (K : List Nat) (s s' : Sched)
    (h : SchedInv K s) (hr : run_calls s calls = .ok s') :
    SchedInv (known_threads calls ++ K) s' := by
  induction calls generalizing K s with
  | nil =>
    simp only [run_calls, Except.ok.injEq] at hr
    rw [← hr]
    exact h
  | cons c cs ih =>
    unfold run_calls at hr
    split at hr
    · rename_i s1 hs1
      have a := ih (c.new_threads ++ K) s1 (call_inv K s s1 c h hs1) hr
      refine SchedInv_perm _ _ s' ?_ a
      intro x hx
      simp only [known_threads, List.mem_append] at hx ⊢
      tauto
    · cases hr

/-- The invariant puts every known thread in exactly one of the three situations. -/
theorem situation_of_inv (K : List Nat) (s : Sched) (h : SchedInv K s) (t : Nat) (ht : t ∈ K) :
    ExactlyOneSituation s t := by
  have h1 := (QueuesOK_iff s).1 h.1 t
  have h2 := h.2 t ht
  unfold ThreadOK at h1
  unfold ZombieIfOff at h2
  unfold ExactlyOneSituation OnRunQueueOnly OnSleepQueueOnly OffQueuesZombie scheduler_is_on_queue
  refine ⟨?_, by omega, by omega, by omega⟩
  by_cases cr : 0 < s.sched_runqueue.count t
  · left
    exact ⟨by omega, by omega, h1.2.1 cr⟩
  · by_cases cs : 0 < s.sched_sleepqueue.count t
    · right; left
      exact ⟨by omega, by omega, (h1.2.2 cs).1⟩
    · right; right
      exact ⟨by omega, by omega, h2 (by omega) (by omega)⟩

/-- C2: queue membership is an invariant at every release of the scheduler
lock.  Start from a consistent state `s0` with known threads `K` (at boot both
queues are empty and no thread is known) and make any sequence of calls of
`scheduler_init_thread` (through `kthread_init` and `thread_alloc`),
`scheduler_add_thread`, `scheduler_remove_thread`, `scheduler_exit_thread`,
`schedule()`, `thread_sleep_ms` and timer ticks, whole or cut at a release of
the lock, none of which fails an assertion.  Then every thread known to the
scheduler is in exactly one of three situations: once on the run queue and not
on the sleep queue with SUSPENDED and ZOMBIE clear, once on the sleep queue and
not on the run queue with SUSPENDED set, or on neither queue with ZOMBIE set. -/
theorem C2_queue_membership_invariant (K : List Nat) (s0 : Sched) (h0 : SchedInv K s0)
    (calls : List SchedCall) (s : Sched) (hr : run_calls s0 calls = .ok s) :
    ∀ t ∈ known_threads calls ++ K, ExactlyOneSituation s t :=
  fun t ht => situation_of_inv _ s (run_calls_inv calls K s0 s h0 hr) t ht

/-- C2 on the example run from boot: at the end thread 1 is on the run queue,
thread 2 on the sleep queue and thread 9 is a zombie on neither queue. -/
theorem C2_queue_membership_invariant_witness :
    SchedInv [] boot ∧
    ∃ s, run_calls boot demo_calls = .ok s ∧
      s.sched_runqueue = [1] ∧ s.sched_sleepqueue = [2] ∧
      ExactlyOneSituation s 1 ∧ ExactlyOneSituation s 2 ∧ ExactlyOneSituation s 9 ∧
      OffQueuesZombie s 9 := by
  have h0 : SchedInv [] boot := by
    refine ⟨⟨by decide, by decide, by decide⟩, by simp⟩
  refine ⟨h0, ?_⟩
  have hok : (match run_calls boot demo_calls with
      | .ok x => decide (x.sched_runqueue = [1] ∧ x.sched_sleepqueue = [2] ∧
          scheduler_is_on_queue x.sched_runqueue 9 = 0 ∧
          scheduler_is_on_queue x.sched_sleepqueue 9 = 0 ∧
          THREAD_IS_ZOMBIE (x.thread 9) = true)
      | .error _ => false) = true := by decide
  cases h : run_calls boot demo_calls with
  | error e => rw [h] at hok; cases hok
  | ok s =>
    rw [h] at hok
    simp only [decide_eq_true_eq] at hok
    have hall := C2_queue_membership_invariant [] boot h0 demo_calls s h
    exact ⟨s, rfl, hok.1, hok.2.1, hall 1 (by decide), hall 2 (by decide), hall 9 (by decide),
      hok.2.2⟩

/-! ## C3: selection -/

theorem eligible_congr (th th2 : Nat → Thread) (cpuid : Int) (cur x : Nat)
    (h1 : (th2 x).t_affinity = (th x).t_affinity)
    (h2 : THREAD_IS_ACTIVE (th2 x) = THREAD_IS_ACTIVE (th x)) :
    Eligible th2 cpuid cur x ↔ Eligible th cpuid cur x := by
  unfold Eligible
  rw [h1, h2]

theorem schedule_wakeup_succeeds (s : Sched) (hq : QueuesOK s) :
    ∃ s1, schedule_wakeup s = .ok s1 := by
  unfold schedule_wakeup
  split
  · exact ⟨s, rfl⟩
  · rename_i t rest he
    split
    · have h1 := (QueuesOK_iff s).1 hq t
      unfold ThreadOK at h1
      have c2 : s.sched_sleepqueue.count t = rest.count t + 1 := by simp [he]
      obtain ⟨s2, hs2⟩ := add_thread_locked_succeeds
        { s with sched_sleepqueue := s.sched_sleepqueue.erase t } t
        (by
          show t ∉ s.sched_runqueue
          intro hm
          have := List.count_pos_iff.2 hm
          omega)
        (by
          show t ∉ s.sched_sleepqueue.erase t
          intro hm
          have := List.count_pos_iff.2 hm
          rw [List.count_erase_self] at this
          omega)
      rw [hs2]
      exact ⟨_, rfl⟩
    · exact ⟨s, rfl⟩

theorem schedule_requeue_succeeds (s : Sched) (cur : Nat) (hq : QueuesOK s) :
    ∃ s2, schedule_requeue s cur = .ok s2 := by
  unfold schedule_requeue
  split
  · rename_i c
    simp only [Bool.and_eq_true, Bool.not_eq_true'] at c
    have h1 := (QueuesOK_iff s).1 hq cur
    unfold ThreadOK at h1
    apply add_thread_locked_succeeds
    · show cur ∉ s.sched_runqueue.erase cur
      intro hm
      have := List.count_pos_iff.2 hm
      rw [List.count_erase_self] at this
      omega
    · show cur ∉ s.sched_sleepqueue
      intro hm
      have := (h1.2.2 (List.count_pos_iff.2 hm)).1
      rw [c.1] at this
      cases this
  · exact ⟨s, rfl⟩

/-- The wake-up changes neither affinities nor active flags and keeps every
run-queue entry. -/
theorem schedule_wakeup_keeps (s s1 : Sched) (h : schedule_wakeup s = .ok s1) :
    (∀ x, (s1.thread x).t_affinity = (s.thread x).t_affinity) ∧
    (∀ x, (s1.thread x).t_priority = (s.thread x).t_priority) ∧
    (∀ x, THREAD_IS_ACTIVE (s1.thread x) = THREAD_IS_ACTIVE (s.thread x)) ∧
    (∀ x, THREAD_IS_ZOMBIE (s1.thread x) = THREAD_IS_ZOMBIE (s.thread x)) ∧
    (∀ x ∈ s.sched_runqueue, x ∈ s1.sched_runqueue) ∧
    s1.curthread = s.curthread ∧ s1.ticks = s.ticks := by
  rcases schedule_wakeup_ok s s1 h with ⟨e, _⟩ | ⟨t, rest, pre, post, _, _, _, _, _, e1, e2, _, _⟩
  · subst e
    exact ⟨fun _ => rfl, fun _ => rfl, fun _ => rfl, fun _ => rfl, fun _ hx => hx, rfl, rfl⟩
  · subst e2
    refine ⟨fun x => by simp, fun x => by simp, ?_, ?_, ?_, rfl, rfl⟩
    · intro x
      rw [active_update_flags]
      split
      · rename_i hx; subst hx
        rw [testBit_clear_timeout_suspended, is_active_eq]; simp
      · rfl
    · intro x
      rw [zombie_update_flags]
      split
      · rename_i hx; subst hx
        rw [testBit_clear_timeout_suspended, is_zombie_eq]; simp
      · rfl
    · intro x hx
      rw [e1] at hx
      simp only [update_flags_runqueue, List.mem_append, List.mem_cons] at hx ⊢
      tauto

/-- With consistent queues, a current thread and an eligible thread on the run
queue, `schedule` passes all its assertions. -/
theorem schedule_locked_succeeds (s : Sched) (cpuid : Int) (cur : Nat) (hq : QueuesOK s)
    (hcur : s.curthread cpuid = some cur)
    (hel : ∃ x ∈ s.sched_runqueue, Eligible s.thread cpuid cur x) :
    ∃ s', schedule_locked s cpuid = .ok s' := by
  have hq0 := QueuesOK_clear_reschedule s cur hq
  obtain ⟨s1, hs1⟩ := schedule_wakeup_succeeds _ hq0
  have hq1 : QueuesOK s1 := (schedule_wakeup_inv [] _ s1 ⟨hq0, by simp⟩ hs1).1
  obtain ⟨k1, _, k3, _, k5, _, _⟩ := schedule_wakeup_keeps _ s1 hs1
  have hel1 : ∃ x ∈ s1.sched_runqueue, Eligible s1.thread cpuid cur x := by
    obtain ⟨x, hx, he⟩ := hel
    refine ⟨x, k5 x hx, ?_⟩
    rw [eligible_congr _ s1.thread cpuid cur x (k1 x) (k3 x)]
    rw [eligible_congr s.thread _ cpuid cur x (by simp)]
    · exact he
    · rw [active_update_flags]
      split
      · rename_i hxc; subst hxc
        rw [testBit_clear_reschedule, is_active_eq]; simp
      · rfl
  obtain ⟨new, hnew⟩ := schedule_pick_exists s1.thread cpuid cur s1.sched_runqueue hel1
  obtain ⟨pre, post, p1, _, p3⟩ := schedule_pick_some _ _ _ _ _ hnew
  have hmem : new ∈ s1.sched_runqueue := by rw [p1]; simp
  have t1 := (QueuesOK_iff s1).1 hq1 new
  unfold ThreadOK at t1
  have cpos := List.count_pos_iff.2 hmem
  obtain ⟨s2, hs2⟩ := schedule_requeue_succeeds s1 cur hq1
  unfold schedule_locked
  simp only [hcur, hs1, hnew, hs2]
  have hne : s1.sched_runqueue.isEmpty = false := by
    cases hl : s1.sched_runqueue with
    | nil => rw [hl] at hmem; cases hmem
    | cons a l => rfl
  have hS : THREAD_IS_SUSPENDED (s1.thread new) = false := (t1.2.1 cpos).1
  have hA : ¬ (new ≠ cur ∧ THREAD_IS_ACTIVE (s1.thread new) = true) := by
    rintro ⟨n1, n2⟩
    rcases p3.2 with h | h
    · rw [h] at n2; cases n2
    · exact n1 h
  have hc1 : (scheduler_is_on_queue s1.sched_runqueue new != 1) = false := by
    unfold scheduler_is_on_queue
    simp only [bne_eq_false_iff_eq]
    omega
  have hc2 : (scheduler_is_on_queue s1.sched_sleepqueue new != 0) = false := by
    unfold scheduler_is_on_queue
    simp only [bne_eq_false_iff_eq]
    omega
  simp only [hne, hS, hA, hc1, hc2]
  simp

/-- What a successful `schedule` did, whole. -/
theorem schedule_ok (s s'' : Sched) (cpuid : Int) (h : schedule s cpuid = .ok s'') :
    ∃ cur s', s.curthread cpuid = some cur ∧ schedule_locked s cpuid = .ok s' ∧
      s'' = if s'.curthread cpuid ≠ some cur then scheduler_release s' cur else s' := by
  unfold schedule at h
  split at h
  · cases h
  rename_i cur hcur
  split at h
  · cases h
  rename_i s3 hs3
  refine ⟨cur, s3, hcur, hs3, ?_⟩
  split at h
  · rename_i c
    rw [if_pos c]
    exact (Except.ok.inj h).symm
  · rename_i c
    rw [if_neg c]
    exact (Except.ok.inj h).symm

theorem schedule_succeeds (s : Sched) (cpuid : Int) (cur : Nat) (hq : QueuesOK s)
    (hcur : s.curthread cpuid = some cur)
    (hel : ∃ x ∈ s.sched_runqueue, Eligible s.thread cpuid cur x) :
    ∃ s' s'', schedule_locked s cpuid = .ok s' ∧ schedule s cpuid = .ok s'' ∧
      s'' = if s'.curthread cpuid ≠ some cur then scheduler_release s' cur else s' := by
  obtain ⟨s', hs'⟩ := schedule_locked_succeeds s cpuid cur hq hcur hel
  refine ⟨s', _, hs', ?_, rfl⟩
  unfold schedule
  simp only [hcur, hs']
  split <;> rfl

/-- C3: selection in `schedule()`.  With consistent queues, a sorted run queue
and at least one eligible thread on the run queue (affinity any CPU or the
calling CPU, and not ACTIVE unless it is the calling CPU's current thread),
`schedule()` passes all its assertions, so that "nothing on the runqueue" does
not trigger, and chooses the first eligible thread of the run queue as it is
after the timeout wake-up: every entry before it is not eligible, and no
eligible thread, in the queue at entry or after the wake-up, has a smaller
`t_priority` value.  The chosen thread is marked ACTIVE and is the CPU's
`curthread`, at the release of the lock and when `schedule()` is over. -/
theorem C3_schedule_selects_first_eligible (s : Sched) (cpuid : Int) (cur : Nat)
    (hq : QueuesOK s) (hsorted : RunqSorted s) (hcur : s.curthread cpuid = some cur)
    (hel : ∃ x ∈ s.sched_runqueue, Eligible s.thread cpuid cur x) :
    ∃ s1 s' s'' new pre post,
      schedule_wakeup (s.update_flags cur (fun f => f &&& not32 THREAD_FLAG_RESCHEDULE))
        = .ok s1 ∧
      schedule_locked s cpuid = .ok s' ∧ schedule s cpuid = .ok s'' ∧
      s1.sched_runqueue = pre ++ new :: post ∧
      (∀ x ∈ pre, ¬ Eligible s1.thread cpuid cur x) ∧ Eligible s1.thread cpuid cur new ∧
      (∀ x ∈ s1.sched_runqueue, Eligible s1.thread cpuid cur x →
        (s1.thread new).t_priority ≤ (s1.thread x).t_priority) ∧
      (∀ x ∈ s.sched_runqueue, Eligible s.thread cpuid cur x →
        (s.thread new).t_priority ≤ (s.thread x).t_priority) ∧
      THREAD_IS_ACTIVE (s'.thread new) = true ∧ s'.curthread cpuid = some new ∧
      THREAD_IS_ACTIVE (s''.thread new) = true ∧ s''.curthread cpuid = some new := by
  obtain ⟨s', s'', hs', hs'', e''⟩ := schedule_succeeds s cpuid cur hq hcur hel
  obtain ⟨cur2, s1, new, s2, hc2, h1, hpick, _, _, _, _, h2, e⟩ := schedule_locked_ok s s' cpuid hs'
  rw [hcur] at hc2
  cases hc2
  obtain ⟨pre, post, p1, p2, p3⟩ := schedule_pick_some _ _ _ _ _ hpick
  obtain ⟨k1, k2, k3, _, k5, _, _⟩ := schedule_wakeup_keeps _ s1 h1
  have hsort1 : RunqSorted s1 :=
    schedule_wakeup_sorted _ s1 (RunqSorted_update_flags s cur _ hsorted) h1
  have hmin : ∀ x ∈ s1.sched_runqueue, Eligible s1.thread cpuid cur x →
      (s1.thread new).t_priority ≤ (s1.thread x).t_priority := by
    intro x hx he
    unfold RunqSorted at hsort1
    rw [p1] at hsort1 hx
    rcases List.mem_append.1 hx with hx | hx
    · exact absurd he (p2 x hx)
    · rcases List.mem_cons.1 hx with rfl | hx
      · exact le_refl _
      · exact (List.pairwise_cons.1 (List.pairwise_append.1 hsort1).2.1).1 x hx
  have hA' : THREAD_IS_ACTIVE (s'.thread new) = true := by
    rw [e]
    show THREAD_IS_ACTIVE
      ((s2.update_flags new (fun f => f ||| THREAD_FLAG_ACTIVE)).thread new) = true
    rw [active_update_flags, if_pos rfl, testBit_set_active]
    simp
  have hC' : s'.curthread cpuid = some new := by
    rw [e]
    simp
  refine ⟨s1, s', s'', new, pre, post, h1, hs', hs'', p1, p2, p3, hmin, ?_, hA', hC', ?_, ?_⟩
  · intro x hx he
    have hx1 := k5 x hx
    have he1 : Eligible s1.thread cpuid cur x := by
      rw [eligible_congr _ s1.thread cpuid cur x (k1 x) (k3 x)]
      rw [eligible_congr s.thread _ cpuid cur x (by simp)]
      · exact he
      · rw [active_update_flags]
        split
        · rename_i hxc; subst hxc
          rw [testBit_clear_reschedule, is_active_eq]; simp
        · rfl
    have := hmin x hx1 he1
    rw [k2, k2] at this
    simpa using this
  · rw [e'']
    split
    · rename_i hne
      rw [hC'] at hne
      have hne2 : new ≠ cur := fun h => hne (by rw [h])
      unfold scheduler_release
      rw [active_update_flags, if_neg hne2]
      exact hA'
    · exact hA'
  · rw [e'']
    split
    · exact hC'
    · exact hC'

/-- C3 at the example state: on CPU 0, where thread 1 runs, `schedule()` chooses
thread 3, which the wake-up has just put at the head of the run queue. -/
theorem C3_schedule_selects_first_eligible_witness :
    QueuesOK demo ∧ RunqSorted demo ∧ demo.curthread 0 = some 1 ∧
    (∃ x ∈ demo.sched_runqueue, Eligible demo.thread 0 1 x) ∧
    ∃ s'', schedule demo 0 = .ok s'' ∧ s''.curthread 0 = some 3 ∧
      THREAD_IS_ACTIVE (s''.thread 3) = true := by
  have hq : QueuesOK demo := ⟨by decide, by decide, by decide⟩
  have hs : RunqSorted demo := by unfold RunqSorted; decide
  have hel : ∃ x ∈ demo.sched_runqueue, Eligible demo.thread 0 1 x :=
    ⟨2, by decide, by unfold Eligible; decide⟩
  refine ⟨hq, hs, rfl, hel, ?_⟩
  obtain ⟨s1, s', s'', new, pre, post, _, _, h3, _, _, _, _, _, _, _, h11, h12⟩ :=
    C3_schedule_selects_first_eligible demo 0 1 hq hs rfl hel
  have hv : (match schedule demo 0 with
      | .ok x => decide (x.curthread 0 = some 3) | .error _ => false) = true := by decide
  rw [h3] at hv
  simp only [decide_eq_true_eq] at hv
  rw [hv] at h12
  cases h12
  exact ⟨s'', h3, hv, h11⟩

/-! ## C4: re-queue of the current thread -/

/-- Clearing the reschedule flag changes none of the flags the scheduler tests. -/
theorem clear_reschedule_keeps (s : Sched) (t x : Nat) :
    THREAD_IS_SUSPENDED ((s.update_flags t
        (fun f => f &&& not32 THREAD_FLAG_RESCHEDULE)).thread x)
      = THREAD_IS_SUSPENDED (s.thread x) ∧
    THREAD_IS_ZOMBIE ((s.update_flags t (fun f => f &&& not32 THREAD_FLAG_RESCHEDULE)).thread x)
      = THREAD_IS_ZOMBIE (s.thread x) ∧
    THREAD_IS_ACTIVE ((s.update_flags t (fun f => f &&& not32 THREAD_FLAG_RESCHEDULE)).thread x)
      = THREAD_IS_ACTIVE (s.thread x) ∧
    THREAD_HAS_TIMEOUT ((s.update_flags t
        (fun f => f &&& not32 THREAD_FLAG_RESCHEDULE)).thread x)
      = THREAD_HAS_TIMEOUT (s.thread x) := by
  rw [suspended_update_flags, zombie_update_flags, active_update_flags, timeout_update_flags]
  by_cases h : x = t
  · subst h
    simp only [if_true, testBit_clear_reschedule, is_suspended_eq, is_zombie_eq, is_active_eq,
      has_timeout_eq]
    simp
  · simp only [h, if_false]
    simp

/-- The wake-up keeps the run-queue entries in their order. -/
theorem schedule_wakeup_sublist (s s1 : Sched) (h : schedule_wakeup s = .ok s1) :
    s.sched_runqueue.Sublist s1.sched_runqueue := by
  rcases schedule_wakeup_ok s s1 h with ⟨e, _⟩ | ⟨t, rest, pre, post, _, _, _, _, _, e1, e2, _, _⟩
  · rw [e]
  · subst e2
    rw [e1]
    simp only [update_flags_runqueue]
    exact List.Sublist.append (List.Sublist.refl pre) (List.sublist_cons_self t post)

/-- The wake-up leaves alone every thread but the due head of the sleep queue. -/
theorem schedule_wakeup_other (s s1 : Sched) (h : schedule_wakeup s = .ok s1) (x : Nat)
    (hx : ¬ (s.sched_sleepqueue.head? = some x ∧ THREAD_HAS_TIMEOUT (s.thread x) = true ∧
      (s.thread x).t_timeout ≤ s.ticks)) :
    s1.thread x = s.thread x := by
  rcases schedule_wakeup_ok s s1 h with ⟨e, _⟩ | ⟨t, rest, pre, post, hq, c1, c2, _, _, _, e2, _, _⟩
  · rw [e]
  · subst e2
    have hne : x ≠ t := by
      rintro rfl
      exact hx ⟨by rw [hq]; rfl, c1, c2⟩
    exact update_flags_flags_other _ t _ x hne

/-- The wake-up puts the due head of the sleep queue on the run queue, no
longer suspended. -/
theorem schedule_wakeup_due (s s1 : Sched) (h : schedule_wakeup s = .ok s1) (x : Nat)
    (h1 : s.sched_sleepqueue.head? = some x) (h2 : THREAD_HAS_TIMEOUT (s.thread x) = true)
    (h3 : (s.thread x).t_timeout ≤ s.ticks) :
    x ∈ s1.sched_runqueue ∧ x ∉ s1.sched_sleepqueue ∧
    THREAD_IS_SUSPENDED (s1.thread x) = false ∧ THREAD_HAS_TIMEOUT (s1.thread x) = false ∧
    ∃ pre post, s.sched_runqueue = pre ++ post ∧ s1.sched_runqueue = pre ++ x :: post ∧
      (∀ y ∈ pre, (s.thread y).t_priority ≤ (s.thread x).t_priority) ∧
      (∀ y, post.head? = some y → (s.thread x).t_priority < (s.thread y).t_priority) := by
  rcases schedule_wakeup_ok s s1 h with ⟨_, e⟩ | ⟨t, rest, pre, post, hq, _, _, _, a2, e1, e2, e3, e4⟩
  · exact absurd ⟨h2, h3⟩ (e x h1)
  · rw [hq] at h1
    simp only [List.head?_cons, Option.some.injEq] at h1
    subst h1
    subst e2
    refine ⟨by simp, a2, ?_, ?_, pre, post, e1, rfl, e3, e4⟩
    · rw [suspended_update_flags, if_pos rfl, testBit_clear_timeout_suspended]; simp
    · rw [timeout_update_flags, if_pos rfl, testBit_clear_timeout_suspended]; simp

/-- C4, as amended: the re-queue of the current thread in `schedule()`.  With
consistent queues, a sorted run queue and an eligible thread, `schedule()`
returns, and: (1) a current thread that is neither SUSPENDED nor ZOMBIE at entry
is afterwards on the run queue exactly once, after every entry whose
`t_priority` value is less than or equal to its own and before every entry with
a larger value, and the other run-queue threads keep their relative order;
(2) a ZOMBIE current thread is not on the run queue afterwards; (3) neither is a
SUSPENDED current thread, unless it is the head of the sleep queue with
`THREAD_FLAG_TIMEOUT` set and a deadline not after the current tick; (4) in that
last case the timeout wake-up puts it on the run queue. -/
theorem C4_requeue_current_thread (s : Sched) (cpuid : Int) (cur : Nat)
    (hq : QueuesOK s) (hsorted : RunqSorted s) (hcur : s.curthread cpuid = some cur)
    (hel : ∃ x ∈ s.sched_runqueue, Eligible s.thread cpuid cur x) :
    ∃ s' s'', schedule_locked s cpuid = .ok s' ∧ schedule s cpuid = .ok s'' ∧
      s''.sched_runqueue = s'.sched_runqueue ∧
      (THREAD_IS_SUSPENDED (s.thread cur) = false → THREAD_IS_ZOMBIE (s.thread cur) = false →
        ∃ pre post, s'.sched_runqueue = pre ++ cur :: post ∧ cur ∉ pre ∧ cur ∉ post ∧
          (∀ x ∈ pre, (s.thread x).t_priority ≤ (s.thread cur).t_priority) ∧
          (∀ y ∈ post, (s.thread cur).t_priority < (s.thread y).t_priority) ∧
          (s.sched_runqueue.erase cur).Sublist (pre ++ post)) ∧
      (THREAD_IS_ZOMBIE (s.thread cur) = true → cur ∉ s'.sched_runqueue) ∧
      (THREAD_IS_SUSPENDED (s.thread cur) = true →
        ¬ (s.sched_sleepqueue.head? = some cur ∧ THREAD_HAS_TIMEOUT (s.thread cur) = true ∧
            (s.thread cur).t_timeout ≤ s.ticks) →
        cur ∉ s'.sched_runqueue) ∧
      (THREAD_IS_SUSPENDED (s.thread cur) = true →
        s.sched_sleepqueue.head? = some cur → THREAD_HAS_TIMEOUT (s.thread cur) = true →
        (s.thread cur).t_timeout ≤ s.ticks → cur ∈ s'.sched_runqueue) := by
  obtain ⟨s', s'', hs', hs'', e''⟩ := schedule_succeeds s cpuid cur hq hcur hel
  obtain ⟨cur2, s1, new, s2, hc2, h1, _, _, _, _, _, h2, e⟩ := schedule_locked_ok s s' cpuid hs'
  rw [hcur] at hc2
  cases hc2
  have hq0 := QueuesOK_clear_reschedule s cur hq
  have hq1 : QueuesOK s1 := (schedule_wakeup_inv [] _ s1 ⟨hq0, by simp⟩ h1).1
  have hsort1 : RunqSorted s1 :=
    schedule_wakeup_sorted _ s1 (RunqSorted_update_flags s cur _ hsorted) h1
  obtain ⟨_, k2, _, k4, _, _, _⟩ := schedule_wakeup_keeps _ s1 h1
  have kc := clear_reschedule_keeps s cur cur
  have hrq' : s'.sched_runqueue = s2.sched_runqueue := by rw [e]; rfl
  have hprio : ∀ x, (s1.thread x).t_priority = (s.thread x).t_priority := by
    intro x; rw [k2]; simp
  have t1 := (QueuesOK_iff s1).1 hq1 cur
  unfold ThreadOK at t1
  refine ⟨s', s'', hs', hs'', ?_, ?_, ?_, ?_, ?_⟩
  · rw [e'']
    split
    · rfl
    · rfl
  · -- the preempted thread
    intro hS hZ
    have hother : s1.thread cur
        = (s.update_flags cur (fun f => f &&& not32 THREAD_FLAG_RESCHEDULE)).thread cur := by
      apply schedule_wakeup_other _ s1 h1 cur
      rintro ⟨hh, _, _⟩
      have hm : cur ∈ s.sched_sleepqueue := by
        have : s.sched_sleepqueue.head? = some cur := hh
        exact List.mem_of_mem_head? this
      have := (hq.2.2 cur hm).1
      rw [hS] at this
      cases this
    have hS1 : THREAD_IS_SUSPENDED (s1.thread cur) = false := by rw [hother, kc.1, hS]
    have hZ1 : THREAD_IS_ZOMBIE (s1.thread cur) = false := by rw [hother, kc.2.1, hZ]
    rcases schedule_requeue_ok s1 s2 cur h2 with ⟨_, hbad⟩ | ⟨_, _, a1, _, pre, post, e1, e2, e3, e4⟩
    · rcases hbad with hb | hb
      · rw [hS1] at hb; cases hb
      · rw [hZ1] at hb; cases hb
    · have hs2 := erase_sorted s1 cur hsort1
      unfold RunqSorted at hs2
      simp only at hs2
      rw [e1] at hs2
      have hp := pairwise_insert_split (fun x => (s1.thread x).t_priority) cur pre post hs2 e3 e4
      rw [e1] at a1
      refine ⟨pre, post, by rw [hrq', e2], fun hm => a1 (by simp [hm]),
        fun hm => a1 (by simp [hm]), ?_, ?_, ?_⟩
      · intro x hx
        have := e3 x hx
        rw [hprio, hprio] at this
        exact this
      · intro y hy
        have := hp.2 y hy
        simp only [hprio] at this
        exact this
      · rw [← e1]
        exact (schedule_wakeup_sublist _ s1 h1).erase cur
  · -- a zombie is not re-queued
    intro hZ
    have hZ1 : THREAD_IS_ZOMBIE (s1.thread cur) = true := by rw [k4, kc.2.1, hZ]
    rcases schedule_requeue_ok s1 s2 cur h2 with ⟨e2, _⟩ | ⟨_, hz, _⟩
    · rw [hrq', e2]
      intro hm
      have := (t1.2.1 (List.count_pos_iff.2 hm)).2
      rw [hZ1] at this
      cases this
    · rw [hZ1] at hz; cases hz
  · -- a sleeper that is not due is not re-queued
    intro hS hnd
    have hother : s1.thread cur
        = (s.update_flags cur (fun f => f &&& not32 THREAD_FLAG_RESCHEDULE)).thread cur := by
      apply schedule_wakeup_other _ s1 h1 cur
      rintro ⟨hh, hT, hd⟩
      apply hnd
      refine ⟨hh, ?_, by simpa using hd⟩
      rw [← kc.2.2.2]
      exact hT
    have hS1 : THREAD_IS_SUSPENDED (s1.thread cur) = true := by rw [hother, kc.1, hS]
    rcases schedule_requeue_ok s1 s2 cur h2 with ⟨e2, _⟩ | ⟨hs, _⟩
    · rw [hrq', e2]
      intro hm
      have := (t1.2.1 (List.count_pos_iff.2 hm)).1
      rw [hS1] at this
      cases this
    · rw [hS1] at hs; cases hs
  · -- a sleeper that is due is woken
    intro _ hh hT hd
    obtain ⟨hm, _⟩ := schedule_wakeup_due _ s1 h1 cur hh (by rw [kc.2.2.2]; exact hT)
      (by simpa using hd)
    rcases schedule_requeue_ok s1 s2 cur h2 with ⟨e2, _⟩ | ⟨_, _, _, _, pre, post, _, e2, _, _⟩
    · rw [hrq', e2]; exact hm
    · rw [hrq', e2]; simp
/-- C4 as stated fails: after the run `sleep_tick_calls` from boot the current
thread 3 of CPU 0 is SUSPENDED and not on the run queue, yet `schedule()` puts it
on the run queue, because it is the head of the sleep queue and its deadline
has been reached. -/
theorem C4_counterexample :
    ∃ s s', run_calls boot sleep_tick_calls = .ok s ∧ s.curthread 0 = some 3 ∧
      THREAD_IS_SUSPENDED (s.thread 3) = true ∧ 3 ∉ s.sched_runqueue ∧
      schedule s 0 = .ok s' ∧ 3 ∈ s'.sched_runqueue := by
  have hv : (match run_calls boot sleep_tick_calls with
      | .ok s =>
        (match schedule s 0 with
          | .ok s' => decide (s.curthread 0 = some 3 ∧
              THREAD_IS_SUSPENDED (s.thread 3) = true ∧ 3 ∉ s.sched_runqueue ∧
              3 ∈ s'.sched_runqueue)
          | .error _ => false)
      | .error _ => false) = true := by decide
  cases h : run_calls boot sleep_tick_calls with
  | error e => rw [h] at hv; cases hv
  | ok s =>
    rw [h] at hv
    simp only at hv
    cases h2 : schedule s 0 with
    | error e => rw [h2] at hv; cases hv
    | ok s' =>
      rw [h2] at hv
      simp only [decide_eq_true_eq] at hv
      exact ⟨s, s', rfl, hv.1, hv.2.1, hv.2.2.1, h2, hv.2.2.2⟩

/-- C4, as amended, at the example state: thread 1, preempted on CPU 0, is put
back behind thread 2 and before the idle thread 9, and thread 3 is woken. -/
theorem C4_requeue_current_thread_witness :
    QueuesOK demo ∧ RunqSorted demo ∧ demo.curthread 0 = some 1 ∧
    (∃ x ∈ demo.sched_runqueue, Eligible demo.thread 0 1 x) ∧
    ∃ s', schedule_locked demo 0 = .ok s' ∧ s'.sched_runqueue = [3, 2, 1, 9] ∧
      ∃ pre post, s'.sched_runqueue = pre ++ 1 :: post ∧ 1 ∉ pre ∧ 1 ∉ post ∧
        (∀ x ∈ pre, (demo.thread x).t_priority ≤ (demo.thread 1).t_priority) ∧
        (∀ y ∈ post, (demo.thread 1).t_priority < (demo.thread y).t_priority) ∧
        (demo.sched_runqueue.erase 1).Sublist (pre ++ post) := by
  have hq : QueuesOK demo := ⟨by decide, by decide, by decide⟩
  have hs : RunqSorted demo := by unfold RunqSorted; decide
  have hel : ∃ x ∈ demo.sched_runqueue, Eligible demo.thread 0 1 x :=
    ⟨2, by decide, by unfold Eligible; decide⟩
  refine ⟨hq, hs, rfl, hel, ?_⟩
  obtain ⟨s', s'', h1, _, _, h4, _⟩ := C4_requeue_current_thread demo 0 1 hq hs rfl hel
  have hv : (match schedule_locked demo 0 with
      | .ok x => decide (x.sched_runqueue = [3, 2, 1, 9]) | .error _ => false) = true := by
    decide
  rw [h1] at hv
  simp only [decide_eq_true_eq] at hv
  exact ⟨s', h1, hv, h4 (by decide) (by decide)⟩

/-! ## C5: resume -/

theorem add_thread_succeeds (s : Sched) (t : Nat)
    (hS : THREAD_IS_SUSPENDED (s.thread t) = true)
    (hsl : scheduler_is_on_queue s.sched_sleepqueue t = 1)
    (hrq : scheduler_is_on_queue s.sched_runqueue t = 0) :
    ∃ s', scheduler_add_thread s t = .ok s' := by
  unfold scheduler_is_on_queue at hsl hrq
  obtain ⟨s2, hs2⟩ := add_thread_locked_succeeds
    { s with sched_sleepqueue := s.sched_sleepqueue.erase t } t
    (by
      show t ∉ s.sched_runqueue
      exact List.count_eq_zero.1 hrq)
    (by
      show t ∉ s.sched_sleepqueue.erase t
      intro hm
      have := List.count_pos_iff.2 hm
      rw [List.count_erase_self] at this
      omega)
  unfold scheduler_add_thread
  simp only [hS, scheduler_is_on_queue, hsl, hrq, hs2]
  simp

/-- C5: postcondition of resume.  For a thread `t` that is SUSPENDED and linked
once on the sleep queue and not on the run queue, with the run queue sorted,
`scheduler_add_thread(t)` returns; afterwards `t` is no longer on the sleep
queue, it is on the run queue after every entry whose `t_priority` value is `<=`
its own and before every entry with a larger value, its SUSPENDED and TIMEOUT
flags are clear and its other flag bits, priority, affinity and deadline are
unchanged; every other thread keeps its fields, its queue and its place
relative to the others; the tick counter and the per-CPU pointers are
unchanged. -/
theorem C5_resume_postcondition (s : Sched) (t : Nat)
    (hS : THREAD_IS_SUSPENDED (s.thread t) = true)
    (hsl : scheduler_is_on_queue s.sched_sleepqueue t = 1)
    (hrq : scheduler_is_on_queue s.sched_runqueue t = 0)
    (hsorted : RunqSorted s) :
    ∃ s' pre post, scheduler_add_thread s t = .ok s' ∧
      t ∉ s'.sched_sleepqueue ∧ s'.sched_sleepqueue = s.sched_sleepqueue.erase t ∧
      s.sched_runqueue = pre ++ post ∧ s'.sched_runqueue = pre ++ t :: post ∧
      (∀ x ∈ pre, (s.thread x).t_priority ≤ (s.thread t).t_priority) ∧
      (∀ y ∈ post, (s.thread t).t_priority < (s.thread y).t_priority) ∧
      THREAD_IS_SUSPENDED (s'.thread t) = false ∧ THREAD_HAS_TIMEOUT (s'.thread t) = false ∧
      (∀ i, i < 32 → i ≠ 1 → i ≠ 6 →
        (s'.thread t).t_flags.testBit i = (s.thread t).t_flags.testBit i) ∧
      (s'.thread t).t_priority = (s.thread t).t_priority ∧
      (s'.thread t).t_affinity = (s.thread t).t_affinity ∧
      (s'.thread t).t_timeout = (s.thread t).t_timeout ∧
      (∀ x, x ≠ t → s'.thread x = s.thread x) ∧
      s'.ticks = s.ticks ∧ s'.curthread = s.curthread ∧ s'.idlethread = s.idlethread := by
  obtain ⟨s', hs'⟩ := add_thread_succeeds s t hS hsl hrq
  obtain ⟨_, _, c1, pre, post, e1, e2, e3, e4⟩ := add_thread_ok s s' t hs'
  have hs2 := hsorted
  unfold RunqSorted at hs2
  rw [e1] at hs2
  have hp := pairwise_insert_split (fun x => (s.thread x).t_priority) t pre post hs2 e3 e4
  subst e2
  refine ⟨_, pre, post, hs', ?_, rfl, e1, rfl, e3, hp.2, ?_, ?_, ?_, by simp, by simp, by simp,
    fun x hx => update_flags_flags_other _ t _ x hx, rfl, rfl, rfl⟩
  · simp only [update_flags_sleepqueue]
    intro hm
    have := List.count_pos_iff.2 hm
    rw [List.count_erase_self] at this
    omega
  · rw [suspended_update_flags, if_pos rfl, testBit_clear_suspended_timeout]; simp
  · rw [timeout_update_flags, if_pos rfl, testBit_clear_suspended_timeout]; simp
  · intro i h32 h1 h6
    rw [update_flags_flags_self, testBit_clear_suspended_timeout]
    have a1 : ¬ 1 = i := fun h => h1 h.symm
    have a6 : ¬ 6 = i := fun h => h6 h.symm
    simp [h32, a1, a6]

/-- C5 at the example state: resuming the sleeper 3 (priority 50) puts it at the
head of the run queue and empties the sleep queue. -/
theorem C5_resume_postcondition_witness :
    THREAD_IS_SUSPENDED (demo.thread 3) = true ∧
    scheduler_is_on_queue demo.sched_sleepqueue 3 = 1 ∧
    scheduler_is_on_queue demo.sched_runqueue 3 = 0 ∧ RunqSorted demo ∧
    ∃ s', scheduler_add_thread demo 3 = .ok s' ∧ s'.sched_runqueue = [3, 2, 1, 9] ∧
      s'.sched_sleepqueue = [] ∧ THREAD_IS_SUSPENDED (s'.thread 3) = false ∧
      THREAD_HAS_TIMEOUT (s'.thread 3) = false := by
  have hs : RunqSorted demo := by unfold RunqSorted; decide
  refine ⟨by decide, by decide, by decide, hs, ?_⟩
  obtain ⟨s', pre, post, h1, _, h3, _, _, _, _, h8, h9, _⟩ :=
    C5_resume_postcondition demo 3 (by decide) (by decide) (by decide) hs
  have hv : (match scheduler_add_thread demo 3 with
      | .ok x => decide (x.sched_runqueue = [3, 2, 1, 9]) | .error _ => false) = true := by
    decide
  rw [h1] at hv
  simp only [decide_eq_true_eq] at hv
  exact ⟨s', h1, hv, by rw [h3]; decide, h8, h9⟩

/-! ## C6: the sleep queue keeps its shape -/

theorem sleepq_ordered_of_shape (th : Nat → Thread) (armed unarmed : List Nat)
    (h1 : ∀ x ∈ armed, THREAD_HAS_TIMEOUT (th x) = true)
    (h2 : armed.Pairwise (fun a b => (th a).t_timeout ≤ (th b).t_timeout))
    (h3 : ∀ x ∈ unarmed, THREAD_HAS_TIMEOUT (th x) = false) :
    SleepqOrdered th (armed ++ unarmed) := by
  unfold SleepqOrdered
  rw [List.pairwise_append]
  refine ⟨?_, ?_, ?_⟩
  · exact h2.imp_of_mem (fun {a b} ha _ hab _ => ⟨h1 a ha, hab⟩)
  · rw [List.pairwise_iff_forall_sublist]
    intro a b hab hb
    have hbm : b ∈ unarmed := hab.subset (by simp)
    rw [h3 b hbm] at hb
    cases hb
  · intro a _ b hb hT
    rw [h3 b hb] at hT
    cases hT

theorem shape_of_sleepq_ordered (th : Nat → Thread) (q : List Nat) (h : SleepqOrdered th q) :
    ∃ armed unarmed, q = armed ++ unarmed ∧
      (∀ x ∈ armed, THREAD_HAS_TIMEOUT (th x) = true) ∧
      armed.Pairwise (fun a b => (th a).t_timeout ≤ (th b).t_timeout) ∧
      (∀ x ∈ unarmed, THREAD_HAS_TIMEOUT (th x) = false) := by
  induction q with
  | nil => exact ⟨[], [], rfl, by simp, List.Pairwise.nil, by simp⟩
  | cons a rest ih =>
    unfold SleepqOrdered at h ih
    obtain ⟨ha, hrest⟩ := List.pairwise_cons.1 h
    obtain ⟨armed, unarmed, e, h1, h2, h3⟩ := ih hrest
    by_cases hT : THREAD_HAS_TIMEOUT (th a) = true
    · refine ⟨a :: armed, unarmed, by simp [e], ?_, ?_, h3⟩
      · intro x hx
        rcases List.mem_cons.1 hx with rfl | hx
        · exact hT
        · exact h1 x hx
      · refine List.pairwise_cons.2 ⟨?_, h2⟩
        intro b hb
        exact (ha b (by rw [e]; simp [hb]) (h1 b hb)).2
    · refine ⟨[], a :: rest, rfl, by simp, List.Pairwise.nil, ?_⟩
      intro x hx
      rcases List.mem_cons.1 hx with rfl | hx
      · simpa using hT
      · by_contra hx2
        exact hT (ha x hx (by simpa using hx2)).1

theorem SleepqShape_iff (s : Sched) : SleepqShape s ↔ SleepqOrdered s.thread s.sched_sleepqueue := by
  constructor
  · rintro ⟨armed, unarmed, e, h1, h2, h3⟩
    rw [e]
    exact sleepq_ordered_of_shape s.thread armed unarmed h1 h2 h3
  · intro h
    exact shape_of_sleepq_ordered s.thread s.sched_sleepqueue h

/-- The shape only depends on the timeout flag and the deadline of the threads
on the queue. -/
theorem SleepqOrdered_congr (th th2 : Nat → Thread) (q : List Nat)
    (h : ∀ x ∈ q, THREAD_HAS_TIMEOUT (th2 x) = THREAD_HAS_TIMEOUT (th x) ∧
      (th2 x).t_timeout = (th x).t_timeout)
    (hs : SleepqOrdered th q) : SleepqOrdered th2 q := by
  unfold SleepqOrdered at hs ⊢
  refine hs.imp_of_mem ?_
  intro a b ha hb hab
  rw [(h a ha).1, (h a ha).2, (h b hb).1, (h b hb).2]
  exact hab

theorem SleepqOrdered_erase (th : Nat → Thread) (q : List Nat) (t : Nat)
    (hs : SleepqOrdered th q) : SleepqOrdered th (q.erase t) :=
  List.Pairwise.sublist (List.erase_sublist t q) hs

theorem SleepqOrdered_append_unarmed (th : Nat → Thread) (q : List Nat) (t : Nat)
    (ht : THREAD_HAS_TIMEOUT (th t) = false) (hs : SleepqOrdered th q) :
    SleepqOrdered th (q ++ [t]) := by
  unfold SleepqOrdered at hs ⊢
  rw [List.pairwise_append]
  refine ⟨hs, List.pairwise_singleton _ _, ?_⟩
  intro a _ b hb hT
  simp only [List.mem_singleton] at hb
  subst hb
  rw [ht] at hT
  cases hT

/-- Where the insertion loop of `scheduler_remove_thread` puts an armed thread:
behind the armed entries that wake earlier, before every armed entry that does
not. -/
theorem sleepqueue_insert_place (th : Nat → Thread) (t : Nat) (q : List Nat)
    (hs : SleepqOrdered th q) :
    ∃ pre post, q = pre ++ post ∧ sleepqueue_insert th t q = pre ++ t :: post ∧
      (∀ x ∈ pre, THREAD_HAS_TIMEOUT (th x) = true ∧ (th x).t_timeout < (th t).t_timeout) ∧
      (∀ y ∈ post, THREAD_HAS_TIMEOUT (th y) = true → (th t).t_timeout ≤ (th y).t_timeout) := by
  obtain ⟨pre, post, e1, e2, e3, e4⟩ := sleepqueue_insert_split th t q
  refine ⟨pre, post, e1, e2, e3, ?_⟩
  subst e1
  unfold SleepqOrdered at hs
  have hpost := (List.pairwise_append.1 hs).2.1
  cases post with
  | nil => simp
  | cons y0 rest =>
    have h0 := e4 y0 rfl
    intro y hy hT
    rcases List.mem_cons.1 hy with rfl | hy
    · by_contra hlt
      exact h0 ⟨hT, not_le.1 hlt⟩
    · have := (List.pairwise_cons.1 hpost).1 y hy hT
      by_contra hlt
      exact h0 ⟨this.1, lt_of_le_of_lt this.2 (not_le.1 hlt)⟩

theorem SleepqOrdered_insert (th : Nat → Thread) (t : Nat) (q : List Nat)
    (ht : THREAD_HAS_TIMEOUT (th t) = true) (hs : SleepqOrdered th q) :
    SleepqOrdered th (sleepqueue_insert th t q) := by
  obtain ⟨pre, post, e1, e2, e3, e4⟩ := sleepqueue_insert_place th t q hs
  rw [e2]
  subst e1
  unfold SleepqOrdered at hs ⊢
  rw [List.pairwise_append] at hs ⊢
  refine ⟨hs.1, List.pairwise_cons.2 ⟨?_, hs.2.1⟩, ?_⟩
  · intro y hy hT
    exact ⟨ht, e4 y hy hT⟩
  · intro a ha b hb
    rcases List.mem_cons.1 hb with rfl | hb
    · intro _
      exact ⟨(e3 a ha).1, le_of_lt (e3 a ha).2⟩
    · exact hs.2.2 a ha b hb

theorem SleepqOrdered_update_flags (s : Sched) (t : Nat) (f : Nat → Nat) (q : List Nat)
    (hf : ∀ v : Nat, (f v).testBit 6 = v.testBit 6) (hs : SleepqOrdered s.thread q) :
    SleepqOrdered (s.update_flags t f).thread q := by
  refine SleepqOrdered_congr s.thread _ q ?_ hs
  intro x _
  refine ⟨?_, by simp⟩
  rw [timeout_update_flags]
  split
  · rename_i hx; subst hx; rw [hf, has_timeout_eq]
  · rfl

/-- Changing the flags of a thread that is not on the queue does not change the
shape either. -/
theorem SleepqOrdered_update_absent (s : Sched) (t : Nat) (f : Nat → Nat) (q : List Nat)
    (ht : t ∉ q) (hs : SleepqOrdered s.thread q) :
    SleepqOrdered (s.update_flags t f).thread q := by
  refine SleepqOrdered_congr s.thread _ q ?_ hs
  intro x hx
  have hne : x ≠ t := fun h => ht (h ▸ hx)
  rw [update_flags_flags_other s t f x hne]
  exact ⟨rfl, rfl⟩

theorem remove_thread_shape (s s' : Sched) (t : Nat)
    (hs : SleepqOrdered s.thread s.sched_sleepqueue)
    (h : scheduler_remove_thread s t = .ok s') :
    SleepqOrdered s'.thread s'.sched_sleepqueue := by
  obtain ⟨_, _, _, e⟩ := remove_thread_ok s s' t h
  subst e
  simp only [update_flags_sleepqueue]
  apply SleepqOrdered_update_flags _ t _ _ (fun v => by rw [testBit_set_suspended]; simp)
  show SleepqOrdered s.thread _
  by_cases hT : THREAD_HAS_TIMEOUT (s.thread t) = true
  · rw [if_pos hT]
    exact SleepqOrdered_insert s.thread t _ hT hs
  · rw [if_neg hT]
    exact SleepqOrdered_append_unarmed s.thread _ t (by simpa using hT) hs

theorem init_thread_shape (s s' : Sched) (t : Nat)
    (hs : SleepqOrdered s.thread s.sched_sleepqueue)
    (hT : THREAD_HAS_TIMEOUT (s.thread t) = false)
    (h : scheduler_init_thread s t = .ok s') :
    SleepqOrdered s'.thread s'.sched_sleepqueue := by
  obtain ⟨_, _, e⟩ := init_thread_ok s s' t h
  subst e
  simp only [update_flags_sleepqueue]
  apply SleepqOrdered_update_flags _ t _ _ (fun v => by rw [testBit_set_suspended]; simp)
  exact SleepqOrdered_append_unarmed s.thread _ t hT hs

theorem fresh_init_shape (s s' : Sched) (t : Nat) (fresh : Thread)
    (hT : THREAD_HAS_TIMEOUT fresh = false)
    (hs : SleepqOrdered s.thread s.sched_sleepqueue)
    (h : scheduler_init_thread { s with thread := Function.update s.thread t fresh } t
      = .ok s') : SleepqOrdered s'.thread s'.sched_sleepqueue := by
  obtain ⟨_, a2, _⟩ := init_thread_ok _ s' t h
  refine init_thread_shape _ s' t ?_ (by simpa using hT) h
  refine SleepqOrdered_congr s.thread _ _ ?_ hs
  intro x hx
  have hne : x ≠ t := fun hh => a2 (hh ▸ hx)
  simp [Function.update_noteq hne]

theorem add_thread_shape (s s' : Sched) (t : Nat)
    (hs : SleepqOrdered s.thread s.sched_sleepqueue)
    (h : scheduler_add_thread s t = .ok s') :
    SleepqOrdered s'.thread s'.sched_sleepqueue := by
  obtain ⟨_, _, c1, pre, post, _, e2, _, _⟩ := add_thread_ok s s' t h
  subst e2
  simp only [update_flags_sleepqueue]
  apply SleepqOrdered_update_absent
  · intro hm
    have := List.count_pos_iff.2 hm
    rw [List.count_erase_self] at this
    omega
  · exact SleepqOrdered_erase s.thread _ t hs

theorem schedule_wakeup_shape (s s' : Sched)
    (hs : SleepqOrdered s.thread s.sched_sleepqueue)
    (h : schedule_wakeup s = .ok s') :
    SleepqOrdered s'.thread s'.sched_sleepqueue := by
  rcases schedule_wakeup_ok s s' h with ⟨e, _⟩ | ⟨t, rest, pre, post, hq, _, _, _, a2, _, e2, _, _⟩
  · rw [e]; exact hs
  · subst e2
    simp only [update_flags_sleepqueue]
    apply SleepqOrdered_update_absent _ _ _ _ a2
    show SleepqOrdered s.thread rest
    rw [hq] at hs
    exact (List.pairwise_cons.1 hs).2

theorem schedule_requeue_shape (s s' : Sched) (cur : Nat)
    (hs : SleepqOrdered s.thread s.sched_sleepqueue)
    (h : schedule_requeue s cur = .ok s') :
    SleepqOrdered s'.thread s'.sched_sleepqueue := by
  rcases schedule_requeue_ok s s' cur h with ⟨e, _⟩ | ⟨_, _, _, _, pre, post, _, e2, _, _⟩
  · rw [e]; exact hs
  · subst e2
    exact hs

theorem schedule_locked_shape (s s' : Sched) (cpuid : Int)
    (hs : SleepqOrdered s.thread s.sched_sleepqueue)
    (h : schedule_locked s cpuid = .ok s') :
    SleepqOrdered s'.thread s'.sched_sleepqueue := by
  obtain ⟨cur, s1, new, s2, _, h1, _, _, _, _, _, h2, e⟩ := schedule_locked_ok s s' cpuid h
  subst e
  have a0 : SleepqOrdered (s.update_flags cur
      (fun f => f &&& not32 THREAD_FLAG_RESCHEDULE)).thread s.sched_sleepqueue :=
    SleepqOrdered_update_flags s cur _ _ (fun v => by rw [testBit_clear_reschedule]; simp) hs
  have a1 := schedule_wakeup_shape _ s1 a0 h1
  have a2 := schedule_requeue_shape s1 s2 cur a1 h2
  exact SleepqOrdered_update_flags s2 new (fun f => f ||| THREAD_FLAG_ACTIVE) _
    (fun v => by rw [testBit_set_active]; simp) a2

theorem schedule_shape (s s' : Sched) (cpuid : Int)
    (hs : SleepqOrdered s.thread s.sched_sleepqueue)
    (h : schedule s cpuid = .ok s') :
    SleepqOrdered s'.thread s'.sched_sleepqueue := by
  obtain ⟨cur, s3, _, h3, e⟩ := schedule_ok s s' cpuid h
  have a := schedule_locked_shape s s3 cpuid hs h3
  rw [e]
  split
  · exact SleepqOrdered_update_flags s3 cur (fun f => f &&& not32 THREAD_FLAG_ACTIVE) _
      (fun v => by rw [testBit_clear_active]; simp) a
  · exact a

theorem thread_sleep_ms_suspend_shape (s s' : Sched) (cpuid : Int) (ms : Nat)
    (hs : SleepqOrdered s.thread s.sched_sleepqueue)
    (h : thread_sleep_ms_suspend s cpuid ms = .ok s') :
    SleepqOrdered s'.thread s'.sched_sleepqueue := by
  obtain ⟨t, _, _, _, h2⟩ := thread_sleep_ms_suspend_ok s s' cpuid ms h
  refine remove_thread_shape _ s' t ?_ h2
  obtain ⟨_, c0, _, _⟩ := remove_thread_ok _ s' t h2
  simp only [arm_timeout_sleepqueue] at c0 ⊢
  have hnm : t ∉ s.sched_sleepqueue := List.count_eq_zero.1 c0
  refine SleepqOrdered_congr s.thread _ _ ?_ hs
  intro x hx
  have hne : x ≠ t := fun hh => hnm (hh ▸ hx)
  rw [has_timeout_eq, has_timeout_eq, arm_timeout_testBit, arm_timeout_timeout]
  simp [hne]

/-- C6: sleep-queue order is an invariant.  If the sleep queue consists of the
timeout-armed threads in non-decreasing `t_timeout` order followed by the
threads without `THREAD_FLAG_TIMEOUT`, it still does after
`scheduler_remove_thread(t)`, which puts an armed `t` behind the armed entries
with an earlier deadline and before the armed entries with a deadline that is
not earlier, and an unarmed `t` at the tail; after `scheduler_init_thread` of a
thread without `THREAD_FLAG_TIMEOUT`, which is how `kthread_init` and
`thread_alloc` call it; after `scheduler_add_thread`; after `schedule()`, at its
lock release and whole; and after the suspending part of `thread_sleep_ms`.
Deadlines are compared as tick counts. -/
theorem C6_sleepqueue_shape_invariant (s : Sched) (hs : SleepqShape s) :
    (∀ t s', scheduler_remove_thread s t = .ok s' →
      SleepqShape s' ∧
      (THREAD_HAS_TIMEOUT (s.thread t) = false →
        s'.sched_sleepqueue = s.sched_sleepqueue ++ [t]) ∧
      (THREAD_HAS_TIMEOUT (s.thread t) = true →
        ∃ pre post, s.sched_sleepqueue = pre ++ post ∧
          s'.sched_sleepqueue = pre ++ t :: post ∧
          (∀ x ∈ pre, THREAD_HAS_TIMEOUT (s.thread x) = true ∧
            (s.thread x).t_timeout < (s.thread t).t_timeout) ∧
          (∀ y ∈ post, THREAD_HAS_TIMEOUT (s.thread y) = true →
            (s.thread t).t_timeout ≤ (s.thread y).t_timeout))) ∧
    (∀ t s', THREAD_HAS_TIMEOUT (s.thread t) = false →
      scheduler_init_thread s t = .ok s' → SleepqShape s') ∧
    (∀ t s', kthread_init s t = .ok s' → SleepqShape s') ∧
    (∀ t s', thread_alloc s t = .ok s' → SleepqShape s') ∧
    (∀ t s', scheduler_add_thread s t = .ok s' → SleepqShape s') ∧
    (∀ cpuid s', schedule_locked s cpuid = .ok s' → SleepqShape s') ∧
    (∀ cpuid s', schedule s cpuid = .ok s' → SleepqShape s') ∧
    (∀ cpuid ms s', thread_sleep_ms_suspend s cpuid ms = .ok s' → SleepqShape s') := by
  have ho := (SleepqShape_iff s).1 hs
  refine ⟨?_, ?_, ?_, ?_, ?_, ?_, ?_, ?_⟩
  · intro t s' h
    refine ⟨(SleepqShape_iff s').2 (remove_thread_shape s s' t ho h), ?_, ?_⟩
    · intro hT
      obtain ⟨_, _, _, e⟩ := remove_thread_ok s s' t h
      rw [e]
      simp [hT]
    · intro hT
      obtain ⟨_, _, _, e⟩ := remove_thread_ok s s' t h
      obtain ⟨pre, post, e1, e2, e3, e4⟩ := sleepqueue_insert_place s.thread t _ ho
      refine ⟨pre, post, e1, ?_, e3, e4⟩
      rw [e]
      simp [hT, e2]
  · exact fun t s' hT h => (SleepqShape_iff s').2 (init_thread_shape s s' t ho hT h)
  · exact fun t s' h => (SleepqShape_iff s').2 (fresh_init_shape s s' t _ (by decide) ho h)
  · exact fun t s' h => (SleepqShape_iff s').2 (fresh_init_shape s s' t _ (by decide) ho h)
  · exact fun t s' h => (SleepqShape_iff s').2 (add_thread_shape s s' t ho h)
  · exact fun cpuid s' h => (SleepqShape_iff s').2 (schedule_locked_shape s s' cpuid ho h)
  · exact fun cpuid s' h => (SleepqShape_iff s').2 (schedule_shape s s' cpuid ho h)
  · exact fun cpuid ms s' h =>
      (SleepqShape_iff s').2 (thread_sleep_ms_suspend_shape s s' cpuid ms ho h)
/-- C6 at the example with sleepers: suspending thread 1 (deadline 7) puts it
between thread 3 (deadline 5) and thread 4 (deadline 9). -/
theorem C6_sleepqueue_shape_invariant_witness :
    SleepqShape demo_sleepers ∧
    ∃ s', scheduler_remove_thread demo_sleepers 1 = .ok s' ∧
      s'.sched_sleepqueue = [3, 1, 4, 5] ∧ SleepqShape s' := by
  have hs : SleepqShape demo_sleepers :=
    ⟨[3, 4], [5], rfl, by decide, by decide, by decide⟩
  refine ⟨hs, ?_⟩
  have hv : (match scheduler_remove_thread demo_sleepers 1 with
      | .ok x => decide (x.sched_sleepqueue = [3, 1, 4, 5]) | .error _ => false) = true := by
    decide
  cases h : scheduler_remove_thread demo_sleepers 1 with
  | error e => rw [h] at hv; cases hv
  | ok s' =>
    rw [h] at hv
    simp only [decide_eq_true_eq] at hv
    exact ⟨s', rfl, hv, ((C6_sleepqueue_shape_invariant demo_sleepers hs).1 1 s' h).1⟩

/-! ## C7: timeout wake-up -/

/-- The re-queue step changes no thread and not the sleep queue, and keeps every
run-queue entry. -/
theorem schedule_requeue_keeps (s s' : Sched) (cur : Nat) (h : schedule_requeue s cur = .ok s') :
    s'.thread = s.thread ∧ s'.sched_sleepqueue = s.sched_sleepqueue ∧
    (∀ x ∈ s.sched_runqueue, x ∈ s'.sched_runqueue) ∧
    s'.ticks = s.ticks ∧ s'.curthread = s.curthread := by
  rcases schedule_requeue_ok s s' cur h with ⟨e, _⟩ | ⟨_, _, _, _, pre, post, e1, e2, _, _⟩
  · subst e
    exact ⟨rfl, rfl, fun _ hx => hx, rfl, rfl⟩
  · subst e2
    refine ⟨rfl, rfl, ?_, rfl, rfl⟩
    intro x hx
    by_cases hxc : x = cur
    · subst hxc; simp
    · have : x ∈ s.sched_runqueue.erase cur := (List.mem_erase_of_ne hxc).2 hx
      rw [e1] at this
      simp only [List.mem_append, List.mem_cons] at this ⊢
      tauto

/-- C7: the timeout wake-up in `schedule()`.  With consistent queues, a sorted
run queue and an eligible thread, if the head `t` of the sleep queue has
`THREAD_FLAG_TIMEOUT` set and its deadline `t_timeout` is less than or equal to
the current tick count, equality included, then `schedule()` returns and has
taken `t` off the sleep queue, whose other entries stay, has inserted `t` into
the run queue after the entries with a `t_priority` value `<=` its own and
before those with a larger one, leaving `t` once on a sorted run queue, and has
cleared the TIMEOUT and SUSPENDED flags of `t`. -/
theorem C7_timeout_wakeup (s : Sched) (cpuid : Int) (cur t : Nat)
    (hq : QueuesOK s) (hsorted : RunqSorted s) (hcur : s.curthread cpuid = some cur)
    (hel : ∃ x ∈ s.sched_runqueue, Eligible s.thread cpuid cur x)
    (hhead : s.sched_sleepqueue.head? = some t)
    (hT : THREAD_HAS_TIMEOUT (s.thread t) = true)
    (hdue : (s.thread t).t_timeout ≤ GetTicks s) :
    ∃ s1 s' s'' pre post,
      schedule_wakeup (s.update_flags cur (fun f => f &&& not32 THREAD_FLAG_RESCHEDULE))
        = .ok s1 ∧
      schedule_locked s cpuid = .ok s' ∧ schedule s cpuid = .ok s'' ∧
      s.sched_runqueue = pre ++ post ∧ s1.sched_runqueue = pre ++ t :: post ∧
      (∀ x ∈ pre, (s.thread x).t_priority ≤ (s.thread t).t_priority) ∧
      (∀ y ∈ post, (s.thread t).t_priority < (s.thread y).t_priority) ∧
      s'.sched_sleepqueue = s.sched_sleepqueue.tail ∧ t ∉ s'.sched_sleepqueue ∧
      scheduler_is_on_queue s'.sched_runqueue t = 1 ∧ RunqSorted s' ∧
      THREAD_HAS_TIMEOUT (s'.thread t) = false ∧ THREAD_IS_SUSPENDED (s'.thread t) = false ∧
      s''.sched_sleepqueue = s'.sched_sleepqueue ∧ s''.sched_runqueue = s'.sched_runqueue ∧
      THREAD_HAS_TIMEOUT (s''.thread t) = false ∧
      THREAD_IS_SUSPENDED (s''.thread t) = false := by
  obtain ⟨s', s'', hs', hs'', e''⟩ := schedule_succeeds s cpuid cur hq hcur hel
  obtain ⟨cur2, s1, new, s2, hc2, h1, _, _, _, _, _, h2, e⟩ := schedule_locked_ok s s' cpuid hs'
  rw [hcur] at hc2
  cases hc2
  have kc := clear_reschedule_keeps s cur t
  obtain ⟨w1, w2, w3, w4, pre, post, w5, w6, w7, w8⟩ :=
    schedule_wakeup_due _ s1 h1 t hhead (by rw [kc.2.2.2]; exact hT) (by simpa using hdue)
  obtain ⟨r1, r2, r3, _, _⟩ := schedule_requeue_keeps s1 s2 cur h2
  simp only [update_flags_runqueue, update_flags_priority] at w5 w7 w8
  have hs2 := hsorted
  unfold RunqSorted at hs2
  rw [w5] at hs2
  have hp := pairwise_insert_split (fun x => (s.thread x).t_priority) t pre post hs2 w7 w8
  have hinv' : QueuesOK s' := (schedule_locked_inv [] s s' cpuid ⟨hq, by simp⟩ hs').1
  have hsl' : s'.sched_sleepqueue = s1.sched_sleepqueue := by rw [e]; exact r2
  have hrq' : s'.sched_runqueue = s2.sched_runqueue := by rw [e]; rfl
  have hmem' : t ∈ s'.sched_runqueue := by rw [hrq']; exact r3 t w1
  have hT' : THREAD_HAS_TIMEOUT (s'.thread t) = false := by
    rw [e]
    show THREAD_HAS_TIMEOUT
      ((s2.update_flags new (fun f => f ||| THREAD_FLAG_ACTIVE)).thread t) = false
    rw [timeout_update_flags]
    split
    · rename_i hx
      rw [testBit_set_active, ← hx, r1, ← has_timeout_eq, w4]; simp
    · rw [r1]; exact w4
  have hS' : THREAD_IS_SUSPENDED (s'.thread t) = false := by
    rw [e]
    show THREAD_IS_SUSPENDED
      ((s2.update_flags new (fun f => f ||| THREAD_FLAG_ACTIVE)).thread t) = false
    rw [suspended_update_flags]
    split
    · rename_i hx
      rw [testBit_set_active, ← hx, r1, ← is_suspended_eq, w3]; simp
    · rw [r1]; exact w3
  have hsl1 : s1.sched_sleepqueue = s.sched_sleepqueue.tail := by
    rcases schedule_wakeup_ok _ s1 h1 with ⟨_, hno⟩ | ⟨t2, rest, _, _, hq2, _, _, _, _, _, e2, _, _⟩
    · exact absurd ⟨by rw [kc.2.2.2]; exact hT, by simpa using hdue⟩ (hno t hhead)
    · rw [e2]
      simp only [update_flags_sleepqueue] at hq2 ⊢
      rw [hq2]
      rfl
  have t1 := (QueuesOK_iff s').1 hinv' t
  unfold ThreadOK at t1
  have cpos := List.count_pos_iff.2 hmem'
  refine ⟨s1, s', s'', pre, post, h1, hs', hs'', w5, w6, w7, hp.2, by rw [hsl', hsl1],
    by rw [hsl']; exact w2, by unfold scheduler_is_on_queue; omega,
    schedule_locked_sorted s s' cpuid hsorted hs', hT', hS', ?_, ?_, ?_, ?_⟩
  · rw [e'']; split <;> rfl
  · rw [e'']; split <;> rfl
  · rw [e'']
    split
    · unfold scheduler_release
      rw [timeout_update_flags]
      split
      · rename_i _ hx
        rw [testBit_clear_active, ← hx, ← has_timeout_eq, hT']; simp
      · exact hT'
    · exact hT'
  · rw [e'']
    split
    · unfold scheduler_release
      rw [suspended_update_flags]
      split
      · rename_i _ hx
        rw [testBit_clear_active, ← hx, ← is_suspended_eq, hS']; simp
      · exact hS'
    · exact hS'

/-- C7 at the example state: at tick 5 the sleeper 3, whose deadline is tick 5,
is woken by `schedule()` on CPU 0. -/
theorem C7_timeout_wakeup_witness :
    QueuesOK demo ∧ RunqSorted demo ∧ demo.curthread 0 = some 1 ∧
    (∃ x ∈ demo.sched_runqueue, Eligible demo.thread 0 1 x) ∧
    demo.sched_sleepqueue.head? = some 3 ∧ THREAD_HAS_TIMEOUT (demo.thread 3) = true ∧
    (demo.thread 3).t_timeout ≤ GetTicks demo ∧
    ∃ s', schedule_locked demo 0 = .ok s' ∧ s'.sched_sleepqueue = [] ∧
      scheduler_is_on_queue s'.sched_runqueue 3 = 1 ∧
      THREAD_HAS_TIMEOUT (s'.thread 3) = false ∧ THREAD_IS_SUSPENDED (s'.thread 3) = false := by
  have hq : QueuesOK demo := ⟨by decide, by decide, by decide⟩
  have hs : RunqSorted demo := by unfold RunqSorted; decide
  have hel : ∃ x ∈ demo.sched_runqueue, Eligible demo.thread 0 1 x :=
    ⟨2, by decide, by unfold Eligible; decide⟩
  refine ⟨hq, hs, rfl, hel, rfl, by decide, by decide, ?_⟩
  obtain ⟨s1, s', s'', pre, post, _, h2, _, _, _, _, _, h8, _, h10, _, h12, h13, _⟩ :=
    C7_timeout_wakeup demo 0 1 3 hq hs rfl hel rfl (by decide) (by decide)
  exact ⟨s', h2, by rw [h8]; rfl, h10, h12, h13⟩

/-! ## C8: the deadline of `thread_sleep_ms` -/

theorem remove_thread_succeeds (s : Sched) (t : Nat)
    (hS : THREAD_IS_SUSPENDED (s.thread t) = false)
    (hsl : scheduler_is_on_queue s.sched_sleepqueue t = 0)
    (hrq : scheduler_is_on_queue s.sched_runqueue t = 1) :
    ∃ s', scheduler_remove_thread s t = .ok s' := by
  unfold scheduler_remove_thread
  simp only [hS, hsl, hrq]
  exact ⟨_, rfl⟩

theorem sleep_num_ticks_eq (ms : Nat) : sleep_num_ticks ms = max 1 (ms / 10) := by
  unfold sleep_num_ticks GetPeriodicyInHz
  simp only [Nat.reduceDiv]
  split
  · rename_i h; rw [h]; rfl
  · rename_i h
    exact (Nat.max_eq_right (by omega)).symm

/-- C8: the deadline computed by `thread_sleep_ms`.  With the timer rate of 100 Hz
of `GetPeriodicyInHz`, for every `ms`, when the current thread `t` of the CPU is
on the run queue, not suspended and not the idle thread, `thread_sleep_ms(ms)`
passes the assertions of `Thread::Suspend` and, before it calls the scheduler,
has set `t_timeout` to the current tick count plus `max(1, ms / 10)`, has set
`THREAD_FLAG_TIMEOUT` and has suspended `t` onto the sleep queue; the deadline
is at least one tick after the current tick, and `thread_sleep_ms(50)` at tick
1000 gives the deadline 1005. -/
theorem C8_sleep_deadline (s : Sched) (cpuid : Int) (ms t : Nat)
    (hcur : s.curthread cpuid = some t)
    (hS : THREAD_IS_SUSPENDED (s.thread t) = false)
    (hidle : s.idlethread cpuid ≠ some t)
    (hrq : scheduler_is_on_queue s.sched_runqueue t = 1)
    (hsl : scheduler_is_on_queue s.sched_sleepqueue t = 0) :
    GetPeriodicyInHz = 100 ∧
    ∃ s1, thread_sleep_ms_suspend s cpuid ms = .ok s1 ∧
      thread_sleep_ms s cpuid ms = schedule s1 cpuid ∧
      (s1.thread t).t_timeout = GetTicks s + max 1 (ms / 10) ∧
      GetTicks s + 1 ≤ (s1.thread t).t_timeout ∧
      (GetTicks s = 1000 → ms = 50 → (s1.thread t).t_timeout = 1005) ∧
      THREAD_HAS_TIMEOUT (s1.thread t) = true ∧ THREAD_IS_SUSPENDED (s1.thread t) = true ∧
      scheduler_is_on_queue s1.sched_sleepqueue t = 1 ∧
      scheduler_is_on_queue s1.sched_runqueue t = 0 ∧
      s1.ticks = s.ticks ∧ s1.curthread = s.curthread := by
  refine ⟨rfl, ?_⟩
  have hS2 : THREAD_IS_SUSPENDED
      ((arm_timeout s t (GetTicks s + sleep_num_ticks ms)).thread t) = false := by
    rw [is_suspended_eq, arm_timeout_testBit, ← is_suspended_eq, hS]; simp
  obtain ⟨s1, hs1⟩ := remove_thread_succeeds (arm_timeout s t (GetTicks s + sleep_num_ticks ms)) t
    hS2 hsl hrq
  obtain ⟨_, _, _, e⟩ := remove_thread_ok _ s1 t hs1
  have hsus : thread_sleep_ms_suspend s cpuid ms = .ok s1 := by
    unfold thread_sleep_ms_suspend Thread_Suspend
    simp only [hcur, hS2, arm_timeout_idlethread, hidle, hs1]
    simp
  have hto : (s1.thread t).t_timeout = GetTicks s + max 1 (ms / 10) := by
    rw [e, update_flags_timeout]
    show ((arm_timeout s t (GetTicks s + sleep_num_ticks ms)).thread t).t_timeout = _
    rw [arm_timeout_timeout, if_pos rfl, sleep_num_ticks_eq]
  have hT : THREAD_HAS_TIMEOUT ((arm_timeout s t (GetTicks s + sleep_num_ticks ms)).thread t)
      = true := by
    rw [has_timeout_eq, arm_timeout_testBit]; simp
  unfold scheduler_is_on_queue at hrq hsl ⊢
  refine ⟨s1, hsus, ?_, hto, ?_, ?_, ?_, ?_, ?_, ?_, ?_, ?_⟩
  · unfold thread_sleep_ms
    rw [hsus]
  · rw [hto]
    exact Nat.add_le_add_left (le_max_left 1 (ms / 10)) _
  · intro h1 h2
    rw [hto, h1, h2]
    rfl
  · rw [e, timeout_update_flags, if_pos rfl, testBit_set_suspended]
    show (((arm_timeout s t (GetTicks s + sleep_num_ticks ms)).thread t).t_flags.testBit 6
      || decide (1 = 6)) = true
    rw [← has_timeout_eq, hT]; rfl
  · rw [e, suspended_update_flags, if_pos rfl, testBit_set_suspended]; simp
  · rw [e]
    simp only [update_flags_sleepqueue, hT, if_true]
    show (sleepqueue_insert _ t s.sched_sleepqueue).count t = 1
    rw [count_sleepqueue_insert, hsl]
    simp
  · rw [e]
    simp only [update_flags_runqueue]
    show (s.sched_runqueue.erase t).count t = 0
    rw [List.count_erase_self, hrq]
  · rw [e]; rfl
  · rw [e]; rfl

/-- C8 at the example state at tick 1000: thread 1 calls `thread_sleep_ms(50)` on
CPU 0 and gets the deadline 1005. -/
theorem C8_sleep_deadline_witness :
    demo_tick1000.curthread 0 = some 1 ∧
    THREAD_IS_SUSPENDED (demo_tick1000.thread 1) = false ∧
    demo_tick1000.idlethread 0 ≠ some 1 ∧
    scheduler_is_on_queue demo_tick1000.sched_runqueue 1 = 1 ∧
    scheduler_is_on_queue demo_tick1000.sched_sleepqueue 1 = 0 ∧
    ∃ s1, thread_sleep_ms_suspend demo_tick1000 0 50 = .ok s1 ∧
      (s1.thread 1).t_timeout = 1005 ∧ THREAD_HAS_TIMEOUT (s1.thread 1) = true ∧
      scheduler_is_on_queue s1.sched_sleepqueue 1 = 1 := by
  refine ⟨rfl, by decide, by decide, by decide, by decide, ?_⟩
  obtain ⟨_, s1, h1, _, _, _, h5, h6, _, h8, _⟩ :=
    C8_sleep_deadline demo_tick1000 0 50 1 rfl (by decide) (by decide) (by decide) (by decide)
  exact ⟨s1, h1, h5 rfl rfl, h6, h8⟩

/-! ## C9: suspend then resume -/

theorem erase_insert_mid (t : Nat) (pre post : List Nat) (h : t ∉ pre) :
    (pre ++ t :: post).erase t = pre ++ post := by
  induction pre with
  | nil => simp
  | cons a l ih =>
    have hne : a ≠ t := fun e => h (by simp [e])
    have hl : t ∉ l := fun e => h (by simp [e])
    simp only [List.cons_append]
    rw [List.erase_cons_tail (by simpa using hne), ih hl]

theorem erase_sleepqueue_after_remove (s : Sched) (t : Nat) (h : t ∉ s.sched_sleepqueue) :
    (if THREAD_HAS_TIMEOUT (s.thread t) = true then
        sleepqueue_insert s.thread t s.sched_sleepqueue
      else s.sched_sleepqueue ++ [t]).erase t = s.sched_sleepqueue := by
  split
  · obtain ⟨pre, post, e1, e2, _, _⟩ := sleepqueue_insert_split s.thread t s.sched_sleepqueue
    rw [e2, e1]
    rw [e1] at h
    exact erase_insert_mid t pre post (fun hm => h (by simp [hm]))
  · have := erase_insert_mid t s.sched_sleepqueue [] h
    simpa using this

/-- C9: round trip of suspend and resume.  For a thread `t` that is linked once
on the run queue, not on the sleep queue and not suspended, with the run queue
sorted, `scheduler_remove_thread(t)` followed by `scheduler_add_thread(t)` both
return and leave `t` once on the run queue and not on the sleep queue, behind
every entry whose `t_priority` value is `<=` its own and before every entry
with a larger value, that is at the tail of its priority band; the sleep queue
is what it was before, and the other run-queue threads keep their order. -/
theorem C9_suspend_resume_roundtrip (s : Sched) (t : Nat)
    (hS : THREAD_IS_SUSPENDED (s.thread t) = false)
    (hrq : scheduler_is_on_queue s.sched_runqueue t = 1)
    (hsl : scheduler_is_on_queue s.sched_sleepqueue t = 0)
    (hsorted : RunqSorted s) :
    ∃ s1 s2 pre post, scheduler_remove_thread s t = .ok s1 ∧
      scheduler_add_thread s1 t = .ok s2 ∧
      s2.sched_sleepqueue = s.sched_sleepqueue ∧ t ∉ s2.sched_sleepqueue ∧
      s.sched_runqueue.erase t = pre ++ post ∧ s2.sched_runqueue = pre ++ t :: post ∧
      (∀ x ∈ pre, (s.thread x).t_priority ≤ (s.thread t).t_priority) ∧
      (∀ y ∈ post, (s.thread t).t_priority < (s.thread y).t_priority) ∧
      s2.sched_runqueue.erase t = s.sched_runqueue.erase t ∧
      scheduler_is_on_queue s2.sched_runqueue t = 1 ∧
      THREAD_IS_SUSPENDED (s2.thread t) = false ∧ RunqSorted s2 ∧
      (∀ x, (s2.thread x).t_priority = (s.thread x).t_priority) := by
  obtain ⟨s1, hs1⟩ := remove_thread_succeeds s t hS hsl hrq
  obtain ⟨_, _, _, e⟩ := remove_thread_ok s s1 t hs1
  have hsort1 := remove_thread_sorted s s1 t hsorted hs1
  unfold scheduler_is_on_queue at hrq hsl
  have hnm : t ∉ s.sched_sleepqueue := List.count_eq_zero.1 hsl
  have q1 : s1.sched_sleepqueue = (if THREAD_HAS_TIMEOUT (s.thread t) = true then
        sleepqueue_insert s.thread t s.sched_sleepqueue
      else s.sched_sleepqueue ++ [t]) := by rw [e]; rfl
  have r1 : s1.sched_runqueue = s.sched_runqueue.erase t := by rw [e]; rfl
  have p1 : ∀ x, (s1.thread x).t_priority = (s.thread x).t_priority := by
    intro x; rw [e]; simp
  have hS1 : THREAD_IS_SUSPENDED (s1.thread t) = true := by
    rw [e, suspended_update_flags, if_pos rfl, testBit_set_suspended]; simp
  have c1 : scheduler_is_on_queue s1.sched_sleepqueue t = 1 := by
    unfold scheduler_is_on_queue
    rw [q1, count_sleepqueue_after_remove, hsl]
    simp
  have c2 : scheduler_is_on_queue s1.sched_runqueue t = 0 := by
    unfold scheduler_is_on_queue
    rw [r1, List.count_erase_self, hrq]
  obtain ⟨s2, hs2⟩ := add_thread_succeeds s1 t hS1 c1 c2
  obtain ⟨_, _, _, pre, post, e1, e2, e3, e4⟩ := add_thread_ok s1 s2 t hs2
  have hsrt := hsort1
  unfold RunqSorted at hsrt
  rw [e1] at hsrt
  have hp := pairwise_insert_split (fun x => (s1.thread x).t_priority) t pre post hsrt e3 e4
  have hpre : t ∉ pre := by
    intro hm
    have hm2 : t ∈ s1.sched_runqueue := by rw [e1]; simp [hm]
    have := List.count_pos_iff.2 hm2
    unfold scheduler_is_on_queue at c2
    omega
  have hpost : t ∉ post := by
    intro hm
    have hm2 : t ∈ s1.sched_runqueue := by rw [e1]; simp [hm]
    have := List.count_pos_iff.2 hm2
    unfold scheduler_is_on_queue at c2
    omega
  have r2 : s2.sched_runqueue = pre ++ t :: post := by rw [e2]; rfl
  have q2 : s2.sched_sleepqueue = s.sched_sleepqueue := by
    rw [e2]
    simp only [update_flags_sleepqueue]
    rw [q1]
    exact erase_sleepqueue_after_remove s t hnm
  refine ⟨s1, s2, pre, post, hs1, hs2, q2, by rw [q2]; exact hnm, by rw [← r1, e1], r2, ?_, ?_,
    ?_, ?_, ?_, add_thread_sorted s1 s2 t hsort1 hs2, ?_⟩
  · intro x hx
    have := e3 x hx
    rw [p1, p1] at this
    exact this
  · intro y hy
    have := hp.2 y hy
    simp only [p1] at this
    exact this
  · rw [r2, erase_insert_mid t pre post hpre, ← r1, e1]
  · unfold scheduler_is_on_queue
    rw [r2, count_insert_mid, List.count_append,
      List.count_eq_zero.2 hpre, List.count_eq_zero.2 hpost]
    simp
  · rw [e2, suspended_update_flags, if_pos rfl, testBit_clear_suspended_timeout]; simp
  · intro x
    rw [e2, update_flags_priority]
    exact p1 x

/-- C9 at the example state: suspending and resuming thread 2 (priority 100)
leaves both queues as they were. -/
theorem C9_suspend_resume_roundtrip_witness :
    THREAD_IS_SUSPENDED (demo.thread 2) = false ∧
    scheduler_is_on_queue demo.sched_runqueue 2 = 1 ∧
    scheduler_is_on_queue demo.sched_sleepqueue 2 = 0 ∧ RunqSorted demo ∧
    ∃ s1 s2, scheduler_remove_thread demo 2 = .ok s1 ∧ scheduler_add_thread s1 2 = .ok s2 ∧
      s2.sched_sleepqueue = demo.sched_sleepqueue ∧
      s2.sched_runqueue.erase 2 = demo.sched_runqueue.erase 2 ∧
      scheduler_is_on_queue s2.sched_runqueue 2 = 1 := by
  have hs : RunqSorted demo := by unfold RunqSorted; decide
  refine ⟨by decide, by decide, by decide, hs, ?_⟩
  obtain ⟨s1, s2, pre, post, h1, h2, h3, _, _, _, _, _, h9, h10, _⟩ :=
    C9_suspend_resume_roundtrip demo 2 (by decide) (by decide) (by decide) hs
  exact ⟨s1, s2, h1, h2, h3, h9, h10⟩

/-! ## C10: ACTIVE and SUSPENDED -/

theorem ActiveOnlyCurrent_congr (s s' : Sched) (hc : s'.curthread = s.curthread)
    (ha : ∀ x, THREAD_IS_ACTIVE (s'.thread x) = true → THREAD_IS_ACTIVE (s.thread x) = true)
    (h : ActiveOnlyCurrent s) : ActiveOnlyCurrent s' := by
  intro t ht
  rw [hc]
  exact h t (ha t ht)

theorem ActiveOnlyCurrent_update_flags (s : Sched) (t : Nat) (f : Nat → Nat)
    (hf : ∀ v : Nat, (f v).testBit 0 = true → v.testBit 0 = true)
    (h : ActiveOnlyCurrent s) : ActiveOnlyCurrent (s.update_flags t f) := by
  refine ActiveOnlyCurrent_congr s _ rfl ?_ h
  intro x
  rw [active_update_flags]
  split
  · rename_i hx; subst hx
    intro hh
    rw [is_active_eq]
    exact hf _ hh
  · exact fun hh => hh

theorem fresh_init_active (s s' : Sched) (t : Nat) (fresh : Thread)
    (hA : THREAD_IS_ACTIVE fresh = false) (h : ActiveOnlyCurrent s)
    (hr : scheduler_init_thread { s with thread := Function.update s.thread t fresh } t
      = .ok s') : ActiveOnlyCurrent s' := by
  obtain ⟨_, _, e⟩ := init_thread_ok _ s' t hr
  subst e
  refine ActiveOnlyCurrent_congr s _ rfl ?_ h
  intro x
  rw [active_update_flags]
  split
  · rename_i hx; subst hx
    rw [testBit_set_suspended]
    simp only [Function.update_same]
    rw [← is_active_eq, hA]
    simp
  · rename_i hx
    simp only [Function.update_noteq hx]
    exact fun hh => hh

theorem add_thread_active (s s' : Sched) (t : Nat) (h : ActiveOnlyCurrent s)
    (hr : scheduler_add_thread s t = .ok s') : ActiveOnlyCurrent s' := by
  obtain ⟨_, _, _, pre, post, _, e2, _, _⟩ := add_thread_ok s s' t hr
  subst e2
  refine ActiveOnlyCurrent_update_flags _ t _ ?_ (ActiveOnlyCurrent_congr s _ rfl (fun _ hh => hh) h)
  intro v
  rw [testBit_clear_suspended_timeout]
  simp

theorem remove_thread_active (s s' : Sched) (t : Nat) (h : ActiveOnlyCurrent s)
    (hr : scheduler_remove_thread s t = .ok s') : ActiveOnlyCurrent s' := by
  obtain ⟨_, _, _, e⟩ := remove_thread_ok s s' t hr
  subst e
  refine ActiveOnlyCurrent_update_flags _ t _ ?_ (ActiveOnlyCurrent_congr s _ rfl (fun _ hh => hh) h)
  intro v
  rw [testBit_set_suspended]
  simp

theorem exit_thread_locked_active (s s' : Sched) (t : Nat) (h : ActiveOnlyCurrent s)
    (hr : scheduler_exit_thread_locked s t = .ok s') : ActiveOnlyCurrent s' := by
  obtain ⟨_, _, e⟩ := exit_thread_locked_ok s s' t hr
  subst e
  refine ActiveOnlyCurrent_update_flags _ t _ ?_ (ActiveOnlyCurrent_congr s _ rfl (fun _ hh => hh) h)
  intro v
  rw [testBit_set_zombie]
  simp

/-- The flags after `schedule` at its lock release: the chosen thread is active
and not suspended, the active flag of every other thread is unchanged, and no
thread has become suspended. -/
theorem schedule_locked_flags (s s' : Sched) (cpuid : Int)
    (h : schedule_locked s cpuid = .ok s') :
    ∃ cur new, s.curthread cpuid = some cur ∧
      s'.curthread = Function.update s.curthread cpuid (some new) ∧
      THREAD_IS_ACTIVE (s'.thread new) = true ∧ THREAD_IS_SUSPENDED (s'.thread new) = false ∧
      (∀ x, x ≠ new → THREAD_IS_ACTIVE (s'.thread x) = THREAD_IS_ACTIVE (s.thread x)) ∧
      (∀ x, THREAD_IS_SUSPENDED (s'.thread x) = true →
        THREAD_IS_SUSPENDED (s.thread x) = true) := by
  obtain ⟨cur, s1, new, s2, hc, h1, _, hS, _, _, _, h2, e⟩ := schedule_locked_ok s s' cpuid h
  obtain ⟨_, _, k3, _, _, k6, _⟩ := schedule_wakeup_keeps _ s1 h1
  obtain ⟨r1, _, _, _, r5⟩ := schedule_requeue_keeps s1 s2 cur h2
  have th' : ∀ x, s'.thread x
      = (s2.update_flags new (fun f => f ||| THREAD_FLAG_ACTIVE)).thread x := by
    intro x; rw [e]
  refine ⟨cur, new, hc, ?_, ?_, ?_, ?_, ?_⟩
  · rw [e]
    show Function.update s2.curthread cpuid (some new) = _
    rw [r5, k6]
    rfl
  · rw [th', active_update_flags, if_pos rfl, testBit_set_active]; simp
  · rw [th', suspended_update_flags, if_pos rfl, testBit_set_active, r1, ← is_suspended_eq, hS]
    simp
  · intro x hx
    rw [th', active_update_flags, if_neg hx, r1, k3]
    exact (clear_reschedule_keeps s cur x).2.2.1
  · intro x hx
    rw [th', suspended_update_flags, r1] at hx
    have hx1 : THREAD_IS_SUSPENDED (s1.thread x) = true := by
      split at hx
      · rename_i hxn
        rw [testBit_set_active, ← is_suspended_eq] at hx
        rw [hxn]
        simpa using hx
      · exact hx
    have kc := (clear_reschedule_keeps s cur x).1
    rcases schedule_wakeup_ok _ s1 h1 with ⟨e1, _⟩ | ⟨t, rest, pre, post, _, _, _, _, _, _, e2, _, _⟩
    · rw [e1, kc] at hx1; exact hx1
    · rw [e2, suspended_update_flags] at hx1
      split at hx1
      · rw [testBit_clear_timeout_suspended] at hx1
        simp at hx1
      · rw [← kc]; exact hx1

theorem schedule_active (s s'' : Sched) (cpuid : Int) (h : ActiveOnlyCurrent s)
    (hr : schedule s cpuid = .ok s'') : ActiveOnlyCurrent s'' := by
  obtain ⟨cur, s', hc, hs', e''⟩ := schedule_ok s s'' cpuid hr
  obtain ⟨cur2, new, hc2, f1, f2, _, f4, _⟩ := schedule_locked_flags s s' cpuid hs'
  rw [hc] at hc2
  cases hc2
  have hcn : s'.curthread cpuid = some new := by rw [f1]; simp
  have hcur'' : s''.curthread = s'.curthread := by
    rw [e'']; split <;> rfl
  intro t ht
  by_cases htn : t = new
  · exact ⟨cpuid, by rw [hcur'', hcn, htn]⟩
  · have hA' : THREAD_IS_ACTIVE (s'.thread t) = true := by
      rw [e''] at ht
      split at ht
      · unfold scheduler_release at ht
        rw [active_update_flags] at ht
        split at ht
        · rw [testBit_clear_active] at ht
          simp at ht
        · exact ht
      · exact ht
    have htc : t ≠ cur := by
      intro htc
      rw [e''] at ht
      split at ht
      · unfold scheduler_release at ht
        rw [active_update_flags, if_pos htc, testBit_clear_active] at ht
        simp at ht
      · rename_i hne
        rw [hcn] at hne
        simp only [ne_eq, Option.some.injEq, not_not] at hne
        exact htn (htc.trans hne.symm)
    rw [f4 t htn] at hA'
    obtain ⟨cpu, hcpu⟩ := h t hA'
    have hne : cpu ≠ cpuid := by
      rintro rfl
      rw [hc] at hcpu
      exact htc (Option.some.inj hcpu).symm
    exact ⟨cpu, by rw [hcur'', f1, Function.update_noteq hne]; exact hcpu⟩

theorem thread_sleep_ms_suspend_active (s s' : Sched) (cpuid : Int) (ms : Nat)
    (h : ActiveOnlyCurrent s) (hr : thread_sleep_ms_suspend s cpuid ms = .ok s') :
    ActiveOnlyCurrent s' := by
  obtain ⟨t, _, _, _, h2⟩ := thread_sleep_ms_suspend_ok s s' cpuid ms hr
  refine remove_thread_active _ s' t ?_ h2
  refine ActiveOnlyCurrent_congr s _ rfl ?_ h
  intro x
  rw [is_active_eq, is_active_eq, arm_timeout_testBit]
  simp

/-- A call taken whole keeps the active flag on current threads only. -/
theorem whole_call_active (s s' : Sched) (c : SchedCall) (hw : c.whole = true)
    (h : ActiveOnlyCurrent s) (hr : c.run s = .ok s') : ActiveOnlyCurrent s' := by
  cases c with
  | kthread_init t => exact fresh_init_active s s' t _ (by decide) h hr
  | thread_alloc t => exact fresh_init_active s s' t _ (by decide) h hr
  | add_thread t => exact add_thread_active s s' t h hr
  | remove_thread t => exact remove_thread_active s s' t h hr
  | exit_thread cpuid t =>
    simp only [SchedCall.run] at hr
    unfold scheduler_exit_thread at hr
    split at hr
    · cases hr
    rename_i s1 hs1
    exact schedule_active s1 s' cpuid (exit_thread_locked_active s s1 t h hs1) hr
  | schedule cpuid => exact schedule_active s s' cpuid h hr
  | sleep_ms cpuid ms =>
    simp only [SchedCall.run] at hr
    unfold thread_sleep_ms at hr
    split at hr
    · cases hr
    rename_i s1 hs1
    exact schedule_active s1 s' cpuid (thread_sleep_ms_suspend_active s s1 cpuid ms h hs1) hr
  | tick =>
    simp only [SchedCall.run, Except.ok.injEq] at hr
    rw [← hr]
    exact ActiveOnlyCurrent_congr s _ rfl (fun _ hh => hh) h
  | exit_thread_locked t => exact exit_thread_locked_active s s' t h hr
  | schedule_locked cpuid => cases hw
  | release old =>
    simp only [SchedCall.run, Except.ok.injEq] at hr
    rw [← hr]
    refine ActiveOnlyCurrent_update_flags s old _ ?_ h
    intro v
    rw [testBit_clear_active]
    simp
  | sleep_ms_suspend cpuid ms => exact thread_sleep_ms_suspend_active s s' cpuid ms h hr

theorem run_calls_active (calls : List SchedCall) (s s' : Sched)
    (hw : ∀ c ∈ calls, c.whole = true) (h : ActiveOnlyCurrent s)
    (hr : run_calls s calls = .ok s') : ActiveOnlyCurrent s' := by
  induction calls generalizing s with
  | nil =>
    simp only [run_calls, Except.ok.injEq] at hr
    rw [← hr]
    exact h
  | cons c cs ih =>
    unfold run_calls at hr
    split at hr
    · rename_i s1 hs1
      exact ih s1 (fun c' hc' => hw c' (by simp [hc']))
        (whole_call_active s s1 c (hw c (by simp)) h hs1) hr
    · cases hr

/-- C10, as amended: ACTIVE and SUSPENDED are both set only on a thread that is
running.  Start from a state in which only current threads are active (at boot
no thread is) and make any sequence of scheduler calls, each taken whole,
`schedule()` through `scheduler_release`; then every thread that has both
`THREAD_FLAG_ACTIVE` and `THREAD_FLAG_SUSPENDED` set is the current thread of
some CPU, as after `Thread::Suspend` or the suspending part of
`thread_sleep_ms`.  At the lock release inside a following `schedule()` the
chosen thread is ACTIVE and not SUSPENDED, and a thread with both flags is a
current thread or the thread this CPU is switching away from. -/
theorem C10_active_suspended_only_running (s0 : Sched) (h0 : ActiveOnlyCurrent s0)
    (calls : List SchedCall) (hw : ∀ c ∈ calls, c.whole = true) (s : Sched)
    (hr : run_calls s0 calls = .ok s) :
    (∀ t, THREAD_IS_ACTIVE (s.thread t) = true → THREAD_IS_SUSPENDED (s.thread t) = true →
      ∃ cpu, s.curthread cpu = some t) ∧
    (∀ cpuid s', schedule_locked s cpuid = .ok s' →
      (∃ new, s'.curthread cpuid = some new ∧ THREAD_IS_ACTIVE (s'.thread new) = true ∧
        THREAD_IS_SUSPENDED (s'.thread new) = false) ∧
      ∀ t, THREAD_IS_ACTIVE (s'.thread t) = true → THREAD_IS_SUSPENDED (s'.thread t) = true →
        (∃ cpu, s'.curthread cpu = some t) ∨ s.curthread cpuid = some t) := by
  have hA := run_calls_active calls s0 s hw h0 hr
  refine ⟨fun t ha _ => hA t ha, ?_⟩
  intro cpuid s' hs'
  obtain ⟨cur, new, hc, f1, f2, f3, f4, _⟩ := schedule_locked_flags s s' cpuid hs'
  refine ⟨⟨new, by rw [f1]; simp, f2, f3⟩, ?_⟩
  intro t ha hsus
  have htn : t ≠ new := by
    rintro rfl
    rw [f3] at hsus
    cases hsus
  rw [f4 t htn] at ha
  obtain ⟨cpu, hcpu⟩ := hA t ha
  by_cases hne : cpu = cpuid
  · right
    rw [← hne]
    exact hcpu
  · left
    exact ⟨cpu, by rw [f1, Function.update_noteq hne]; exact hcpu⟩

/-- C10 as stated fails: after the run `sleep_calls` from boot, in which thread 3
runs on CPU 0 and suspends itself through `thread_sleep_ms`, thread 3 has both
`THREAD_FLAG_ACTIVE` and `THREAD_FLAG_SUSPENDED` set at the lock release of
`scheduler_remove_thread`, before any context switch. -/
theorem C10_counterexample :
    ∃ s, run_calls boot sleep_calls = .ok s ∧
      THREAD_IS_ACTIVE (s.thread 3) = true ∧ THREAD_IS_SUSPENDED (s.thread 3) = true := by
  have hv : (match run_calls boot sleep_calls with
      | .ok s => decide (THREAD_IS_ACTIVE (s.thread 3) = true ∧
          THREAD_IS_SUSPENDED (s.thread 3) = true)
      | .error _ => false) = true := by decide
  cases h : run_calls boot sleep_calls with
  | error e => rw [h] at hv; cases hv
  | ok s =>
    rw [h] at hv
    simp only [decide_eq_true_eq] at hv
    exact ⟨s, rfl, hv.1, hv.2⟩

/-- C10, as amended, on the run `sleep_calls` from boot: thread 3, which has both
flags, is the current thread of CPU 0. -/
theorem C10_active_suspended_only_running_witness :
    ActiveOnlyCurrent boot ∧ (∀ c ∈ sleep_calls, c.whole = true) ∧
    ∃ s, run_calls boot sleep_calls = .ok s ∧ s.curthread 0 = some 3 ∧
      ∃ cpu, s.curthread cpu = some 3 := by
  have h0 : ActiveOnlyCurrent boot := by
    intro t ht
    have : THREAD_IS_ACTIVE (boot.thread t) = false := by
      show flag_set 0 THREAD_FLAG_ACTIVE = false
      decide
    rw [this] at ht
    cases ht
  have hw : ∀ c ∈ sleep_calls, c.whole = true := by decide
  refine ⟨h0, hw, ?_⟩
  have hv : (match run_calls boot sleep_calls with
      | .ok s => decide (s.curthread 0 = some 3 ∧ THREAD_IS_ACTIVE (s.thread 3) = true ∧
          THREAD_IS_SUSPENDED (s.thread 3) = true)
      | .error _ => false) = true := by decide
  cases h : run_calls boot sleep_calls with
  | error e => rw [h] at hv; cases hv
  | ok s =>
    rw [h] at hv
    simp only [decide_eq_true_eq] at hv
    exact ⟨s, rfl, hv.1,
      (C10_active_suspended_only_running boot h0 sleep_calls hw s h).1 3 hv.2.1 hv.2.2⟩

/-! ## C11: an exited thread is not scheduled again -/

theorem Exited_update_flags (s : Sched) (t x : Nat) (f : Nat → Nat)
    (hf : ∀ v : Nat, v.testBit 2 = true → (f v).testBit 2 = true) (h : Exited s t) :
    Exited (s.update_flags x f) t := by
  refine ⟨?_, h.2.1, h.2.2⟩
  rw [zombie_update_flags]
  split
  · rename_i hx
    apply hf
    rw [← hx, ← is_zombie_eq]
    exact h.1
  · exact h.1

theorem add_thread_exited (s s' : Sched) (x t : Nat) (h : Exited s t)
    (hr : scheduler_add_thread s x = .ok s') : Exited s' t := by
  obtain ⟨_, _, c1, pre, post, e1, e2, _, _⟩ := add_thread_ok s s' x hr
  have hne : x ≠ t := by
    rintro rfl
    have := h.2.2
    unfold scheduler_is_on_queue at this
    omega
  subst e2
  apply Exited_update_flags _ _ _ _ (fun v hv => by rw [testBit_clear_suspended_timeout]; simp [hv])
  obtain ⟨hz, hr1, hs1⟩ := h
  unfold scheduler_is_on_queue at hr1 hs1
  refine ⟨hz, ?_, ?_⟩
  · show (pre ++ x :: post).count t = 0
    rw [count_insert_mid, ← e1, hr1, if_neg hne]
  · show (s.sched_sleepqueue.erase x).count t = 0
    rw [List.count_erase_of_ne hne.symm, hs1]

theorem remove_thread_exited (s s' : Sched) (x t : Nat) (h : Exited s t)
    (hr : scheduler_remove_thread s x = .ok s') : Exited s' t := by
  obtain ⟨_, _, c1, e⟩ := remove_thread_ok s s' x hr
  have hne : x ≠ t := by
    rintro rfl
    have := h.2.1
    unfold scheduler_is_on_queue at this
    omega
  subst e
  apply Exited_update_flags _ _ _ _ (fun v hv => by rw [testBit_set_suspended]; simp [hv])
  obtain ⟨hz, hr1, hs1⟩ := h
  unfold scheduler_is_on_queue at hr1 hs1
  refine ⟨hz, ?_, ?_⟩
  · show (s.sched_runqueue.erase x).count t = 0
    rw [List.count_erase_of_ne hne.symm, hr1]
  · show (if THREAD_HAS_TIMEOUT (s.thread x) = true then
        sleepqueue_insert s.thread x s.sched_sleepqueue
      else s.sched_sleepqueue ++ [x]).count t = 0
    rw [count_sleepqueue_after_remove, hs1, if_neg hne]

/-- After the locked part of `scheduler_exit_thread` the thread has exited. -/
theorem exit_thread_locked_exits (s s' : Sched) (t : Nat)
    (hr : scheduler_exit_thread_locked s t = .ok s') : Exited s' t := by
  obtain ⟨c1, c2, e⟩ := exit_thread_locked_ok s s' t hr
  subst e
  refine ⟨?_, ?_, ?_⟩
  · rw [zombie_update_flags, if_pos rfl, testBit_set_zombie]; simp
  · show (s.sched_runqueue.erase t).count t = 0
    rw [List.count_erase_self, c1]
  · exact c2

theorem exit_thread_locked_exited (s s' : Sched) (x t : Nat) (h : Exited s t)
    (hr : scheduler_exit_thread_locked s x = .ok s') : Exited s' t := by
  by_cases hxt : x = t
  · subst hxt; exact exit_thread_locked_exits s s' x hr
  obtain ⟨_, _, e⟩ := exit_thread_locked_ok s s' x hr
  subst e
  apply Exited_update_flags _ _ _ _ (fun v hv => by rw [testBit_set_zombie]; simp [hv])
  obtain ⟨hz, hr1, hs1⟩ := h
  unfold scheduler_is_on_queue at hr1 hs1
  refine ⟨hz, ?_, hs1⟩
  show (s.sched_runqueue.erase x).count t = 0
  rw [List.count_erase_of_ne (fun e => hxt e.symm), hr1]

theorem schedule_wakeup_exited (s s' : Sched) (t : Nat) (h : Exited s t)
    (hr : schedule_wakeup s = .ok s') : Exited s' t := by
  rcases schedule_wakeup_ok s s' hr with ⟨e, _⟩ | ⟨x, rest, pre, post, hq, _, _, _, _, e1, e2, _, _⟩
  · rw [e]; exact h
  · obtain ⟨hz, hr1, hs1⟩ := h
    unfold scheduler_is_on_queue at hr1 hs1
    have hne : x ≠ t := by
      rintro rfl
      rw [hq] at hs1
      simp at hs1
    subst e2
    apply Exited_update_flags _ _ _ _
      (fun v hv => by rw [testBit_clear_timeout_suspended]; simp [hv])
    refine ⟨hz, ?_, ?_⟩
    · show (pre ++ x :: post).count t = 0
      rw [count_insert_mid, ← e1, hr1, if_neg hne]
    · show rest.count t = 0
      rw [hq, List.count_cons] at hs1
      omega

theorem schedule_requeue_exited (s s' : Sched) (cur t : Nat) (h : Exited s t)
    (hr : schedule_requeue s cur = .ok s') : Exited s' t := by
  rcases schedule_requeue_ok s s' cur hr with ⟨e, _⟩ | ⟨_, hz2, _, _, pre, post, e1, e2, _, _⟩
  · rw [e]; exact h
  · obtain ⟨hz, hr1, hs1⟩ := h
    unfold scheduler_is_on_queue at hr1 hs1
    have hne : cur ≠ t := by
      rintro rfl
      rw [hz] at hz2
      cases hz2
    subst e2
    refine ⟨hz, ?_, hs1⟩
    show (pre ++ cur :: post).count t = 0
    rw [count_insert_mid, ← e1, List.count_erase_of_ne (fun e => hne e.symm), hr1, if_neg hne]
/-- At its lock release `schedule` has kept an exited thread off the queues and
has chosen another thread. -/
theorem schedule_locked_exited (s s' : Sched) (cpuid : Int) (t : Nat) (h : Exited s t)
    (hr : schedule_locked s cpuid = .ok s') :
    Exited s' t ∧ s'.curthread cpuid ≠ some t := by
  obtain ⟨cur, s1, new, s2, _, h1, hpick, _, _, c1, _, h2, e⟩ := schedule_locked_ok s s' cpuid hr
  have a0 : Exited (s.update_flags cur (fun f => f &&& not32 THREAD_FLAG_RESCHEDULE)) t :=
    Exited_update_flags s t cur _ (fun v hv => by rw [testBit_clear_reschedule]; simp [hv]) h
  have a1 := schedule_wakeup_exited _ s1 t a0 h1
  have a2 := schedule_requeue_exited s1 s2 cur t a1 h2
  have hne : new ≠ t := by
    rintro rfl
    have := a1.2.1
    unfold scheduler_is_on_queue at this
    omega
  subst e
  refine ⟨?_, ?_⟩
  · exact Exited_update_flags s2 t new (fun f => f ||| THREAD_FLAG_ACTIVE)
      (fun v hv => by rw [testBit_set_active]; simp [hv]) a2
  · show Function.update s2.curthread cpuid (some new) cpuid ≠ some t
    rw [Function.update_same]
    exact fun hh => hne (Option.some.inj hh)

theorem schedule_exited (s s' : Sched) (cpuid : Int) (t : Nat) (h : Exited s t)
    (hr : schedule s cpuid = .ok s') :
    Exited s' t ∧ s'.curthread cpuid ≠ some t := by
  obtain ⟨cur, s3, _, h3, e⟩ := schedule_ok s s' cpuid hr
  obtain ⟨a, b⟩ := schedule_locked_exited s s3 cpuid t h h3
  rw [e]
  split
  · exact ⟨Exited_update_flags s3 t cur (fun f => f &&& not32 THREAD_FLAG_ACTIVE)
      (fun v hv => by rw [testBit_clear_active]; simp [hv]) a, b⟩
  · exact ⟨a, b⟩

theorem fresh_init_exited (s s' : Sched) (x t : Nat) (fresh : Thread) (hne : x ≠ t)
    (h : Exited s t)
    (hr : scheduler_init_thread { s with thread := Function.update s.thread x fresh } x
      = .ok s') : Exited s' t := by
  obtain ⟨_, _, e⟩ := init_thread_ok _ s' x hr
  subst e
  apply Exited_update_flags _ _ _ _ (fun v hv => by rw [testBit_set_suspended]; simp [hv])
  obtain ⟨hz, hr1, hs1⟩ := h
  unfold scheduler_is_on_queue at hr1 hs1
  refine ⟨?_, hr1, ?_⟩
  · show THREAD_IS_ZOMBIE (Function.update s.thread x fresh t) = true
    rw [Function.update_noteq (fun e => hne e.symm)]
    exact hz
  · show (s.sched_sleepqueue ++ [x]).count t = 0
    rw [List.count_append, hs1, List.count_eq_zero.2 (by simp [Ne.symm hne])]

theorem thread_sleep_ms_suspend_exited (s s' : Sched) (cpuid : Int) (ms t : Nat)
    (h : Exited s t) (hr : thread_sleep_ms_suspend s cpuid ms = .ok s') : Exited s' t := by
  obtain ⟨x, _, _, _, h2⟩ := thread_sleep_ms_suspend_ok s s' cpuid ms hr
  refine remove_thread_exited _ s' x t ?_ h2
  refine ⟨?_, h.2.1, h.2.2⟩
  rw [is_zombie_eq, arm_timeout_testBit, ← is_zombie_eq, h.1]
  simp

/-- A call that does not create the thread `t` anew keeps it exited. -/
theorem call_exited (s s' : Sched) (c : SchedCall) (t : Nat) (hn : t ∉ c.new_threads)
    (h : Exited s t) (hr : c.run s = .ok s') : Exited s' t := by
  cases c with
  | kthread_init x =>
    exact fresh_init_exited s s' x t _ (fun e => hn (by simp [SchedCall.new_threads, e])) h hr
  | thread_alloc x =>
    exact fresh_init_exited s s' x t _ (fun e => hn (by simp [SchedCall.new_threads, e])) h hr
  | add_thread x => exact add_thread_exited s s' x t h hr
  | remove_thread x => exact remove_thread_exited s s' x t h hr
  | exit_thread cpuid x =>
    simp only [SchedCall.run] at hr
    unfold scheduler_exit_thread at hr
    split at hr
    · cases hr
    rename_i s1 hs1
    exact (schedule_exited s1 s' cpuid t (exit_thread_locked_exited s s1 x t h hs1) hr).1
  | schedule cpuid => exact (schedule_exited s s' cpuid t h hr).1
  | sleep_ms cpuid ms =>
    simp only [SchedCall.run] at hr
    unfold thread_sleep_ms at hr
    split at hr
    · cases hr
    rename_i s1 hs1
    exact (schedule_exited s1 s' cpuid t
      (thread_sleep_ms_suspend_exited s s1 cpuid ms t h hs1) hr).1
  | tick =>
    simp only [SchedCall.run, Except.ok.injEq] at hr
    rw [← hr]
    exact h
  | exit_thread_locked x => exact exit_thread_locked_exited s s' x t h hr
  | schedule_locked cpuid => exact (schedule_locked_exited s s' cpuid t h hr).1
  | release old =>
    simp only [SchedCall.run, Except.ok.injEq] at hr
    rw [← hr]
    exact Exited_update_flags s t old (fun f => f &&& not32 THREAD_FLAG_ACTIVE)
      (fun v hv => by rw [testBit_clear_active]; simp [hv]) h
  | sleep_ms_suspend cpuid ms => exact thread_sleep_ms_suspend_exited s s' cpuid ms t h hr

theorem run_calls_exited (calls : List SchedCall) (s s' : Sched) (t : Nat)
    (hn : ∀ c ∈ calls, t ∉ c.new_threads) (h : Exited s t)
    (hr : run_calls s calls = .ok s') : Exited s' t := by
  induction calls generalizing s with
  | nil =>
    simp only [run_calls, Except.ok.injEq] at hr
    rw [← hr]
    exact h
  | cons c cs ih =>
    unfold run_calls at hr
    split at hr
    · rename_i s1 hs1
      exact ih s1 (fun c' hc' => hn c' (by simp [hc']))
        (call_exited s s1 c t (hn c (by simp)) h hs1) hr
    · cases hr

/-- C11: a thread that exited is never scheduled again.  After
`scheduler_exit_thread(t)`, at the release of its lock and when its forced
`schedule()` is over, `t` has `THREAD_FLAG_ZOMBIE` set, is on neither the run
queue nor the sleep queue and is not the thread chosen.  In every state reached
later by any sequence of `schedule()`, `scheduler_add_thread`,
`scheduler_remove_thread`, `scheduler_exit_thread`, `thread_sleep_ms`, timer
ticks and creations of other threads, whole or cut at a release of the lock,
`t` is still a zombie on neither queue, `scheduler_add_thread(t)` and
`scheduler_remove_thread(t)` fail their assertions, and a `schedule()` on any
CPU, with its timeout wake-up, does not choose `t`. -/
theorem C11_exited_thread_never_scheduled (s s1 : Sched) (cpuid : Int) (t : Nat)
    (hexit : scheduler_exit_thread s cpuid t = .ok s1) :
    (∃ s0, scheduler_exit_thread_locked s t = .ok s0 ∧ Exited s0 t) ∧
    Exited s1 t ∧ s1.curthread cpuid ≠ some t ∧
    ∀ calls s2, (∀ c ∈ calls, t ∉ c.new_threads) → run_calls s1 calls = .ok s2 →
      Exited s2 t ∧
      succeeds (scheduler_add_thread s2 t) = false ∧
      succeeds (scheduler_remove_thread s2 t) = false ∧
      (∀ s3, schedule_wakeup s2 = .ok s3 → Exited s3 t) ∧
      (∀ cpu s3, schedule_locked s2 cpu = .ok s3 → Exited s3 t ∧ s3.curthread cpu ≠ some t) ∧
      (∀ cpu s3, schedule s2 cpu = .ok s3 → Exited s3 t ∧ s3.curthread cpu ≠ some t) := by
  unfold scheduler_exit_thread at hexit
  split at hexit
  · cases hexit
  rename_i s0 hs0
  have e0 := exit_thread_locked_exits s s0 t hs0
  have e1 := schedule_exited s0 s1 cpuid t e0 hexit
  refine ⟨⟨s0, hs0, e0⟩, e1.1, e1.2, ?_⟩
  intro calls s2 hn hr
  have e2 := run_calls_exited calls s1 s2 t hn e1.1 hr
  refine ⟨e2, ?_, ?_, fun s3 h3 => schedule_wakeup_exited s2 s3 t e2 h3,
    fun cpu s3 h3 => schedule_locked_exited s2 s3 cpu t e2 h3,
    fun cpu s3 h3 => schedule_exited s2 s3 cpu t e2 h3⟩
  · cases h : scheduler_add_thread s2 t with
    | error e => rfl
    | ok s3 =>
      obtain ⟨_, _, c1, _⟩ := add_thread_ok s2 s3 t h
      have := e2.2.2
      unfold scheduler_is_on_queue at this
      omega
  · cases h : scheduler_remove_thread s2 t with
    | error e => rfl
    | ok s3 =>
      obtain ⟨_, _, c1, _⟩ := remove_thread_ok s2 s3 t h
      have := e2.2.1
      unfold scheduler_is_on_queue at this
      omega
/-- C11 at the example state: the running thread 1 exits on CPU 0; it is a zombie
on neither queue, thread 3 is chosen, and after two more `schedule()` calls and a
tick it is still off the queues. -/
theorem C11_exited_thread_never_scheduled_witness :
    ∃ s1, scheduler_exit_thread demo 0 1 = .ok s1 ∧ Exited s1 1 ∧ s1.curthread 0 = some 3 ∧
      ∃ s2, run_calls s1 [.schedule 0, .tick, .schedule 0] = .ok s2 ∧ Exited s2 1 ∧
        succeeds (scheduler_add_thread s2 1) = false := by
  have hv : (match scheduler_exit_thread demo 0 1 with
      | .ok x => decide (x.curthread 0 = some 3) &&
          succeeds (run_calls x [.schedule 0, .tick, .schedule 0])
      | .error _ => false) = true := by decide
  cases h : scheduler_exit_thread demo 0 1 with
  | error e => rw [h] at hv; cases hv
  | ok s1 =>
    rw [h] at hv
    simp only [Bool.and_eq_true, decide_eq_true_eq] at hv
    obtain ⟨_, h2, _, h4⟩ := C11_exited_thread_never_scheduled demo s1 0 1 h
    cases h5 : run_calls s1 [.schedule 0, .tick, .schedule 0] with
    | error e => rw [h5] at hv; cases hv.2
    | ok s2 =>
      have h6 := h4 [.schedule 0, .tick, .schedule 0] s2 (by decide) h5
      exact ⟨s1, rfl, h2, hv.1, s2, h5, h6.1, h6.2.1⟩

/-! ## C19: exit-code packing -/

theorem make_exitcode_eq (a b : Int) (h0 : 0 ≤ a) (h1 : a ≤ 255) :
    THREAD_MAKE_EXITCODE a b = 2 ^ 24 * a.toNat + (b % 2 ^ 24).toNat := by
  unfold THREAD_MAKE_EXITCODE to_u32
  have ha : (a % 2 ^ 32).toNat = a.toNat := by omega
  have hb : (b % 2 ^ 32).toNat &&& 0x00ffffff = (b % 2 ^ 24).toNat := by
    have : (0x00ffffff : Nat) = 2 ^ 24 - 1 := by norm_num
    rw [this, Nat.and_pow_two_sub_one_eq_mod]
    omega
  have hs : (a.toNat <<< 24) % 2 ^ 32 = 2 ^ 24 * a.toNat := by
    rw [Nat.shiftLeft_eq]
    omega
  rw [ha, hb, hs]
  have hlt : (b % 2 ^ 24).toNat < 2 ^ 24 := by omega
  exact (Nat.mul_add_lt_is_or hlt a.toNat).symm

/-- C19: exit-code packing.  For every reason `a` in 0..255 and every exit code
`b`, the 32-bit value `v = THREAD_MAKE_EXITCODE(a, b)` has `a` in its top byte
and `b mod 2^24` in its low 24 bits: `(v >> 24) & 0xff` is `a` and
`v & 0x00ffffff` is `b mod 2^24`; and two pairs that give the same value have
the same reason and the same 24-bit code. -/
theorem C19_exitcode_packing (a b : Int) (h0 : 0 ≤ a) (h1 : a ≤ 255) :
    THREAD_MAKE_EXITCODE a b < 2 ^ 32 ∧
    (((THREAD_MAKE_EXITCODE a b >>> 24) &&& 0xff : Nat) : Int) = a ∧
    ((THREAD_MAKE_EXITCODE a b &&& 0x00ffffff : Nat) : Int) = b % 2 ^ 24 ∧
    ∀ a2 b2 : Int, 0 ≤ a2 → a2 ≤ 255 →
      THREAD_MAKE_EXITCODE a b = THREAD_MAKE_EXITCODE a2 b2 →
      a = a2 ∧ b % 2 ^ 24 = b2 % 2 ^ 24 := by
  have e := make_exitcode_eq a b h0 h1
  have m1 : (0xff : Nat) = 2 ^ 8 - 1 := by norm_num
  have m2 : (0x00ffffff : Nat) = 2 ^ 24 - 1 := by norm_num
  refine ⟨by rw [e]; omega, ?_, ?_, ?_⟩
  · rw [m1, Nat.and_pow_two_sub_one_eq_mod, Nat.shiftRight_eq_div_pow, e]
    omega
  · rw [m2, Nat.and_pow_two_sub_one_eq_mod, e]
    omega
  · intro a2 b2 g0 g1 heq
    rw [e, make_exitcode_eq a2 b2 g0 g1] at heq
    omega

/-- C19 at reason 1, code 42, and at a negative code. -/
theorem C19_exitcode_packing_witness :
    (0 : Int) ≤ 1 ∧ (1 : Int) ≤ 255 ∧ THREAD_MAKE_EXITCODE 1 42 = 0x0100002a ∧
    THREAD_MAKE_EXITCODE 255 (-1) = 0xffffffff ∧
    (((THREAD_MAKE_EXITCODE 1 42 >>> 24) &&& 0xff : Nat) : Int) = 1 ∧
    ((THREAD_MAKE_EXITCODE 1 42 &&& 0x00ffffff : Nat) : Int) = 42 % 2 ^ 24 :=
  ⟨by decide, by decide, by decide, by decide,
    (C19_exitcode_packing 1 42 (by decide) (by decide)).2.1,
    (C19_exitcode_packing 1 42 (by decide) (by decide)).2.2.1⟩

/-! ## C20: tick accounting -/

theorem carry_nsec_total (fuel : Nat) (ts : timespec) :
    (carry_nsec fuel ts).total_ns = ts.total_ns := by
  induction fuel generalizing ts with
  | zero => rfl
  | succ n ih =>
    unfold carry_nsec
    split
    · rw [ih]
      unfold timespec.total_ns
      simp only
      omega
    · rfl

/-- With the fuel `OnTick` gives it, the carry loop ends because its condition
is false, and it does not make `tv_nsec` negative. -/
theorem carry_nsec_done (fuel : Nat) (ts : timespec)
    (h : ts.tv_nsec < 1000000000 * ((fuel : Int) + 1)) :
    (carry_nsec fuel ts).tv_nsec < 1000000000 ∧
    (0 ≤ ts.tv_nsec → 0 ≤ (carry_nsec fuel ts).tv_nsec) := by
  induction fuel generalizing ts with
  | zero =>
    simp only [carry_nsec]
    exact ⟨by simpa using h, fun h0 => h0⟩
  | succ n ih =>
    unfold carry_nsec
    split
    · rename_i hge
      have := ih { tv_sec := ts.tv_sec + 1, tv_nsec := ts.tv_nsec - 1000000000 }
        (by simp only; push_cast at h; omega)
      exact ⟨this.1, fun _ => this.2 (by simp only; omega)⟩
    · rename_i hlt
      exact ⟨by omega, fun h0 => h0⟩

theorem OnTick_spec (s : Sched) (tc : timespec) :
    GetTicks (OnTick s tc).1 = GetTicks s + 1 ∧
    (OnTick s tc).2.total_ns = tc.total_ns + 10000000 ∧
    (OnTick s tc).2.tv_nsec < 1000000000 ∧
    (0 ≤ tc.tv_nsec → 0 ≤ (OnTick s tc).2.tv_nsec) := by
  refine ⟨rfl, ?_, ?_, ?_⟩ <;> unfold OnTick GetPeriodicyInHz <;>
    simp only [Nat.reduceDiv, Nat.cast_ofNat]
  · rw [carry_nsec_total]
    unfold timespec.total_ns
    simp only
    omega
  · refine (carry_nsec_done _ _ ?_).1
    simp only
    omega
  · intro h0
    refine (carry_nsec_done _ _ ?_).2 ?_
    · simp only
      omega
    · simp only
      omega

theorem OnTicks_spec (n : Nat) (s : Sched) (tc : timespec) (hn : tc.normal) :
    GetTicks (OnTicks n (s, tc)).1 = GetTicks s + n ∧
    (OnTicks n (s, tc)).2.total_ns = tc.total_ns + 10000000 * n ∧
    (OnTicks n (s, tc)).2.normal := by
  induction n generalizing s tc with
  | zero => exact ⟨rfl, by simp [OnTicks], hn⟩
  | succ k ih =>
    obtain ⟨a1, a2, a3, a4⟩ := OnTick_spec s tc
    have := ih (OnTick s tc).1 (OnTick s tc).2 ⟨a4 hn.1, a3⟩
    simp only [OnTicks]
    refine ⟨?_, ?_, this.2.2⟩
    · rw [this.1, a1]
      unfold GetTicks
      ring
    · rw [this.2.1, a2]
      push_cast
      omega

/-- C20: tick accounting.  Every call of `time::OnTick` increases the tick counter
returned by `GetTicks` by exactly 1 and advances the wall clock by exactly
10,000,000 ns, a hundredth of a second; its carry loop ends with
`tv_nsec < 1,000,000,000`, and from `0 <= tv_nsec < 1,000,000,000` it comes back
to `0 <= tv_nsec < 1,000,000,000`, having carried at most one second into
`tv_sec`; hence 100 consecutive ticks add 100 to the tick counter and exactly
one second to the wall clock, leaving `tv_nsec` as it was. -/
theorem C20_tick_accounting (s : Sched) (tc : timespec) (hn : tc.normal) :
    GetTicks (OnTick s tc).1 = GetTicks s + 1 ∧
    (OnTick s tc).2.total_ns = tc.total_ns + 10000000 ∧
    (OnTick s tc).2.normal ∧
    ((OnTick s tc).2 = { tv_sec := tc.tv_sec, tv_nsec := tc.tv_nsec + 10000000 } ∨
      (OnTick s tc).2
        = { tv_sec := tc.tv_sec + 1, tv_nsec := tc.tv_nsec + 10000000 - 1000000000 }) ∧
    GetTicks (OnTicks 100 (s, tc)).1 = GetTicks s + 100 ∧
    (OnTicks 100 (s, tc)).2.tv_sec = tc.tv_sec + 1 ∧
    (OnTicks 100 (s, tc)).2.tv_nsec = tc.tv_nsec ∧
    (OnTicks 100 (s, tc)).2.normal := by
  obtain ⟨a1, a2, a3, a4⟩ := OnTick_spec s tc
  obtain ⟨b1, b2, b3⟩ := OnTicks_spec 100 s tc hn
  have hnorm : (OnTick s tc).2.normal := ⟨a4 hn.1, a3⟩
  have b4 : (OnTicks 100 (s, tc)).2.tv_sec = tc.tv_sec + 1 ∧
      (OnTicks 100 (s, tc)).2.tv_nsec = tc.tv_nsec := by
    generalize OnTicks 100 (s, tc) = r at b2 b3
    unfold timespec.normal at hn b3
    unfold timespec.total_ns at b2
    push_cast at b2
    omega
  refine ⟨a1, a2, hnorm, ?_, b1, b4.1, b4.2, b3⟩
  · unfold timespec.normal at hn hnorm
    unfold timespec.total_ns at a2
    cases hres : (OnTick s tc).2 with
    | mk sec nsec =>
      rw [hres] at a2 hnorm
      simp only at a2 hnorm
      by_cases hc : sec = tc.tv_sec
      · left
        have hn2 : nsec = tc.tv_nsec + 10000000 := by omega
        rw [hc, hn2]
      · right
        have hs2 : sec = tc.tv_sec + 1 := by omega
        have hn2 : nsec = tc.tv_nsec + 10000000 - 1000000000 := by omega
        rw [hs2, hn2]

/-- C20 at 0.995 s past second 7: one tick carries into second 8. -/
theorem C20_tick_accounting_witness :
    (timespec.mk 7 995000000).normal ∧
    GetTicks (OnTick demo (timespec.mk 7 995000000)).1 = 6 ∧
    (OnTick demo (timespec.mk 7 995000000)).2.tv_sec = 8 ∧
    (OnTick demo (timespec.mk 7 995000000)).2.tv_nsec = 5000000 ∧
    (OnTick demo (timespec.mk 7 995000000)).2.normal :=
  ⟨by unfold timespec.normal; decide, by decide, by decide, by decide,
    (C20_tick_accounting demo (timespec.mk 7 995000000) (by unfold timespec.normal; decide)).2.2.1⟩

/-! ## C17: harvesting a zombie child -/

theorem first_zombie_some (process : Nat → Process) (l : List Nat)
    (h : ∃ c ∈ l, (process c).p_state = .zombie) :
    ∃ child pre post, first_zombie process l = some child ∧ l = pre ++ child :: post ∧
      (∀ x ∈ pre, (process x).p_state ≠ .zombie) ∧ (process child).p_state = .zombie := by
  induction l with
  | nil => simp at h
  | cons a rest ih =>
    by_cases ha : (process a).p_state = .zombie
    · exact ⟨a, [], rest, by simp [first_zombie, ha], rfl, by simp, ha⟩
    · obtain ⟨c, hc, hz⟩ := h
      have hc2 : c ∈ rest := by
        rcases List.mem_cons.1 hc with rfl | hc
        · exact absurd hz ha
        · exact hc
      obtain ⟨child, pre, post, e1, e2, e3, e4⟩ := ih ⟨c, hc2, hz⟩
      refine ⟨child, a :: pre, post, by simp [first_zombie, ha, e1], by simp [e2], ?_, e4⟩
      intro x hx
      rcases List.mem_cons.1 hx with rfl | hx
      · exact ha
      · exact e3 x hx

theorem erase_first_zombie (process : Nat → Process) (child : Nat) (pre post : List Nat)
    (h3 : ∀ x ∈ pre, (process x).p_state ≠ .zombie) (h4 : (process child).p_state = .zombie) :
    (pre ++ child :: post).erase child = pre ++ post :=
  erase_insert_mid child pre post (fun hm => h3 child hm h4)

theorem wait_loop_found (ps : Procs) (parent child : Nat) (sem : Nat)
    (h : first_zombie ps.process (ps.process parent).p_children = some child) :
    wait_loop ps parent sem =
      .success
        { process := Function.update ps.process parent
            ({ ps.process parent with
               p_children := (ps.process parent).p_children.erase child })
          process_sleep_sem := sem } child := by
  cases sem with
  | zero => simp [wait_loop, h]
  | succ n => simp [wait_loop, h]

/-- C17: harvesting a zombie child.  The function `process_exit(p, status)` sets
the state of `p` to zombie and `p_exit_status` to `status` and changes no other
process.  For every parent whose child list holds a zombie,
`process_wait_and_lock(parent, 0)` returns success with the first zombie child
in child-list order, takes exactly that child off the list, keeps the other
children in their order and changes no state or exit status, so that the
status given to `process_exit` is the one observed: after
`process_exit(child, status)` on a child with no zombie before it in the list,
the wait returns that child with `p_exit_status = status`. -/
theorem C17_wait_harvests_first_zombie (ps : Procs) (parent : Nat)
    (hz : ∃ c ∈ (ps.process parent).p_children, (ps.process c).p_state = .zombie) :
    (∀ p status, ((process_exit ps p status).process p).p_state = .zombie ∧
      ((process_exit ps p status).process p).p_exit_status = status ∧
      ∀ q, q ≠ p → (process_exit ps p status).process q = ps.process q) ∧
    (∃ child pre post ps',
      process_wait_and_lock ps parent 0 = .success ps' child ∧
      (ps.process parent).p_children = pre ++ child :: post ∧
      (∀ x ∈ pre, (ps.process x).p_state ≠ .zombie) ∧
      (ps.process child).p_state = .zombie ∧
      (ps'.process parent).p_children = pre ++ post ∧
      (∀ q, (ps'.process q).p_state = (ps.process q).p_state ∧
        (ps'.process q).p_exit_status = (ps.process q).p_exit_status) ∧
      (∀ q, q ≠ parent → ps'.process q = ps.process q)) ∧
    (∀ c status pre post, (ps.process parent).p_children = pre ++ c :: post →
      (∀ x ∈ pre, x ≠ c ∧ (ps.process x).p_state ≠ .zombie) →
      ∃ ps', process_wait_and_lock (process_exit ps c status) parent 0 = .success ps' c ∧
        (ps'.process c).p_exit_status = status ∧
        (ps'.process c).p_state = .zombie) := by
  refine ⟨?_, ?_, ?_⟩
  · intro p status
    refine ⟨by simp [process_exit], by simp [process_exit], ?_⟩
    intro q hq
    simp [process_exit, Function.update_noteq hq]
  · obtain ⟨child, pre, post, e1, e2, e3, e4⟩ :=
      first_zombie_some ps.process (ps.process parent).p_children hz
    have hw : process_wait_and_lock ps parent 0 =
        .success
          { process := Function.update ps.process parent
              ({ ps.process parent with
                 p_children := (ps.process parent).p_children.erase child })
            process_sleep_sem := ps.process_sleep_sem } child := by
      unfold process_wait_and_lock
      simp only [ne_eq, not_true_eq_false, if_false]
      exact wait_loop_found ps parent child _ e1
    refine ⟨child, pre, post, _, hw, e2, e3, e4, ?_, ?_, ?_⟩
    · simp only [Function.update_same]
      rw [e2]
      exact erase_first_zombie ps.process child pre post e3 e4
    · intro q
      by_cases hq : q = parent
      · subst hq; simp
      · simp [Function.update_noteq hq]
    · intro q hq
      simp [Function.update_noteq hq]
  · intro c status pre post hl hpre
    have hch : ((process_exit ps c status).process parent).p_children
        = (ps.process parent).p_children := by
      by_cases hp : parent = c
      · subst hp; simp [process_exit]
      · simp [process_exit, Function.update_noteq hp]
    have hfz : first_zombie (process_exit ps c status).process
        ((process_exit ps c status).process parent).p_children = some c := by
      rw [hch, hl]
      clear hl hch
      induction pre with
      | nil => simp [first_zombie, process_exit]
      | cons a l ih =>
        have ha := hpre a (by simp)
        have hne : ((process_exit ps c status).process a).p_state ≠ .zombie := by
          simp only [process_exit, Function.update_noteq ha.1]
          exact ha.2
        simp only [List.cons_append, first_zombie, hne, if_false]
        exact ih (fun x hx => hpre x (by simp [hx]))
    have hw := wait_loop_found (process_exit ps c status) parent c
      (process_exit ps c status).process_sleep_sem hfz
    have hw2 : process_wait_and_lock (process_exit ps c status) parent 0 =
        wait_loop (process_exit ps c status) parent
          (process_exit ps c status).process_sleep_sem := by
      unfold process_wait_and_lock
      simp only [ne_eq, not_true_eq_false, if_false]
    rw [← hw2] at hw
    refine ⟨_, hw, ?_, ?_⟩
    · by_cases hp : c = parent
      · subst hp; simp [process_exit]
      · simp [process_exit, Function.update_noteq hp]
    · by_cases hp : c = parent
      · subst hp; simp [process_exit]
      · simp [process_exit, Function.update_noteq hp]

theorem C17_wait_harvests_first_zombie_witness :
    (∃ c ∈ ((process_exit (process_exit demo_procs 3 42) 4 7).process 1).p_children,
      ((process_exit (process_exit demo_procs 3 42) 4 7).process c).p_state = .zombie) ∧
    ∃ ps', process_wait_and_lock (process_exit (process_exit demo_procs 3 42) 4 7) 1 0
        = .success ps' 3 ∧
      (ps'.process 3).p_exit_status = 42 ∧ (ps'.process 1).p_children = [2, 4] := by
  have hz : ∃ c ∈ ((process_exit (process_exit demo_procs 3 42) 4 7).process 1).p_children,
      ((process_exit (process_exit demo_procs 3 42) 4 7).process c).p_state = .zombie :=
    ⟨3, by decide, by decide⟩
  refine ⟨hz, ?_⟩
  obtain ⟨child, pre, post, ps', h1, h2, h3, h4, h5, h6, h7⟩ :=
    (C17_wait_harvests_first_zombie _ 1 hz).2.1
  have hl : ((process_exit (process_exit demo_procs 3 42) 4 7).process 1).p_children
      = [2, 3, 4] := by decide
  rw [hl] at h2
  have h2n : ((process_exit (process_exit demo_procs 3 42) 4 7).process 2).p_state
      ≠ .zombie := by decide
  have hpre : pre = [2] := by
    rcases pre with _ | ⟨a, _ | ⟨b, pre⟩⟩
    · simp at h2
      exact absurd (h2.1 ▸ h4) h2n
    · simp at h2
      rw [h2.1]
    · simp at h2
      have := h3 b (by simp)
      rw [← h2.2.1] at this
      exact absurd (by decide) this
  subst hpre
  simp at h2
  obtain ⟨rfl, rfl⟩ := h2
  refine ⟨ps', h1, ?_, by simpa using h5⟩
  rw [(h6 3).2]
  decide

/-! ## C18: the postcondition of `Thread::Terminate` -/

theorem SignalWaiters_loop_spec (t : Nat) (q : List Nat) :
    ∀ k : Kernel, k.t_waitqueue t = q →
      (SignalWaiters_loop t q k).sched = k.sched ∧
      (SignalWaiters_loop t q k).procs = k.procs ∧
      (SignalWaiters_loop t q k).t_process = k.t_process ∧
      (SignalWaiters_loop t q k).t_refcount = k.t_refcount ∧
      (SignalWaiters_loop t q k).t_waitqueue t = [] ∧
      (∀ u, u ≠ t → (SignalWaiters_loop t q k).t_waitqueue u = k.t_waitqueue u) ∧
      (SignalWaiters_loop t q k).signalled = k.signalled ++ q ∧
      (∀ w, (SignalWaiters_loop t q k).tw_sem w = k.tw_sem w + q.count w) := by
  induction q with
  | nil =>
    intro k hk
    simp [SignalWaiters_loop, hk]
  | cons tw rest ih =>
    intro k _
    have h := ih (tw_sem_Signal { k with t_waitqueue := Function.update k.t_waitqueue t rest } tw)
      (by simp [tw_sem_Signal])
    obtain ⟨h1, h2, h3, h4, h5, h6, h7, h8⟩ := h
    simp only [SignalWaiters_loop]
    refine ⟨by rw [h1]; rfl, by rw [h2]; rfl, by rw [h3]; rfl, by rw [h4]; rfl, h5, ?_, ?_, ?_⟩
    · intro u hu
      rw [h6 u hu]
      simp [tw_sem_Signal, Function.update_noteq hu]
    · rw [h7]
      simp [tw_sem_Signal]
    · intro w
      rw [h8 w]
      by_cases hw : w = tw
      · subst hw
        simp [tw_sem_Signal]
        omega
      · have hw2 : ¬ tw = w := fun e => hw e.symm
        simp [tw_sem_Signal, Function.update_noteq hw, List.count_cons, hw2]

/-- C18: the postcondition of `Thread::Terminate(exitcode)` up to the scheduler
exit.  When the method is called on the current thread `t` of its CPU, `t` is
not a zombie and is a kernel thread or has a process (the assertions of the
method), the part before `scheduler::ExitThread` returns a state `k3` in which:
if `t` is the main thread of its process, that process is zombie with exit
status `exitcode` and no other process changed; if `t` is not the main thread
or has no process, no process changed at all; the wait queue of `t` is empty,
the waiters were signalled in the order of the queue, each semaphore once per
occurrence in the queue; the reference count of `t` is one less, nothing else
of the threads changed and the scheduler state is still the one of the call,
so that `scheduler::ExitThread` is requested from it after the decrement. -/
theorem C18_terminate_postcondition (k : Kernel) (cpuid : Int) (t : Nat) (exitcode : Int)
    (hcur : k.sched.curthread cpuid = some t)
    (hz : THREAD_IS_ZOMBIE (k.sched.thread t) = false)
    (hp : THREAD_IS_KTHREAD (k.sched.thread t) = true ∨ (k.t_process t).isSome = true) :
    ∃ k3, Thread_Terminate_until_exit k cpuid t exitcode = .ok k3 ∧
      (∀ p, k.t_process t = some p → (k.procs.process p).p_mainthread = some t →
        (k3.procs.process p).p_state = .zombie ∧
        (k3.procs.process p).p_exit_status = exitcode ∧
        ∀ q, q ≠ p → k3.procs.process q = k.procs.process q) ∧
      ((k.t_process t = none ∨
          ∃ p, k.t_process t = some p ∧ (k.procs.process p).p_mainthread ≠ some t) →
        k3.procs = k.procs) ∧
      k3.t_waitqueue t = [] ∧
      k3.signalled = k.signalled ++ k.t_waitqueue t ∧
      (∀ w, k3.tw_sem w = k.tw_sem w + (k.t_waitqueue t).count w) ∧
      (∀ w, w ∈ k.t_waitqueue t → (k.t_waitqueue t).Nodup → k3.tw_sem w = k.tw_sem w + 1) ∧
      (∀ w, w ∉ k.t_waitqueue t → k3.tw_sem w = k.tw_sem w) ∧
      k3.t_refcount t = k.t_refcount t - 1 ∧
      (∀ u, u ≠ t → k3.t_refcount u = k.t_refcount u ∧ k3.t_waitqueue u = k.t_waitqueue u) ∧
      k3.t_process = k.t_process ∧
      k3.sched = k.sched ∧
      Thread_Terminate k cpuid t exitcode =
        (match scheduler_exit_thread k.sched cpuid t with
         | .error e => .error (.scheduler e)
         | .ok s => .ok { k3 with sched := s }) := by
  -- the state after the process part
  obtain ⟨k1, hk1, hs1, hq1, hr1, hw1, ht1, hg1, hm1, hn1⟩ :
      ∃ k1 : Kernel,
        k1 = (match k.t_process t with
          | some p =>
            if (k.procs.process p).p_mainthread = some t then Process_Exit k p exitcode else k
          | none => k) ∧
        k1.sched = k.sched ∧ k1.t_waitqueue = k.t_waitqueue ∧ k1.t_refcount = k.t_refcount ∧
        k1.tw_sem = k.tw_sem ∧ k1.t_process = k.t_process ∧ k1.signalled = k.signalled ∧
        (∀ p, k.t_process t = some p → (k.procs.process p).p_mainthread = some t →
          k1.procs = process_exit k.procs p exitcode) ∧
        ((k.t_process t = none ∨
          ∃ p, k.t_process t = some p ∧ (k.procs.process p).p_mainthread ≠ some t) →
          k1.procs = k.procs) := by
    refine ⟨_, rfl, ?_⟩
    cases hpr : k.t_process t with
    | none => simp
    | some p =>
      by_cases hm : (k.procs.process p).p_mainthread = some t
      · simp [hm, Process_Exit]
      · simp [hm]
  have hsp := SignalWaiters_loop_spec t (k1.t_waitqueue t) k1 rfl
  obtain ⟨a1, a2, a3, a4, a5, a6, a7, a8⟩ := hsp
  have hclean : thread_cleanup k1 t = .ok (SignalWaiters k1 t) := by
    unfold thread_cleanup
    rw [hs1, ht1, hz]
    rcases hp with hp | hp
    · simp [hp]
    · simp [hp]
  have hrun : Thread_Terminate_until_exit k cpuid t exitcode =
      .ok { SignalWaiters k1 t with
            t_refcount := Function.update (SignalWaiters k1 t).t_refcount t
              ((SignalWaiters k1 t).t_refcount t - 1) } := by
    unfold Thread_Terminate_until_exit
    simp only [hcur, ne_eq, not_true_eq_false, if_false, hz, Bool.false_eq_true]
    rw [← hk1, hclean]
  refine ⟨_, hrun, ?_, ?_, ?_, ?_, ?_, ?_, ?_, ?_, ?_, ?_, ?_, ?_⟩
  · intro p h1 h2
    show ((SignalWaiters k1 t).procs.process p).p_state = _ ∧ _
    unfold SignalWaiters
    rw [a2, hm1 p h1 h2]
    refine ⟨by simp [process_exit], by simp [process_exit], ?_⟩
    intro q hq
    simp [process_exit, Function.update_noteq hq]
  · intro h
    show (SignalWaiters k1 t).procs = _
    unfold SignalWaiters
    rw [a2, hn1 h]
  · show (SignalWaiters k1 t).t_waitqueue t = []
    exact a5
  · show (SignalWaiters k1 t).signalled = _
    unfold SignalWaiters
    rw [a7, hg1, hq1]
  · intro w
    show (SignalWaiters k1 t).tw_sem w = _
    unfold SignalWaiters
    rw [a8 w, hw1, hq1]
  · intro w hw hnd
    show (SignalWaiters k1 t).tw_sem w = _
    unfold SignalWaiters
    rw [a8 w, hw1, hq1, List.count_eq_one_of_mem hnd hw]
  · intro w hw
    show (SignalWaiters k1 t).tw_sem w = _
    unfold SignalWaiters
    rw [a8 w, hw1, hq1, List.count_eq_zero_of_not_mem hw]
    rfl
  · show Function.update (SignalWaiters k1 t).t_refcount t _ t = _
    rw [Function.update_same]
    unfold SignalWaiters
    rw [a4, hr1]
  · intro u hu
    refine ⟨?_, ?_⟩
    · show Function.update (SignalWaiters k1 t).t_refcount t _ u = _
      rw [Function.update_noteq hu]
      unfold SignalWaiters
      rw [a4, hr1]
    · show (SignalWaiters k1 t).t_waitqueue u = _
      unfold SignalWaiters
      rw [a6 u hu, hq1]
  · show (SignalWaiters k1 t).t_process = _
    unfold SignalWaiters
    rw [a3, ht1]
  · show (SignalWaiters k1 t).sched = _
    unfold SignalWaiters
    rw [a1, hs1]
  · unfold Thread_Terminate
    rw [hrun]
    have hs : (SignalWaiters k1 t).sched = k.sched := by
      unfold SignalWaiters
      rw [a1, hs1]
    simp only [hs]

theorem C18_terminate_postcondition_witness :
    demo_kernel.sched.curthread 0 = some 1 ∧
    THREAD_IS_ZOMBIE (demo_kernel.sched.thread 1) = false ∧
    (demo_kernel.t_process 1).isSome = true ∧
    ∃ k3, Thread_Terminate_until_exit demo_kernel 0 1 42 = .ok k3 ∧
      (k3.procs.process 10).p_state = .zombie ∧
      (k3.procs.process 10).p_exit_status = 42 ∧
      k3.t_waitqueue 1 = [] ∧ k3.signalled = [20, 21] ∧
      k3.tw_sem 20 = 1 ∧ k3.tw_sem 21 = 1 ∧ k3.t_refcount 1 = 0 := by
  refine ⟨by decide, by decide, by decide, ?_⟩
  obtain ⟨k3, h1, h2, _, h4, h5, h6, _, _, h9, _⟩ :=
    C18_terminate_postcondition demo_kernel 0 1 42 (by decide) (by decide)
      (Or.inr (by decide))
  have hm := h2 10 (by decide) (by decide)
  refine ⟨k3, h1, hm.1, hm.2.1, h4, ?_, ?_, ?_, ?_⟩
  · rw [h5]; decide
  · rw [h6 20]; decide
  · rw [h6 21]; decide
  · rw [h9]; decide

/-! ## C12: a fault outside every area -/

theorem wrap64_le (x : Nat) : wrap64 x ≤ x := Nat.mod_le x _

theorem HandleFault_loop_no_area (vm : VMState) (virt fault_flags : Nat) :
    ∀ areas : List (VAInterval × VMArea),
      (∀ e ∈ areas, ¬ (e.2.va_virt ≤ virt ∧ virt < e.2.va_virt + e.2.va_len)) →
      HandleFault_loop vm virt fault_flags areas = .ok (vm, areas, .Failure .EFAULT) := by
  intro areas
  induction areas with
  | nil => intro _; rfl
  | cons e rest ih =>
    intro h
    obtain ⟨interval, va⟩ := e
    have hn : ¬ (virt ≥ va.va_virt ∧ virt < wrap64 (va.va_virt + va.va_len)) := by
      intro hc
      exact h (interval, va) (by simp) ⟨hc.1, lt_of_lt_of_le hc.2 (wrap64_le _)⟩
    have hr := ih (fun e he => h e (List.mem_cons_of_mem _ he))
    simp only [HandleFault_loop, hn, not_false_eq_true, if_true, hr]

/-- C12: a fault outside every area.  For every fault address `virt` such that
no area of the space satisfies `va_virt <= virt < va_virt + va_len`, and every
fault flags, `VMSpace::HandleFault` returns the failure `EFAULT` and leaves the
pages, the page cache and every area with all its page slots as they were. -/
theorem C12_fault_outside_every_area (vm : VMState) (vs : VMSpace) (virt fault_flags : Nat)
    (h : ∀ e ∈ vs.vs_areamap, ¬ (e.2.va_virt ≤ virt ∧ virt < e.2.va_virt + e.2.va_len)) :
    VMSpace.HandleFault vm vs virt fault_flags = .ok (vm, vs, .Failure .EFAULT) := by
  unfold VMSpace.HandleFault
  rw [HandleFault_loop_no_area vm virt fault_flags vs.vs_areamap h]

theorem C12_fault_outside_every_area_witness :
    (∀ e ∈ demo_space.vs_areamap,
      ¬ (e.2.va_virt ≤ 0x30000 ∧ 0x30000 < e.2.va_virt + e.2.va_len)) ∧
    VMSpace.HandleFault demo_vm demo_space 0x30000 VM_FLAG_WRITE
      = .ok (demo_vm, demo_space, .Failure .EFAULT) :=
  ⟨by decide, C12_fault_outside_every_area demo_vm demo_space 0x30000 VM_FLAG_WRITE (by decide)⟩

/-! ## C13: a fault on a page that is present -/

theorem HandleFault_loop_at (vm : VMState) (virt fault_flags : Nat)
    (interval : VAInterval) (va : VMArea) (post : List (VAInterval × VMArea))
    (hin : InArea va virt) :
    ∀ pre : List (VAInterval × VMArea), (∀ e ∈ pre, ¬ InArea e.2 virt) →
      HandleFault_loop vm virt fault_flags (pre ++ (interval, va) :: post) =
        (match HandleFault_area vm va interval virt fault_flags with
         | .error e => .error e
         | .ok (vm1, va1, r) => .ok (vm1, pre ++ (interval, va1) :: post, r)) := by
  intro pre
  induction pre with
  | nil =>
    intro _
    have hin2 : virt ≥ va.va_virt ∧ virt < wrap64 (va.va_virt + va.va_len) := hin
    simp only [List.nil_append, HandleFault_loop, hin2, not_true_eq_false, if_false]
    rfl
  | cons e rest ih =>
    intro h
    obtain ⟨i0, a0⟩ := e
    have hn : ¬ (virt ≥ a0.va_virt ∧ virt < wrap64 (a0.va_virt + a0.va_len)) :=
      h (i0, a0) (by simp)
    have hr := ih (fun e he => h e (List.mem_cons_of_mem _ he))
    rw [List.cons_append, HandleFault_loop, if_pos hn, hr]
    cases HandleFault_area vm va interval virt fault_flags with
    | error e => rfl
    | ok x => rfl

theorem HandleFault_at (vm : VMState) (virt fault_flags : Nat)
    (interval : VAInterval) (va : VMArea) (pre post : List (VAInterval × VMArea))
    (hin : InArea va virt) (hpre : ∀ e ∈ pre, ¬ InArea e.2 virt) :
    VMSpace.HandleFault vm (VMSpace.mk (pre ++ (interval, va) :: post)) virt fault_flags =
      (match HandleFault_area vm va interval virt fault_flags with
       | .error e => .error e
       | .ok (vm1, va1, r) => .ok (vm1, VMSpace.mk (pre ++ (interval, va1) :: post), r)) := by
  unfold VMSpace.HandleFault
  rw [HandleFault_loop_at vm virt fault_flags interval va post hin pre hpre]
  cases HandleFault_area vm va interval virt fault_flags with
  | error e => rfl
  | ok x => rfl

theorem HandleFault_area_present (vm : VMState) (va : VMArea) (interval : VAInterval)
    (virt fault_flags vp : Nat)
    (hslot : VMArea_LookupVAddrAndLock va (virt &&& not64 (PAGE_SIZE - 1)) = some vp) :
    HandleFault_area vm va interval virt fault_flags =
      (if (fault_flags &&& VM_FLAG_WRITE) ≠ 0 ∧ (va.va_flags &&& vmarea.flag.COW) ≠ 0 then
        if ((vm.page vp).vp_flags &&& vmpage.flag.ReadOnly) ≠ 0 then .error .cowing_ro_page
        else
          .ok ((AssignPageToVirtualAddress (PromotePage vm vp).1 va interval
                  (virt &&& not64 (PAGE_SIZE - 1)) (PromotePage vm vp).2).1,
               (AssignPageToVirtualAddress (PromotePage vm vp).1 va interval
                  (virt &&& not64 (PAGE_SIZE - 1)) (PromotePage vm vp).2).2, .Success)
      else .ok (vm, va, .Failure .EFAULT)) := by
  unfold HandleFault_area
  simp only [hslot]

theorem PromotePage_snd (vm : VMState) (vp : Nat) : (PromotePage vm vp).2 = vm.next_page := by
  unfold PromotePage VMPage_Promote
  by_cases h : vm.next_page = vp
  · simp [h]
  · simp [h]

theorem PromotePage_new_page (vm : VMState) (vp : Nat) :
    ((PromotePage vm vp).1.page vm.next_page).vp_page = (vm.page vp).vp_page ∧
    ((PromotePage vm vp).1.page vm.next_page).vp_flags
      = (vmpage.flag.Private ||| vmpage.flag.Promoted) := by
  unfold PromotePage VMPage_Promote
  by_cases h : vm.next_page = vp
  · simp [h]
  · have h2 : ¬ vp = vm.next_page := fun e => h e.symm
    simp [h, VMPage_Deref, Function.update_noteq h]

theorem PromotePage_other (vm : VMState) (vp q : Nat) (h1 : q ≠ vm.next_page) (h2 : q ≠ vp) :
    (PromotePage vm vp).1.page q = vm.page q ∧
    (PromotePage vm vp).1.inode_page = vm.inode_page := by
  unfold PromotePage VMPage_Promote
  by_cases h : vm.next_page = vp
  · simp [h, Function.update_noteq h2]
  · simp [h, VMPage_Deref, Function.update_noteq h1, Function.update_noteq h2]

theorem Assign_area (vm : VMState) (va : VMArea) (interval : VAInterval) (virt p : Nat) :
    (AssignPageToVirtualAddress vm va interval virt p).2 =
      { va with
        va_pages := Function.update va.va_pages (sub64 virt interval.begin / PAGE_SIZE)
          (some p) } := rfl

theorem Assign_page (vm : VMState) (va : VMArea) (interval : VAInterval) (virt p : Nat) :
    ((AssignPageToVirtualAddress vm va interval virt p).1.page p).vp_page = (vm.page p).vp_page ∧
    ((AssignPageToVirtualAddress vm va interval virt p).1.page p).vp_flags
      = (vm.page p).vp_flags ∧
    ((AssignPageToVirtualAddress vm va interval virt p).1.page p).vp_refcount
      = (vm.page p).vp_refcount ∧
    ((AssignPageToVirtualAddress vm va interval virt p).1.page p).vp_vaddr = virt ∧
    (AssignPageToVirtualAddress vm va interval virt p).1.inode_page = vm.inode_page ∧
    (AssignPageToVirtualAddress vm va interval virt p).1.next_page = vm.next_page ∧
    (AssignPageToVirtualAddress vm va interval virt p).1.inode = vm.inode ∧
    (AssignPageToVirtualAddress vm va interval virt p).1.fresh = vm.fresh := by
  unfold AssignPageToVirtualAddress
  cases hs : va.va_pages (sub64 virt interval.begin / PAGE_SIZE) with
  | none => simp [VMPage_Map, hs]
  | some vp =>
    by_cases h : vp = p
    · simp [VMPage_Map, h, hs]
    · have h2 : ¬ p = vp := fun e => h e.symm
      simp [VMPage_Map, h, hs, VMPage_Deref, Function.update_noteq h2]

theorem Assign_other (vm : VMState) (va : VMArea) (interval : VAInterval) (virt p q : Nat)
    (h1 : q ≠ p) (h2 : va.va_pages (sub64 virt interval.begin / PAGE_SIZE) ≠ some q) :
    (AssignPageToVirtualAddress vm va interval virt p).1.page q = vm.page q := by
  unfold AssignPageToVirtualAddress
  cases hs : va.va_pages (sub64 virt interval.begin / PAGE_SIZE) with
  | none => simp [VMPage_Map, hs, Function.update_noteq h1]
  | some vp =>
    have h3 : q ≠ vp := fun e => h2 (by rw [hs, e])
    by_cases h : vp = p
    · simp [VMPage_Map, h, hs, Function.update_noteq h1]
    · simp [VMPage_Map, h, hs, VMPage_Deref, Function.update_noteq h1, Function.update_noteq h3]

/-- C13, amended: a fault on a page that is present.  For every area that
contains the fault address, is the first such area of the map and whose slot
for the page of that address holds a page: if the fault is a write and the area
is marked COW, `HandleFault` asserts that the page does not carry the
`ReadOnly` flag (with the flag set it stops at the assertion "cowing r/o page")
and otherwise promotes the page, so that the slot then holds the promoted
private page, which has the contents of the old one, every other slot and every
other area is unchanged, and the result is success; in every other case (read
fault, or write to an area that is not COW) the result is `EFAULT` and nothing
is changed. -/
theorem C13_fault_on_present_page (vm : VMState) (virt fault_flags vp : Nat)
    (interval : VAInterval) (va : VMArea) (pre post : List (VAInterval × VMArea))
    (hin : InArea va virt) (hpre : ∀ e ∈ pre, ¬ InArea e.2 virt)
    (hb : interval.begin = va.va_virt)
    (hslot : va.va_pages (slot_index va (virt &&& not64 (PAGE_SIZE - 1))) = some vp) :
    ((fault_flags &&& VM_FLAG_WRITE) ≠ 0 → (va.va_flags &&& vmarea.flag.COW) ≠ 0 →
      ((vm.page vp).vp_flags &&& vmpage.flag.ReadOnly) ≠ 0 →
      VMSpace.HandleFault vm (VMSpace.mk (pre ++ (interval, va) :: post)) virt fault_flags
        = .error .cowing_ro_page) ∧
    ((fault_flags &&& VM_FLAG_WRITE) ≠ 0 → (va.va_flags &&& vmarea.flag.COW) ≠ 0 →
      ((vm.page vp).vp_flags &&& vmpage.flag.ReadOnly) = 0 →
      ∃ vm1 newp,
        VMSpace.HandleFault vm (VMSpace.mk (pre ++ (interval, va) :: post)) virt fault_flags
          = .ok (vm1,
              VMSpace.mk (pre ++ (interval,
                { va with
                  va_pages := Function.update va.va_pages
                    (slot_index va (virt &&& not64 (PAGE_SIZE - 1))) (some newp) }) :: post),
              .Success) ∧
        (vm1.page newp).vp_page = (vm.page vp).vp_page ∧
        ((vm1.page newp).vp_flags &&& vmpage.flag.Private) ≠ 0 ∧
        ((vm1.page newp).vp_flags &&& vmpage.flag.ReadOnly) = 0 ∧
        (vm1.page newp).vp_vaddr = (virt &&& not64 (PAGE_SIZE - 1)) ∧
        vm1.inode_page = vm.inode_page ∧
        ∀ q, q ≠ newp → q ≠ vp → vm1.page q = vm.page q) ∧
    (¬ ((fault_flags &&& VM_FLAG_WRITE) ≠ 0 ∧ (va.va_flags &&& vmarea.flag.COW) ≠ 0) →
      VMSpace.HandleFault vm (VMSpace.mk (pre ++ (interval, va) :: post)) virt fault_flags
        = .ok (vm, VMSpace.mk (pre ++ (interval, va) :: post), .Failure .EFAULT)) := by
  have hl : VMArea_LookupVAddrAndLock va (virt &&& not64 (PAGE_SIZE - 1)) = some vp := hslot
  have hrun := HandleFault_at vm virt fault_flags interval va pre post hin hpre
  rw [HandleFault_area_present vm va interval virt fault_flags vp hl] at hrun
  refine ⟨?_, ?_, ?_⟩
  · intro hw hc hro
    rw [hrun, if_pos ⟨hw, hc⟩, if_pos hro]
  · intro hw hc hro
    rw [if_pos ⟨hw, hc⟩, if_neg (by rw [hro]; simp)] at hrun
    refine ⟨(AssignPageToVirtualAddress (PromotePage vm vp).1 va interval
        (virt &&& not64 (PAGE_SIZE - 1)) (PromotePage vm vp).2).1, vm.next_page,
      ?_, ?_, ?_, ?_, ?_, ?_, ?_⟩
    · rw [hrun, Assign_area, PromotePage_snd, hb]
      rfl
    · rw [PromotePage_snd, (Assign_page _ va interval _ vm.next_page).1]
      exact (PromotePage_new_page vm vp).1
    · rw [PromotePage_snd, (Assign_page _ va interval _ vm.next_page).2.1,
        (PromotePage_new_page vm vp).2]
      decide
    · rw [PromotePage_snd, (Assign_page _ va interval _ vm.next_page).2.1,
        (PromotePage_new_page vm vp).2]
      decide
    · rw [PromotePage_snd]
      exact (Assign_page _ va interval _ vm.next_page).2.2.2.1
    · rw [PromotePage_snd, (Assign_page _ va interval _ vm.next_page).2.2.2.2.1]
      by_cases h : vm.next_page = vp
      · unfold PromotePage VMPage_Promote
        simp [h]
      · unfold PromotePage VMPage_Promote
        simp [h, VMPage_Deref]
    · intro q hq1 hq2
      rw [PromotePage_snd, Assign_other _ va interval _ vm.next_page q hq1]
      · exact (PromotePage_other vm vp q hq1 hq2).1
      · rw [hb]
        have hs2 : va.va_pages (sub64 (virt &&& not64 (PAGE_SIZE - 1)) va.va_virt / PAGE_SIZE)
            = some vp := hslot
        rw [hs2]
        intro e
        exact hq2 (Option.some.inj e).symm
  · intro hn
    rw [hrun, if_neg hn]

/-- C13 as stated fails: a write fault on a COW area whose slot holds a shared
page with the `ReadOnly` flag (not private, two references) is not promoted:
`HandleFault` stops at its assertion "cowing r/o page" and returns nothing. -/
theorem C13_counterexample :
    InArea cow_area 0x10008 ∧
    cow_area.va_pages (slot_index cow_area (0x10008 &&& not64 (PAGE_SIZE - 1))) = some 50 ∧
    (VM_FLAG_WRITE &&& VM_FLAG_WRITE) ≠ 0 ∧
    (cow_area.va_flags &&& vmarea.flag.COW) ≠ 0 ∧
    (((cow_vm vmpage.flag.ReadOnly).page 50).vp_flags &&& vmpage.flag.ReadOnly) ≠ 0 ∧
    (((cow_vm vmpage.flag.ReadOnly).page 50).vp_flags &&& vmpage.flag.Private) = 0 ∧
    ((cow_vm vmpage.flag.ReadOnly).page 50).vp_refcount = 2 ∧
    VMSpace.HandleFault (cow_vm vmpage.flag.ReadOnly) cow_space 0x10008 VM_FLAG_WRITE
      = .error .cowing_ro_page ∧
    ¬ ∃ vm1 vs1, VMSpace.HandleFault (cow_vm vmpage.flag.ReadOnly) cow_space 0x10008
        VM_FLAG_WRITE = .ok (vm1, vs1, .Success) := by
  have h : VMSpace.HandleFault (cow_vm vmpage.flag.ReadOnly) cow_space 0x10008 VM_FLAG_WRITE
      = .error .cowing_ro_page := by
    rfl
  refine ⟨by decide, by decide, by decide, by decide, by decide, by decide, by decide, h, ?_⟩
  rintro ⟨vm1, vs1, h2⟩
  rw [h] at h2
  cases h2

theorem C13_fault_on_present_page_witness :
    InArea cow_area 0x10008 ∧
    cow_area.va_pages (slot_index cow_area (0x10008 &&& not64 (PAGE_SIZE - 1))) = some 50 ∧
    ∃ vm1 newp,
      VMSpace.HandleFault (cow_vm 0) (VMSpace.mk ([] ++ (VAInterval.mk 0x10000 0x13000,
          cow_area) :: [])) 0x10008 VM_FLAG_WRITE
        = .ok (vm1,
            VMSpace.mk ([] ++ (VAInterval.mk 0x10000 0x13000,
              { cow_area with
                va_pages := Function.update cow_area.va_pages
                  (slot_index cow_area (0x10008 &&& not64 (PAGE_SIZE - 1))) (some newp) }) :: []),
            .Success) ∧
      (vm1.page newp).vp_page 0 = 0xAA := by
  refine ⟨by decide, by decide, ?_⟩
  obtain ⟨vm1, newp, h1, h2, _⟩ :=
    (C13_fault_on_present_page (cow_vm 0) 0x10008 VM_FLAG_WRITE 50
      (VAInterval.mk 0x10000 0x13000) cow_area [] [] (by decide) (by simp) rfl
      (by decide)).2.1 (by decide) (by decide) (by decide)
  exact ⟨vm1, newp, h1, by rw [h2]; decide⟩

/-- An example of the promotion of a page with two references: the old page is
dereferenced by `PromotePage` and again by `AssignPageToVirtualAddress`, which
finds it in the slot, and is left with no reference. -/
theorem promote_example_refcount :
    (match VMSpace.HandleFault (cow_vm 0) cow_space 0x10008 VM_FLAG_WRITE with
     | .ok (vm1, vs1, r) =>
       decide (r = .Success ∧ (vs1.vs_areamap.map (fun e => e.2.va_pages 0)) = [some 100] ∧
         (vm1.page 50).vp_refcount = 0 ∧ (vm1.page 100).vp_refcount = 1 ∧
         (vm1.page 100).vp_page 0 = 0xAA)
     | .error _ => false) = true := by decide

/-! ## Lemmas on the file-backed path of the fault handler -/

theorem read_page_ok (vm1 : VMState) (i : INode) (o : Nat) (ho : o ≤ i.st_size)
    (hsz : i.st_size + PAGE_SIZE < 2 ^ 64) :
    ∃ page p, GetDEntryBackedPage_buffer vm1 i.st_size o = some page ∧
      read_data i page o (GetDEntryBackedPage_read_length i.st_size o) = .ok p ∧
      ∀ j, j < PAGE_SIZE → p j = file_byte i (o + j) := by
  unfold PAGE_SIZE at hsz
  have hw : wrap64 (o + PAGE_SIZE) = o + 4096 := by
    unfold wrap64 PAGE_SIZE
    omega
  by_cases hc : o + 4096 > i.st_size
  · have hrl : sub64 i.st_size o = i.st_size - o := by
      unfold sub64
      omega
    have hb : sub64 i.st_size o + sub64 PAGE_SIZE (sub64 i.st_size o) ≤ PAGE_SIZE := by
      rw [hrl]
      unfold sub64 PAGE_SIZE
      omega
    refine ⟨fun j => if i.st_size - o ≤ j then 0 else vm1.fresh j,
      fun j => if j < i.st_size - o then i.i_data (o + j)
        else (if i.st_size - o ≤ j then 0 else vm1.fresh j), ?_, ?_, ?_⟩
    · unfold GetDEntryBackedPage_buffer
      rw [hw, if_pos hc]
      rw [hrl] at hb
      simp only [hrl, hb, if_true]
    · unfold GetDEntryBackedPage_read_length read_data vfs_read_count
      rw [hw, if_pos hc, hrl]
      simp
    · intro j _
      unfold file_byte
      by_cases hj : j < i.st_size - o
      · have : o + j < i.st_size := by omega
        simp [hj, this]
      · have h1 : ¬ o + j < i.st_size := by omega
        have h2 : i.st_size - o ≤ j := by omega
        simp [hj, h1, h2]
  · refine ⟨vm1.fresh, fun j => if j < PAGE_SIZE then i.i_data (o + j) else vm1.fresh j,
      ?_, ?_, ?_⟩
    · unfold GetDEntryBackedPage_buffer
      rw [hw, if_neg hc]
    · unfold GetDEntryBackedPage_read_length read_data vfs_read_count
      rw [hw, if_neg hc]
      have : min PAGE_SIZE (i.st_size - o) = PAGE_SIZE := by
        unfold PAGE_SIZE
        omega
      simp [this]
    · intro j hj
      unfold file_byte
      have : o + j < i.st_size := by
        unfold PAGE_SIZE at hj
        omega
      simp [hj, this]

theorem pending_flags_ne (va : VMArea) :
    ((vmpage.flag.Pending ||| DeterminePageFlagsFromVMArea va) &&& vmpage.flag.Pending) ≠ 0 := by
  unfold DeterminePageFlagsFromVMArea
  by_cases h : (va.va_flags &&& (VM_FLAG_READ ||| VM_FLAG_WRITE)) = VM_FLAG_READ
  · rw [if_pos h]; decide
  · rw [if_neg h]; decide

theorem LookupOrCreateINodePage_spec (vm : VMState) (inode off flags : Nat)
    (hf : (flags &&& vmpage.flag.Pending) ≠ 0)
    (hcache : ∀ p, vm.inode_page inode off = some p → p < vm.next_page ∧
      (((vm.page p).vp_flags &&& vmpage.flag.Pending) = 0 →
        ∀ j, j < PAGE_SIZE → (vm.page p).vp_page j = file_byte (vm.inode inode) (off + j))) :
    (vmpage.LookupOrCreateINodePage vm inode off flags).1.inode = vm.inode ∧
    (vmpage.LookupOrCreateINodePage vm inode off flags).2
      < (vmpage.LookupOrCreateINodePage vm inode off flags).1.next_page ∧
    (vmpage.LookupOrCreateINodePage vm inode off flags).1.inode_page inode off
      = some (vmpage.LookupOrCreateINodePage vm inode off flags).2 ∧
    ((((vmpage.LookupOrCreateINodePage vm inode off flags).1.page
        (vmpage.LookupOrCreateINodePage vm inode off flags).2).vp_flags
          &&& vmpage.flag.Pending) = 0 →
      ∀ j, j < PAGE_SIZE →
        ((vmpage.LookupOrCreateINodePage vm inode off flags).1.page
          (vmpage.LookupOrCreateINodePage vm inode off flags).2).vp_page j
          = file_byte (vm.inode inode) (off + j)) := by
  unfold vmpage.LookupOrCreateINodePage
  cases hlook : vm.inode_page inode off with
  | none =>
    refine ⟨rfl, by simp, by simp, ?_⟩
    intro h
    simp only [Function.update_same] at h
    exact absurd h hf
  | some c =>
    obtain ⟨h1, h2⟩ := hcache c hlook
    refine ⟨rfl, h1, hlook, ?_⟩
    intro h
    simp only [Function.update_same] at h ⊢
    exact h2 h

theorem and_not64_pending (x : Nat) :
    ((x &&& not64 vmpage.flag.Pending) &&& vmpage.flag.Pending) = 0 := by
  rw [Nat.land_assoc]
  have : (not64 vmpage.flag.Pending &&& vmpage.flag.Pending) = 0 := by decide
  rw [this]
  exact Nat.and_zero x

theorem GetDEntryBackedPage_ok (vm : VMState) (va : VMArea) (inode off : Nat)
    (hd : va.va_dentry = some inode)
    (ho : off ≤ (vm.inode inode).st_size)
    (hsz : (vm.inode inode).st_size + PAGE_SIZE < 2 ^ 64)
    (hcache : ∀ p, vm.inode_page inode off = some p → p < vm.next_page ∧
      (((vm.page p).vp_flags &&& vmpage.flag.Pending) = 0 →
        ∀ j, j < PAGE_SIZE → (vm.page p).vp_page j = file_byte (vm.inode inode) (off + j))) :
    ∃ vm1 vmp, GetDEntryBackedPage vm va off = .ok (vm1, vmp) ∧
      vmp < vm1.next_page ∧
      (∀ j, j < PAGE_SIZE → (vm1.page vmp).vp_page j = file_byte (vm.inode inode) (off + j)) ∧
      vm1.inode_page inode off = some vmp ∧
      ((vm1.page vmp).vp_flags &&& vmpage.flag.Pending) = 0 := by
  obtain ⟨f1, f2, f3, f4⟩ := LookupOrCreateINodePage_spec vm inode off
    (vmpage.flag.Pending ||| DeterminePageFlagsFromVMArea va) (pending_flags_ne va) hcache
  unfold GetDEntryBackedPage
  rw [hd]
  dsimp only
  generalize vmpage.LookupOrCreateINodePage vm inode off
    (vmpage.flag.Pending ||| DeterminePageFlagsFromVMArea va) = r at f1 f2 f3 f4 ⊢
  by_cases hp : ((r.1.page r.2).vp_flags &&& vmpage.flag.Pending) = 0
  · rw [if_pos hp]
    exact ⟨r.1, r.2, rfl, f2, f4 hp, f3, hp⟩
  · rw [if_neg hp, f1]
    obtain ⟨page, p, e1, e2, e3⟩ := read_page_ok r.1 (vm.inode inode) off ho hsz
    rw [e1]
    simp only []
    rw [e2]
    refine ⟨_, r.2, rfl, f2, ?_, f3, ?_⟩
    · intro j hj
      simp only [Function.update_same]
      exact e3 j hj
    · simp only [Function.update_same]
      exact and_not64_pending _

theorem Assign_empty (vm : VMState) (va : VMArea) (interval : VAInterval) (virt p : Nat)
    (h : va.va_pages (sub64 virt interval.begin / PAGE_SIZE) = none) :
    AssignPageToVirtualAddress vm va interval virt p =
      (VMPage_Map vm p virt,
       { va with
         va_pages := Function.update va.va_pages (sub64 virt interval.begin / PAGE_SIZE)
           (some p) }) := by
  unfold AssignPageToVirtualAddress
  simp only [h]

theorem HandleDEntryBackedFault_eq (vm vm1 : VMState) (va : VMArea) (interval : VAInterval)
    (alignedVirt vmp : Nat)
    (hr : sub64 alignedVirt va.va_virt < va.va_dlength)
    (hg : GetDEntryBackedPage vm va (wrap64 (sub64 alignedVirt va.va_virt + va.va_doffset))
      = .ok (vm1, vmp))
    (hslot : va.va_pages (sub64 alignedVirt interval.begin / PAGE_SIZE) = none) :
    HandleDEntryBackedFault vm va interval alignedVirt =
      (if wrap64 (sub64 alignedVirt va.va_virt + PAGE_SIZE) ≤ va.va_dlength ∧
          (va.va_doffset &&& (PAGE_SIZE - 1)) = 0 then
        .ok (some (VMPage_Map (VMPage_Duplicate vm1 vmp).1 vmp alignedVirt,
          { va with
            va_pages := Function.update va.va_pages
              (sub64 alignedVirt interval.begin / PAGE_SIZE) (some vmp) }))
      else
        .ok (some (VMPage_Map
          (VMPage_CopyExtended
            (vmpage.AllocatePrivatePage vm1
              (vmpage.flag.Private ||| DeterminePageFlagsFromVMArea va)).1 vmp vm1.next_page
            (if sub64 va.va_dlength (sub64 alignedVirt va.va_virt) > PAGE_SIZE then PAGE_SIZE
             else sub64 va.va_dlength (sub64 alignedVirt va.va_virt))) vm1.next_page alignedVirt,
          { va with
            va_pages := Function.update va.va_pages
              (sub64 alignedVirt interval.begin / PAGE_SIZE) (some vm1.next_page) }))) := by
  unfold HandleDEntryBackedFault
  dsimp only
  rw [if_neg (not_le.2 hr), hg]
  dsimp only
  by_cases hc : wrap64 (sub64 alignedVirt va.va_virt + PAGE_SIZE) ≤ va.va_dlength ∧
      (va.va_doffset &&& (PAGE_SIZE - 1)) = 0
  · rw [if_pos hc]
    have hb : (decide (wrap64 (sub64 alignedVirt va.va_virt + PAGE_SIZE) ≤ va.va_dlength) &&
        decide ((va.va_doffset &&& (PAGE_SIZE - 1)) = 0)) = true := by
      simp [hc.1, hc.2]
    rw [if_pos hb, Assign_empty _ va interval alignedVirt _ hslot]
    rfl
  · rw [if_neg hc]
    have hb : ¬ (decide (wrap64 (sub64 alignedVirt va.va_virt + PAGE_SIZE) ≤ va.va_dlength) &&
        decide ((va.va_doffset &&& (PAGE_SIZE - 1)) = 0)) = true := by
      simpa using hc
    rw [if_neg hb, Assign_empty _ va interval alignedVirt _ hslot]
    rfl

theorem reuse_state (vm1 : VMState) (vmp alignedVirt : Nat) :
    ((VMPage_Map (VMPage_Duplicate vm1 vmp).1 vmp alignedVirt).page vmp).vp_page
      = (vm1.page vmp).vp_page ∧
    ((VMPage_Map (VMPage_Duplicate vm1 vmp).1 vmp alignedVirt).page vmp).vp_refcount
      = (vm1.page vmp).vp_refcount + 1 ∧
    ((VMPage_Map (VMPage_Duplicate vm1 vmp).1 vmp alignedVirt).page vmp).vp_flags
      = (vm1.page vmp).vp_flags ∧
    (VMPage_Map (VMPage_Duplicate vm1 vmp).1 vmp alignedVirt).next_page = vm1.next_page ∧
    (VMPage_Map (VMPage_Duplicate vm1 vmp).1 vmp alignedVirt).inode_page = vm1.inode_page ∧
    ∀ q, q ≠ vmp → (VMPage_Map (VMPage_Duplicate vm1 vmp).1 vmp alignedVirt).page q
      = vm1.page q := by
  refine ⟨by simp [VMPage_Map, VMPage_Duplicate], by simp [VMPage_Map, VMPage_Duplicate],
    by simp [VMPage_Map, VMPage_Duplicate], rfl, rfl, ?_⟩
  intro q hq
  simp [VMPage_Map, VMPage_Duplicate, Function.update_noteq hq]

theorem copy_state (vm1 : VMState) (vmp alignedVirt flags len : Nat)
    (h : vmp ≠ vm1.next_page) :
    (∀ j, ((VMPage_Map (VMPage_CopyExtended (vmpage.AllocatePrivatePage vm1 flags).1 vmp
        vm1.next_page len) vm1.next_page alignedVirt).page vm1.next_page).vp_page j
      = if j < len then (vm1.page vmp).vp_page j else 0) ∧
    ((VMPage_Map (VMPage_CopyExtended (vmpage.AllocatePrivatePage vm1 flags).1 vmp
        vm1.next_page len) vm1.next_page alignedVirt).page vm1.next_page).vp_flags = flags ∧
    ((VMPage_Map (VMPage_CopyExtended (vmpage.AllocatePrivatePage vm1 flags).1 vmp
        vm1.next_page len) vm1.next_page alignedVirt).page vm1.next_page).vp_refcount = 1 ∧
    (VMPage_Map (VMPage_CopyExtended (vmpage.AllocatePrivatePage vm1 flags).1 vmp
        vm1.next_page len) vm1.next_page alignedVirt).next_page = vm1.next_page + 1 ∧
    (VMPage_Map (VMPage_CopyExtended (vmpage.AllocatePrivatePage vm1 flags).1 vmp
        vm1.next_page len) vm1.next_page alignedVirt).inode_page = vm1.inode_page ∧
    ∀ q, q ≠ vm1.next_page →
      (VMPage_Map (VMPage_CopyExtended (vmpage.AllocatePrivatePage vm1 flags).1 vmp
        vm1.next_page len) vm1.next_page alignedVirt).page q = vm1.page q := by
  refine ⟨?_, ?_, ?_, rfl, rfl, ?_⟩
  · intro j
    simp [VMPage_Map, VMPage_CopyExtended, vmpage.AllocatePrivatePage, Function.update_noteq h]
  · simp [VMPage_Map, VMPage_CopyExtended, vmpage.AllocatePrivatePage]
  · simp [VMPage_Map, VMPage_CopyExtended, vmpage.AllocatePrivatePage]
  · intro q hq
    simp [VMPage_Map, VMPage_CopyExtended, vmpage.AllocatePrivatePage, Function.update_noteq hq]

theorem private_flag_set (va : VMArea) :
    ((vmpage.flag.Private ||| DeterminePageFlagsFromVMArea va) &&& vmpage.flag.Private) ≠ 0 := by
  unfold DeterminePageFlagsFromVMArea
  by_cases h : (va.va_flags &&& (VM_FLAG_READ ||| VM_FLAG_WRITE)) = VM_FLAG_READ
  · rw [if_pos h]; decide
  · rw [if_neg h]; decide

/-! ## C15: a page that straddles the end of the file window -/

/-- A page that straddles the end of the file window, for a file that reaches
the read offset.  Take an area with a
dentry whose `va_doffset` is page-aligned, a page-aligned address whose slot is
empty and whose offset `offset = alignedVirt - va_virt` lies in the window
(`offset < va_dlength`), the file reaching the read offset and the cache holding
file bytes.  Then `HandleDEntryBackedFault` gets the cached inode page and
returns true, and: when `va_dlength < offset + PAGE_SIZE` it does not reuse the
cached page but installs a new private page whose first `va_dlength - offset`
bytes, a length strictly between 0 and `PAGE_SIZE`, are those of the cached
page, which holds the bytes of the file at `va_doffset + offset`, and whose other bytes are zero, the cached page being left as it was; when
`offset + PAGE_SIZE <= va_dlength` it installs the cached page itself, through
`Duplicate`, and no page is allocated or written. -/
theorem page_straddling_window_end_in_file (vm : VMState) (va : VMArea) (interval : VAInterval)
    (alignedVirt inode : Nat)
    (hd : va.va_dentry = some inode)
    (hdo : (va.va_doffset &&& (PAGE_SIZE - 1)) = 0)
    (hr : sub64 alignedVirt va.va_virt < va.va_dlength)
    (hdl : va.va_dlength + PAGE_SIZE < 2 ^ 64)
    (ho : wrap64 (sub64 alignedVirt va.va_virt + va.va_doffset) ≤ (vm.inode inode).st_size)
    (hsz : (vm.inode inode).st_size + PAGE_SIZE < 2 ^ 64)
    (hcache : ∀ p,
      vm.inode_page inode (wrap64 (sub64 alignedVirt va.va_virt + va.va_doffset)) = some p →
      p < vm.next_page ∧
      (((vm.page p).vp_flags &&& vmpage.flag.Pending) = 0 →
        ∀ j, j < PAGE_SIZE → (vm.page p).vp_page j = file_byte (vm.inode inode)
          (wrap64 (sub64 alignedVirt va.va_virt + va.va_doffset) + j)))
    (hslot : va.va_pages (sub64 alignedVirt interval.begin / PAGE_SIZE) = none) :
    ∃ vm1 vmp,
      GetDEntryBackedPage vm va (wrap64 (sub64 alignedVirt va.va_virt + va.va_doffset))
        = .ok (vm1, vmp) ∧
      vm1.inode_page inode (wrap64 (sub64 alignedVirt va.va_virt + va.va_doffset))
        = some vmp ∧
      (∀ j, j < PAGE_SIZE → (vm1.page vmp).vp_page j = file_byte (vm.inode inode)
        (wrap64 (sub64 alignedVirt va.va_virt + va.va_doffset) + j)) ∧
      (va.va_dlength < sub64 alignedVirt va.va_virt + PAGE_SIZE →
        ∃ vm2 newp,
          HandleDEntryBackedFault vm va interval alignedVirt
            = .ok (some (vm2,
                { va with
                  va_pages := Function.update va.va_pages
                    (sub64 alignedVirt interval.begin / PAGE_SIZE) (some newp) })) ∧
          newp ≠ vmp ∧ newp = vm1.next_page ∧ vm2.next_page = vm1.next_page + 1 ∧
          ((vm2.page newp).vp_flags &&& vmpage.flag.Private) ≠ 0 ∧
          0 < va.va_dlength - sub64 alignedVirt va.va_virt ∧
          va.va_dlength - sub64 alignedVirt va.va_virt < PAGE_SIZE ∧
          (∀ j, (vm2.page newp).vp_page j =
            if j < va.va_dlength - sub64 alignedVirt va.va_virt then (vm1.page vmp).vp_page j
            else 0) ∧
          vm2.page vmp = vm1.page vmp) ∧
      (sub64 alignedVirt va.va_virt + PAGE_SIZE ≤ va.va_dlength →
        ∃ vm2,
          HandleDEntryBackedFault vm va interval alignedVirt
            = .ok (some (vm2,
                { va with
                  va_pages := Function.update va.va_pages
                    (sub64 alignedVirt interval.begin / PAGE_SIZE) (some vmp) })) ∧
          vm2.next_page = vm1.next_page ∧
          (vm2.page vmp).vp_page = (vm1.page vmp).vp_page ∧
          (vm2.page vmp).vp_refcount = (vm1.page vmp).vp_refcount + 1 ∧
          ∀ q, q ≠ vmp → vm2.page q = vm1.page q) := by
  obtain ⟨vm1, vmp, hg, hlt, hfile, hin, _⟩ := GetDEntryBackedPage_ok vm va inode _ hd ho hsz hcache
  have heq := HandleDEntryBackedFault_eq vm vm1 va interval alignedVirt vmp hr hg hslot
  have hw : wrap64 (sub64 alignedVirt va.va_virt + PAGE_SIZE)
      = sub64 alignedVirt va.va_virt + PAGE_SIZE := by
    unfold wrap64
    unfold PAGE_SIZE at hdl ⊢
    omega
  have hsub : sub64 va.va_dlength (sub64 alignedVirt va.va_virt)
      = va.va_dlength - sub64 alignedVirt va.va_virt := by
    generalize sub64 alignedVirt va.va_virt = ro at hr ⊢
    unfold sub64
    unfold PAGE_SIZE at hdl
    omega
  refine ⟨vm1, vmp, hg, hin, hfile, ?_, ?_⟩
  · intro hs
    have hc : ¬ (wrap64 (sub64 alignedVirt va.va_virt + PAGE_SIZE) ≤ va.va_dlength ∧
        (va.va_doffset &&& (PAGE_SIZE - 1)) = 0) := by
      rw [hw]
      intro h
      omega
    rw [if_neg hc, hsub] at heq
    have hlen : ¬ va.va_dlength - sub64 alignedVirt va.va_virt > PAGE_SIZE := by omega
    rw [if_neg hlen] at heq
    have hne : vmp ≠ vm1.next_page := by omega
    obtain ⟨c1, c2, _, c4, _, c6⟩ := copy_state vm1 vmp alignedVirt
      (vmpage.flag.Private ||| DeterminePageFlagsFromVMArea va)
      (va.va_dlength - sub64 alignedVirt va.va_virt) hne
    refine ⟨_, vm1.next_page, heq, hne.symm, rfl, c4, ?_, by omega, by omega, c1, c6 vmp hne⟩
    rw [c2]
    exact private_flag_set va
  · intro hs
    have hc : wrap64 (sub64 alignedVirt va.va_virt + PAGE_SIZE) ≤ va.va_dlength ∧
        (va.va_doffset &&& (PAGE_SIZE - 1)) = 0 := by
      rw [hw]
      exact ⟨hs, hdo⟩
    rw [if_pos hc] at heq
    obtain ⟨r1, r2, _, r4, _, r6⟩ := reuse_state vm1 vmp alignedVirt
    exact ⟨_, heq, r4, r1, r2, r6⟩

theorem page_straddling_window_end_in_file_example :
    ∃ vm2 newp,
      HandleDEntryBackedFault demo_vm demo_file_area (VAInterval.mk 0x20000 0x23000) 0x21000
        = .ok (some (vm2,
            { demo_file_area with
              va_pages := Function.update demo_file_area.va_pages
                (sub64 0x21000 (VAInterval.mk 0x20000 0x23000).begin / PAGE_SIZE)
                (some newp) })) ∧
      (vm2.page newp).vp_page 0 = 81 ∧ (vm2.page newp).vp_page 1903 = 227 ∧
      (vm2.page newp).vp_page 1904 = 0 := by
  obtain ⟨vm1, vmp, _, _, hfile, hstr, _⟩ :=
    page_straddling_window_end_in_file demo_vm demo_file_area (VAInterval.mk 0x20000 0x23000)
      0x21000 7 rfl (by decide) (by decide) (by decide) (by decide) (by decide)
      (fun p h => Option.noConfusion (show (none : Option Nat) = some p from h)) rfl
  obtain ⟨vm2, newp, h1, _, _, _, _, _, _, hc, _⟩ := hstr (by decide)
  refine ⟨vm2, newp, h1, ?_, ?_, ?_⟩
  · rw [hc 0, if_pos (by decide), hfile 0 (by decide)]
    decide
  · rw [hc 1903, if_pos (by decide), hfile 1903 (by decide)]
    decide
  · rw [hc 1904, if_neg (by decide)]

/-- C15, the code at work: the page at offset 4096 of `demo_file_area` when the
file has only 100 bytes.  `va_doffset` is page-aligned, the slot is empty, no
inode page is cached and `offset = 4096 < va_dlength = 6000 < offset + PAGE_SIZE`,
so the page straddles the end of the file window; the read offset 4096 lies
past the end of the file, the length of the read wraps in
`GetDEntryBackedPage`, and `HandleDEntryBackedFault` stops at the `memset`
outside the page: no private page is installed and nothing is copied.  With a
window of 0x3000 bytes, where `offset + PAGE_SIZE <= va_dlength`, it stops in
the same way and the cached page is not reused. -/
theorem C15_straddling_short_file :
    (demo_file_area.va_doffset &&& (PAGE_SIZE - 1)) = 0 ∧
    sub64 0x21000 demo_file_area.va_virt = 4096 ∧
    4096 < demo_file_area.va_dlength ∧ demo_file_area.va_dlength < 4096 + PAGE_SIZE ∧
    demo_file_area.va_pages (sub64 0x21000 (VAInterval.mk 0x20000 0x23000).begin / PAGE_SIZE)
      = none ∧
    (short_file_vm.inode 7).st_size = 100 ∧
    short_file_vm.inode_page 7 4096 = none ∧
    HandleDEntryBackedFault short_file_vm demo_file_area (VAInterval.mk 0x20000 0x23000) 0x21000
      = .error .memset_outside_page ∧
    4096 + PAGE_SIZE ≤ ({ demo_file_area with va_dlength := 0x3000 } : VMArea).va_dlength ∧
    HandleDEntryBackedFault short_file_vm { demo_file_area with va_dlength := 0x3000 }
      (VAInterval.mk 0x20000 0x23000) 0x21000
      = .error .memset_outside_page := by
  refine ⟨by decide, by decide, by decide, by decide, rfl, rfl, rfl, ?_, by decide, ?_⟩
  · rfl
  · rfl

/-! ## C14: the source of a first-touch page -/

theorem HandleFault_area_empty (vm : VMState) (va : VMArea) (interval : VAInterval)
    (virt fault_flags : Nat)
    (hslot : va.va_pages (slot_index va (virt &&& not64 (PAGE_SIZE - 1))) = none)
    (hb : interval.begin = va.va_virt)
    (hdo : (va.va_doffset &&& (PAGE_SIZE - 1)) = 0) :
    HandleFault_area vm va interval virt fault_flags =
      (match (if va.va_dentry.isSome then
          HandleDEntryBackedFault vm va interval (virt &&& not64 (PAGE_SIZE - 1))
        else .ok none) with
       | .error e => .error e
       | .ok (some a) => .ok (a.1, a.2, .Success)
       | .ok none =>
         .ok (VMPage_Map (VMPage_Zero (vmpage.AllocatePrivatePage vm vmpage.flag.Private).1
               vm.next_page) vm.next_page (virt &&& not64 (PAGE_SIZE - 1)),
              { va with
                va_pages := Function.update va.va_pages
                  (slot_index va (virt &&& not64 (PAGE_SIZE - 1))) (some vm.next_page) },
              .Success)) := by
  have hl : VMArea_LookupVAddrAndLock va (virt &&& not64 (PAGE_SIZE - 1)) = none := hslot
  have hs2 : va.va_pages (sub64 (virt &&& not64 (PAGE_SIZE - 1)) interval.begin / PAGE_SIZE)
      = none := by
    rw [hb]
    exact hslot
  unfold HandleFault_area
  dsimp only
  rw [hl]
  dsimp only
  rw [if_neg (by rw [hdo]; simp), Assign_empty _ va interval _ _ hs2, hb]
  by_cases hd : va.va_dentry.isSome = true
  · rw [if_pos hd, if_pos hd]
    cases HandleDEntryBackedFault vm va interval (virt &&& not64 (PAGE_SIZE - 1)) with
    | error e => rfl
    | ok o =>
      cases o with
      | none => rfl
      | some a => rfl
  · rw [if_neg hd, if_neg hd]
    rfl

theorem zero_state (vm : VMState) (virt : Nat) :
    ((VMPage_Map (VMPage_Zero (vmpage.AllocatePrivatePage vm vmpage.flag.Private).1
        vm.next_page) vm.next_page virt).page vm.next_page).vp_page = (fun _ => 0) ∧
    ((VMPage_Map (VMPage_Zero (vmpage.AllocatePrivatePage vm vmpage.flag.Private).1
        vm.next_page) vm.next_page virt).page vm.next_page).vp_flags = vmpage.flag.Private ∧
    ((VMPage_Map (VMPage_Zero (vmpage.AllocatePrivatePage vm vmpage.flag.Private).1
        vm.next_page) vm.next_page virt).page vm.next_page).vp_refcount = 1 ∧
    (VMPage_Map (VMPage_Zero (vmpage.AllocatePrivatePage vm vmpage.flag.Private).1
        vm.next_page) vm.next_page virt).inode_page = vm.inode_page ∧
    (VMPage_Map (VMPage_Zero (vmpage.AllocatePrivatePage vm vmpage.flag.Private).1
        vm.next_page) vm.next_page virt).next_page = vm.next_page + 1 ∧
    ∀ q, q ≠ vm.next_page →
      (VMPage_Map (VMPage_Zero (vmpage.AllocatePrivatePage vm vmpage.flag.Private).1
        vm.next_page) vm.next_page virt).page q = vm.page q := by
  refine ⟨?_, ?_, ?_, rfl, rfl, ?_⟩
  · simp [VMPage_Map, VMPage_Zero, vmpage.AllocatePrivatePage]
  · simp [VMPage_Map, VMPage_Zero, vmpage.AllocatePrivatePage]
  · simp [VMPage_Map, VMPage_Zero, vmpage.AllocatePrivatePage]
  · intro q hq
    simp [VMPage_Map, VMPage_Zero, vmpage.AllocatePrivatePage, Function.update_noteq hq]

/-- The source of a first-touch page, for a file that reaches the read offset.
Take a fault address inside an area
(the first such area of the map) with a page-aligned `va_doffset`, whose slot
for the page of that address is empty, and let
`offset = aligned fault address - va_virt`.  If the area has a dentry and
`offset < va_dlength` (the file reaching the offset `va_doffset + offset` and
the cache holding file bytes), the page installed holds, in its bytes below
`va_dlength - offset`, the bytes of the inode from file offset
`va_doffset + offset` on, and zeroes in its other bytes up to `PAGE_SIZE`.
Otherwise, with no dentry or with `offset >= va_dlength`, a new private page
filled with zeroes is installed.  In both cases `HandleFault` returns success,
the slot of the faulting page is filled and every other slot of every area is
as it was. -/
theorem first_touch_page_source_in_file (vm : VMState) (virt fault_flags : Nat)
    (interval : VAInterval) (va : VMArea) (pre post : List (VAInterval × VMArea))
    (hin : InArea va virt) (hpre : ∀ e ∈ pre, ¬ InArea e.2 virt)
    (hb : interval.begin = va.va_virt)
    (hdo : (va.va_doffset &&& (PAGE_SIZE - 1)) = 0)
    (hslot : va.va_pages (slot_index va (virt &&& not64 (PAGE_SIZE - 1))) = none) :
    (∀ inode, va.va_dentry = some inode →
      sub64 (virt &&& not64 (PAGE_SIZE - 1)) va.va_virt < va.va_dlength →
      va.va_dlength + PAGE_SIZE < 2 ^ 64 →
      va.va_doffset + sub64 (virt &&& not64 (PAGE_SIZE - 1)) va.va_virt
        ≤ (vm.inode inode).st_size →
      (vm.inode inode).st_size + PAGE_SIZE < 2 ^ 64 →
      (∀ p, vm.inode_page inode
          (va.va_doffset + sub64 (virt &&& not64 (PAGE_SIZE - 1)) va.va_virt) = some p →
        p < vm.next_page ∧
        (((vm.page p).vp_flags &&& vmpage.flag.Pending) = 0 →
          ∀ j, j < PAGE_SIZE → (vm.page p).vp_page j = file_byte (vm.inode inode)
            (va.va_doffset + sub64 (virt &&& not64 (PAGE_SIZE - 1)) va.va_virt + j))) →
      ∃ vm2 newp,
        VMSpace.HandleFault vm (VMSpace.mk (pre ++ (interval, va) :: post)) virt fault_flags
          = .ok (vm2,
              VMSpace.mk (pre ++ (interval,
                { va with
                  va_pages := Function.update va.va_pages
                    (slot_index va (virt &&& not64 (PAGE_SIZE - 1))) (some newp) }) :: post),
              .Success) ∧
        (∀ j, j < PAGE_SIZE →
          j < va.va_dlength - sub64 (virt &&& not64 (PAGE_SIZE - 1)) va.va_virt →
          (vm2.page newp).vp_page j = file_byte (vm.inode inode)
            (va.va_doffset + sub64 (virt &&& not64 (PAGE_SIZE - 1)) va.va_virt + j)) ∧
        (∀ j, j < PAGE_SIZE →
          va.va_dlength - sub64 (virt &&& not64 (PAGE_SIZE - 1)) va.va_virt ≤ j →
          (vm2.page newp).vp_page j = 0)) ∧
    ((va.va_dentry = none ∨
        va.va_dlength ≤ sub64 (virt &&& not64 (PAGE_SIZE - 1)) va.va_virt) →
      ∃ vm2,
        VMSpace.HandleFault vm (VMSpace.mk (pre ++ (interval, va) :: post)) virt fault_flags
          = .ok (vm2,
              VMSpace.mk (pre ++ (interval,
                { va with
                  va_pages := Function.update va.va_pages
                    (slot_index va (virt &&& not64 (PAGE_SIZE - 1)))
                    (some vm.next_page) }) :: post),
              .Success) ∧
        (vm2.page vm.next_page).vp_page = (fun _ => 0) ∧
        (vm2.page vm.next_page).vp_flags = vmpage.flag.Private ∧
        (vm2.page vm.next_page).vp_refcount = 1 ∧
        vm2.inode_page = vm.inode_page ∧
        ∀ q, q ≠ vm.next_page → vm2.page q = vm.page q) := by
  have hrun := HandleFault_at vm virt fault_flags interval va pre post hin hpre
  rw [HandleFault_area_empty vm va interval virt fault_flags hslot hb hdo] at hrun
  generalize virt &&& not64 (PAGE_SIZE - 1) = aligned at hslot hrun ⊢
  have hs2 : va.va_pages (sub64 aligned interval.begin / PAGE_SIZE) = none := by
    rw [hb]
    exact hslot
  refine ⟨?_, ?_⟩
  · intro inode hd hr hdl ho hsz hcache
    have hw : wrap64 (sub64 aligned va.va_virt + va.va_doffset)
        = va.va_doffset + sub64 aligned va.va_virt := by
      unfold wrap64
      unfold PAGE_SIZE at hsz
      omega
    have ho2 : wrap64 (sub64 aligned va.va_virt + va.va_doffset) ≤ (vm.inode inode).st_size := by
      rw [hw]
      exact ho
    have hcache2 : ∀ p,
        vm.inode_page inode (wrap64 (sub64 aligned va.va_virt + va.va_doffset)) = some p →
        p < vm.next_page ∧
        (((vm.page p).vp_flags &&& vmpage.flag.Pending) = 0 →
          ∀ j, j < PAGE_SIZE → (vm.page p).vp_page j = file_byte (vm.inode inode)
            (wrap64 (sub64 aligned va.va_virt + va.va_doffset) + j)) := by
      rw [hw]
      exact hcache
    obtain ⟨vm1, vmp, hg, hlt, hfile, _, _⟩ :=
      GetDEntryBackedPage_ok vm va inode _ hd ho2 hsz hcache2
    rw [hw] at hfile
    have heq := HandleDEntryBackedFault_eq vm vm1 va interval aligned vmp hr hg hs2
    have hw2 : wrap64 (sub64 aligned va.va_virt + PAGE_SIZE)
        = sub64 aligned va.va_virt + PAGE_SIZE := by
      unfold wrap64
      unfold PAGE_SIZE at hdl ⊢
      omega
    have hsub : sub64 va.va_dlength (sub64 aligned va.va_virt)
        = va.va_dlength - sub64 aligned va.va_virt := by
      generalize sub64 aligned va.va_virt = ro at hr ⊢
      unfold sub64
      unfold PAGE_SIZE at hdl
      omega
    have hds : va.va_dentry.isSome = true := by rw [hd]; rfl
    rw [if_pos hds, heq, hw2, hb] at hrun
    by_cases hc : sub64 aligned va.va_virt + PAGE_SIZE ≤ va.va_dlength
    · rw [if_pos ⟨hc, hdo⟩] at hrun
      obtain ⟨r1, _⟩ := reuse_state vm1 vmp aligned
      refine ⟨_, vmp, hrun, ?_, ?_⟩
      · intro j hj _
        show ((VMPage_Map (VMPage_Duplicate vm1 vmp).1 vmp aligned).page vmp).vp_page j = _
        rw [r1]
        exact hfile j hj
      · intro j hj hj2
        omega
    · rw [if_neg (fun h => hc h.1), hsub] at hrun
      have hlen : ¬ va.va_dlength - sub64 aligned va.va_virt > PAGE_SIZE := by omega
      rw [if_neg hlen] at hrun
      have hne : vmp ≠ vm1.next_page := by omega
      obtain ⟨c1, _⟩ := copy_state vm1 vmp aligned
        (vmpage.flag.Private ||| DeterminePageFlagsFromVMArea va)
        (va.va_dlength - sub64 aligned va.va_virt) hne
      refine ⟨_, vm1.next_page, hrun, ?_, ?_⟩
      · intro j hj hj2
        show ((VMPage_Map _ vm1.next_page aligned).page vm1.next_page).vp_page j = _
        rw [c1 j, if_pos hj2]
        exact hfile j hj
      · intro j _ hj2
        show ((VMPage_Map _ vm1.next_page aligned).page vm1.next_page).vp_page j = _
        rw [c1 j, if_neg (by omega)]
  · intro hcase
    have hnone : (if va.va_dentry.isSome then
          HandleDEntryBackedFault vm va interval aligned
        else .ok none) = .ok none := by
      by_cases hds : va.va_dentry.isSome = true
      · rw [if_pos hds]
        rcases hcase with hn | hge
        · rw [hn] at hds
          cases hds
        · unfold HandleDEntryBackedFault
          dsimp only
          rw [if_pos hge]
      · rw [if_neg hds]
    rw [hnone] at hrun
    obtain ⟨z1, z2, z3, z4, _, z6⟩ := zero_state vm aligned
    exact ⟨_, hrun, z1, z2, z3, z4, z6⟩

theorem first_touch_page_source_in_file_example :
    (∃ vm2 newp,
      VMSpace.HandleFault demo_vm
          (VMSpace.mk ([(VAInterval.mk 0x10000 0x13000, demo_anon_area)] ++
            (VAInterval.mk 0x20000 0x23000, demo_file_area) :: [])) 0x20123 VM_FLAG_READ
        = .ok (vm2,
            VMSpace.mk ([(VAInterval.mk 0x10000 0x13000, demo_anon_area)] ++
              (VAInterval.mk 0x20000 0x23000,
                { demo_file_area with
                  va_pages := Function.update demo_file_area.va_pages
                    (slot_index demo_file_area (0x20123 &&& not64 (PAGE_SIZE - 1)))
                    (some newp) }) :: []),
            .Success) ∧
      (vm2.page newp).vp_page 5 = 6) ∧
    (∃ vm2,
      VMSpace.HandleFault demo_vm
          (VMSpace.mk ([(VAInterval.mk 0x10000 0x13000, demo_anon_area)] ++
            (VAInterval.mk 0x20000 0x23000, demo_file_area) :: [])) 0x22123 VM_FLAG_READ
        = .ok (vm2,
            VMSpace.mk ([(VAInterval.mk 0x10000 0x13000, demo_anon_area)] ++
              (VAInterval.mk 0x20000 0x23000,
                { demo_file_area with
                  va_pages := Function.update demo_file_area.va_pages
                    (slot_index demo_file_area (0x22123 &&& not64 (PAGE_SIZE - 1)))
                    (some demo_vm.next_page) }) :: []),
            .Success) ∧
      (vm2.page demo_vm.next_page).vp_page 5 = 0) := by
  refine ⟨?_, ?_⟩
  · obtain ⟨vm2, newp, h1, h2, _⟩ :=
      (first_touch_page_source_in_file demo_vm 0x20123 VM_FLAG_READ (VAInterval.mk 0x20000 0x23000)
        demo_file_area [(VAInterval.mk 0x10000 0x13000, demo_anon_area)] []
        (by decide) (by decide) rfl (by decide) (by decide)).1 7 rfl (by decide) (by decide)
        (by decide) (by decide)
        (fun p h => Option.noConfusion (show (none : Option Nat) = some p from h))
    refine ⟨vm2, newp, h1, ?_⟩
    rw [h2 5 (by decide) (by decide)]
    decide
  · obtain ⟨vm2, h1, h2, _⟩ :=
      (first_touch_page_source_in_file demo_vm 0x22123 VM_FLAG_READ (VAInterval.mk 0x20000 0x23000)
        demo_file_area [(VAInterval.mk 0x10000 0x13000, demo_anon_area)] []
        (by decide) (by decide) rfl (by decide) (by decide)).2 (Or.inr (by decide))
    exact ⟨vm2, h1, by rw [h2]⟩

/-- C14, the code at work: the first touch of the second page of
`demo_file_area` when the file has only 100 bytes.  The fault address lies
inside the area and in no earlier area, the slot of its page is empty, the
area has a dentry, `va_doffset` is page-aligned and `offset = 4096` is below
`va_dlength = 6000`; the read offset 4096 lies past the end of the file, the
length of the read wraps in `GetDEntryBackedPage`, and `HandleFault` stops at
the `memset` outside the page, for a read fault and for a write fault alike:
it does not return success and no slot is filled. -/
theorem C14_first_touch_short_file :
    InArea demo_file_area 0x21000 ∧ ¬ InArea demo_anon_area 0x21000 ∧
    demo_file_area.va_dentry = some 7 ∧
    (demo_file_area.va_doffset &&& (PAGE_SIZE - 1)) = 0 ∧
    demo_file_area.va_pages (slot_index demo_file_area (0x21000 &&& not64 (PAGE_SIZE - 1)))
      = none ∧
    sub64 (0x21000 &&& not64 (PAGE_SIZE - 1)) demo_file_area.va_virt = 4096 ∧
    4096 < demo_file_area.va_dlength ∧
    (short_file_vm.inode 7).st_size = 100 ∧
    VMSpace.HandleFault short_file_vm demo_space 0x21000 VM_FLAG_READ
      = .error .memset_outside_page ∧
    VMSpace.HandleFault short_file_vm demo_space 0x21fff VM_FLAG_READ
      = .error .memset_outside_page ∧
    VMSpace.HandleFault short_file_vm demo_space 0x21000 VM_FLAG_WRITE
      = .error .memset_outside_page := by
  refine ⟨by decide, by decide, rfl, by decide, rfl, by decide, by decide, rfl, ?_, ?_, ?_⟩
  · rfl
  · rfl
  · rfl

/-! ## C16: copy-on-write isolation across `process_clone` -/

theorem ne_zero_of_testBit (x i : Nat) (h : x.testBit i = true) : x ≠ 0 := by
  intro e
  rw [e, Nat.zero_testBit] at h
  cases h

theorem testBit_of_and_two_pow (x k : Nat) (h : (x &&& 2 ^ k) ≠ 0) : x.testBit k = true := by
  have := flag_set_two_pow x k
  unfold flag_set at this
  rw [← this]
  simpa using h

theorem clone_flags_cow (va : VMArea) (i : Nat) (p : Nat)
    (hw : (va.va_flags &&& VM_FLAG_WRITE) ≠ 0)
    (hi : i < num_slots va) (hs : va.va_pages i = some p) :
    (clone_flags va &&& vmarea.flag.COW) ≠ 0 ∧ (clone_flags va &&& VM_FLAG_WRITE) ≠ 0 := by
  have hany : (List.range (num_slots va)).any (fun i => (va.va_pages i).isSome) = true := by
    rw [List.any_eq_true]
    exact ⟨i, List.mem_range.2 hi, by rw [hs]; rfl⟩
  unfold clone_flags
  rw [if_pos ⟨hw, hany⟩]
  have hwb : va.va_flags.testBit 1 = true := testBit_of_and_two_pow va.va_flags 1 hw
  refine ⟨?_, ?_⟩
  · apply ne_zero_of_testBit _ 12
    rw [Nat.testBit_and, Nat.testBit_or]
    have : vmarea.flag.COW.testBit 12 = true := by decide
    simp [this]
  · apply ne_zero_of_testBit _ 1
    rw [Nat.testBit_and, Nat.testBit_or]
    have : VM_FLAG_WRITE.testBit 1 = true := by decide
    simp [this, hwb]

theorem share_pages_keeps (va : VMArea) (l : List Nat) :
    ∀ vm : VMState,
      (share_pages va l vm).next_page = vm.next_page ∧
      ∀ q, ((share_pages va l vm).page q).vp_page = (vm.page q).vp_page ∧
        ((share_pages va l vm).page q).vp_flags = (vm.page q).vp_flags := by
  induction l with
  | nil => intro vm; exact ⟨rfl, fun q => ⟨rfl, rfl⟩⟩
  | cons i rest ih =>
    intro vm
    simp only [share_pages]
    cases hs : va.va_pages i with
    | none => exact ih vm
    | some vp =>
      obtain ⟨h1, h2⟩ := ih (VMPage_Duplicate vm vp).1
      refine ⟨h1, ?_⟩
      intro q
      rw [(h2 q).1, (h2 q).2]
      by_cases hq : q = vp
      · subst hq
        simp [VMPage_Duplicate]
      · simp [VMPage_Duplicate, Function.update_noteq hq]

theorem clone_fold_keeps (l : List (VAInterval × VMArea)) :
    ∀ vm : VMState,
      (l.foldl (fun s e => share_pages e.2 (List.range (num_slots e.2)) s) vm).next_page
        = vm.next_page ∧
      ∀ q,
        ((l.foldl (fun s e => share_pages e.2 (List.range (num_slots e.2)) s) vm).page q).vp_page
          = (vm.page q).vp_page ∧
        ((l.foldl (fun s e => share_pages e.2 (List.range (num_slots e.2)) s) vm).page q).vp_flags
          = (vm.page q).vp_flags := by
  induction l with
  | nil => intro vm; exact ⟨rfl, fun q => ⟨rfl, rfl⟩⟩
  | cons e rest ih =>
    intro vm
    simp only [List.foldl_cons]
    obtain ⟨h1, h2⟩ := ih (share_pages e.2 (List.range (num_slots e.2)) vm)
    obtain ⟨k1, k2⟩ := share_pages_keeps e.2 (List.range (num_slots e.2)) vm
    refine ⟨by rw [h1, k1], ?_⟩
    intro q
    rw [(h2 q).1, (h2 q).2, (k2 q).1, (k2 q).2]
    exact ⟨rfl, rfl⟩

theorem find_first_area (virt : Nat) (e : VAInterval × VMArea)
    (pre post : List (VAInterval × VMArea))
    (hpre : ∀ x ∈ pre, ¬ InArea x.2 virt) (hin : InArea e.2 virt) :
    (pre ++ e :: post).find? (fun x => decide (InArea x.2 virt)) = some e := by
  induction pre with
  | nil => simp [List.find?, hin]
  | cons a rest ih =>
    have ha : ¬ InArea a.2 virt := hpre a (by simp)
    simp only [List.cons_append, List.find?, ha, decide_False]
    exact ih (fun x hx => hpre x (List.mem_cons_of_mem _ hx))

theorem promote_assign_content (vm : VMState) (va : VMArea) (interval : VAInterval)
    (virt vp : Nat) (h : vp ≠ vm.next_page) :
    ((AssignPageToVirtualAddress (PromotePage vm vp).1 va interval virt
        (PromotePage vm vp).2).1.page vp).vp_page = (vm.page vp).vp_page := by
  have h2 : ¬ vm.next_page = vp := fun e => h e.symm
  unfold AssignPageToVirtualAddress PromotePage VMPage_Promote
  dsimp only
  rw [if_pos h2]
  dsimp only
  cases va.va_pages (sub64 virt interval.begin / PAGE_SIZE) with
  | none => simp [VMPage_Map, VMPage_Deref, Function.update_noteq h]
  | some x =>
    dsimp only
    by_cases hx : x = vm.next_page
    · rw [if_neg (by simp [hx])]
      simp [VMPage_Map, VMPage_Deref, Function.update_noteq h]
    · rw [if_pos hx]
      by_cases hxv : vp = x
      · subst hxv
        simp [VMPage_Map, VMPage_Deref, Function.update_noteq h]
      · simp [VMPage_Map, VMPage_Deref, Function.update_noteq h, Function.update_noteq hxv]

theorem lookup_page_at (virt : Nat) (interval : VAInterval) (va : VMArea)
    (pre post : List (VAInterval × VMArea))
    (hpre : ∀ x ∈ pre, ¬ InArea x.2 virt) (hin : InArea va virt) :
    lookup_page (VMSpace.mk (pre ++ (interval, va) :: post)) virt
      = va.va_pages (slot_index va (virt &&& not64 (PAGE_SIZE - 1))) := by
  unfold lookup_page
  dsimp only
  rw [find_first_area virt (interval, va) pre post hpre hin]

theorem write_mapped_cow (virt : Nat) (interval : VAInterval) (va : VMArea)
    (pre post : List (VAInterval × VMArea))
    (hpre : ∀ x ∈ pre, ¬ InArea x.2 virt) (hin : InArea va virt)
    (hc : (va.va_flags &&& vmarea.flag.COW) ≠ 0) :
    write_mapped (VMSpace.mk (pre ++ (interval, va) :: post)) virt = false := by
  unfold write_mapped
  dsimp only
  rw [find_first_area virt (interval, va) pre post hpre hin]
  simp [hc]

theorem cow_write_isolated (vm2 : VMState) (virt w vp : Nat)
    (intervalP interval : VAInterval) (vaP vaC : VMArea)
    (preP postP preC postC : List (VAInterval × VMArea))
    (hinP : InArea vaP virt) (hpreP : ∀ x ∈ preP, ¬ InArea x.2 virt)
    (hinC : InArea vaC virt) (hpreC : ∀ x ∈ preC, ¬ InArea x.2 virt)
    (hb : interval.begin = vaC.va_virt)
    (hslotP : vaP.va_pages (slot_index vaP (virt &&& not64 (PAGE_SIZE - 1))) = some vp)
    (hslotC : vaC.va_pages (slot_index vaC (virt &&& not64 (PAGE_SIZE - 1))) = some vp)
    (hcow : (vaC.va_flags &&& vmarea.flag.COW) ≠ 0)
    (hro : ((vm2.page vp).vp_flags &&& vmpage.flag.ReadOnly) = 0)
    (hlt : vp < vm2.next_page) :
    ∃ vm3 cs3,
      user_write vm2 (VMSpace.mk (preC ++ (interval, vaC) :: postC)) virt w
        = .ok (vm3, cs3, .Success) ∧
      user_read vm3 (VMSpace.mk (preP ++ (intervalP, vaP) :: postP)) virt
        = .ok (vm3, VMSpace.mk (preP ++ (intervalP, vaP) :: postP),
            some ((vm2.page vp).vp_page (virt &&& (PAGE_SIZE - 1)))) ∧
      user_read vm3 cs3 virt = .ok (vm3, cs3, some w) ∧
      lookup_page cs3 virt = some vm2.next_page := by
  have hne : vp ≠ vm2.next_page := by omega
  have hl : VMArea_LookupVAddrAndLock vaC (virt &&& not64 (PAGE_SIZE - 1)) = some vp := hslotC
  have hrun := HandleFault_at vm2 virt VM_FLAG_WRITE interval vaC preC postC hinC hpreC
  rw [HandleFault_area_present vm2 vaC interval virt VM_FLAG_WRITE vp hl,
    if_pos ⟨by decide, hcow⟩, if_neg (by rw [hro]; simp), Assign_area, PromotePage_snd]
    at hrun
  have hlk : lookup_page (VMSpace.mk (preC ++ (interval,
      { vaC with
        va_pages := Function.update vaC.va_pages
          (sub64 (virt &&& not64 (PAGE_SIZE - 1)) interval.begin / PAGE_SIZE)
          (some vm2.next_page) }) :: postC)) virt = some vm2.next_page := by
    have hin2 : InArea ({ vaC with
        va_pages := Function.update vaC.va_pages
          (sub64 (virt &&& not64 (PAGE_SIZE - 1)) interval.begin / PAGE_SIZE)
          (some vm2.next_page) }) virt := hinC
    rw [lookup_page_at virt interval _ preC postC hpreC hin2, hb]
    show Function.update vaC.va_pages _ _ (slot_index vaC _) = _
    unfold slot_index
    rw [Function.update_same]
  have hw : user_write vm2 (VMSpace.mk (preC ++ (interval, vaC) :: postC)) virt w
      = .ok (store_byte
          (AssignPageToVirtualAddress (PromotePage vm2 vp).1 vaC interval
            (virt &&& not64 (PAGE_SIZE - 1)) vm2.next_page).1
          (VMSpace.mk (preC ++ (interval,
            { vaC with
              va_pages := Function.update vaC.va_pages
                (sub64 (virt &&& not64 (PAGE_SIZE - 1)) interval.begin / PAGE_SIZE)
                (some vm2.next_page) }) :: postC)) virt w,
          VMSpace.mk (preC ++ (interval,
            { vaC with
              va_pages := Function.update vaC.va_pages
                (sub64 (virt &&& not64 (PAGE_SIZE - 1)) interval.begin / PAGE_SIZE)
                (some vm2.next_page) }) :: postC), .Success) := by
    unfold user_write
    rw [write_mapped_cow virt interval vaC preC postC hpreC hinC hcow, hrun]
    rfl
  refine ⟨_, _, hw, ?_, ?_, hlk⟩
  · unfold user_read
    rw [lookup_page_at virt intervalP vaP preP postP hpreP hinP, hslotP]
    dsimp only
    unfold store_byte
    rw [hlk]
    dsimp only
    rw [Function.update_noteq hne]
    have hc := promote_assign_content vm2 vaC interval (virt &&& not64 (PAGE_SIZE - 1)) vp hne
    rw [PromotePage_snd] at hc
    rw [hc]
  · unfold user_read
    rw [hlk]
    dsimp only
    unfold store_byte
    rw [hlk]
    dsimp only
    rw [Function.update_same]
    dsimp only
    rw [Function.update_same]

/-- C16: copy-on-write isolation across `process_clone`.  Take a parent space
in which the first area that contains `virt` is writable, is not marked
`no_clone` and has in the slot of `virt` a page without the `ReadOnly` flag that
holds the byte `v` at `virt`, and a new space for the child with no area at
`virt`.  After `process_clone`, a write of `w` at `virt` in the child faults, is
served by `HandleFault` and goes through; then a read at `virt` in the parent
yields `v` and a read at `virt` in the child yields `w`; the parent still has
its page in the slot and the child has another one. -/
theorem C16_cow_isolation (vm : VMState) (newp_vmspace : VMSpace) (virt v w vp : Nat)
    (interval : VAInterval) (va : VMArea) (pre post : List (VAInterval × VMArea))
    (hin : InArea va virt) (hpre : ∀ e ∈ pre, ¬ InArea e.2 virt)
    (hb : interval.begin = va.va_virt)
    (hw : (va.va_flags &&& VM_FLAG_WRITE) ≠ 0)
    (hnc : (va.va_flags &&& VM_FLAG_NO_CLONE) = 0)
    (hslot : va.va_pages (slot_index va (virt &&& not64 (PAGE_SIZE - 1))) = some vp)
    (hidx : slot_index va (virt &&& not64 (PAGE_SIZE - 1)) < num_slots va)
    (hro : ((vm.page vp).vp_flags &&& vmpage.flag.ReadOnly) = 0)
    (hlt : vp < vm.next_page)
    (hv : (vm.page vp).vp_page (virt &&& (PAGE_SIZE - 1)) = v)
    (hnew : ∀ e ∈ newp_vmspace.vs_areamap, ¬ InArea e.2 virt) :
    ∃ vm2 ps2 cs2 vm3 cs3,
      process_clone vm (VMSpace.mk (pre ++ (interval, va) :: post)) newp_vmspace
        = (vm2, ps2, cs2) ∧
      user_write vm2 cs2 virt w = .ok (vm3, cs3, .Success) ∧
      user_read vm3 ps2 virt = .ok (vm3, ps2, some v) ∧
      user_read vm3 cs3 virt = .ok (vm3, cs3, some w) ∧
      lookup_page ps2 virt = some vp ∧
      lookup_page cs3 virt ≠ some vp := by
  obtain ⟨hcow, _⟩ := clone_flags_cow va _ vp hw hidx hslot
  have hps : (pre ++ (interval, va) :: post).map (fun e =>
        if (e.2.va_flags &&& VM_FLAG_NO_CLONE) = 0 then
          (e.1, { e.2 with va_flags := clone_flags e.2 })
        else e)
      = pre.map (fun e =>
          if (e.2.va_flags &&& VM_FLAG_NO_CLONE) = 0 then
            (e.1, { e.2 with va_flags := clone_flags e.2 })
          else e) ++ (interval, { va with va_flags := clone_flags va }) ::
        post.map (fun e =>
          if (e.2.va_flags &&& VM_FLAG_NO_CLONE) = 0 then
            (e.1, { e.2 with va_flags := clone_flags e.2 })
          else e) := by
    rw [List.map_append, List.map_cons]
    simp only [hnc, if_true]
  have hcs : newp_vmspace.vs_areamap ++
        (cloned_areas (VMSpace.mk (pre ++ (interval, va) :: post))).map (fun e =>
          (e.1, { e.2 with va_flags := clone_flags e.2 }))
      = (newp_vmspace.vs_areamap ++
          (pre.filter (fun e => (e.2.va_flags &&& VM_FLAG_NO_CLONE) = 0)).map (fun e =>
            (e.1, { e.2 with va_flags := clone_flags e.2 }))) ++
        (interval, { va with va_flags := clone_flags va }) ::
        (post.filter (fun e => (e.2.va_flags &&& VM_FLAG_NO_CLONE) = 0)).map (fun e =>
          (e.1, { e.2 with va_flags := clone_flags e.2 })) := by
    unfold cloned_areas
    dsimp only
    rw [List.filter_append, List.filter_cons_of_pos (by simp [hnc]), List.map_append,
      List.map_cons, List.append_assoc]
  have hpreP : ∀ x ∈ pre.map (fun e =>
        if (e.2.va_flags &&& VM_FLAG_NO_CLONE) = 0 then
          (e.1, { e.2 with va_flags := clone_flags e.2 })
        else e), ¬ InArea x.2 virt := by
    intro x hx
    obtain ⟨y, hy, rfl⟩ := List.mem_map.1 hx
    by_cases hc : (y.2.va_flags &&& VM_FLAG_NO_CLONE) = 0
    · rw [if_pos hc]
      exact hpre y hy
    · rw [if_neg hc]
      exact hpre y hy
  have hpreC : ∀ x ∈ newp_vmspace.vs_areamap ++
        (pre.filter (fun e => (e.2.va_flags &&& VM_FLAG_NO_CLONE) = 0)).map (fun e =>
          (e.1, { e.2 with va_flags := clone_flags e.2 })), ¬ InArea x.2 virt := by
    intro x hx
    rcases List.mem_append.1 hx with h | h
    · exact hnew x h
    · obtain ⟨y, hy, rfl⟩ := List.mem_map.1 h
      exact hpre y (List.mem_of_mem_filter hy)
  obtain ⟨k1, k2⟩ := clone_fold_keeps
    (cloned_areas (VMSpace.mk (pre ++ (interval, va) :: post))) vm
  have hin2 : InArea ({ va with va_flags := clone_flags va }) virt := hin
  obtain ⟨vm3, cs3, a1, a2, a3, a4⟩ := cow_write_isolated
    ((cloned_areas (VMSpace.mk (pre ++ (interval, va) :: post))).foldl
      (fun s e => share_pages e.2 (List.range (num_slots e.2)) s) vm)
    virt w vp interval interval
    ({ va with va_flags := clone_flags va }) ({ va with va_flags := clone_flags va })
    _ (post.map (fun e =>
        if (e.2.va_flags &&& VM_FLAG_NO_CLONE) = 0 then
          (e.1, { e.2 with va_flags := clone_flags e.2 })
        else e)) _
    ((post.filter (fun e => (e.2.va_flags &&& VM_FLAG_NO_CLONE) = 0)).map (fun e =>
          (e.1, { e.2 with va_flags := clone_flags e.2 })))
    hin2 hpreP hin2 hpreC hb hslot hslot hcow (by rw [(k2 vp).2]; exact hro)
    (by rw [k1]; exact hlt)
  rw [(k2 vp).1, hv] at a2
  refine ⟨(vmspace_clone vm (VMSpace.mk (pre ++ (interval, va) :: post)) newp_vmspace).1,
    (vmspace_clone vm (VMSpace.mk (pre ++ (interval, va) :: post)) newp_vmspace).2.1,
    (vmspace_clone vm (VMSpace.mk (pre ++ (interval, va) :: post)) newp_vmspace).2.2,
    vm3, cs3, rfl, ?_, ?_, a3, ?_, ?_⟩
  · unfold vmspace_clone
    dsimp only
    rw [hcs]
    exact a1
  · unfold vmspace_clone
    dsimp only
    rw [hps]
    exact a2
  · unfold vmspace_clone
    dsimp only
    rw [hps, lookup_page_at virt interval _ _ _ hpreP hin2]
    exact hslot
  · rw [a4, k1]
    intro e
    have := Option.some.inj e
    omega

theorem C16_cow_isolation_witness :
    ∃ vm2 ps2 cs2 vm3 cs3,
      process_clone written_vm
          (VMSpace.mk ([] ++ (VAInterval.mk 0x10000 0x13000, written_area) :: []))
          (VMSpace.mk []) = (vm2, ps2, cs2) ∧
      user_write vm2 cs2 0x10000 0xBB = .ok (vm3, cs3, .Success) ∧
      user_read vm3 ps2 0x10000 = .ok (vm3, ps2, some 0xAA) ∧
      user_read vm3 cs3 0x10000 = .ok (vm3, cs3, some 0xBB) ∧
      lookup_page ps2 0x10000 = some 100 ∧
      lookup_page cs3 0x10000 ≠ some 100 :=
  C16_cow_isolation written_vm (VMSpace.mk []) 0x10000 0xAA 0xBB 100
    (VAInterval.mk 0x10000 0x13000) written_area [] [] (by decide) (by simp) rfl
    (by decide) (by decide) (by decide) (by decide) (by decide) (by decide) (by decide)
    (by simp)

/-- The scenario of the spec from the start: a program writes `0xAA` at offset 0
of an anonymous area of three pages, the space is cloned, the child writes
`0xBB` there; the parent reads `0xAA`, the child reads `0xBB`. -/
theorem cow_isolation_scenario :
    (match user_write demo_vm anon_space 0x10000 0xAA with
     | .ok (vm1, ps1, .Success) =>
       (match process_clone vm1 ps1 (VMSpace.mk []) with
        | (vm2, ps2, cs2) =>
          (match user_write vm2 cs2 0x10000 0xBB with
           | .ok (vm3, cs3, .Success) =>
             (match user_read vm3 ps2 0x10000, user_read vm3 cs3 0x10000 with
              | .ok (_, _, some a), .ok (_, _, some b) => decide (a = 0xAA ∧ b = 0xBB)
              | _, _ => false)
           | _ => false))
     | _ => false) = true := by decide

/-! ## C21: `time::OnTick` and the reschedule request -/

/-- C21, the code at work: `time::OnTick` changes the tick counter and the wall
clock only.  For every state it leaves every thread, with all its flags, and
every CPU's current thread as they were, so the flag `THREAD_FLAG_RESCHEDULE`
of the current thread is set after the call only if it was set before; in the
example state `demo`, where the current thread 1 of CPU 0 has the flag clear,
it is still clear after a tick. -/
theorem C21_ontick_requests_no_reschedule (s : Sched) (time_current : timespec) :
    (OnTick s time_current).1.thread = s.thread ∧
    (OnTick s time_current).1.curthread = s.curthread ∧
    (∀ t, flag_set ((OnTick s time_current).1.thread t).t_flags THREAD_FLAG_RESCHEDULE
      = flag_set (s.thread t).t_flags THREAD_FLAG_RESCHEDULE) ∧
    (OnTick demo (timespec.mk 7 995000000)).1.curthread 0 = some 1 ∧
    flag_set ((OnTick demo (timespec.mk 7 995000000)).1.thread 1).t_flags
      THREAD_FLAG_RESCHEDULE = false :=
  ⟨rfl, rfl, fun _ => rfl, rfl, by decide⟩

/-! ## C22: setting the arguments and the environment of a process -/

theorem find_double_nul_some (args : Nat → Nat) :
    ∀ left i k, find_double_nul args left i = some k →
      i ≤ k ∧ k < i + left ∧ args k = 0 ∧ args (k + 1) = 0 ∧
      ∀ j, i ≤ j → j < k → ¬ (args j = 0 ∧ args (j + 1) = 0) := by
  intro left
  induction left with
  | zero => intro i k h; simp [find_double_nul] at h
  | succ n ih =>
    intro i k h
    by_cases hc : args i = 0 ∧ args (i + 1) = 0
    · simp only [find_double_nul, hc, and_self, if_true] at h
      cases h
      exact ⟨le_refl _, by omega, hc.1, hc.2, fun j h1 h2 => by omega⟩
    · simp only [find_double_nul, hc, if_false] at h
      obtain ⟨h1, h2, h3, h4, h5⟩ := ih (i + 1) k h
      refine ⟨by omega, by omega, h3, h4, ?_⟩
      intro j hj1 hj2
      by_cases hji : j = i
      · subst hji; exact hc
      · exact h5 j (by omega) hj2

theorem find_double_nul_none (args : Nat → Nat) :
    ∀ left i, find_double_nul args left i = none →
      ∀ j, i ≤ j → j < i + left → ¬ (args j = 0 ∧ args (j + 1) = 0) := by
  intro left
  induction left with
  | zero => intro i _ j h1 h2; omega
  | succ n ih =>
    intro i h j h1 h2
    by_cases hc : args i = 0 ∧ args (i + 1) = 0
    · simp [find_double_nul, hc] at h
    · simp only [find_double_nul, hc, if_false] at h
      by_cases hji : j = i
      · subst hji; exact hc
      · exact ih (i + 1) h j (by omega) (by omega)

theorem clamp_eq_min (n L : Nat) : (if n ≥ L - 1 then L - 1 else n) = min n (L - 1) := by
  by_cases h : n ≥ L - 1
  · rw [if_pos h]; omega
  · rw [if_neg h]; omega

/-- C22: `process_set_args(p, args, n)` succeeds if and only if there is an index
`i < min(n, PROCINFO_ARGS_LENGTH - 1)` with `args[i] = 0` and `args[i+1] = 0`.
On success, for the least such `i`, the first `i + 2` bytes of `pi_args` are
those of `args`, the other bytes of `pi_args` and the buffer `pi_env` are as
before, and `i + 2` is at most `PROCINFO_ARGS_LENGTH`; on failure the result is
`BAD_LENGTH`, with no process information written.  The same holds for
`process_set_environment` with `PROCINFO_ENV_LENGTH` and `pi_env`. -/
theorem C22_set_args_double_nul (L : Nat) (p_info : PROCINFO) (args : Nat → Nat) (n : Nat) :
    ((∃ q, process_set_args L p_info args n = .ok q) ↔
      ∃ i, i < min n (L - 1) ∧ args i = 0 ∧ args (i + 1) = 0) ∧
    (∀ q, process_set_args L p_info args n = .ok q →
      ∃ i, i < min n (L - 1) ∧ args i = 0 ∧ args (i + 1) = 0 ∧
        (∀ j, j < i → ¬ (args j = 0 ∧ args (j + 1) = 0)) ∧
        i + 2 ≤ L ∧
        (∀ j, j < i + 2 → q.pi_args j = args j) ∧
        (∀ j, i + 2 ≤ j → q.pi_args j = p_info.pi_args j) ∧
        q.pi_env = p_info.pi_env) ∧
    ((¬ ∃ i, i < min n (L - 1) ∧ args i = 0 ∧ args (i + 1) = 0) →
      process_set_args L p_info args n = .error .BAD_LENGTH) ∧
    ((∃ q, process_set_environment L p_info args n = .ok q) ↔
      ∃ i, i < min n (L - 1) ∧ args i = 0 ∧ args (i + 1) = 0) ∧
    (∀ q, process_set_environment L p_info args n = .ok q →
      ∃ i, i < min n (L - 1) ∧ args i = 0 ∧ args (i + 1) = 0 ∧
        (∀ j, j < i → ¬ (args j = 0 ∧ args (j + 1) = 0)) ∧
        i + 2 ≤ L ∧
        (∀ j, j < i + 2 → q.pi_env j = args j) ∧
        (∀ j, i + 2 ≤ j → q.pi_env j = p_info.pi_env j) ∧
        q.pi_args = p_info.pi_args) ∧
    ((¬ ∃ i, i < min n (L - 1) ∧ args i = 0 ∧ args (i + 1) = 0) →
      process_set_environment L p_info args n = .error .BAD_LENGTH) := by
  have key : ∀ k, find_double_nul args (min n (L - 1)) 0 = some k →
      k < min n (L - 1) ∧ args k = 0 ∧ args (k + 1) = 0 ∧
      (∀ j, j < k → ¬ (args j = 0 ∧ args (j + 1) = 0)) ∧ k + 2 ≤ L := by
    intro k hk
    obtain ⟨_, h2, h3, h4, h5⟩ := find_double_nul_some args _ 0 k hk
    exact ⟨by omega, h3, h4, fun j hj => h5 j (Nat.zero_le _) hj, by omega⟩
  have hnone : find_double_nul args (min n (L - 1)) 0 = none →
      ¬ ∃ i, i < min n (L - 1) ∧ args i = 0 ∧ args (i + 1) = 0 := by
    intro h ⟨i, hi, h1, h2⟩
    exact find_double_nul_none args _ 0 h i (Nat.zero_le _) (by omega) ⟨h1, h2⟩
  unfold process_set_args process_set_environment
  simp only [clamp_eq_min]
  cases hf : find_double_nul args (min n (L - 1)) 0 with
  | none =>
    have hn := hnone hf
    refine ⟨⟨?_, fun h => absurd h hn⟩, ?_, fun _ => rfl, ⟨?_, fun h => absurd h hn⟩, ?_,
      fun _ => rfl⟩
    · rintro ⟨q, h⟩; cases h
    · intro q h; cases h
    · rintro ⟨q, h⟩; cases h
    · intro q h; cases h
  | some k =>
    obtain ⟨k1, k2, k3, k4, k5⟩ := key k hf
    have hex : ∃ i, i < min n (L - 1) ∧ args i = 0 ∧ args (i + 1) = 0 := ⟨k, k1, k2, k3⟩
    refine ⟨⟨fun _ => hex, fun _ => ⟨_, rfl⟩⟩, ?_, fun h => absurd hex h,
      ⟨fun _ => hex, fun _ => ⟨_, rfl⟩⟩, ?_, fun h => absurd hex h⟩
    · intro q h
      cases h
      refine ⟨k, k1, k2, k3, k4, k5, ?_, ?_, rfl⟩
      · intro j hj
        simp [memcpy, hj]
      · intro j hj
        have : ¬ j < k + 2 := by omega
        simp [memcpy, this]
    · intro q h
      cases h
      refine ⟨k, k1, k2, k3, k4, k5, ?_, ?_, rfl⟩
      · intro j hj
        simp [memcpy, hj]
      · intro j hj
        have : ¬ j < k + 2 := by omega
        simp [memcpy, this]

theorem C22_set_args_double_nul_witness :
    (∃ q, process_set_args 128 (PROCINFO.mk (fun _ => 7) (fun _ => 7))
      (fun j => if j = 3 ∨ j = 4 then 0 else 65) 10 = .ok q) ∧
    process_set_args 128 (PROCINFO.mk (fun _ => 7) (fun _ => 7)) (fun _ => 65) 10
      = .error .BAD_LENGTH :=
  ⟨(C22_set_args_double_nul 128 (PROCINFO.mk (fun _ => 7) (fun _ => 7))
      (fun j => if j = 3 ∨ j = 4 then 0 else 65) 10).1.2 ⟨3, by decide, by decide, by decide⟩,
   (C22_set_args_double_nul 128 (PROCINFO.mk (fun _ => 7) (fun _ => 7))
      (fun _ => 65) 10).2.2.1 (by rintro ⟨i, _, h, _⟩; simp at h)⟩

/-! ## C26: `kmem_chunk_reserve` splits exactly -/

/-- C26: `kmem_chunk_reserve` splits exactly.  For all `chunk_start <= chunk_end`
and `reserved_start <= reserved_end` the function returns, the assertion
"missing case" holding, and with the ranges half-open: an address lies in one of
the two output ranges exactly if it lies in the chunk and not in the reserved
range; no address lies in both output ranges; no address of an output range
lies in the reserved range; the second output is `(0, 0)` or a non-empty range,
and the first output is `(0, 0)`, a non-empty range, or the chunk itself when
the chunk is empty. -/
theorem C26_chunk_reserve_splits_exactly (cs ce rs re : Nat) (out_start out_end : Nat → Nat)
    (hc : cs ≤ ce) (hr : rs ≤ re) :
    ∃ os oe, kmem_chunk_reserve cs ce rs re out_start out_end = .ok (os, oe) ∧
      (∀ a, ((os 0 ≤ a ∧ a < oe 0) ∨ (os 1 ≤ a ∧ a < oe 1)) ↔
        (cs ≤ a ∧ a < ce ∧ ¬ (rs ≤ a ∧ a < re))) ∧
      (∀ a, ¬ ((os 0 ≤ a ∧ a < oe 0) ∧ (os 1 ≤ a ∧ a < oe 1))) ∧
      (∀ a, ((os 0 ≤ a ∧ a < oe 0) ∨ (os 1 ≤ a ∧ a < oe 1)) → ¬ (rs ≤ a ∧ a < re)) ∧
      ((os 1 = 0 ∧ oe 1 = 0) ∨ os 1 < oe 1) ∧
      ((os 0 = 0 ∧ oe 0 = 0) ∨ os 0 < oe 0 ∨ (cs = ce ∧ os 0 = cs ∧ oe 0 = ce)) ∧
      (∀ k, 2 ≤ k → os k = out_start k ∧ oe k = out_end k) := by
  unfold kmem_chunk_reserve
  dsimp only
  by_cases h56 : cs ≥ re ∨ ce ≤ rs
  · rw [if_pos h56]
    refine ⟨_, _, rfl, ?_, ?_, ?_, ?_, ?_, ?_⟩
    · intro a; simp; omega
    · intro a; simp
    · intro a; simp; omega
    · simp
    · simp; omega
    · intro k hk
      have h0 : k ≠ 0 := by omega
      have h1 : k ≠ 1 := by omega
      simp [Function.update_noteq h0, Function.update_noteq h1]
  · by_cases h1 : cs ≥ rs ∧ ce ≤ re
    · rw [if_neg h56, if_pos h1]
      refine ⟨_, _, rfl, ?_, ?_, ?_, ?_, ?_, ?_⟩
      · intro a; simp; omega
      · intro a; simp
      · intro a; simp
      · simp
      · simp
      · intro k hk
        have h0 : k ≠ 0 := by omega
        have h1 : k ≠ 1 := by omega
        simp [Function.update_noteq h0, Function.update_noteq h1]
    · by_cases h2 : cs < rs ∧ ce ≤ re
      · rw [if_neg h56, if_neg h1, if_pos h2]
        refine ⟨_, _, rfl, ?_, ?_, ?_, ?_, ?_, ?_⟩
        · intro a; simp; omega
        · intro a; simp
        · intro a; simp; omega
        · simp
        · simp; omega
        · intro k hk
          have h0 : k ≠ 0 := by omega
          have h1 : k ≠ 1 := by omega
          simp [Function.update_noteq h0, Function.update_noteq h1]
      · by_cases h3 : cs ≥ rs ∧ ce > re
        · rw [if_neg h56, if_neg h1, if_neg h2, if_pos h3]
          refine ⟨_, _, rfl, ?_, ?_, ?_, ?_, ?_, ?_⟩
          · intro a; simp; omega
          · intro a; simp
          · intro a; simp; omega
          · simp
          · simp; omega
          · intro k hk
            have h0 : k ≠ 0 := by omega
            have h1 : k ≠ 1 := by omega
            simp [Function.update_noteq h0, Function.update_noteq h1]
        · have h4 : cs ≤ rs ∧ ce ≥ re := by omega
          rw [if_neg h56, if_neg h1, if_neg h2, if_neg h3, if_neg (not_not.2 h4)]
          refine ⟨_, _, rfl, ?_, ?_, ?_, ?_, ?_, ?_⟩
          · intro a; simp; omega
          · intro a; simp; omega
          · intro a; simp; omega
          · simp; omega
          · simp; omega
          · intro k hk
            have h0 : k ≠ 0 := by omega
            have h1 : k ≠ 1 := by omega
            simp [Function.update_noteq h0, Function.update_noteq h1]

theorem C26_chunk_reserve_splits_exactly_witness :
    ∃ os oe, kmem_chunk_reserve 0x1000 0x9000 0x3000 0x5000 (fun _ => 7) (fun _ => 7)
        = .ok (os, oe) ∧
      os 0 = 0x1000 ∧ oe 0 = 0x3000 ∧ os 1 = 0x5000 ∧ oe 1 = 0x9000 := by
  obtain ⟨os, oe, h, _⟩ := C26_chunk_reserve_splits_exactly 0x1000 0x9000 0x3000 0x5000
    (fun _ => 7) (fun _ => 7) (by decide) (by decide)
  have e : kmem_chunk_reserve 0x1000 0x9000 0x3000 0x5000 (fun _ => 7) (fun _ => 7)
      = .ok (Function.update (Function.update (Function.update (fun _ => 7) 0 0x1000) 1 0) 1
          0x5000,
        Function.update (Function.update (Function.update (Function.update (fun _ => 7) 0
          0x9000) 1 0) 0 0x3000) 1 0x9000) := by
    unfold kmem_chunk_reserve
    simp
  rw [e] at h
  cases h
  exact ⟨_, _, e, by simp, by simp, by simp, by simp⟩

/-! ## C24: the page-slot index is in bounds -/

theorem align_eq (x : Nat) (h : x < 2 ^ 64) :
    x &&& not64 (PAGE_SIZE - 1) = x - x % PAGE_SIZE := by
  have e : x - x % PAGE_SIZE = (x >>> 12) <<< 12 := by
    rw [Nat.shiftLeft_eq, Nat.shiftRight_eq_div_pow]
    unfold PAGE_SIZE
    omega
  rw [e]
  unfold not64 PAGE_SIZE
  apply Nat.eq_of_testBit_eq
  intro i
  have h4 : (4096 - 1 : Nat) = 2 ^ 12 - 1 := by norm_num
  rw [Nat.testBit_and, Nat.testBit_xor, Nat.testBit_shiftLeft, Nat.testBit_shiftRight,
    Nat.testBit_two_pow_sub_one, h4, Nat.testBit_two_pow_sub_one]
  by_cases h1 : i < 12
  · have : ¬ i ≥ 12 := by omega
    have h2 : i < 64 := by omega
    simp [h1, this, h2]
  · have h3 : i ≥ 12 := by omega
    by_cases h2 : i < 64
    · simp [h1, h2, h3]
    · have : x.testBit i = false :=
        Nat.testBit_lt_two_pow
          (lt_of_lt_of_le h (Nat.pow_le_pow_right (by norm_num) (by omega)))
      have e2 : 12 + (i - 12) = i := by omega
      simp [h1, h2, h3, this, e2]

/-- C24: the page-slot index is in bounds.  For every area whose base `va_virt`
is page-aligned and equals the `begin` of its interval, and every 64-bit fault
address `virt` with `va_virt <= virt < va_virt + va_len`, the address
`aligned = virt & ~(PAGE_SIZE - 1)` is page-aligned and satisfies
`va_virt <= aligned <= virt`, so that the subtraction `aligned - va_virt` does
not wrap, and the index `(aligned - va_virt) / PAGE_SIZE`, which is the one
`AssignPageToVirtualAddress` computes from the interval, is strictly less than
`ceil(va_len / PAGE_SIZE)`, the number of page slots of the area. -/
theorem C24_slot_index_in_bounds (va : VMArea) (interval : VAInterval) (virt : Nat)
    (hv : virt < 2 ^ 64)
    (hal : va.va_virt % PAGE_SIZE = 0)
    (hb : interval.begin = va.va_virt)
    (h1 : va.va_virt ≤ virt) (h2 : virt < va.va_virt + va.va_len) :
    va.va_virt ≤ (virt &&& not64 (PAGE_SIZE - 1)) ∧
    (virt &&& not64 (PAGE_SIZE - 1)) ≤ virt ∧
    (virt &&& not64 (PAGE_SIZE - 1)) % PAGE_SIZE = 0 ∧
    sub64 (virt &&& not64 (PAGE_SIZE - 1)) va.va_virt
      = (virt &&& not64 (PAGE_SIZE - 1)) - va.va_virt ∧
    sub64 (virt &&& not64 (PAGE_SIZE - 1)) interval.begin / PAGE_SIZE
      = ((virt &&& not64 (PAGE_SIZE - 1)) - va.va_virt) / PAGE_SIZE ∧
    slot_index va (virt &&& not64 (PAGE_SIZE - 1))
      = ((virt &&& not64 (PAGE_SIZE - 1)) - va.va_virt) / PAGE_SIZE ∧
    ((virt &&& not64 (PAGE_SIZE - 1)) - va.va_virt) / PAGE_SIZE
      < (va.va_len + PAGE_SIZE - 1) / PAGE_SIZE ∧
    slot_index va (virt &&& not64 (PAGE_SIZE - 1)) < num_slots va := by
  rw [align_eq virt hv, hb]
  unfold slot_index num_slots
  have hs : sub64 (virt - virt % PAGE_SIZE) va.va_virt
      = virt - virt % PAGE_SIZE - va.va_virt := by
    unfold sub64
    unfold PAGE_SIZE at hal ⊢
    omega
  rw [hs]
  unfold PAGE_SIZE at hal ⊢
  refine ⟨by omega, by omega, by omega, rfl, rfl, rfl, by omega, by omega⟩

theorem C24_slot_index_in_bounds_witness :
    slot_index demo_file_area (0x22fff &&& not64 (PAGE_SIZE - 1)) < num_slots demo_file_area ∧
    demo_file_area.va_virt ≤ (0x22fff &&& not64 (PAGE_SIZE - 1)) :=
  ⟨(C24_slot_index_in_bounds demo_file_area (VAInterval.mk 0x20000 0x23000) 0x22fff
      (by decide) (by decide) rfl (by decide) (by decide)).2.2.2.2.2.2.2,
   (C24_slot_index_in_bounds demo_file_area (VAInterval.mk 0x20000 0x23000) 0x22fff
      (by decide) (by decide) rfl (by decide) (by decide)).1⟩

/-! ## C27: the length of the inode read in `GetDEntryBackedPage` -/

/-- C27, the code at work: for a file of 100 bytes read at offset 4096, the
second page of a window that is longer than the file, `GetDEntryBackedPage`
finds `read_off + PAGE_SIZE > st_size` and sets
`read_length = st_size - read_off`, which wraps to `2 ^ 64 - 3996`, more than
`PAGE_SIZE`; the `memset` of the tail then starts outside the page and has the
length 8092, and the fault on that page does not return. -/
theorem C27_read_length_wraps :
    GetDEntryBackedPage_read_length 100 4096 = 2 ^ 64 - 3996 ∧
    PAGE_SIZE < GetDEntryBackedPage_read_length 100 4096 ∧
    GetDEntryBackedPage_read_length 100 4096 ≠ min PAGE_SIZE (100 - 4096) ∧
    sub64 PAGE_SIZE (GetDEntryBackedPage_read_length 100 4096) = 8092 ∧
    (GetDEntryBackedPage_buffer short_file_vm 100 4096).isNone = true ∧
    (short_file_vm.inode 7).st_size = 100 ∧
    sub64 (0x21000 &&& not64 (PAGE_SIZE - 1)) demo_file_area.va_virt = 4096 ∧
    GetDEntryBackedPage short_file_vm demo_file_area 4096 = .error .memset_outside_page ∧
    VMSpace.HandleFault short_file_vm demo_space 0x21000 VM_FLAG_READ
      = .error .memset_outside_page := by
  refine ⟨by decide, by decide, by decide, by decide, by decide, by decide, by decide, ?_, ?_⟩
  · rfl
  · rfl

/-! ## C25: no early wake-up -/

theorem SleepsUntil_update_flags (s : Sched) (t : Nat) (d : tick_t) (x : Nat) (f : Nat → Nat)
    (hf1 : ∀ v : Nat, (f v).testBit 1 = v.testBit 1)
    (hf6 : ∀ v : Nat, (f v).testBit 6 = v.testBit 6)
    (h : SleepsUntil s t d) : SleepsUntil (s.update_flags x f) t d := by
  obtain ⟨h1, h2, h3, h4, h5⟩ := h
  refine ⟨h1, h2, ?_, ?_, ?_⟩
  · rw [suspended_update_flags]
    split
    · rename_i e
      rw [hf1, ← e, ← is_suspended_eq]
      exact h3
    · exact h3
  · rw [timeout_update_flags]
    split
    · rename_i e
      rw [hf6, ← e, ← has_timeout_eq]
      exact h4
    · exact h4
  · rw [update_flags_timeout]
    exact h5

theorem schedule_wakeup_early (s s1 : Sched) (t : Nat) (d : tick_t)
    (h : SleepsUntil s t d) (hd : s.ticks < d) (hr : schedule_wakeup s = .ok s1) :
    SleepsUntil s1 t d ∧
    (s1 = s ∨
     (∃ x rest, s.sched_sleepqueue = x :: rest ∧ s1.sched_sleepqueue = rest ∧
        THREAD_HAS_TIMEOUT (s.thread x) = true ∧ (s.thread x).t_timeout ≤ s.ticks ∧
        (∀ y ∈ s1.sched_runqueue, y ∈ s.sched_runqueue ∨ y = x) ∧
        ∀ z, z ≠ x → s1.thread z = s.thread z)) := by
  obtain ⟨h1, h2, h3, h4, h5⟩ := h
  rcases schedule_wakeup_ok s s1 hr with ⟨e, _⟩ | ⟨x, rest, pre, post, e1, e2, e3, e4, e5, e6, e7, _⟩
  · subst e
    exact ⟨⟨h1, h2, h3, h4, h5⟩, Or.inl rfl⟩
  · have hne : t ≠ x := by
      intro e
      subst e
      have : (s.thread t).t_timeout ≤ s.ticks := e3
      rw [h5] at this
      exact absurd hd (not_lt.2 this)
    have htr : t ∈ rest := by
      rw [e1] at h1
      rcases List.mem_cons.1 h1 with e | e
      · exact absurd e hne
      · exact e
    have hth : s1.thread t = s.thread t := by
      rw [e7]
      exact update_flags_flags_other _ x _ t hne
    refine ⟨⟨?_, ?_, ?_, ?_, ?_⟩, Or.inr ⟨x, rest, e1, ?_, e2, e3, ?_, ?_⟩⟩
    · rw [e7]; exact htr
    · rw [e7]
      show t ∉ pre ++ x :: post
      intro hm
      rcases List.mem_append.1 hm with hm | hm
      · exact h2 (by rw [e6]; exact List.mem_append_left _ hm)
      · rcases List.mem_cons.1 hm with hm | hm
        · exact hne hm
        · exact h2 (by rw [e6]; exact List.mem_append_right _ hm)
    · rw [hth]; exact h3
    · rw [hth]; exact h4
    · rw [hth]; exact h5
    · rw [e7]; rfl
    · rw [e7]
      intro y hy
      have hy2 : y ∈ pre ++ x :: post := hy
      rcases List.mem_append.1 hy2 with hm | hm
      · exact Or.inl (by rw [e6]; exact List.mem_append_left _ hm)
      · rcases List.mem_cons.1 hm with hm | hm
        · exact Or.inr hm
        · exact Or.inl (by rw [e6]; exact List.mem_append_right _ hm)
    · intro z hz
      rw [e7]
      exact update_flags_flags_other _ x _ z hz

theorem schedule_requeue_early (s s2 : Sched) (cur t : Nat) (d : tick_t)
    (h : SleepsUntil s t d) (hr : schedule_requeue s cur = .ok s2) :
    SleepsUntil s2 t d ∧ s2.sched_sleepqueue = s.sched_sleepqueue ∧
    ∀ y ∈ s2.sched_runqueue,
      y ∈ s.sched_runqueue ∨ (y = cur ∧ THREAD_IS_SUSPENDED (s.thread cur) = false) := by
  obtain ⟨h1, h2, h3, h4, h5⟩ := h
  rcases schedule_requeue_ok s s2 cur hr with ⟨e, _⟩ | ⟨e1, _, _, _, pre, post, e5, e6, _⟩
  · subst e
    exact ⟨⟨h1, h2, h3, h4, h5⟩, rfl, fun y hy => Or.inl hy⟩
  · have hne : t ≠ cur := by
      intro e
      subst e
      rw [h3] at e1
      cases e1
    have hsub : ∀ y ∈ pre ++ post, y ∈ s.sched_runqueue := by
      intro y hy
      rw [← e5] at hy
      exact List.mem_of_mem_erase hy
    rw [e6]
    refine ⟨⟨h1, ?_, h3, h4, h5⟩, rfl, ?_⟩
    · show t ∉ pre ++ cur :: post
      intro hm
      rcases List.mem_append.1 hm with hm | hm
      · exact h2 (hsub t (List.mem_append_left _ hm))
      · rcases List.mem_cons.1 hm with hm | hm
        · exact hne hm
        · exact h2 (hsub t (List.mem_append_right _ hm))
    · intro y hy
      have hy2 : y ∈ pre ++ cur :: post := hy
      rcases List.mem_append.1 hy2 with hm | hm
      · exact Or.inl (hsub y (List.mem_append_left _ hm))
      · rcases List.mem_cons.1 hm with hm | hm
        · exact Or.inr ⟨hm, e1⟩
        · exact Or.inl (hsub y (List.mem_append_right _ hm))

/-- C25: no early wake-up.  Take consistent queues, a current thread and an
eligible thread on the run queue, so that `schedule()` returns, and a thread `t`
on the sleep queue with `THREAD_FLAG_TIMEOUT` set and a deadline larger than
the current tick count.  Then at the lock release of `schedule()` and at its
end `t` is still on the sleep queue and not on the run queue, with
`THREAD_FLAG_SUSPENDED`, `THREAD_FLAG_TIMEOUT` and its deadline as before.  The
call takes at most one thread from the sleep queue to the run queue: the sleep
queue is as before or has lost its head, and a thread that was on the sleep
queue and is on the run queue afterwards is that head, which had
`THREAD_FLAG_TIMEOUT` set and a deadline not larger than the tick count. -/
theorem C25_no_early_wakeup (s : Sched) (cpuid : Int) (cur t : Nat)
    (hq : QueuesOK s) (hcur : s.curthread cpuid = some cur)
    (hel : ∃ x ∈ s.sched_runqueue, Eligible s.thread cpuid cur x)
    (hon : t ∈ s.sched_sleepqueue)
    (hT : THREAD_HAS_TIMEOUT (s.thread t) = true)
    (hd : GetTicks s < (s.thread t).t_timeout) :
    ∃ s' s'', schedule_locked s cpuid = .ok s' ∧ schedule s cpuid = .ok s'' ∧
      SleepsUntil s' t (s.thread t).t_timeout ∧
      SleepsUntil s'' t (s.thread t).t_timeout ∧
      s''.ticks = s.ticks ∧
      s''.sched_sleepqueue = s'.sched_sleepqueue ∧ s''.sched_runqueue = s'.sched_runqueue ∧
      (s''.sched_sleepqueue = s.sched_sleepqueue ∨
        s''.sched_sleepqueue = s.sched_sleepqueue.tail) ∧
      (∀ y, y ∈ s.sched_sleepqueue → y ∈ s''.sched_runqueue →
        s.sched_sleepqueue.head? = some y ∧ THREAD_HAS_TIMEOUT (s.thread y) = true ∧
        (s.thread y).t_timeout ≤ GetTicks s ∧
        s''.sched_sleepqueue = s.sched_sleepqueue.tail) := by
  obtain ⟨s', s'', hl, hs, hrel⟩ := schedule_succeeds s cpuid cur hq hcur hel
  obtain ⟨cur2, s1, new, s2, c1, c2, _, _, _, _, _, c8, c9⟩ := schedule_locked_ok s s' cpuid hl
  have hcc : cur2 = cur := by
    rw [hcur] at c1
    exact (Option.some.inj c1).symm
  subst hcc
  obtain ⟨hnd, hrq, hsq⟩ := hq
  have hsl0 : SleepsUntil s t (s.thread t).t_timeout := by
    refine ⟨hon, ?_, (hsq t hon).1, hT, rfl⟩
    intro hm
    exact (List.nodup_append.1 hnd).2.2 hm hon
  have hsl1 := SleepsUntil_update_flags s t _ cur2
    (fun f => f &&& not32 THREAD_FLAG_RESCHEDULE)
    (fun v => by rw [testBit_clear_reschedule]; by_cases h : v.testBit 1 <;> simp [h])
    (fun v => by rw [testBit_clear_reschedule]; by_cases h : v.testBit 6 <;> simp [h]) hsl0
  obtain ⟨hw1, hw2⟩ := schedule_wakeup_early _ s1 t _ hsl1 hd c2
  obtain ⟨hr1, hr2, hr3⟩ := schedule_requeue_early s1 s2 cur2 t _ hw1 c8
  have hsl' : SleepsUntil s' t (s.thread t).t_timeout := by
    rw [c9]
    exact SleepsUntil_update_flags s2 t _ new (fun f => f ||| THREAD_FLAG_ACTIVE)
      (fun v => by rw [testBit_set_active]; simp)
      (fun v => by rw [testBit_set_active]; simp) hr1
  have hqs' : s'.sched_sleepqueue = s2.sched_sleepqueue ∧
      s'.sched_runqueue = s2.sched_runqueue ∧ s'.ticks = s2.ticks := by
    rw [c9]
    exact ⟨rfl, rfl, rfl⟩
  have hkeep := schedule_wakeup_keeps _ s1 c2
  have hkeep2 := schedule_requeue_keeps s1 s2 cur2 c8
  have hfin : SleepsUntil s'' t (s.thread t).t_timeout ∧
      s''.sched_sleepqueue = s'.sched_sleepqueue ∧ s''.sched_runqueue = s'.sched_runqueue ∧
      s''.ticks = s'.ticks := by
    rw [hrel]
    split
    · refine ⟨?_, rfl, rfl, rfl⟩
      exact SleepsUntil_update_flags s' t _ cur2 (fun f => f &&& not32 THREAD_FLAG_ACTIVE)
        (fun v => by rw [testBit_clear_active]; by_cases h : v.testBit 1 <;> simp [h])
        (fun v => by rw [testBit_clear_active]; by_cases h : v.testBit 6 <;> simp [h]) hsl'
    · exact ⟨hsl', rfl, rfl, rfl⟩
  obtain ⟨f1, f2, f3, f4⟩ := hfin
  have hflag0 : ∀ y, THREAD_HAS_TIMEOUT ((s.update_flags cur2
      (fun f => f &&& not32 THREAD_FLAG_RESCHEDULE)).thread y) = THREAD_HAS_TIMEOUT (s.thread y) :=
    fun y => (clear_reschedule_keeps s cur2 y).2.2.2
  have hsusp0 : ∀ y, THREAD_IS_SUSPENDED ((s.update_flags cur2
      (fun f => f &&& not32 THREAD_FLAG_RESCHEDULE)).thread y)
      = THREAD_IS_SUSPENDED (s.thread y) :=
    fun y => (clear_reschedule_keeps s cur2 y).1
  refine ⟨s', s'', hl, hs, hsl', f1, ?_, f2, f3, ?_, ?_⟩
  · rw [f4, hqs'.2.2, hkeep2.2.2.2.1, hkeep.2.2.2.2.2.2]
    rfl
  · rw [f2, hqs'.1, hr2]
    rcases hw2 with e | ⟨x, rest, e1, e2, _⟩
    · left
      rw [e]
      rfl
    · right
      rw [e2]
      have e1b : s.sched_sleepqueue = x :: rest := e1
      rw [e1b]
      rfl
  · intro y hy1 hy2
    rw [f3, hqs'.2.1] at hy2
    have hys : THREAD_IS_SUSPENDED (s.thread y) = true := (hsq y hy1).1
    have hynr : y ∉ s.sched_runqueue := fun hm => (List.nodup_append.1 hnd).2.2 hm hy1
    rcases hw2 with e | ⟨x, rest, e1, e2, e3, e4, e5, e6⟩
    · exfalso
      rcases hr3 y hy2 with hm | ⟨hm, hsus⟩
      · rw [e] at hm
        exact hynr hm
      · subst hm
        rw [e, hsusp0 y, hys] at hsus
        cases hsus
    · have e1b : s.sched_sleepqueue = x :: rest := e1
      have hyx : y = x := by
        rcases hr3 y hy2 with hm | ⟨hm, hsus⟩
        · rcases e5 y hm with h | h
          · exact absurd h hynr
          · exact h
        · by_contra hne
          subst hm
          rw [e6 y hne, hsusp0 y, hys] at hsus
          cases hsus
      subst hyx
      refine ⟨by rw [e1b]; rfl, ?_, ?_, ?_⟩
      · rw [← hflag0 y]; exact e3
      · have : ((s.update_flags cur2
            (fun f => f &&& not32 THREAD_FLAG_RESCHEDULE)).thread y).t_timeout
            ≤ (s.update_flags cur2 (fun f => f &&& not32 THREAD_FLAG_RESCHEDULE)).ticks := e4
        rw [update_flags_timeout] at this
        exact this
      · rw [f2, hqs'.1, hr2, e2, e1b]
        rfl

/-- C25 at the example state: at tick 1004 `schedule()` leaves the thread 1,
whose deadline is tick 1005, asleep; and in the run from tick 1000, where the
current thread 1 calls `sleep_ms(50)` and four ticks pass, thread 1 is suspended
and on the sleep queue after a further `schedule()`, and runnable after the
`schedule()` that follows the fifth tick. -/
theorem C25_no_early_wakeup_witness :
    QueuesOK demo_asleep ∧ GetTicks demo_asleep < (demo_asleep.thread 1).t_timeout ∧
    (∃ s'', schedule demo_asleep 0 = .ok s'' ∧ SleepsUntil s'' 1 1005 ∧
      s''.sched_sleepqueue = [1]) ∧
    (match run_calls demo_tick1000 [.sleep_ms 0 50, .tick, .tick, .tick, .tick, .schedule 0] with
     | .ok s4 =>
       decide (s4.ticks = 1004 ∧ 1 ∈ s4.sched_sleepqueue ∧ 1 ∉ s4.sched_runqueue ∧
         THREAD_IS_SUSPENDED (s4.thread 1) = true ∧ (s4.thread 1).t_timeout = 1005) &&
       (match run_calls s4 [.tick, .schedule 0] with
        | .ok s5 => decide (s5.ticks = 1005 ∧ 1 ∈ s5.sched_runqueue ∧
            THREAD_IS_SUSPENDED (s5.thread 1) = false)
        | .error _ => false)
     | .error _ => false) = true := by
  have hq : QueuesOK demo_asleep := ⟨by decide, by decide, by decide⟩
  refine ⟨hq, by decide, ?_, by decide⟩
  obtain ⟨s', s'', _, h2, _, h4, _, _, _, h8, _⟩ :=
    C25_no_early_wakeup demo_asleep 0 2 1 hq rfl ⟨2, by decide, by unfold Eligible; decide⟩
      (by decide) (by decide) (by decide)
  refine ⟨s'', h2, h4, ?_⟩
  rcases h8 with h | h
  · rw [h]; rfl
  · exfalso
    have hm := h4.1
    rw [h] at hm
    exact absurd hm (by decide)

/-! ## C23: round-robin within a priority level -/

theorem picked_before (pre post : List Nat) (x cur new : Nat)
    (hnd : (pre ++ new :: post).Nodup) (hsub : [x, cur].Sublist (pre ++ new :: post))
    (hx : x ∉ pre) : new ≠ cur := by
  intro e
  subst e
  have hxc : x ≠ new := by
    have := List.Nodup.sublist hsub hnd
    intro e
    subst e
    simp at this
  have hnp : new ∉ post := by
    have := (List.nodup_append.1 hnd).2.1
    exact (List.nodup_cons.1 this).1
  obtain ⟨l1, l2, e, h1, h2⟩ := List.sublist_append_iff.1 hsub
  cases l1 with
  | cons a l1 =>
    have ha : a = x := by
      have := congrArg List.head? e
      simp at this
      exact this.symm
    subst ha
    exact hx (h1.subset (by simp))
  | nil =>
    simp only [List.nil_append] at e
    subst e
    rcases List.sublist_cons_iff.1 h2 with h | ⟨r, h, _⟩
    · exact hnp (h.subset (by simp))
    · have := congrArg List.head? h
      simp at this
      exact hxc this

theorem schedule_keeps_eligible (s s1 : Sched) (cpuid : Int) (cur x : Nat)
    (h : schedule_wakeup (s.update_flags cur (fun f => f &&& not32 THREAD_FLAG_RESCHEDULE))
      = .ok s1) :
    Eligible s1.thread cpuid cur x ↔ Eligible s.thread cpuid cur x := by
  obtain ⟨k1, _, k3, _⟩ := schedule_wakeup_keeps _ s1 h
  apply eligible_congr
  · rw [k1 x]
    simp
  · rw [k3 x]
    exact (clear_reschedule_keeps s cur x).2.2.1

theorem schedule_chooses_other (s : Sched) (cpuid : Int) (cur x : Nat)
    (hq : QueuesOK s) (hcur : s.curthread cpuid = some cur)
    (hx : Eligible s.thread cpuid cur x) (hsub : [x, cur].Sublist s.sched_runqueue) :
    ∃ s' s'' new, schedule_locked s cpuid = .ok s' ∧ schedule s cpuid = .ok s'' ∧
      s'.curthread cpuid = some new ∧ s''.curthread cpuid = some new ∧ new ≠ cur := by
  have hxm : x ∈ s.sched_runqueue := hsub.subset (by simp)
  obtain ⟨s', s'', hl, hs, hrel⟩ := schedule_succeeds s cpuid cur hq hcur ⟨x, hxm, hx⟩
  obtain ⟨cur2, s1, new, s2, c1, c2, c3, _, _, _, _, c8, c9⟩ := schedule_locked_ok s s' cpuid hl
  have hcc : cur2 = cur := by
    rw [hcur] at c1
    exact (Option.some.inj c1).symm
  subst hcc
  obtain ⟨pre, post, e1, e2, _⟩ := schedule_pick_some _ _ _ _ _ c3
  have hq0 : QueuesOK (s.update_flags cur2 (fun f => f &&& not32 THREAD_FLAG_RESCHEDULE)) :=
    QueuesOK_clear_reschedule s cur2 hq
  have hq1 : QueuesOK s1 := (schedule_wakeup_inv [] _ s1 ⟨hq0, by simp⟩ c2).1
  have hnd : (pre ++ new :: post).Nodup := by
    rw [← e1]
    exact (List.nodup_append.1 hq1.1).1
  have hsub1 : [x, cur2].Sublist (pre ++ new :: post) := by
    rw [← e1]
    have hw : (s.update_flags cur2
        (fun f => f &&& not32 THREAD_FLAG_RESCHEDULE)).sched_runqueue.Sublist s1.sched_runqueue :=
      schedule_wakeup_sublist
        (s.update_flags cur2 (fun f => f &&& not32 THREAD_FLAG_RESCHEDULE)) s1 c2
    exact hsub.trans hw
  have hx1 : Eligible s1.thread cpuid cur2 x := (schedule_keeps_eligible s s1 cpuid cur2 x c2).2 hx
  have hne : new ≠ cur2 := picked_before pre post x cur2 new hnd hsub1 (fun hm => e2 x hm hx1)
  have hc' : s'.curthread cpuid = some new := by
    rw [c9]
    simp
  refine ⟨s', s'', new, hl, hs, hc', ?_, hne⟩
  rw [hrel]
  split
  · exact hc'
  · exact hc'

theorem requeue_behind_peer (s1 s2 : Sched) (cur p : Nat)
    (hs : RunqSorted s1) (hp : p ∈ s1.sched_runqueue) (hne : p ≠ cur)
    (hprio : (s1.thread p).t_priority = (s1.thread cur).t_priority)
    (hS : THREAD_IS_SUSPENDED (s1.thread cur) = false)
    (hZ : THREAD_IS_ZOMBIE (s1.thread cur) = false)
    (h : schedule_requeue s1 cur = .ok s2) :
    [p, cur].Sublist s2.sched_runqueue := by
  rcases schedule_requeue_ok s1 s2 cur h with ⟨_, e⟩ | ⟨_, _, _, _, pre, post, e5, e6, e7, e8⟩
  · rcases e with e | e
    · rw [hS] at e; cases e
    · rw [hZ] at e; cases e
  · have hpe : p ∈ pre ++ post := by
      rw [← e5]
      exact (List.mem_erase_of_ne hne).2 hp
    have hsorted : (pre ++ post).Pairwise
        (fun a b => (s1.thread a).t_priority ≤ (s1.thread b).t_priority) := by
      have := erase_sorted s1 cur hs
      unfold RunqSorted at this
      rw [← e5]
      exact this
    have hpost := head_lt_all (fun x => (s1.thread x).t_priority) (s1.thread cur).t_priority post
      (List.pairwise_append.1 hsorted).2.1 e8
    have hpp : p ∈ pre := by
      rcases List.mem_append.1 hpe with hm | hm
      · exact hm
      · have hlt : (s1.thread cur).t_priority < (s1.thread p).t_priority := hpost p hm
        rw [hprio] at hlt
        exact absurd hlt (lt_irrefl _)
    rw [e6]
    show [p, cur].Sublist (pre ++ cur :: post)
    have h1 : [p].Sublist pre := List.singleton_sublist.2 hpp
    have h2 : [cur].Sublist (cur :: post) := List.singleton_sublist.2 (by simp)
    exact h1.append h2

/-- C23, amended: round-robin within a priority level.  Take consistent queues,
a sorted run queue, a current thread `cur` that is on the run queue (so neither
suspended nor zombie) and another thread `p` of the same `t_priority` on the
run queue that is eligible on this CPU.  Then `schedule()` returns and chooses
the first eligible thread of the run queue: if `p` precedes `cur` on the run
queue, the chosen thread is not `cur`.  In every case `cur` is re-queued behind
`p`, so that if `cur` was chosen again, the next call of `schedule()` on this
CPU returns and chooses a thread other than `cur`. -/
theorem C23_round_robin_two_calls (s : Sched) (cpuid : Int) (cur p : Nat)
    (hq : QueuesOK s) (hsorted : RunqSorted s) (hcur : s.curthread cpuid = some cur)
    (hrun : cur ∈ s.sched_runqueue) (hp : p ∈ s.sched_runqueue) (hne : p ≠ cur)
    (hel : Eligible s.thread cpuid cur p)
    (hprio : (s.thread p).t_priority = (s.thread cur).t_priority) :
    ∃ s' s'' new, schedule_locked s cpuid = .ok s' ∧ schedule s cpuid = .ok s'' ∧
      s''.curthread cpuid = some new ∧
      ([p, cur].Sublist s.sched_runqueue → new ≠ cur) ∧
      [p, cur].Sublist s''.sched_runqueue ∧
      (new = cur →
        ∃ s3 new2, schedule s'' cpuid = .ok s3 ∧ s3.curthread cpuid = some new2 ∧
          new2 ≠ cur) := by
  obtain ⟨s', s'', hl, hs, hrel⟩ := schedule_succeeds s cpuid cur hq hcur ⟨p, hp, hel⟩
  obtain ⟨cur2, s1, new, s2, c1, c2, c3, _, _, _, _, c8, c9⟩ := schedule_locked_ok s s' cpuid hl
  have hcc : cur2 = cur := by
    rw [hcur] at c1
    exact (Option.some.inj c1).symm
  subst hcc
  have hq0 : QueuesOK (s.update_flags cur2 (fun f => f &&& not32 THREAD_FLAG_RESCHEDULE)) :=
    QueuesOK_clear_reschedule s cur2 hq
  obtain ⟨k1, k2, k3, k4, k5, k6, k7⟩ := schedule_wakeup_keeps _ s1 c2
  obtain ⟨r1, r2, r3, r4, r5⟩ := schedule_requeue_keeps s1 s2 cur2 c8
  have hcnot : cur2 ∉ s.sched_sleepqueue := fun hm =>
    (List.nodup_append.1 hq.1).2.2 hrun hm
  have hth : s1.thread cur2
      = (s.update_flags cur2 (fun f => f &&& not32 THREAD_FLAG_RESCHEDULE)).thread cur2 := by
    apply schedule_wakeup_other _ s1 c2 cur2
    rintro ⟨hh, _⟩
    have hh2 : s.sched_sleepqueue.head? = some cur2 := hh
    exact hcnot (List.mem_of_mem_head? hh2)
  have hS1 : THREAD_IS_SUSPENDED (s1.thread cur2) = false := by
    rw [hth, (clear_reschedule_keeps s cur2 cur2).1]
    exact (hq.2.1 cur2 hrun).1
  have hZ1 : THREAD_IS_ZOMBIE (s1.thread cur2) = false := by
    rw [hth, (clear_reschedule_keeps s cur2 cur2).2.1]
    exact (hq.2.1 cur2 hrun).2
  have hsorted1 : RunqSorted s1 := by
    apply schedule_wakeup_sorted _ s1 _ c2
    exact RunqSorted_update_flags s cur2 _ hsorted
  have hprio1 : (s1.thread p).t_priority = (s1.thread cur2).t_priority := by
    rw [k2 p, k2 cur2]
    simp only [update_flags_priority]
    exact hprio
  have hsub2 : [p, cur2].Sublist s2.sched_runqueue :=
    requeue_behind_peer s1 s2 cur2 p hsorted1 (k5 p hp) hne hprio1 hS1 hZ1 c8
  have hrq' : s'.sched_runqueue = s2.sched_runqueue := by rw [c9]; rfl
  have hc' : s'.curthread cpuid = some new := by
    rw [c9]
    simp
  have hrq'' : s''.sched_runqueue = s'.sched_runqueue := by
    rw [hrel]
    split
    · rfl
    · rfl
  have hc'' : s''.curthread cpuid = some new := by
    rw [hrel]
    split
    · exact hc'
    · exact hc'
  refine ⟨s', s'', new, hl, hs, hc'', ?_, ?_, ?_⟩
  · intro hsub
    obtain ⟨sa, sb, newa, _, hb, _, hd, he⟩ :=
      schedule_chooses_other s cpuid cur2 p hq hcur hel hsub
    rw [hs] at hb
    have hsb : s'' = sb := Except.ok.inj hb
    rw [← hsb, hc''] at hd
    rw [Option.some.inj hd]
    exact he
  · rw [hrq'', hrq']
    exact hsub2
  · intro hnew
    subst hnew
    have hsame : s'' = s' := by
      rw [hrel, if_neg (by rw [hc']; simp)]
    have hq'' : QueuesOK s'' := (schedule_inv [] s s'' cpuid ⟨hq, by simp⟩ hs).1
    have hel'' : Eligible s''.thread cpuid new p := by
      apply (eligible_congr s.thread s''.thread cpuid new p ?_ ?_).2 hel
      · rw [hsame, c9]
        show ((s2.update_flags new (fun f => f ||| THREAD_FLAG_ACTIVE)).thread p).t_affinity = _
        rw [update_flags_affinity, r1, k1 p, update_flags_affinity]
      · rw [hsame, c9]
        show THREAD_IS_ACTIVE ((s2.update_flags new
          (fun f => f ||| THREAD_FLAG_ACTIVE)).thread p) = _
        rw [active_update_flags, if_neg hne, r1, k3 p]
        exact (clear_reschedule_keeps s new p).2.2.1
    obtain ⟨_, s3, new2, _, h2, _, h4, h5⟩ :=
      schedule_chooses_other s'' cpuid new p hq'' hc'' hel'' (by rw [hrq'', hrq']; exact hsub2)
    exact ⟨s3, new2, h2, h4, h5⟩

/-- C23 as stated fails: in `demo_peers` the current thread 1 is runnable, the
thread 2 of the same priority is eligible and on the run queue and no eligible
thread has a higher priority, and `schedule()` chooses thread 1, the current
thread, again: it comes first on the run queue and the choice is made before
the current thread is re-queued. -/
theorem C23_counterexample :
    demo_peers.curthread 0 = some 1 ∧
    THREAD_IS_SUSPENDED (demo_peers.thread 1) = false ∧
    THREAD_IS_ZOMBIE (demo_peers.thread 1) = false ∧
    2 ∈ demo_peers.sched_runqueue ∧ Eligible demo_peers.thread 0 1 2 ∧
    (demo_peers.thread 2).t_priority = (demo_peers.thread 1).t_priority ∧
    (∀ x ∈ demo_peers.sched_runqueue,
      (demo_peers.thread 1).t_priority ≤ (demo_peers.thread x).t_priority) ∧
    (match schedule demo_peers 0 with
     | .ok s'' => decide (s''.curthread 0 = some 1 ∧ s''.sched_runqueue = [2, 1, 9])
     | .error _ => false) = true ∧
    ¬ ∃ s'' new, schedule demo_peers 0 = .ok s'' ∧ s''.curthread 0 = some new ∧ new ≠ 1 := by
  have hv : (match schedule demo_peers 0 with
     | .ok s'' => decide (s''.curthread 0 = some 1 ∧ s''.sched_runqueue = [2, 1, 9])
     | .error _ => false) = true := by decide
  refine ⟨rfl, by decide, by decide, by decide, by unfold Eligible; decide, by decide,
    by decide, hv, ?_⟩
  rintro ⟨s'', new, h1, h2, h3⟩
  rw [h1] at hv
  simp only [decide_eq_true_eq] at hv
  rw [hv.1] at h2
  exact h3 (Option.some.inj h2).symm

theorem C23_round_robin_two_calls_witness :
    QueuesOK demo_peers ∧ RunqSorted demo_peers ∧
    ∃ s'' new, schedule demo_peers 0 = .ok s'' ∧ s''.curthread 0 = some new ∧
      [2, 1].Sublist s''.sched_runqueue ∧
      (new = 1 → ∃ s3 new2, schedule s'' 0 = .ok s3 ∧ s3.curthread 0 = some new2 ∧ new2 ≠ 1) := by
  have hq : QueuesOK demo_peers := ⟨by decide, by decide, by decide⟩
  have hs : RunqSorted demo_peers := by unfold RunqSorted; decide
  obtain ⟨_, s'', new, _, h2, h3, _, h5, h6⟩ :=
    C23_round_robin_two_calls demo_peers 0 1 2 hq hs rfl (by decide) (by decide) (by decide)
      (by unfold Eligible; decide) (by decide)
  exact ⟨hq, hs, s'', new, h2, h3, h5, h6⟩

/-! ## Dates: the serial day number -/

theorem to_i32_id (x : Int) (h1 : -2147483648 ≤ x) (h2 : x < 2147483648) : to_i32 x = x := by
  unfold to_i32; omega

theorem to_time_t_id (x : Int) (h1 : -9223372036854775808 ≤ x) (h2 : x < 9223372036854775808) :
    to_time_t x = x := by
  unfold to_time_t; omega

theorem c_div_nonneg (a : Int) (h : 0 ≤ a) : c_div a 400 = a / 400 := by
  unfold c_div
  exact Int.tdiv_eq_ediv h (by decide)

theorem c_div_five (a : Int) (h : 0 ≤ a) : c_div a 5 = a / 5 := by
  unfold c_div
  exact Int.tdiv_eq_ediv h (by decide)

theorem c_div_neg (a : Int) (h : a < 0) : c_div (a - 399) 400 = a / 400 := by
  unfold c_div
  have h1 : a - 399 = -(399 - a) := by ring
  rw [h1, Int.neg_tdiv, Int.tdiv_eq_ediv (by omega) (by decide)]
  omega

theorem DateToSerialDayNumber_formula (t : tm)
    (hy1 : -5800000 ≤ t.tm_year) (hy2 : t.tm_year ≤ 5800000)
    (hm1 : 1 ≤ t.tm_mon) (hm2 : t.tm_mon ≤ 12) (hd1 : 1 ≤ t.tm_mday) (hd2 : t.tm_mday ≤ 31) :
    DateToSerialDayNumber t = serial_formula t.tm_year t.tm_mon t.tm_mday := by
  obtain ⟨s, mi, h, d, m, y⟩ := t
  simp only at hy1 hy2 hm1 hm2 hd1 hd2
  unfold DateToSerialDayNumber serial_formula
  simp only
  rw [to_i32_id d (by omega) (by omega), to_i32_id m (by omega) (by omega),
    to_i32_id y (by omega) (by omega), to_i32_id (y - 1) (by omega) (by omega)]
  generalize hy : (if m ≤ 2 then y - 1 else y) = y1
  have hy1a : -5800001 ≤ y1 := by rw [← hy]; split <;> omega
  have hy1b : y1 ≤ 5800000 := by rw [← hy]; split <;> omega
  have hera : c_div (if y1 ≥ 0 then y1 else to_i32 (y1 - 399)) 400 = y1 / 400 := by
    by_cases h0 : y1 ≥ 0
    · rw [if_pos h0]; exact c_div_nonneg y1 h0
    · rw [if_neg h0, to_i32_id _ (by omega) (by omega)]; exact c_div_neg y1 (by omega)
  rw [hera]
  generalize hm : (m + (if m > 2 then -3 else 9)) = mp
  have hmp1 : 0 ≤ mp := by rw [← hm]; split <;> omega
  have hmp2 : mp ≤ 11 := by rw [← hm]; split <;> omega
  rw [to_i32_id mp (by omega) (by omega), to_i32_id (153 * mp) (by omega) (by omega),
    to_i32_id (153 * mp + 2) (by omega) (by omega), c_div_five _ (by omega),
    to_i32_id ((153 * mp + 2) / 5 + d) (by omega) (by omega),
    to_i32_id ((153 * mp + 2) / 5 + d - 1) (by omega) (by omega),
    to_i32_id (y1 / 400 * 400) (by omega) (by omega),
    to_i32_id (y1 - y1 / 400 * 400) (by omega) (by omega),
    to_i32_id (y1 / 400 * 146097) (by omega) (by omega)]
  generalize hyoe : y1 - y1 / 400 * 400 = yoe
  have hyoe1 : 0 ≤ yoe := by omega
  have hyoe2 : yoe < 400 := by omega
  generalize hdoy : (153 * mp + 2) / 5 + d - 1 = doy
  have hdoy1 : 0 ≤ doy := by omega
  have hdoy2 : doy ≤ 400 := by omega
  have hu1 : to_u32 yoe = yoe.toNat := by unfold to_u32; congr 1; omega
  have hu2 : to_u32 doy = doy.toNat := by unfold to_u32; congr 1; omega
  rw [hu1, hu2]
  obtain ⟨yn, hyn⟩ := Int.eq_ofNat_of_zero_le hyoe1
  obtain ⟨dn, hdn⟩ := Int.eq_ofNat_of_zero_le hdoy1
  rw [hyn, hdn, Int.toNat_ofNat, Int.toNat_ofNat]
  have hyn2 : yn < 400 := by omega
  have hdn2 : dn ≤ 400 := by omega
  have hde : (((((yn * 365) % 2 ^ 32 + yn / 4 + (2 ^ 32 - yn / 100)) % 2 ^ 32
      + dn) % 2 ^ 32 : Nat) : Int) = (yn : Int) * 365 + (yn : Int) / 4 - (yn : Int) / 100 + dn := by
    omega
  rw [hde, ← hyn, ← hdn]
  generalize hera2 : y1 / 400 = era at *
  have he1 : -14501 ≤ era := by omega
  have he2 : era ≤ 14500 := by omega
  have hdoe1 : 0 ≤ yoe * 365 + yoe / 4 - yoe / 100 + doy := by omega
  have hdoe2 : yoe * 365 + yoe / 4 - yoe / 100 + doy ≤ 146500 := by omega
  rw [to_i32_id (yoe * 365 + yoe / 4 - yoe / 100 + doy) (by omega) (by omega),
    to_i32_id (era * 146097 + _) (by omega) (by omega),
    to_i32_id (era * 146097 + _ - 719468) (by omega) (by omega),
    to_time_t_id _ (by omega) (by omega)]

theorem days_in_month_le (y m : Int) : 28 ≤ days_in_month y m ∧ days_in_month y m ≤ 31 := by
  unfold days_in_month
  split
  · split <;> omega
  · split <;> omega

theorem next_day_valid (t : tm) (hv : valid_date t) : valid_date (next_day t) := by
  obtain ⟨s, mi, h, d, m, y⟩ := t
  obtain ⟨h1, h2, h3, h4⟩ := hv
  simp only at h1 h2 h3 h4
  have hb := days_in_month_le
  unfold next_day
  simp only
  split
  · exact ⟨h1, h2, by simp only; omega, by simp only; omega⟩
  · split
    · refine ⟨by simp only; omega, by simp only; omega, by simp only; omega, ?_⟩
      simp only
      have := hb y (m + 1)
      omega
    · refine ⟨by simp only; omega, by simp only; omega, by simp only; omega, ?_⟩
      simp only
      have := hb (y + 1) 1
      omega

theorem serial_formula_next (t : tm) (hv : valid_date t) :
    serial_formula (next_day t).tm_year (next_day t).tm_mon (next_day t).tm_mday
      = serial_formula t.tm_year t.tm_mon t.tm_mday + 1 := by
  obtain ⟨s, mi, h, d, m, y⟩ := t
  obtain ⟨h1, h2, h3, h4⟩ := hv
  simp only at h1 h2 h3 h4
  unfold next_day
  simp only
  by_cases hlt : d < days_in_month y m
  · rw [if_pos hlt]
    simp only [serial_formula]
    omega
  · rw [if_neg hlt]
    have hd : d = days_in_month y m := by omega
    by_cases hm : m < 12
    · rw [if_pos hm]
      simp only [serial_formula]
      rw [hd]
      unfold days_in_month is_leap_year
      interval_cases m <;> simp only [decide_eq_true_eq] <;> norm_num <;> (try split) <;> omega
    · rw [if_neg hm]
      have hm12 : m = 12 := by omega
      subst hm12
      simp only [serial_formula]
      rw [hd]
      unfold days_in_month
      norm_num
      omega

theorem to_i32_range (x : Int) : -2147483648 ≤ to_i32 x ∧ to_i32 x < 2147483648 := by
  unfold to_i32; omega

theorem DateToSerialDayNumber_range (t : tm) :
    -2147483648 ≤ DateToSerialDayNumber t ∧ DateToSerialDayNumber t < 2147483648 := by
  unfold DateToSerialDayNumber
  simp only
  generalize (to_i32 (to_i32 (c_div _ 400 * 146097) + _) - 719468) = x
  have h := to_i32_range x
  rw [to_time_t_id _ (by omega) (by omega)]
  exact h

theorem next_day_year (t : tm) :
    t.tm_year ≤ (next_day t).tm_year ∧ (next_day t).tm_year ≤ t.tm_year + 1 := by
  unfold next_day
  split
  · simp only; omega
  · split
    · simp only; omega
    · simp only; omega

theorem next_day_iterate (n : Nat) (hn : n ≤ 5000000) :
    valid_date (next_day^[n] epoch_date) ∧
    1970 ≤ (next_day^[n] epoch_date).tm_year ∧
    (next_day^[n] epoch_date).tm_year ≤ 1970 + (n : Int) ∧
    serial_formula (next_day^[n] epoch_date).tm_year (next_day^[n] epoch_date).tm_mon
      (next_day^[n] epoch_date).tm_mday = n := by
  induction n with
  | zero => exact ⟨by decide, by decide, by decide, by decide⟩
  | succ k ih =>
    obtain ⟨hv, h1, h2, h3⟩ := ih (by omega)
    rw [Function.iterate_succ_apply']
    have hy := next_day_year (next_day^[k] epoch_date)
    refine ⟨next_day_valid _ hv, by omega, by push_cast; omega, ?_⟩
    rw [serial_formula_next _ hv, h3]
    push_cast
    rfl

/-- C28: `DateToSerialDayNumber` counts the days from 1970-01-01.  For every
valid proleptic-Gregorian date (full year, month 1..12, day of that month)
with a year between -5800000 and 5800000, where the 32-bit arithmetic of the
function does not overflow: 1970-01-01 gives 0; the calendar day that follows
the date is again a valid date and gives the result plus 1 (at month ends,
year ends and leap days alike); the n-th day after 1970-01-01 gives n; and
`TMtoTS`, for hour, minute and second fields whose `int` products do not
overflow, gives `days * 86400 + hour * 3600 + min * 60 + sec` seconds and
`tv_nsec = 0`. -/
theorem C28_days_from_civil (t : tm)
    (hy1 : -5800000 ≤ t.tm_year) (hy2 : t.tm_year < 5800000) (hv : valid_date t)
    (hh : -596523 ≤ t.tm_hour ∧ t.tm_hour ≤ 596523)
    (hmi : -35791394 ≤ t.tm_min ∧ t.tm_min ≤ 35791394)
    (hs : -2147483648 ≤ t.tm_sec ∧ t.tm_sec < 2147483648) :
    DateToSerialDayNumber epoch_date = 0 ∧
    valid_date (next_day t) ∧
    DateToSerialDayNumber (next_day t) = DateToSerialDayNumber t + 1 ∧
    (∀ n : Nat, n ≤ 5000000 → DateToSerialDayNumber (next_day^[n] epoch_date) = n) ∧
    TMtoTS t =
      { tv_sec := DateToSerialDayNumber t * 86400 + t.tm_hour * 3600 + t.tm_min * 60 + t.tm_sec,
        tv_nsec := 0 } := by
  have hb := days_in_month_le t.tm_year t.tm_mon
  have hnv := next_day_valid t hv
  have hny := next_day_year t
  have hnb := days_in_month_le (next_day t).tm_year (next_day t).tm_mon
  refine ⟨by decide, hnv, ?_, ?_, ?_⟩
  · rw [DateToSerialDayNumber_formula t hy1 (by omega) hv.1 hv.2.1 hv.2.2.1 (by have := hv.2.2.2; omega),
      DateToSerialDayNumber_formula (next_day t) (by omega) (by omega) hnv.1 hnv.2.1 hnv.2.2.1
        (by have := hnv.2.2.2; omega)]
    exact serial_formula_next t hv
  · intro n hn
    obtain ⟨hv2, h1, h2, h3⟩ := next_day_iterate n hn
    have hnb2 := days_in_month_le (next_day^[n] epoch_date).tm_year (next_day^[n] epoch_date).tm_mon
    rw [DateToSerialDayNumber_formula _ (by omega) (by omega) hv2.1 hv2.2.1 hv2.2.2.1
      (by have := hv2.2.2.2; omega)]
    exact h3
  · have hr := DateToSerialDayNumber_range t
    unfold TMtoTS
    simp only
    generalize DateToSerialDayNumber t = D at hr
    rw [to_i32_id t.tm_hour (by omega) (by omega), to_i32_id t.tm_min (by omega) (by omega),
      to_i32_id t.tm_sec (by omega) (by omega), to_i32_id (t.tm_hour * (60 * 60)) (by omega) (by omega),
      to_i32_id (t.tm_min * 60) (by omega) (by omega),
      to_time_t_id (D * (24 * 60 * 60)) (by omega) (by omega),
      to_time_t_id (D * (24 * 60 * 60) + _) (by omega) (by omega),
      to_time_t_id (D * (24 * 60 * 60) + _ + _) (by omega) (by omega),
      to_time_t_id (D * (24 * 60 * 60) + _ + _ + _) (by omega) (by omega)]
    congr 1

theorem C28_days_from_civil_witness :
    valid_date { tm_sec := 59, tm_min := 59, tm_hour := 23, tm_mday := 28, tm_mon := 2, tm_year := 2024 } ∧
    next_day { tm_sec := 59, tm_min := 59, tm_hour := 23, tm_mday := 28, tm_mon := 2, tm_year := 2024 }
      = { tm_sec := 59, tm_min := 59, tm_hour := 23, tm_mday := 29, tm_mon := 2, tm_year := 2024 } ∧
    DateToSerialDayNumber
      { tm_sec := 59, tm_min := 59, tm_hour := 23, tm_mday := 28, tm_mon := 2, tm_year := 2024 } = 19781 ∧
    DateToSerialDayNumber (next_day
      { tm_sec := 59, tm_min := 59, tm_hour := 23, tm_mday := 28, tm_mon := 2, tm_year := 2024 })
      = DateToSerialDayNumber
        { tm_sec := 59, tm_min := 59, tm_hour := 23, tm_mday := 28, tm_mon := 2, tm_year := 2024 } + 1 ∧
    TMtoTS { tm_sec := 59, tm_min := 59, tm_hour := 23, tm_mday := 28, tm_mon := 2, tm_year := 2024 }
      = { tv_sec := 1709164799, tv_nsec := 0 } :=
  ⟨by decide, by decide, by decide,
    (C28_days_from_civil
      { tm_sec := 59, tm_min := 59, tm_hour := 23, tm_mday := 28, tm_mon := 2, tm_year := 2024 }
      (by decide) (by decide) (by decide) (by decide) (by decide) (by decide)).2.2.1,
    by rfl⟩

/-- Beyond that range the 32-bit result wraps: the day after 5881580-07-11
gets a negative day number. -/
theorem DateToSerialDayNumber_wraps_far :
    DateToSerialDayNumber { epoch_date with tm_year := 5881580, tm_mon := 7, tm_mday := 11 }
      = 2147483647 ∧
    DateToSerialDayNumber { epoch_date with tm_year := 5881580, tm_mon := 7, tm_mday := 12 }
      = -2147483648 := by
  decide

/-! ## The UTF-8 codec: round trip -/

theorem or_eq_add (a b k : Nat) (hb : b < 2 ^ k) (ha : a % 2 ^ k = 0) : a ||| b = a + b := by
  have h : a = 2 ^ k * (a / 2 ^ k) := by
    have := Nat.div_add_mod a (2 ^ k)
    omega
  rw [h]
  exact (Nat.mul_add_lt_is_or hb _).symm

theorem and_63 (x : Nat) : x &&& 0x3F = x % 64 := Nat.and_pow_two_sub_one_eq_mod x 6

theorem and_31 (x : Nat) : x &&& 0x1F = x % 32 := Nat.and_pow_two_sub_one_eq_mod x 5

theorem and_15 (x : Nat) : x &&& 0x0F = x % 16 := Nat.and_pow_two_sub_one_eq_mod x 4

theorem and_7 (x : Nat) : x &&& 0x07 = x % 8 := Nat.and_pow_two_sub_one_eq_mod x 3

theorem cont_grid : ∀ q < 4, ∀ r < 64, ((64 * q + r) &&& 0xC0 = 0x80 ↔ q = 2) := by
  decide

theorem is_continuation_iff (c : Nat) (h : c < 256) :
    is_continuation c = true ↔ 128 ≤ c ∧ c < 192 := by
  unfold is_continuation
  have h1 := cont_grid (c / 64) (by omega) (c % 64) (by omega)
  have h2 : 64 * (c / 64) + c % 64 = c := by omega
  rw [h2] at h1
  rw [decide_eq_true_iff, h1]
  omega

theorem enc_cont (x : Nat) : (0x80 ||| (x &&& 0x3F)) % 256 = 0x80 + x % 64 := by
  rw [and_63, or_eq_add 0x80 (x % 64) 6 (by have := Nat.mod_lt x (show 64 > 0 by decide); omega) (by decide)]
  have := Nat.mod_lt x (show 64 > 0 by decide)
  omega

theorem enc_lead2 (c : Nat) (h : c ≤ 0x7FF) : (0xC0 ||| (c >>> 6)) % 256 = 0xC0 + c / 64 := by
  rw [Nat.shiftRight_eq_div_pow, or_eq_add 0xC0 (c / 2 ^ 6) 6 (by omega) (by decide)]
  omega

theorem enc_lead3 (c : Nat) (h : c ≤ 0xFFFF) : (0xE0 ||| (c >>> 12)) % 256 = 0xE0 + c / 4096 := by
  rw [Nat.shiftRight_eq_div_pow, or_eq_add 0xE0 (c / 2 ^ 12) 5 (by omega) (by decide)]
  omega

theorem enc_lead4 (c : Nat) (h : c ≤ 0x10FFFF) : (0xF0 ||| (c >>> 18)) % 256 = 0xF0 + c / 262144 := by
  rw [Nat.shiftRight_eq_div_pow, or_eq_add 0xF0 (c / 2 ^ 18) 4 (by omega) (by decide)]
  omega

theorem c32toutf8_enc3 (out : List Nat) (n : Nat) (inbuf : List Nat) (a : Nat) :
    c32toutf8 (some out) (n + 1) inbuf ⟨3, a⟩
      = c32toutf8 (some (out ++ [0x80 + a / 4096 % 64])) n inbuf ⟨2, a⟩ := by
  conv_lhs => unfold c32toutf8
  simp only [Enc3R, Enc2R, if_true, put, Option.map, enc_cont, Nat.shiftRight_eq_div_pow]

theorem c32toutf8_enc2 (out : List Nat) (n : Nat) (inbuf : List Nat) (a : Nat) :
    c32toutf8 (some out) (n + 1) inbuf ⟨2, a⟩
      = c32toutf8 (some (out ++ [0x80 + a / 64 % 64])) n inbuf ⟨1, a⟩ := by
  conv_lhs => unfold c32toutf8
  simp only [Enc3R, Enc2R, Enc1R, if_true, put, Option.map, enc_cont, Nat.shiftRight_eq_div_pow]
  rfl

theorem c32toutf8_enc1 (out : List Nat) (n : Nat) (inbuf : List Nat) (a : Nat) :
    c32toutf8 (some out) (n + 1) inbuf ⟨1, a⟩
      = c32toutf8 (some (out ++ [0x80 + a % 64])) n inbuf ⟨0, a⟩ := by
  conv_lhs => unfold c32toutf8
  simp only [Enc3R, Enc2R, Enc1R, EncStart, if_true, put, Option.map, enc_cont]
  rfl

theorem c32toutf8_start (out : List Nat) (n : Nat) (c : Nat) (rest : List Nat) (a : Nat)
    (hc : c ≤ 0x10FFFF) :
    c32toutf8 (some out) (n + 1) (c :: rest) ⟨0, a⟩
      = c32toutf8
          (some (out ++ [if c ≤ 0x7F then c else if c ≤ 0x7FF then 0xC0 + c / 64
            else if c ≤ 0xFFFF then 0xE0 + c / 4096 else 0xF0 + c / 262144]))
          n rest ⟨utf8_length c - 1, c⟩ := by
  have hc32 : c % 2 ^ 32 = c := Nat.mod_eq_of_lt (by omega)
  conv_lhs => unfold c32toutf8
  simp only [Enc3R, Enc2R, Enc1R, EncStart, hc32, put, Option.map, utf8_length]
  by_cases h1 : c ≤ 0x7F
  · have : c % 256 = c := by omega
    simp [h1, this]
  · by_cases h2 : c ≤ 0x7FF
    · simp [h1, h2, enc_lead2 c h2]
    · by_cases h3 : c ≤ 0xFFFF
      · simp [h1, h2, h3, enc_lead3 c h3]
      · simp [h1, h2, h3, hc, enc_lead4 c hc]

theorem c32toutf8_step (out : List Nat) (n : Nat) (c : Nat) (rest : List Nat) (a : Nat)
    (hc : c ≤ 0x10FFFF) (hn : utf8_length c ≤ n) :
    c32toutf8 (some out) n (c :: rest) ⟨0, a⟩
      = c32toutf8 (some (out ++ utf8_form c)) (n - utf8_length c) rest ⟨0, c⟩ := by
  unfold utf8_form
  by_cases h1 : c ≤ 0x7F
  · have hl : utf8_length c = 1 := by unfold utf8_length; rw [if_pos h1]
    rw [hl] at hn
    obtain ⟨m, rfl⟩ : ∃ m, n = m + 1 := ⟨n - 1, by omega⟩
    rw [c32toutf8_start out m c rest a hc, hl, if_pos h1, if_pos h1]
    rfl
  · by_cases h2 : c ≤ 0x7FF
    · have hl : utf8_length c = 2 := by unfold utf8_length; rw [if_neg h1, if_pos h2]
      rw [hl] at hn
      obtain ⟨m, rfl⟩ : ∃ m, n = m + 2 := ⟨n - 2, by omega⟩
      rw [c32toutf8_start out (m + 1) c rest a hc, hl, if_neg h1, if_pos h2, if_neg h1, if_pos h2,
        c32toutf8_enc1, List.append_assoc]
      rfl
    · by_cases h3 : c ≤ 0xFFFF
      · have hl : utf8_length c = 3 := by
          unfold utf8_length; rw [if_neg h1, if_neg h2, if_pos h3]
        rw [hl] at hn
        obtain ⟨m, rfl⟩ : ∃ m, n = m + 3 := ⟨n - 3, by omega⟩
        rw [c32toutf8_start out (m + 2) c rest a hc, hl, if_neg h1, if_neg h2, if_pos h3,
          if_neg h1, if_neg h2, if_pos h3, c32toutf8_enc2, c32toutf8_enc1, List.append_assoc,
          List.append_assoc]
        rfl
      · have hl : utf8_length c = 4 := by
          unfold utf8_length; rw [if_neg h1, if_neg h2, if_neg h3]
        rw [hl] at hn
        obtain ⟨m, rfl⟩ : ∃ m, n = m + 4 := ⟨n - 4, by omega⟩
        rw [c32toutf8_start out (m + 3) c rest a hc, hl, if_neg h1, if_neg h2, if_neg h3,
          if_neg h1, if_neg h2, if_neg h3, c32toutf8_enc3, c32toutf8_enc2, c32toutf8_enc1,
          List.append_assoc, List.append_assoc, List.append_assoc]
        rfl

theorem cont_facts (z : Nat) (hz : z < 64) :
    (0x80 + z) % 256 = 0x80 + z ∧ is_continuation (0x80 + z) = true ∧ (0x80 + z) &&& 0x3F = z := by
  refine ⟨by omega, ?_, ?_⟩
  · rw [is_continuation_iff _ (by omega)]; omega
  · rw [and_63]; omega

theorem utf8toc32_ascii (out : List Nat) (n : Nat) (b : Nat) (rest : List Nat) (a : Nat)
    (hb : b ≤ 0x7F) :
    utf8toc32 (some out) (n + 1) (b :: rest) ⟨0, a⟩
      = utf8toc32 (some (out ++ [b])) n rest ⟨0, a⟩ := by
  conv_lhs => unfold utf8toc32
  have h : b % 256 = b := by omega
  simp [DecStart, h, hb, put]

theorem utf8toc32_lead2 (out : List Nat) (n : Nat) (y : Nat) (rest : List Nat) (a : Nat)
    (hy : y < 32) :
    utf8toc32 (some out) (n + 1) ((0xC0 + y) :: rest) ⟨0, a⟩
      = utf8toc32 (some out) (n + 1) rest ⟨1, y * 64⟩ := by
  conv_lhs => unfold utf8toc32
  have h : (0xC0 + y) % 256 = 0xC0 + y := by omega
  have h1 : ¬ (0xC0 + y ≤ 0x7F) := by omega
  have h2 : 0xC0 + y ≤ 0xDF := by omega
  have h3 : ((0xC0 + y) % 32 * 2 ^ 6) % 2 ^ 32 = y * 64 := by omega
  simp only [DecStart, Dec2B2, h, if_neg h1, if_pos h2, and_31, Nat.shiftLeft_eq, h3,
    Nat.succ_ne_zero, if_false, if_true]

theorem utf8toc32_lead3 (out : List Nat) (n : Nat) (y : Nat) (rest : List Nat) (a : Nat)
    (hy : y < 16) :
    utf8toc32 (some out) (n + 1) ((0xE0 + y) :: rest) ⟨0, a⟩
      = utf8toc32 (some out) (n + 1) rest ⟨2, y * 4096⟩ := by
  conv_lhs => unfold utf8toc32
  have h : (0xE0 + y) % 256 = 0xE0 + y := by omega
  have h1 : ¬ (0xE0 + y ≤ 0x7F) := by omega
  have h2 : ¬ (0xE0 + y ≤ 0xDF) := by omega
  have h2b : 0xE0 + y ≤ 0xEF := by omega
  have h3 : ((0xE0 + y) % 16 * 2 ^ 12) % 2 ^ 32 = y * 4096 := by omega
  simp only [DecStart, Dec3B2, h, if_neg h1, if_neg h2, if_pos h2b, and_15, Nat.shiftLeft_eq, h3,
    Nat.succ_ne_zero, if_false, if_true]

theorem utf8toc32_lead4 (out : List Nat) (n : Nat) (y : Nat) (rest : List Nat) (a : Nat)
    (hy : y ≤ 4) :
    utf8toc32 (some out) (n + 1) ((0xF0 + y) :: rest) ⟨0, a⟩
      = utf8toc32 (some out) (n + 1) rest ⟨4, y * 262144⟩ := by
  conv_lhs => unfold utf8toc32
  have h : (0xF0 + y) % 256 = 0xF0 + y := by omega
  have h1 : ¬ (0xF0 + y ≤ 0x7F) := by omega
  have h2 : ¬ (0xF0 + y ≤ 0xDF) := by omega
  have h2b : ¬ (0xF0 + y ≤ 0xEF) := by omega
  have h2c : 0xF0 + y ≤ 0xF4 := by omega
  have h3 : ((0xF0 + y) % 8 * 2 ^ 18) % 2 ^ 32 = y * 262144 := by omega
  simp only [DecStart, Dec4B2, h, if_neg h1, if_neg h2, if_neg h2b, if_pos h2c, and_7,
    Nat.shiftLeft_eq, h3, Nat.succ_ne_zero, if_false, if_true]

theorem utf8toc32_mid (out : List Nat) (n : Nat) (z : Nat) (rest : List Nat) (A : Nat)
    (st k : Nat) (hst : st = 2 ∧ k = 6 ∨ st = 4 ∧ k = 12 ∨ st = 5 ∧ k = 6)
    (hz : z < 64) (hA : A % 2 ^ (k + 6) = 0) (hA2 : A < 2 ^ 31) :
    utf8toc32 (some out) (n + 1) ((0x80 + z) :: rest) ⟨st, A⟩
      = utf8toc32 (some out) (n + 1) rest ⟨st + 1, A + z * 2 ^ k⟩ := by
  obtain ⟨h1, h2, h3⟩ := cont_facts z hz
  conv_lhs => unfold utf8toc32
  have hor : A ||| z * 2 ^ k = A + z * 2 ^ k := by
    apply or_eq_add A (z * 2 ^ k) (k + 6) _ hA
    rw [pow_add]
    have : 0 < 2 ^ k := Nat.two_pow_pos k
    calc z * 2 ^ k < 64 * 2 ^ k := by apply Nat.mul_lt_mul_of_pos_right hz this
      _ = 2 ^ k * 2 ^ 6 := by ring
  have hlt : (A + z * 2 ^ k) % 2 ^ 32 = A + z * 2 ^ k := by
    apply Nat.mod_eq_of_lt
    rcases hst with ⟨_, rfl⟩ | ⟨_, rfl⟩ | ⟨_, rfl⟩ <;> omega
  rcases hst with ⟨rfl, rfl⟩ | ⟨rfl, rfl⟩ | ⟨rfl, rfl⟩ <;>
    simp only [Nat.reducePow] at hor hlt <;>
    simp [DecStart, Dec2B2, Dec3B2, Dec3B3, Dec4B2, Dec4B3, Dec4B4, h1, h2, h3,
      Nat.shiftLeft_eq, hor, hlt]

theorem utf8toc32_last (out : List Nat) (n : Nat) (z : Nat) (rest : List Nat) (A : Nat)
    (st : Nat) (hz : z < 64) (hA : A % 2 ^ 6 = 0)
    (hst : st = 1 ∧ 0x7F < A + z ∨
      st = 3 ∧ 0x7FF < A + z ∧ ¬ (0xD800 ≤ A + z ∧ A + z ≤ 0xDFFF) ∨
      st = 6 ∧ 0xFFFF < A + z ∧ A + z ≤ 0x10FFFF) :
    utf8toc32 (some out) (n + 1) ((0x80 + z) :: rest) ⟨st, A⟩
      = utf8toc32 (some (out ++ [A + z])) n rest ⟨0, A⟩ := by
  obtain ⟨h1, h2, h3⟩ := cont_facts z hz
  conv_lhs => unfold utf8toc32
  have hor : A ||| z = A + z := or_eq_add A z 6 hz hA
  rcases hst with ⟨rfl, h⟩ | ⟨rfl, h, h5⟩ | ⟨rfl, h, h5⟩
  · have : ¬ (A + z ≤ 127) := by omega
    simp [DecStart, Dec2B2, Dec3B2, Dec3B3, Dec4B2, Dec4B3, Dec4B4, h1, h2, h3, hor, put, this]
  · have : ¬ (A + z ≤ 2047) := by omega
    simp [DecStart, Dec2B2, Dec3B2, Dec3B3, Dec4B2, Dec4B3, Dec4B4, h1, h2, h3, hor, put, this]
    intro ha hb
    omega
  · have : ¬ (A + z ≤ 65535) := by omega
    simp [DecStart, Dec2B2, Dec3B2, Dec3B3, Dec4B2, Dec4B3, Dec4B4, h1, h2, h3, hor, put, this]
    omega

theorem utf8toc32_step (out : List Nat) (n : Nat) (c : Nat) (rest : List Nat) (a : Nat)
    (hs : is_scalar c) :
    ∃ a2, utf8toc32 (some out) (n + 1) (utf8_form c ++ rest) ⟨0, a⟩
      = utf8toc32 (some (out ++ [c])) n rest ⟨0, a2⟩ := by
  obtain ⟨hc, hsur⟩ := hs
  unfold utf8_form
  by_cases h1 : c ≤ 0x7F
  · rw [if_pos h1]
    exact ⟨a, utf8toc32_ascii out n c rest a h1⟩
  · by_cases h2 : c ≤ 0x7FF
    · rw [if_neg h1, if_pos h2]
      refine ⟨c / 64 * 64, ?_⟩
      have e : c / 64 * 64 + c % 64 = c := by omega
      rw [List.cons_append, List.cons_append, List.nil_append,
        utf8toc32_lead2 out n (c / 64) _ a (by omega),
        utf8toc32_last out n (c % 64) rest (c / 64 * 64) 1 (by omega) (by omega)
          (Or.inl ⟨rfl, by omega⟩), e]
    · by_cases h3 : c ≤ 0xFFFF
      · rw [if_neg h1, if_neg h2, if_pos h3]
        refine ⟨c / 4096 * 4096 + c / 64 % 64 * 2 ^ 6, ?_⟩
        have e : c / 4096 * 4096 + c / 64 % 64 * 2 ^ 6 + c % 64 = c := by omega
        rw [List.cons_append, List.cons_append, List.cons_append, List.nil_append,
          utf8toc32_lead3 out n (c / 4096) _ a (by omega),
          utf8toc32_mid out n (c / 64 % 64) _ (c / 4096 * 4096) 2 6 (Or.inl ⟨rfl, rfl⟩)
            (by omega) (by omega) (by omega),
          utf8toc32_last out n (c % 64) rest _ 3 (by omega) (by omega)
            (Or.inr (Or.inl ⟨rfl, by omega, by omega⟩)), e]
      · rw [if_neg h1, if_neg h2, if_neg h3]
        refine ⟨c / 262144 * 262144 + c / 4096 % 64 * 2 ^ 12 + c / 64 % 64 * 2 ^ 6, ?_⟩
        have e : c / 262144 * 262144 + c / 4096 % 64 * 2 ^ 12 + c / 64 % 64 * 2 ^ 6 + c % 64 = c := by
          omega
        rw [List.cons_append, List.cons_append, List.cons_append, List.cons_append,
          List.nil_append,
          utf8toc32_lead4 out n (c / 262144) _ a (by omega),
          utf8toc32_mid out n (c / 4096 % 64) _ (c / 262144 * 262144) 4 12
            (Or.inr (Or.inl ⟨rfl, rfl⟩)) (by omega) (by omega) (by omega),
          utf8toc32_mid out n (c / 64 % 64) _ _ 5 6
            (Or.inr (Or.inr ⟨rfl, rfl⟩)) (by omega) (by omega) (by omega),
          utf8toc32_last out n (c % 64) rest _ 6 (by omega) (by omega)
            (Or.inr (Or.inr ⟨rfl, by omega, by omega⟩)), e]

theorem c32toutf8_nil (out : Option (List Nat)) (n : Nat) (a : Nat) :
    c32toutf8 out n [] ⟨0, a⟩ = ⟨true, out, n, [], ⟨0, a⟩⟩ := by
  cases n with
  | zero => unfold c32toutf8; rfl
  | succ m => unfold c32toutf8; simp [Enc3R, Enc2R, Enc1R, EncStart]

theorem utf8_form_length (c : Nat) : (utf8_form c).length = utf8_length c := by
  unfold utf8_form utf8_length
  split
  · rfl
  · split
    · rfl
    · split <;> rfl

theorem utf8_length_bounds (c : Nat) : 1 ≤ utf8_length c ∧ utf8_length c ≤ 4 := by
  unfold utf8_length
  split
  · omega
  · split
    · omega
    · split <;> omega

theorem utf8_bytes_eq_form (c : Nat) (hc : c ≤ 0x10FFFF) : utf8_bytes c = utf8_form c := by
  unfold utf8_bytes mbstate_initial
  rw [c32toutf8_step [] 4 c [] 0 hc (utf8_length_bounds c).2, c32toutf8_nil]
  rfl

theorem c32toutf8_all (cps : List Nat) :
    ∀ (out : List Nat) (n a : Nat), (∀ c ∈ cps, c ≤ 0x10FFFF) →
      (cps.map utf8_length).sum ≤ n →
      ∃ a2, c32toutf8 (some out) n cps ⟨0, a⟩
        = ⟨true, some (out ++ (cps.map utf8_form).flatten), n - (cps.map utf8_length).sum, [],
            ⟨0, a2⟩⟩ := by
  induction cps with
  | nil =>
    intro out n a _ _
    exact ⟨a, by rw [c32toutf8_nil]; simp⟩
  | cons c cs ih =>
    intro out n a hall hn
    simp only [List.map_cons, List.sum_cons] at hn
    have hc : c ≤ 0x10FFFF := hall c (List.mem_cons_self c cs)
    obtain ⟨a2, h2⟩ := ih (out ++ utf8_form c) (n - utf8_length c) c
      (fun x hx => hall x (List.mem_cons_of_mem c hx)) (by omega)
    refine ⟨a2, ?_⟩
    rw [c32toutf8_step out n c cs a hc (by omega), h2]
    simp only [List.map_cons, List.sum_cons, List.flatten_cons, List.append_assoc, Nat.sub_sub]

theorem utf8toc32_nil (out : Option (List Nat)) (n : Nat) (s : mbstate) :
    utf8toc32 out n [] s = some ⟨true, out, n, [], s⟩ := by
  unfold utf8toc32; rfl

theorem utf8toc32_all (cps : List Nat) :
    ∀ (out : List Nat) (k a : Nat), (∀ c ∈ cps, is_scalar c) → cps.length ≤ k →
      ∃ a2, utf8toc32 (some out) k (cps.map utf8_form).flatten ⟨0, a⟩
        = some ⟨true, some (out ++ cps), k - cps.length, [], ⟨0, a2⟩⟩ := by
  induction cps with
  | nil =>
    intro out k a _ _
    exact ⟨a, by simp [utf8toc32_nil]⟩
  | cons c cs ih =>
    intro out k a hall hk
    simp only [List.length_cons] at hk
    obtain ⟨m, rfl⟩ : ∃ m, k = m + 1 := ⟨k - 1, by omega⟩
    obtain ⟨a1, h1⟩ := utf8toc32_step out m c (cs.map utf8_form).flatten a
      (hall c (List.mem_cons_self c cs))
    obtain ⟨a2, h2⟩ := ih (out ++ [c]) m a1
      (fun x hx => hall x (List.mem_cons_of_mem c hx)) (by omega)
    refine ⟨a2, ?_⟩
    simp only [List.map_cons, List.flatten_cons]
    rw [h1, h2]
    simp

theorem c32toutf8_rejects (pre : List Nat) :
    ∀ (out : List Nat) (n a c : Nat) (rest : List Nat), (∀ x ∈ pre, x ≤ 0x10FFFF) →
      0x10FFFF < c → c < 2 ^ 32 → (pre.map utf8_length).sum < n →
      c32toutf8 (some out) n (pre ++ c :: rest) ⟨0, a⟩
        = ⟨false, some (out ++ (pre.map utf8_form).flatten), n - (pre.map utf8_length).sum, rest,
            ⟨0, c⟩⟩ := by
  induction pre with
  | nil =>
    intro out n a c rest _ hc hc2 hn
    simp only [List.map_nil, List.sum_nil] at hn
    obtain ⟨m, rfl⟩ : ∃ m, n = m + 1 := ⟨n - 1, by omega⟩
    have hc32 : c % 4294967296 = c := Nat.mod_eq_of_lt hc2
    rw [List.nil_append]
    unfold c32toutf8
    have h1 : ¬ c ≤ 0x7F := by omega
    have h2 : ¬ c ≤ 0x7FF := by omega
    have h3 : ¬ c ≤ 0xFFFF := by omega
    have h4 : ¬ c ≤ 0x10FFFF := by omega
    simp [Enc3R, Enc2R, Enc1R, EncStart, hc32, h1, h2, h3, h4]
  | cons p ps ih =>
    intro out n a c rest hall hc hc2 hn
    simp only [List.map_cons, List.sum_cons] at hn
    have hp : p ≤ 0x10FFFF := hall p (List.mem_cons_self p ps)
    rw [List.cons_append, c32toutf8_step out n p _ a hp (by omega),
      ih (out ++ utf8_form p) (n - utf8_length p) p c rest
        (fun x hx => hall x (List.mem_cons_of_mem p hx)) hc hc2 (by omega)]
    simp only [List.map_cons, List.sum_cons, List.flatten_cons, List.append_assoc, Nat.sub_sub]

/-- C29: UTF-8 round trip.  For every sequence of Unicode scalar values (each
at most 0x10FFFF and no surrogate), `c32toutf8` from the initial state into a
buffer with room for all the bytes returns true with the whole input consumed
and the state initial again; it writes for each code point the bytes it writes
for that code point alone, which are 1, 2, 3 or 4 bytes for values up to 0x7F,
0x7FF, 0xFFFF and 0x10FFFF and are the standard UTF-8 form; `utf8toc32` from
the initial state on those bytes, with room for all the code points, returns
true with the whole input consumed, the state initial again and the original
sequence as output.  And `c32toutf8` returns false at a code point above
0x10FFFF that it reaches with output space left. -/
theorem C29_utf8_round_trip (cps : List Nat) (n k : Nat)
    (hs : ∀ c ∈ cps, is_scalar c)
    (hn : (cps.map utf8_length).sum ≤ n) (hk : cps.length ≤ k) :
    ∃ bytes a1 a2,
      c32toutf8 (some []) n cps mbstate_initial
        = ⟨true, some bytes, n - bytes.length, [], ⟨0, a1⟩⟩ ∧
      utf8_mbsinit ⟨0, a1⟩ = true ∧
      bytes = (cps.map utf8_bytes).flatten ∧
      (∀ c ∈ cps, (utf8_bytes c).length = utf8_length c ∧ 1 ≤ utf8_length c ∧
        utf8_length c ≤ 4 ∧ utf8_bytes c = utf8_form c) ∧
      bytes.length = (cps.map utf8_length).sum ∧
      utf8toc32 (some []) k bytes mbstate_initial
        = some ⟨true, some cps, k - cps.length, [], ⟨0, a2⟩⟩ ∧
      utf8_mbsinit ⟨0, a2⟩ = true ∧
      (∀ (pre rest : List Nat) (c m : Nat), (∀ x ∈ pre, x ≤ 0x10FFFF) → 0x10FFFF < c →
        c < 2 ^ 32 → (pre.map utf8_length).sum < m →
        (c32toutf8 (some []) m (pre ++ c :: rest) mbstate_initial).result = false) := by
  have hle : ∀ c ∈ cps, c ≤ 0x10FFFF := fun c hc => (hs c hc).1
  obtain ⟨a1, h1⟩ := c32toutf8_all cps [] n 0 hle hn
  obtain ⟨a2, h2⟩ := utf8toc32_all cps [] k 0 hs hk
  have hlen : ∀ l : List Nat, ((l.map utf8_form).flatten).length = (l.map utf8_length).sum := by
    intro l
    induction l with
    | nil => rfl
    | cons x xs ih =>
      simp only [List.map_cons, List.flatten_cons, List.length_append, List.sum_cons, ih,
        utf8_form_length]
  have hb : (cps.map utf8_bytes) = (cps.map utf8_form) :=
    List.map_congr_left (fun c hc => utf8_bytes_eq_form c (hle c hc))
  refine ⟨(cps.map utf8_form).flatten, a1, a2, ?_, rfl, by rw [hb], ?_, hlen cps, ?_, rfl, ?_⟩
  · rw [hlen cps]
    simpa [mbstate_initial] using h1
  · intro c hc
    have := utf8_length_bounds c
    rw [utf8_bytes_eq_form c (hle c hc)]
    exact ⟨utf8_form_length c, this.1, this.2, rfl⟩
  · simpa [mbstate_initial] using h2
  · intro pre rest c m hpre hc hc2 hm
    unfold mbstate_initial
    rw [c32toutf8_rejects pre [] m 0 c rest hpre hc hc2 hm]

theorem C29_utf8_round_trip_witness :
    (∀ c ∈ [0x41, 0xE9, 0x20AC, 0x1F600], is_scalar c) ∧
    c32toutf8 (some []) 10 [0x41, 0xE9, 0x20AC, 0x1F600] mbstate_initial
      = ⟨true, some [0x41, 0xC3, 0xA9, 0xE2, 0x82, 0xAC, 0xF0, 0x9F, 0x98, 0x80], 0, [],
          ⟨0, 0x1F600⟩⟩ ∧
    (utf8toc32 (some []) 4 [0x41, 0xC3, 0xA9, 0xE2, 0x82, 0xAC, 0xF0, 0x9F, 0x98, 0x80]
      mbstate_initial).map (fun r => (r.result, r.outbuf, r.outsz, r.inbuf, r.s.state))
      = some (true, some [0x41, 0xE9, 0x20AC, 0x1F600], 0, [], 0) ∧
    (c32toutf8 (some []) 10 [0x41, 0x110000, 0x42] mbstate_initial).result = false ∧
    ∃ bytes a1 a2,
      c32toutf8 (some []) 10 [0x41, 0xE9, 0x20AC, 0x1F600] mbstate_initial
        = ⟨true, some bytes, 10 - bytes.length, [], ⟨0, a1⟩⟩ ∧
      utf8toc32 (some []) 4 bytes mbstate_initial
        = some ⟨true, some [0x41, 0xE9, 0x20AC, 0x1F600], 4 - 4, [], ⟨0, a2⟩⟩ :=
  ⟨by decide, by decide, by decide, by decide,
    (C29_utf8_round_trip [0x41, 0xE9, 0x20AC, 0x1F600] 10 4 (by decide) (by decide) (by decide)).imp
      fun _ h => h.imp fun _ h => h.imp fun _ h => ⟨h.1, h.2.2.2.2.2.1⟩⟩

/-! ## The UTF-8 decoder and lead bytes below 0xC0 -/

theorem utf8_form_head (c : Nat) (hc : c ≤ 0x10FFFF) :
    ∃ b tl, utf8_form c = b :: tl ∧ (b ≤ 0x7F ∨ 0xC0 ≤ b) := by
  unfold utf8_form
  split
  · exact ⟨_, _, rfl, by omega⟩
  · split
    · exact ⟨_, _, rfl, by omega⟩
    · split
      · exact ⟨_, _, rfl, by omega⟩
      · exact ⟨_, _, rfl, by omega⟩

theorem utf8_well_formed_start_head (b : Nat) (tl : List Nat)
    (h : utf8_well_formed_start (b :: tl)) : b ≤ 0x7F ∨ 0xC0 ≤ b := by
  obtain ⟨rest, cps, hs, he⟩ := h
  cases cps with
  | nil => simp at he
  | cons c cs =>
    obtain ⟨b2, tl2, hf, hb⟩ := utf8_form_head c (hs c (List.mem_cons_self c cs)).1
    rw [List.map_cons, List.flatten_cons, hf, List.cons_append, List.cons_append] at he
    have : b = b2 := (List.cons.inj he).1
    rw [this]
    exact hb

theorem utf8toc32_low_lead (out : List Nat) (n : Nat) (b : Nat) (rest : List Nat) (a : Nat)
    (h1 : 0x80 ≤ b) (h2 : b ≤ 0xDF) :
    utf8toc32 (some out) (n + 1) (b :: rest) ⟨0, a⟩
      = utf8toc32 (some out) (n + 1) rest ⟨1, b % 32 * 64⟩ := by
  conv_lhs => unfold utf8toc32
  have h : b % 256 = b := by omega
  have h3 : ¬ (b ≤ 0x7F) := by omega
  have h4 : (b % 32 * 2 ^ 6) % 2 ^ 32 = b % 32 * 64 := by omega
  simp only [DecStart, Dec2B2, h, if_neg h3, if_pos h2, and_31, Nat.shiftLeft_eq, h4,
    Nat.succ_ne_zero, if_false, if_true]

/-- Every byte 0x82..0x9F or 0xA2..0xBF in lead position, followed by a
continuation byte, is decoded as a two-byte sequence: the call returns true
and puts out the code point made of the low five bits of the first byte and
the low six bits of the second. -/
theorem utf8toc32_stray_lead (n l k : Nat)
    (hl : 0x82 ≤ l ∧ l ≤ 0x9F ∨ 0xA2 ≤ l ∧ l ≤ 0xBF) (hk1 : 0x80 ≤ k) (hk2 : k ≤ 0xBF) :
    utf8toc32 (some []) (n + 1) [l, k] mbstate_initial
      = some ⟨true, some [l % 32 * 64 + k % 64], n, [], ⟨0, l % 32 * 64⟩⟩ := by
  unfold mbstate_initial
  obtain ⟨z, hz, rfl⟩ : ∃ z, z < 64 ∧ k = 0x80 + z := ⟨k - 0x80, by omega, by omega⟩
  have e : (0x80 + z) % 64 = z := by omega
  rw [utf8toc32_low_lead [] n l [0x80 + z] 0 (by omega) (by omega),
    utf8toc32_last [] n z [] (l % 32 * 64) 1 hz (by omega) (Or.inl ⟨rfl, by omega⟩),
    utf8toc32_nil, e]
  rfl

/-- C30: the decoder takes a continuation byte in lead position for the lead
byte of a two-byte sequence.  On the two bytes A5 80, which no well-formed
UTF-8 string starts with, `utf8toc32` from the initial state with room for
four code points returns true, with the input consumed, the state initial
again and U+0140 as output, whose UTF-8 form is C5 80; on 80 80 it returns
false only at the second byte, as an overlong form. -/
theorem C30_stray_continuation_accepted :
    utf8toc32 (some []) 4 [0xA5, 0x80] mbstate_initial
      = some ⟨true, some [0x140], 3, [], ⟨0, 0x140⟩⟩ ∧
    ¬ utf8_well_formed_start [0xA5, 0x80] ∧
    utf8_form 0x140 = [0xC5, 0x80] ∧
    utf8toc32 (some []) 4 [0xC5, 0x80] mbstate_initial
      = some ⟨true, some [0x140], 3, [], ⟨0, 0x140⟩⟩ ∧
    utf8toc32 (some []) 4 [0x80, 0x80] mbstate_initial
      = some ⟨false, some [], 4, [0x80], ⟨1, 0⟩⟩ ∧
    utf8toc32 (some []) 4 [0x80] mbstate_initial
      = some ⟨true, some [], 4, [], ⟨1, 0⟩⟩ := by
  refine ⟨by decide, ?_, by decide, by decide, by decide, by decide⟩
  intro h
  have := utf8_well_formed_start_head 0xA5 [0x80] h
  omega

end Ananas
